import Mathlib

/-!
# async_mqtt: packet codec and asynchronous operations, shallow embedding

Bytes are natural numbers (a `char` of the source is a value below 256), a
`buffer`, a `std::string` and a `static_vector<char, N>` are lists of bytes.
A constructor that throws returns `Except.error`; a decoding constructor
`T(buffer, error_code&)` returns `Except.error ec` when it sets `ec` and
`Except.ok` of the packet when it leaves `ec` untouched.

An asynchronous operation (`recv_op`, `acquire_unique_packet_id_wait_until_op`,
`stream_write_packet_op`) is embedded as its step functions, one for each
`operator()`: a step takes the members of the object the operation works on
and the state of the operation, and returns both together with what the step
does to its surroundings (a dispatch, a wait, a write, a completion).
-/

namespace async_mqtt

/-! ## Errors -/

/-- The disconnect reason codes the packet codec reports. -/
inductive disconnect_reason_code where
  | malformed_packet
  | protocol_error
  | topic_name_invalid
  deriving DecidableEq, Repr

/-- What a constructor from fields can throw: a `system_error` carrying a
disconnect reason code, or `boost::bad_numeric_cast` from
`boost::numeric_cast`. -/
inductive ctor_error where
  | system_error (code : disconnect_reason_code)
  | bad_numeric_cast
  deriving DecidableEq, Repr

deriving instance DecidableEq for Except

/-- The library call `boost::numeric_cast<T>` to an unsigned integer type of
`bits` bits: the value itself when it fits, `bad_numeric_cast` otherwise. -/
def numeric_cast (bits : Nat) (v : Nat) : Except ctor_error Nat :=
  if v < 2 ^ bits then .ok v else .error .bad_numeric_cast

/-! ## Fixed header -/

/-- Modelled from the spec: the enumeration `control_packet_type` is declared
outside the available sources; the fifteen control packet kinds of MQTT,
identified by the upper nibble of the fixed header. -/
inductive control_packet_type where
  | connect | connack | publish | puback | pubrec | pubrel | pubcomp
  | subscribe | suback | unsubscribe | unsuback | pingreq | pingresp
  | disconnect | auth
  deriving DecidableEq, Repr

/-- Modelled from the spec: the numbering of `control_packet_type` is declared
outside the available sources; this is the value of the upper nibble. -/
def control_packet_type.nibble : control_packet_type → Nat
  | .connect => 1 | .connack => 2 | .publish => 3 | .puback => 4
  | .pubrec => 5 | .pubrel => 6 | .pubcomp => 7 | .subscribe => 8
  | .suback => 9 | .unsubscribe => 10 | .unsuback => 11 | .pingreq => 12
  | .pingresp => 13 | .disconnect => 14 | .auth => 15

/-- Modelled from the spec: `detail::make_fixed_header` is defined outside
the available sources; the fixed header is the one byte `(type<<4)|flags`. -/
def make_fixed_header (cpt : control_packet_type) (flags : Nat) : Nat :=
  (cpt.nibble <<< 4) ||| (flags % 16)

/-- Modelled from the spec: `get_control_packet_type_with_check` is defined
outside the available sources; it returns the control packet type of a fixed
header byte when the type is known and the flag bits conform to the kind.
PUBLISH flags carry DUP/QoS/RETAIN and are free; PUBREL, SUBSCRIBE and
UNSUBSCRIBE have the constant flags `0b0010`; every other kind has `0b0000`;
the type nibble 0 is unknown. -/
def get_control_packet_type_with_check (v : Nat) : Option control_packet_type :=
  let flags := v % 16
  match v / 16 % 16 with
  | 1 => if flags = 0 then some .connect else none
  | 2 => if flags = 0 then some .connack else none
  | 3 => some .publish
  | 4 => if flags = 0 then some .puback else none
  | 5 => if flags = 0 then some .pubrec else none
  | 6 => if flags = 2 then some .pubrel else none
  | 7 => if flags = 0 then some .pubcomp else none
  | 8 => if flags = 2 then some .subscribe else none
  | 9 => if flags = 0 then some .suback else none
  | 10 => if flags = 2 then some .unsubscribe else none
  | 11 => if flags = 0 then some .unsuback else none
  | 12 => if flags = 0 then some .pingreq else none
  | 13 => if flags = 0 then some .pingresp else none
  | 14 => if flags = 0 then some .disconnect else none
  | 15 => if flags = 0 then some .auth else none
  | _ => none

/-! ## QoS and publish options -/

/-- Modelled from the spec: the enumeration `qos` is declared outside the
available sources. It has the three enumerators 0, 1 and 2; the two QoS bits
of a byte can also hold 3, which has no enumerator and reaches the `default:`
label of every `switch` over a `qos`. -/
inductive qos where
  | at_most_once
  | at_least_once
  | exactly_once
  | reserved
  deriving DecidableEq, Repr

/-- The number a `qos` stands for. -/
def qos.toNat : qos → Nat
  | .at_most_once => 0 | .at_least_once => 1 | .exactly_once => 2 | .reserved => 3

/-- The `qos` held by a two-bit field. -/
def qos.of_bits (n : Nat) : qos :=
  match n % 4 with
  | 0 => .at_most_once | 1 => .at_least_once | 2 => .exactly_once | _ => .reserved

namespace pub

/-- Modelled from the spec: `pub::opts` is declared outside the available
sources; it wraps the byte whose bits carry DUP (bit 3), QoS (bits 2-1) and
RETAIN (bit 0) as in the PUBLISH fixed header. -/
structure opts where
  data_ : Nat
  deriving DecidableEq, Repr

/-- Modelled from the spec: `pub::get_qos` on a fixed header byte, declared
outside the available sources: bits 2-1. -/
def get_qos (v : Nat) : qos := qos.of_bits (v / 2 % 4)

/-- Modelled from the spec: `pub::opts::get_qos`, as `pub::get_qos` on the
wrapped byte. -/
def opts.get_qos (o : opts) : qos := pub.get_qos o.data_

/-- Modelled from the spec: `pub::opts::get_dup`, bit 3 of the wrapped byte. -/
def opts.get_dup (o : opts) : Bool := o.data_ / 8 % 2 == 1

/-- Modelled from the spec: `pub::opts::get_retain`, bit 0 of the wrapped
byte. -/
def opts.get_retain (o : opts) : Bool := o.data_ % 2 == 1

/-- Modelled from the spec: the options value `dup | qos | retain` a caller
composes from the three flags with `operator|`. -/
def opts.of (dup : Bool) (q : qos) (retain : Bool) : opts :=
  ⟨(if dup then 8 else 0) ||| (q.toNat <<< 1) ||| (if retain then 1 else 0)⟩

/-- Modelled from the spec: `pub::set_dup` on a fixed header byte, declared
outside the available sources: sets or clears bit 3. -/
def set_dup (fixed_header : Nat) (dup : Bool) : Nat :=
  if dup then fixed_header ||| 8 else fixed_header - (fixed_header / 8 % 2) * 8

end pub

/-! ## Integers on the wire -/

/-- Modelled from the spec: `endian_store` is defined outside the available
sources; it writes an unsigned integer of `n` bytes big-endian. -/
def endian_store : Nat → Nat → List Nat
  | 0, _ => []
  | n + 1, v => (v / 256 ^ n) % 256 :: endian_store n v

/-- Modelled from the spec: `endian_load` is defined outside the available
sources; it reads the big-endian unsigned integer held by the bytes. -/
def endian_load (bytes : List Nat) : Nat :=
  bytes.foldl (fun acc b => acc * 256 + b % 256) 0

/-- The loop of `val_to_variable_bytes`: seven data bits per byte, least
significant group first, bit 7 set on every byte but the last. -/
def val_to_variable_bytes.go : Nat → Nat → List Nat
  | 0, _ => []
  | n + 1, val =>
    if val > 127 then (val % 128 + 128) :: val_to_variable_bytes.go n (val / 128)
    else [val]

/-- Modelled from the spec: `val_to_variable_bytes` is defined outside the
available sources; the variable-byte integer of the MQTT wire protocol, one to
four bytes with seven data bits per byte and bit 7 as the continuation bit,
for values up to 268 435 455. A larger value has no encoding and yields the
empty `static_vector`. -/
def val_to_variable_bytes (val : Nat) : List Nat :=
  if val > 0xfffffff then [] else val_to_variable_bytes.go 4 val

/-- The loop of `variable_bytes_to_val`, with the number of bytes it may still
read, the value accumulated so far and the multiplier of the next group. -/
def variable_bytes_to_val.go : Nat → List Nat → Nat → Nat → Option (Nat × List Nat)
  | 0, _, _, _ => none
  | _ + 1, [], _, _ => none
  | n + 1, b :: rest, val, mul =>
    if b / 128 % 2 = 0 then some (val + (b % 128) * mul, rest)
    else variable_bytes_to_val.go n rest (val + (b % 128) * mul) (mul * 128)

/-- Modelled from the spec: `variable_bytes_to_val` is defined outside the
available sources; it reads a variable-byte integer of one to four bytes from
the front of the range and returns its value with the range advanced past it.
A fourth byte with the continuation bit set (a fifth byte would be needed) and
a range that ends inside the integer give `nullopt`. -/
def variable_bytes_to_val (buf : List Nat) : Option (Nat × List Nat) :=
  variable_bytes_to_val.go 4 buf 0 1

/-- Modelled from the spec: `insert_advance_variable_length` is defined outside
the available sources; it reads a variable-byte integer from the front of
`buf`, appends the bytes it read to the (empty) `static_vector<char, 4>` and
advances `buf` past them. Returns the value, the bytes read and the advanced
buffer, or `nullopt` when the integer is invalid. -/
def insert_advance_variable_length (buf : List Nat) : Option (Nat × List Nat × List Nat) :=
  match variable_bytes_to_val buf with
  | none => none
  | some (v, rest) => some (v, buf.take (buf.length - rest.length), rest)

/-- Modelled from the spec: `insert_advance` is defined outside the available
sources; it moves the first `n` bytes of `buf` (the capacity of the
`static_vector<char, n>`) into the vector and advances `buf`, and returns
false when `buf` holds fewer than `n` bytes. -/
def insert_advance (n : Nat) (buf : List Nat) : Option (List Nat × List Nat) :=
  if buf.length < n then none else some (buf.take n, buf.drop n)

/-- Modelled from the spec: `copy_advance` is defined outside the available
sources; it copies the first `n` bytes of `buf` over the `n` bytes of the
`static_vector<char, n>` and advances `buf`, and returns false when `buf`
holds fewer than `n` bytes. -/
def copy_advance (n : Nat) (buf : List Nat) : Option (List Nat × List Nat) :=
  if buf.length < n then none else some (buf.take n, buf.drop n)

/-! ## UTF-8 strings -/

/-- A UTF-8 continuation byte `10xxxxxx` within the given bounds. -/
def utf8_in (lo hi b : Nat) : Bool := decide (lo ≤ b) && decide (b ≤ hi)

/-- Modelled from the spec: the contents check behind `utf8string_check` lies
outside the available sources; well-formed UTF-8 that rejects U+0000,
surrogates, overlong sequences and code points above U+10FFFF. -/
def utf8validate : List Nat → Bool
  | [] => true
  | b0 :: rest =>
    if b0 = 0 then false
    else if b0 < 0x80 then utf8validate rest
    else if b0 < 0xC2 then false
    else if b0 < 0xE0 then
      match rest with
      | b1 :: rest1 => utf8_in 0x80 0xBF b1 && utf8validate rest1
      | _ => false
    else if b0 < 0xF0 then
      match rest with
      | b1 :: b2 :: rest2 =>
        utf8_in (if b0 = 0xE0 then 0xA0 else 0x80) (if b0 = 0xED then 0x9F else 0xBF) b1
          && utf8_in 0x80 0xBF b2 && utf8validate rest2
      | _ => false
    else if b0 < 0xF5 then
      match rest with
      | b1 :: b2 :: b3 :: rest3 =>
        utf8_in (if b0 = 0xF0 then 0x90 else 0x80) (if b0 = 0xF4 then 0x8F else 0xBF) b1
          && utf8_in 0x80 0xBF b2 && utf8_in 0x80 0xBF b3 && utf8validate rest3
      | _ => false
    else false

/-- Modelled from the spec: `utf8string_check` is defined outside the
available sources; a UTF-8 string of the wire protocol has a 2-byte length, so
at most 65535 bytes, and valid UTF-8 contents. -/
def utf8string_check (s : List Nat) : Bool :=
  decide (s.length ≤ 0xffff) && utf8validate s

/-! ## v3.1.1 PUBLISH (`packet/impl/v3_1_1_publish.hpp`) -/

namespace v3_1_1

/-- The data members of `basic_publish_packet<PacketIdBytes>`. -/
structure basic_publish_packet (PacketIdBytes : Nat) where
  fixed_header_ : Nat
  topic_name_ : List Nat
  topic_name_length_buf_ : List Nat
  packet_id_ : List Nat
  payloads_ : List (List Nat)
  remaining_length_ : Nat
  remaining_length_buf_ : List Nat
  deriving DecidableEq, Repr

namespace basic_publish_packet

/-- The constructor from fields,
`basic_publish_packet(packet_id, topic_name, payloads, pubopts)`, with the
payload given as a sequence of buffers (a single string is a sequence of one
buffer). The statements follow the order of the source: member initialisers,
topic length, payload loop, UTF-8 check, remaining length, QoS switch. -/
def new (PacketIdBytes : Nat) (packet_id : Nat) (topic_name : List Nat)
    (payloads : List (List Nat)) (pubopts : pub.opts) :
    Except ctor_error (basic_publish_packet PacketIdBytes) :=
  let fixed_header_ := make_fixed_header .publish 0 ||| pubopts.data_
  let topic_name_ := topic_name
  let remaining_length_0 :=
    2 + topic_name_.length
      + (if pubopts.get_qos = .at_least_once ∨ pubopts.get_qos = .exactly_once
         then PacketIdBytes else 0)
  match numeric_cast 16 topic_name_.length with
  | .error e => .error e
  | .ok topic_size =>
    let topic_name_length_buf_ := endian_store 2 topic_size
    let remaining_length_ :=
      payloads.foldl (fun acc payload => acc + payload.length) remaining_length_0
    let payloads_ := payloads
    if !utf8string_check topic_name_ then
      .error (.system_error .topic_name_invalid)
    else
      match numeric_cast 32 remaining_length_ with
      | .error e => .error e
      | .ok rl =>
        let remaining_length_buf_ := val_to_variable_bytes rl
        match pubopts.get_qos with
        | .at_most_once =>
          if packet_id ≠ 0 then .error (.system_error .protocol_error)
          else .ok
            { fixed_header_, topic_name_, topic_name_length_buf_,
              packet_id_ := endian_store PacketIdBytes 0,
              payloads_, remaining_length_, remaining_length_buf_ }
        | .at_least_once | .exactly_once =>
          if packet_id = 0 then .error (.system_error .protocol_error)
          else .ok
            { fixed_header_, topic_name_, topic_name_length_buf_,
              packet_id_ := endian_store PacketIdBytes packet_id,
              payloads_, remaining_length_, remaining_length_buf_ }
        | .reserved => .error (.system_error .malformed_packet)

/-- The constructor without a packet id,
`basic_publish_packet(topic_name, payloads, pubopts)`, which delegates with
packet id 0. -/
def new_without_packet_id (PacketIdBytes : Nat) (topic_name : List Nat)
    (payloads : List (List Nat)) (pubopts : pub.opts) :
    Except ctor_error (basic_publish_packet PacketIdBytes) :=
  new PacketIdBytes 0 topic_name payloads pubopts

/-- The member `packet_id()`. -/
def packet_id {W : Nat} (p : basic_publish_packet W) : Nat :=
  endian_load p.packet_id_

/-- The member `const_buffer_sequence()`. -/
def const_buffer_sequence {W : Nat} (p : basic_publish_packet W) : List (List Nat) :=
  [[p.fixed_header_], p.remaining_length_buf_, p.topic_name_length_buf_, p.topic_name_]
    ++ (if p.packet_id ≠ 0 then [p.packet_id_] else [])
    ++ p.payloads_

/-- The member `size()`. -/
def size {W : Nat} (p : basic_publish_packet W) : Nat :=
  1 + p.remaining_length_buf_.length + p.remaining_length_

/-- The member `num_of_const_buffer_sequence()`. -/
def num_of_const_buffer_sequence {W : Nat} (p : basic_publish_packet W) : Nat :=
  1 + 1 + 2 + (if p.packet_id = 0 then 0 else 1) + p.payloads_.length

/-- The member `opts()`. -/
def opts {W : Nat} (p : basic_publish_packet W) : pub.opts :=
  ⟨p.fixed_header_⟩

/-- The member `topic()`. -/
def topic {W : Nat} (p : basic_publish_packet W) : List Nat :=
  p.topic_name_

/-- The member `payload()`: the payload buffers joined into one string. -/
def payload {W : Nat} (p : basic_publish_packet W) : List Nat :=
  p.payloads_.flatten

/-- The member `payload_as_buffer()`. -/
def payload_as_buffer {W : Nat} (p : basic_publish_packet W) : List (List Nat) :=
  p.payloads_

/-- The member `set_dup(dup)`. -/
def set_dup {W : Nat} (p : basic_publish_packet W) (dup : Bool) : basic_publish_packet W :=
  { p with fixed_header_ := pub.set_dup p.fixed_header_ dup }

/-- The decoding constructor `basic_publish_packet(buffer buf, error_code& ec)`:
`Except.error ec` when it sets `ec`, the decoded packet otherwise. -/
def from_buffer (PacketIdBytes : Nat) (buf : List Nat) :
    Except disconnect_reason_code (basic_publish_packet PacketIdBytes) :=
  match buf with
  | [] => .error .malformed_packet
  | front :: buf1 =>
    let fixed_header_ := front
    let qos_value := pub.get_qos fixed_header_
    if get_control_packet_type_with_check fixed_header_ ≠ some .publish then
      .error .malformed_packet
    else
      match insert_advance_variable_length buf1 with
      | none => .error .malformed_packet
      | some (remaining_length_, remaining_length_buf_, buf2) =>
        if remaining_length_ ≠ buf2.length then .error .malformed_packet
        else
          match insert_advance 2 buf2 with
          | none => .error .malformed_packet
          | some (topic_name_length_buf_, buf3) =>
            let topic_name_length := endian_load topic_name_length_buf_
            if buf3.length < topic_name_length then .error .malformed_packet
            else
              let topic_name_ := buf3.take topic_name_length
              if !utf8string_check topic_name_ then .error .topic_name_invalid
              else
                let buf4 := buf3.drop topic_name_length
                match qos_value with
                | .at_most_once =>
                  .ok
                    { fixed_header_, topic_name_, topic_name_length_buf_,
                      packet_id_ := endian_store PacketIdBytes 0,
                      payloads_ := if buf4.isEmpty then [] else [buf4],
                      remaining_length_, remaining_length_buf_ }
                | .at_least_once | .exactly_once =>
                  match copy_advance PacketIdBytes buf4 with
                  | none => .error .protocol_error
                  | some (packet_id_, buf5) =>
                    .ok
                      { fixed_header_, topic_name_, topic_name_length_buf_,
                        packet_id_,
                        payloads_ := if buf5.isEmpty then [] else [buf5],
                        remaining_length_, remaining_length_buf_ }
                | .reserved => .error .malformed_packet

/-- The bytes a packet puts on the wire: its `const_buffer_sequence()`
concatenated. -/
def wire {W : Nat} (p : basic_publish_packet W) : List Nat :=
  p.const_buffer_sequence.flatten

end basic_publish_packet

end v3_1_1

/-! ## Errors of the throwing packet classes -/

/-- Modelled from the spec: the error conditions `errc` are declared outside
the available sources; the packet classes use `errc::bad_message`, the write
operation of the stream `errc::success` and `errc::connection_reset`, the
asynchronous operations of client and endpoint `errc::operation_canceled`. -/
inductive errc where
  | bad_message
  | success
  | connection_reset
  | operation_canceled
  deriving DecidableEq, Repr

/-- An `error_code`: the default-constructed `error_code{}`, a value of `errc`
made by `make_error_code`, a disconnect reason code, the code
`as::error::operation_aborted` a cancelled timer wait completes with, or
another code of the underlying layers, identified by a number. -/
inductive error_code where
  | of_errc (e : errc)
  | of_disconnect_reason_code (c : disconnect_reason_code)
  | no_error
  | operation_aborted
  | other (n : Nat)
  deriving DecidableEq, Repr

/-- The conversion of an `error_code` to `bool`, as in `if (ec)`: true for every
code but the default-constructed one and `errc::success`. -/
def error_code.failed : error_code → Bool
  | .no_error => false
  | .of_errc .success => false
  | _ => true

/-- The exception `system_error`: an error code and a message. -/
structure system_error where
  code : error_code
  what : String
  deriving DecidableEq, Repr

/-- What a constructor of the throwing packet classes raises: a `system_error`,
or `boost::bad_numeric_cast` from `boost::numeric_cast`. -/
inductive packet_exception where
  | system_error (e : system_error)
  | bad_numeric_cast
  deriving DecidableEq, Repr

/-- Modelled from the spec: `make_error` is defined outside the available
sources; the `system_error` made of an `errc` value and a message. -/
def make_error (e : errc) (what : String) : packet_exception :=
  .system_error ⟨.of_errc e, what⟩

/-- The library call `boost::numeric_cast<T>` to an unsigned integer type of
`bits` bits inside a constructor that throws `packet_exception`. -/
def numeric_cast_or_throw (bits : Nat) (v : Nat) : Except packet_exception Nat :=
  if v < 2 ^ bits then .ok v else .error .bad_numeric_cast

/-- Modelled from the spec: `endian_static_vector` is defined outside the
available sources; the `static_vector<char, 2>` that holds a 16-bit value
big-endian. -/
def endian_static_vector (v : Nat) : List Nat := endian_store 2 v

/-- Modelled from the spec: `topic_sharename` is declared outside the available
sources; an UNSUBSCRIBE entry, of which the packet uses the whole topic filter
`all_topic()`. -/
structure topic_sharename where
  all_topic : List Nat
  deriving DecidableEq, Repr

namespace v5

/-! ## v5 PINGRESP (`packet/impl/v5_pingresp.hpp`) -/

/-- The data member of `pingresp_packet`: `static_vector<char, 2> all_`. -/
structure pingresp_packet where
  all_ : List Nat
  deriving DecidableEq, Repr

namespace pingresp_packet

/-- The default constructor `pingresp_packet()`: `all_` is filled to its
capacity of two bytes, then both bytes are assigned. -/
def new : pingresp_packet :=
  let all_0 := List.replicate 2 0
  let all_1 := all_0.set 0 (make_fixed_header .pingresp 0)
  let all_2 := all_1.set 1 0
  { all_ := all_2 }

/-- The member `const_buffer_sequence()`. -/
def const_buffer_sequence (p : pingresp_packet) : List (List Nat) :=
  [p.all_]

/-- The member `size()`. -/
def size (p : pingresp_packet) : Nat :=
  p.all_.length

/-- The member `num_of_const_buffer_sequence()`. -/
def num_of_const_buffer_sequence : Nat := 1

/-- The decoding constructor `pingresp_packet(buffer buf, error_code& ec)`. The
second byte is read with `buf.front()` and nothing after it is looked at. -/
def from_buffer (buf : List Nat) : Except disconnect_reason_code pingresp_packet :=
  match buf with
  | [] => .error .malformed_packet
  | front :: buf1 =>
    let all_1 := [front]
    if get_control_packet_type_with_check front ≠ some .pingresp then
      .error .malformed_packet
    else
      match buf1 with
      | [] => .error .malformed_packet
      | front1 :: _ =>
        let all_2 := all_1 ++ [front1]
        if front1 ≠ 0 then .error .malformed_packet
        else .ok { all_ := all_2 }

end pingresp_packet

end v5

namespace v3_1_1

/-! ## v3.1.1 UNSUBSCRIBE (`packet/v3_1_1_unsubscribe.hpp`) -/

/-- The data members of `basic_unsubscribe_packet<PacketIdBytes>`. -/
structure basic_unsubscribe_packet (PacketIdBytes : Nat) where
  fixed_header_ : Nat
  topic_length_buf_entries_ : List (List Nat)
  entries_ : List topic_sharename
  packet_id_ : List Nat
  remaining_length_ : Nat
  remaining_length_buf_ : List Nat
  deriving DecidableEq, Repr

namespace basic_unsubscribe_packet

/-- The first loop of the constructor: one topic-length buffer per entry, made
with `boost::numeric_cast<std::uint16_t>` of the topic size. -/
def new.topic_length_bufs : List topic_sharename → Except packet_exception (List (List Nat))
  | [] => .ok []
  | e :: es =>
    match numeric_cast_or_throw 16 e.all_topic.length with
    | .error x => .error x
    | .ok n =>
      match new.topic_length_bufs es with
      | .error x => .error x
      | .ok bufs => .ok (endian_static_vector n :: bufs)

/-- The second loop of the constructor, "check for errors before allocating":
the size check, the remaining length and the UTF-8 check of every entry. -/
def new.check_entries : List topic_sharename → Nat → Except packet_exception Nat
  | [], remaining_length_ => .ok remaining_length_
  | e :: es, remaining_length_ =>
    let size := e.all_topic.length
    if size > 0xffff then
      .error (make_error .bad_message "v3_1_1::unsubscribe_packet length of topic is invalid")
    else if !utf8string_check e.all_topic then
      .error (make_error .bad_message "v3_1_1::unsubscribe_packet topic filter invalid utf8")
    else new.check_entries es (remaining_length_ + (2 + size))

/-- The constructor `basic_unsubscribe_packet(packet_id, params)`. -/
def new (PacketIdBytes : Nat) (packet_id : Nat) (params : List topic_sharename) :
    Except packet_exception (basic_unsubscribe_packet PacketIdBytes) :=
  let fixed_header_ := make_fixed_header .unsubscribe 0b0010
  let entries_ := params
  match new.topic_length_bufs entries_ with
  | .error x => .error x
  | .ok topic_length_buf_entries_ =>
    let packet_id_ := endian_store PacketIdBytes packet_id
    match new.check_entries entries_ PacketIdBytes with
    | .error x => .error x
    | .ok remaining_length_ =>
      match numeric_cast_or_throw 32 remaining_length_ with
      | .error x => .error x
      | .ok rl =>
        .ok { fixed_header_, topic_length_buf_entries_, entries_, packet_id_,
              remaining_length_, remaining_length_buf_ := val_to_variable_bytes rl }

/-- The member `const_buffer_sequence()`; the loop walks `entries_` and
`topic_length_buf_entries_` side by side. -/
def const_buffer_sequence {W : Nat} (p : basic_unsubscribe_packet W) : List (List Nat) :=
  [[p.fixed_header_], p.remaining_length_buf_, p.packet_id_]
    ++ ((p.topic_length_buf_entries_.zip p.entries_).map
          (fun ite => [ite.1, ite.2.all_topic])).flatten

/-- The member `size()`. -/
def size {W : Nat} (p : basic_unsubscribe_packet W) : Nat :=
  1 + p.remaining_length_buf_.length + p.remaining_length_

/-- The member `num_of_const_buffer_sequence()`. -/
def num_of_const_buffer_sequence {W : Nat} (p : basic_unsubscribe_packet W) : Nat :=
  1 + 1 + 1 + p.entries_.length * 2

/-- The member `packet_id()`. -/
def packet_id {W : Nat} (p : basic_unsubscribe_packet W) : Nat :=
  endian_load p.packet_id_

/-- The member `entries()`. -/
def entries {W : Nat} (p : basic_unsubscribe_packet W) : List topic_sharename :=
  p.entries_

/-- The `while (!buf.empty())` loop of the decoding constructor. Every turn
that goes on takes at least the two bytes of a topic length from `buf`, so the
number of turns is bounded by the length of `buf`, which the decoder passes as
`turns`; the case of no turn left on a non-empty buffer is never reached from
there. -/
def from_buffer.entries_loop :
    Nat → List Nat → List (List Nat) → List topic_sharename →
      Except packet_exception (List (List Nat) × List topic_sharename)
  | _, [], topic_length_buf_entries_, entries_ => .ok (topic_length_buf_entries_, entries_)
  | 0, _ :: _, topic_length_buf_entries_, entries_ =>
    .ok (topic_length_buf_entries_, entries_)
  | turns + 1, b :: bs, topic_length_buf_entries_, entries_ =>
    match insert_advance 2 (b :: bs) with
    | none =>
      .error (make_error .bad_message "v3_1_1::unsubscribe_packet length of topic is invalid")
    | some (topic_length_buf, buf1) =>
      let topic_length := endian_load topic_length_buf
      if buf1.length < topic_length then
        .error (make_error .bad_message
          "v3_1_1::unsubscribe_packet topic doesn't match its length")
      else
        let topic := buf1.take topic_length
        if !utf8string_check topic then
          .error (make_error .bad_message
            "v3_1_1::unsubscribe_packet topic filter invalid utf8")
        else
          from_buffer.entries_loop turns (buf1.drop topic_length)
            (topic_length_buf_entries_ ++ [topic_length_buf]) (entries_ ++ [⟨topic⟩])

/-- The decoding constructor `basic_unsubscribe_packet(buffer buf)`, which
throws on a malformed buffer. -/
def from_buffer (PacketIdBytes : Nat) (buf : List Nat) :
    Except packet_exception (basic_unsubscribe_packet PacketIdBytes) :=
  match buf with
  | [] =>
    .error (make_error .bad_message "v3_1_1::unsubscribe_packet fixed_header doesn't exist")
  | front :: buf1 =>
    let fixed_header_ := front
    if get_control_packet_type_with_check fixed_header_ ≠ some .unsubscribe then
      .error (make_error .bad_message "v3_1_1::unsubscribe_packet fixed_header is invalid")
    else
      match insert_advance_variable_length buf1 with
      | none =>
        .error (make_error .bad_message
          "v3_1_1::unsubscribe_packet remaining length is invalid")
      | some (remaining_length_, remaining_length_buf_, buf2) =>
        if remaining_length_ ≠ buf2.length then
          .error (make_error .bad_message
            "v3_1_1::unsubscribe_packet remaining length doesn't match buf.size()")
        else
          match copy_advance PacketIdBytes buf2 with
          | none =>
            .error (make_error .bad_message
              "v3_1_1::unsubscribe_packet packet_id doesn't exist")
          | some (packet_id_, buf3) =>
            if remaining_length_ = 0 then
              .error (make_error .bad_message
                "v3_1_1::unsubscribe_packet doesn't have entries")
            else
              match from_buffer.entries_loop buf3.length buf3 [] [] with
              | .error x => .error x
              | .ok (topic_length_buf_entries_, entries_) =>
                .ok { fixed_header_, topic_length_buf_entries_, entries_, packet_id_,
                      remaining_length_, remaining_length_buf_ }

end basic_unsubscribe_packet

end v3_1_1
/-! ## v5 SUBSCRIBE (`packet/v5_subscribe.hpp`) -/

namespace sub

/-- Modelled from the spec: `sub::retain_handling` is declared outside the
available sources. It has three enumerators; the two retain-handling bits of
an options byte can also hold 3, which has no enumerator and reaches the
`default:` label of a `switch`. -/
inductive retain_handling where
  | send
  | send_only_new_subscription
  | not_send
  | reserved
  deriving DecidableEq, Repr

/-- The `retain_handling` held by a two-bit field. -/
def retain_handling.of_bits (n : Nat) : retain_handling :=
  match n % 4 with
  | 0 => .send | 1 => .send_only_new_subscription | 2 => .not_send | _ => .reserved

/-- Modelled from the spec: `sub::opts` is declared outside the available
sources; it wraps the subscribe options byte: QoS in bits 1-0, retain handling
in bits 5-4, bits 7-6 reserved. -/
structure opts where
  data_ : Nat
  deriving DecidableEq, Repr

/-- Modelled from the spec: `sub::opts::get_qos`, bits 1-0 of the wrapped
byte. -/
def opts.get_qos (o : opts) : qos := qos.of_bits (o.data_ % 4)

/-- Modelled from the spec: `sub::opts::get_retain_handling`, bits 5-4 of the
wrapped byte. -/
def opts.get_retain_handling (o : opts) : retain_handling :=
  retain_handling.of_bits (o.data_ / 16 % 4)

end sub

/-- Modelled from the spec: `topic_subopts` is declared outside the available
sources; a SUBSCRIBE entry, of which the packet uses the whole topic filter
`all_topic()` and the options `opts()`. -/
structure topic_subopts where
  all_topic : List Nat
  opts : sub.opts
  deriving DecidableEq, Repr

/-- Modelled from the spec: the v5 property list (`properties`, a list of
property values) and its functions are declared outside the available
sources. They are taken as they are used by the SUBSCRIBE packet:
`async_mqtt::size(props)`, `prop.id()`,
`validate_property(property_location::subscribe, id)`, `id_to_str(id)`,
`make_properties(buf, property_location::subscribe)`, which throws on a
malformed property section, `async_mqtt::const_buffer_sequence(props)` and
`async_mqtt::num_of_const_buffer_sequence(props)`. -/
structure property_functions (property : Type) where
  size : List property → Nat
  id : property → Nat
  validate_property_subscribe : Nat → Bool
  id_to_str : Nat → String
  make_properties_subscribe : List Nat → Except packet_exception (List property)
  const_buffer_sequence : List property → List (List Nat)
  num_of_const_buffer_sequence : List property → Nat

namespace v5

/-- The data members of `basic_subscribe_packet<PacketIdBytes>`. -/
structure basic_subscribe_packet (property : Type) (PacketIdBytes : Nat) where
  fixed_header_ : Nat
  topic_length_buf_entries_ : List (List Nat)
  entries_ : List topic_subopts
  packet_id_ : List Nat
  remaining_length_ : Nat
  remaining_length_buf_ : List Nat
  property_length_ : Nat
  property_length_buf_ : List Nat
  props_ : List property
  deriving DecidableEq

namespace basic_subscribe_packet

/-- The first loop of the constructor: one topic-length buffer per entry, made
with `boost::numeric_cast<std::uint16_t>` of the topic size. -/
def new.topic_length_bufs : List topic_subopts → Except packet_exception (List (List Nat))
  | [] => .ok []
  | e :: es =>
    match numeric_cast_or_throw 16 e.all_topic.length with
    | .error x => .error x
    | .ok n =>
      match new.topic_length_bufs es with
      | .error x => .error x
      | .ok bufs => .ok (endian_static_vector n :: bufs)

/-- The loop of the constructor over the properties: every property must be
allowed in a SUBSCRIBE. -/
def new.check_props {property : Type} (pf : property_functions property) :
    List property → Except packet_exception Unit
  | [] => .ok ()
  | prop :: rest =>
    if !pf.validate_property_subscribe (pf.id prop) then
      .error (make_error .bad_message
        ("v5::subscribe_packet property " ++ pf.id_to_str (pf.id prop) ++ " is not allowed"))
    else new.check_props pf rest

/-- The loop of the constructor over the entries: reserved bits, QoS and retain
handling of the options, size check, remaining length and UTF-8 check of every
entry. -/
def new.check_entries : List topic_subopts → Nat → Except packet_exception Nat
  | [], remaining_length_ => .ok remaining_length_
  | e :: es, remaining_length_ =>
    if e.opts.data_ % 256 &&& 0b11000000 ≠ 0 then
      .error (make_error .bad_message "v5::subscribe_packet subopts is invalid")
    else
      match e.opts.get_qos with
      | .at_most_once | .at_least_once | .exactly_once =>
        match e.opts.get_retain_handling with
        | .send | .send_only_new_subscription | .not_send =>
          let size := e.all_topic.length
          if size > 0xffff then
            .error (make_error .bad_message
              "v5::subscribe_packet length of topic is invalid")
          else if !utf8string_check e.all_topic then
            .error (make_error .bad_message
              "v5::subscribe_packet topic filter invalid utf8")
          else new.check_entries es (remaining_length_ + (2 + size + 1))
        | .reserved =>
          .error (make_error .bad_message
            "v5::subscribe_packet retain_handling is invalid")
      | .reserved =>
        .error (make_error .bad_message "v5::subscribe_packet qos is invalid")

/-- The constructor `basic_subscribe_packet(packet_id, params, props)`. -/
def new {property : Type} (pf : property_functions property) (PacketIdBytes : Nat)
    (packet_id : Nat) (params : List topic_subopts) (props : List property) :
    Except packet_exception (basic_subscribe_packet property PacketIdBytes) :=
  let fixed_header_ := make_fixed_header .subscribe 0b0010
  let entries_ := params
  let remaining_length_0 := PacketIdBytes
  let property_length_ := pf.size props
  let props_ := props
  match new.topic_length_bufs entries_ with
  | .error x => .error x
  | .ok topic_length_buf_entries_ =>
    let packet_id_ := endian_store PacketIdBytes packet_id
    match numeric_cast_or_throw 32 property_length_ with
    | .error x => .error x
    | .ok pl =>
      let property_length_buf_ := val_to_variable_bytes pl
      match new.check_props pf props_ with
      | .error x => .error x
      | .ok () =>
        let remaining_length_1 :=
          remaining_length_0 + (property_length_buf_.length + property_length_)
        match new.check_entries entries_ remaining_length_1 with
        | .error x => .error x
        | .ok remaining_length_ =>
          match numeric_cast_or_throw 32 remaining_length_ with
          | .error x => .error x
          | .ok rl =>
            .ok { fixed_header_, topic_length_buf_entries_, entries_, packet_id_,
                  remaining_length_, remaining_length_buf_ := val_to_variable_bytes rl,
                  property_length_, property_length_buf_, props_ }

/-- The member `const_buffer_sequence()`; the loop walks `entries_` and
`topic_length_buf_entries_` side by side. -/
def const_buffer_sequence {property : Type} {W : Nat} (pf : property_functions property)
    (p : basic_subscribe_packet property W) : List (List Nat) :=
  [[p.fixed_header_], p.remaining_length_buf_, p.packet_id_, p.property_length_buf_]
    ++ pf.const_buffer_sequence p.props_
    ++ ((p.topic_length_buf_entries_.zip p.entries_).map
          (fun ite => [ite.1, ite.2.all_topic, [ite.2.opts.data_]])).flatten

/-- The member `size()`. -/
def size {property : Type} {W : Nat} (p : basic_subscribe_packet property W) : Nat :=
  1 + p.remaining_length_buf_.length + p.remaining_length_

/-- The member `num_of_const_buffer_sequence()`. -/
def num_of_const_buffer_sequence {property : Type} {W : Nat}
    (pf : property_functions property) (p : basic_subscribe_packet property W) : Nat :=
  1 + 1 + 1
    + (if p.property_length_buf_.length = 0 then 0
       else 1 + pf.num_of_const_buffer_sequence p.props_)
    + p.entries_.length * 3

/-- The member `packet_id()`. -/
def packet_id {property : Type} {W : Nat} (p : basic_subscribe_packet property W) : Nat :=
  endian_load p.packet_id_

/-- The member `entries()`. -/
def entries {property : Type} {W : Nat} (p : basic_subscribe_packet property W) :
    List topic_subopts :=
  p.entries_

/-- The member `props()`. -/
def props {property : Type} {W : Nat} (p : basic_subscribe_packet property W) :
    List property :=
  p.props_

/-- The `while (!buf.empty())` loop of the decoding constructor. Every turn
that goes on takes at least the two bytes of a topic length and the options
byte from `buf`, so the number of turns is bounded by the length of `buf`,
which the decoder passes as `turns`; the case of no turn left on a non-empty
buffer is never reached from there. -/
def from_buffer.entries_loop :
    Nat → List Nat → List (List Nat) → List topic_subopts →
      Except packet_exception (List (List Nat) × List topic_subopts)
  | _, [], topic_length_buf_entries_, entries_ => .ok (topic_length_buf_entries_, entries_)
  | 0, _ :: _, topic_length_buf_entries_, entries_ =>
    .ok (topic_length_buf_entries_, entries_)
  | turns + 1, b :: bs, topic_length_buf_entries_, entries_ =>
    match insert_advance 2 (b :: bs) with
    | none =>
      .error (make_error .bad_message "v5::subscribe_packet length of topic is invalid")
    | some (topic_length_buf, buf1) =>
      let topic_length := endian_load topic_length_buf
      if buf1.length < topic_length then
        .error (make_error .bad_message "v5::subscribe_packet topic doesn't match its length")
      else
        let topic := buf1.take topic_length
        if !utf8string_check topic then
          .error (make_error .bad_message "v5::subscribe_packet topic filter invalid utf8")
        else
          match buf1.drop topic_length with
          | [] =>
            .error (make_error .bad_message
              "v5::subscribe_packet subscribe options  doesn't exist")
          | front :: buf2 =>
            let opts : sub.opts := ⟨front⟩
            if opts.data_ % 256 &&& 0b11000000 ≠ 0 then
              .error (make_error .bad_message "v5::subscribe_packet subopts is invalid")
            else
              match opts.get_qos with
              | .at_most_once | .at_least_once | .exactly_once =>
                match opts.get_retain_handling with
                | .send | .send_only_new_subscription | .not_send =>
                  from_buffer.entries_loop turns buf2
                    (topic_length_buf_entries_ ++ [topic_length_buf])
                    (entries_ ++ [⟨topic, opts⟩])
                | .reserved =>
                  .error (make_error .bad_message
                    "v5::subscribe_packet retain_handling is invalid")
              | .reserved =>
                .error (make_error .bad_message "v5::subscribe_packet qos is invalid")

/-- The decoding constructor `basic_subscribe_packet(buffer buf)`, which
throws on a malformed buffer. -/
def from_buffer {property : Type} (pf : property_functions property) (PacketIdBytes : Nat)
    (buf : List Nat) : Except packet_exception (basic_subscribe_packet property PacketIdBytes) :=
  match buf with
  | [] => .error (make_error .bad_message "v5::subscribe_packet fixed_header doesn't exist")
  | front :: buf1 =>
    let fixed_header_ := front
    if get_control_packet_type_with_check fixed_header_ ≠ some .subscribe then
      .error (make_error .bad_message "v5::subscribe_packet fixed_header is invalid")
    else
      match insert_advance_variable_length buf1 with
      | none =>
        .error (make_error .bad_message "v5::subscribe_packet remaining length is invalid")
      | some (remaining_length_, remaining_length_buf_, buf2) =>
        if remaining_length_ ≠ buf2.length then
          .error (make_error .bad_message
            "v5::subscribe_packet remaining length doesn't match buf.size()")
        else
          match copy_advance PacketIdBytes buf2 with
          | none =>
            .error (make_error .bad_message "v5::subscribe_packet packet_id doesn't exist")
          | some (packet_id_, buf3) =>
            match variable_bytes_to_val buf3 with
            | none =>
              .error (make_error .bad_message
                "v5::subscribe_packet property_length is invalid")
            | some (property_length_, buf4) =>
              let property_length_buf_ := buf3.take (buf3.length - buf4.length)
              if buf4.length < property_length_ then
                .error (make_error .bad_message
                  "v5::subscribe_packet properties_don't match its length")
              else
                match pf.make_properties_subscribe (buf4.take property_length_) with
                | .error x => .error x
                | .ok props_ =>
                  let buf5 := buf4.drop property_length_
                  if remaining_length_ = 0 then
                    .error (make_error .bad_message
                      "v5::subscribe_packet doesn't have entries")
                  else
                    match from_buffer.entries_loop buf5.length buf5 [] [] with
                    | .error x => .error x
                    | .ok (topic_length_buf_entries_, entries_) =>
                      .ok { fixed_header_, topic_length_buf_entries_, entries_, packet_id_,
                            remaining_length_, remaining_length_buf_,
                            property_length_, property_length_buf_, props_ }

end basic_subscribe_packet

end v5

/-- A property list implementation without any property, to evaluate the
packet functions on packets that carry no property: the only property list is
the empty one, of size 0 and with no buffer, and only the empty property
section can be decoded. -/
def no_property_functions : property_functions Empty where
  size := fun props => props.length
  id := fun prop => nomatch prop
  validate_property_subscribe := fun _ => false
  id_to_str := fun _ => ""
  make_properties_subscribe := fun buf =>
    if buf.isEmpty then .ok [] else .error (make_error .bad_message "property is invalid")
  const_buffer_sequence := fun _ => []
  num_of_const_buffer_sequence := fun _ => 0

/-! ## The packet variant (`packet/packet_variant.hpp`) -/

/-- The member `type()` of `basic_publish_packet`
(`packet/impl/v3_1_1_publish.hpp`). -/
def v3_1_1.basic_publish_packet.type {W : Nat} (_ : v3_1_1.basic_publish_packet W) :
    control_packet_type :=
  .publish

/-- The member `type()` of `basic_unsubscribe_packet`. -/
def v3_1_1.basic_unsubscribe_packet.type {W : Nat} (_ : v3_1_1.basic_unsubscribe_packet W) :
    control_packet_type :=
  .unsubscribe

/-- The member `type()` of `basic_subscribe_packet`. -/
def v5.basic_subscribe_packet.type {property : Type} {W : Nat}
    (_ : v5.basic_subscribe_packet property W) : control_packet_type :=
  .subscribe

/-- The member `type()` of `pingresp_packet` (`packet/impl/v5_pingresp.hpp`). -/
def v5.pingresp_packet.type (_ : v5.pingresp_packet) : control_packet_type :=
  .pingresp

/-- Modelled from the spec: a packet class that `packet_variant.hpp` declares
and no available source defines. The variant uses two members of a packet
class: `type()`, the same for every packet of the class, and
`const_buffer_sequence()`. Such a packet is held as its gather list, and the
control packet type of its class is the index of the type. -/
structure declared_packet (cpt : control_packet_type) where
  const_buffer_sequence : List (List Nat)
  deriving DecidableEq, Repr

/-- The member `type()` of a packet class declared in `packet_variant.hpp`. -/
def declared_packet.type {cpt : control_packet_type} (_ : declared_packet cpt) :
    control_packet_type :=
  cpt

/-- Modelled from the spec: the default constructor of `system_error` is
declared outside the available sources; a default-constructed `system_error`
carries the default-constructed `error_code`. -/
def system_error.new : system_error := ⟨.no_error, ""⟩

/-- The type `variant_t` of `basic_packet_variant`: `std::variant` of
`system_error` and the packet classes of both protocol versions, in the order
of the source. -/
inductive variant_t (property : Type) (PacketIdBytes : Nat) where
  | system_error (e : system_error)
  | v3_1_1_connect_packet (p : declared_packet .connect)
  | v3_1_1_connack_packet (p : declared_packet .connack)
  | v3_1_1_publish_packet (p : v3_1_1.basic_publish_packet PacketIdBytes)
  | v3_1_1_puback_packet (p : declared_packet .puback)
  | v3_1_1_pubrec_packet (p : declared_packet .pubrec)
  | v3_1_1_pubrel_packet (p : declared_packet .pubrel)
  | v3_1_1_pubcomp_packet (p : declared_packet .pubcomp)
  | v3_1_1_subscribe_packet (p : declared_packet .subscribe)
  | v3_1_1_suback_packet (p : declared_packet .suback)
  | v3_1_1_unsubscribe_packet (p : v3_1_1.basic_unsubscribe_packet PacketIdBytes)
  | v3_1_1_unsuback_packet (p : declared_packet .unsuback)
  | v3_1_1_pingreq_packet (p : declared_packet .pingreq)
  | v3_1_1_pingresp_packet (p : declared_packet .pingresp)
  | v3_1_1_disconnect_packet (p : declared_packet .disconnect)
  | v5_connect_packet (p : declared_packet .connect)
  | v5_connack_packet (p : declared_packet .connack)
  | v5_publish_packet (p : declared_packet .publish)
  | v5_puback_packet (p : declared_packet .puback)
  | v5_pubrec_packet (p : declared_packet .pubrec)
  | v5_pubrel_packet (p : declared_packet .pubrel)
  | v5_pubcomp_packet (p : declared_packet .pubcomp)
  | v5_subscribe_packet (p : v5.basic_subscribe_packet property PacketIdBytes)
  | v5_suback_packet (p : declared_packet .suback)
  | v5_unsubscribe_packet (p : declared_packet .unsubscribe)
  | v5_unsuback_packet (p : declared_packet .unsuback)
  | v5_pingreq_packet (p : declared_packet .pingreq)
  | v5_pingresp_packet (p : v5.pingresp_packet)
  | v5_disconnect_packet (p : declared_packet .disconnect)
  | v5_auth_packet (p : declared_packet .auth)

/-- The library call `std::variant::index()`: the position of the alternative
held, counted from 0. -/
def variant_t.index {property : Type} {W : Nat} : variant_t property W → Nat
  | .system_error _ => 0
  | .v3_1_1_connect_packet _ => 1
  | .v3_1_1_connack_packet _ => 2
  | .v3_1_1_publish_packet _ => 3
  | .v3_1_1_puback_packet _ => 4
  | .v3_1_1_pubrec_packet _ => 5
  | .v3_1_1_pubrel_packet _ => 6
  | .v3_1_1_pubcomp_packet _ => 7
  | .v3_1_1_subscribe_packet _ => 8
  | .v3_1_1_suback_packet _ => 9
  | .v3_1_1_unsubscribe_packet _ => 10
  | .v3_1_1_unsuback_packet _ => 11
  | .v3_1_1_pingreq_packet _ => 12
  | .v3_1_1_pingresp_packet _ => 13
  | .v3_1_1_disconnect_packet _ => 14
  | .v5_connect_packet _ => 15
  | .v5_connack_packet _ => 16
  | .v5_publish_packet _ => 17
  | .v5_puback_packet _ => 18
  | .v5_pubrec_packet _ => 19
  | .v5_pubrel_packet _ => 20
  | .v5_pubcomp_packet _ => 21
  | .v5_subscribe_packet _ => 22
  | .v5_suback_packet _ => 23
  | .v5_unsubscribe_packet _ => 24
  | .v5_unsuback_packet _ => 25
  | .v5_pingreq_packet _ => 26
  | .v5_pingresp_packet _ => 27
  | .v5_disconnect_packet _ => 28
  | .v5_auth_packet _ => 29

/-- The class `basic_packet_variant<PacketIdBytes>`. -/
structure basic_packet_variant (property : Type) (PacketIdBytes : Nat) where
  var_ : variant_t property PacketIdBytes

namespace basic_packet_variant

/-- The defaulted constructor `basic_packet_variant()`: `std::variant`
value-initialises its first alternative. -/
def new {property : Type} {W : Nat} : basic_packet_variant property W :=
  ⟨.system_error system_error.new⟩

/-- The member `type()`: a visit with one overload for `system_error` and one
for every packet. -/
def type {property : Type} {W : Nat} (v : basic_packet_variant property W) :
    Option control_packet_type :=
  match v.var_ with
  | .system_error _ => none
  | .v3_1_1_connect_packet p => some p.type
  | .v3_1_1_connack_packet p => some p.type
  | .v3_1_1_publish_packet p => some p.type
  | .v3_1_1_puback_packet p => some p.type
  | .v3_1_1_pubrec_packet p => some p.type
  | .v3_1_1_pubrel_packet p => some p.type
  | .v3_1_1_pubcomp_packet p => some p.type
  | .v3_1_1_subscribe_packet p => some p.type
  | .v3_1_1_suback_packet p => some p.type
  | .v3_1_1_unsubscribe_packet p => some p.type
  | .v3_1_1_unsuback_packet p => some p.type
  | .v3_1_1_pingreq_packet p => some p.type
  | .v3_1_1_pingresp_packet p => some p.type
  | .v3_1_1_disconnect_packet p => some p.type
  | .v5_connect_packet p => some p.type
  | .v5_connack_packet p => some p.type
  | .v5_publish_packet p => some p.type
  | .v5_puback_packet p => some p.type
  | .v5_pubrec_packet p => some p.type
  | .v5_pubrel_packet p => some p.type
  | .v5_pubcomp_packet p => some p.type
  | .v5_subscribe_packet p => some p.type
  | .v5_suback_packet p => some p.type
  | .v5_unsubscribe_packet p => some p.type
  | .v5_unsuback_packet p => some p.type
  | .v5_pingreq_packet p => some p.type
  | .v5_pingresp_packet p => some p.type
  | .v5_disconnect_packet p => some p.type
  | .v5_auth_packet p => some p.type

/-- The member `const_buffer_sequence()`: a visit with one overload for
`system_error` and one for every packet. -/
def const_buffer_sequence {property : Type} {W : Nat} (pf : property_functions property)
    (v : basic_packet_variant property W) : List (List Nat) :=
  match v.var_ with
  | .system_error _ => []
  | .v3_1_1_connect_packet p => p.const_buffer_sequence
  | .v3_1_1_connack_packet p => p.const_buffer_sequence
  | .v3_1_1_publish_packet p => p.const_buffer_sequence
  | .v3_1_1_puback_packet p => p.const_buffer_sequence
  | .v3_1_1_pubrec_packet p => p.const_buffer_sequence
  | .v3_1_1_pubrel_packet p => p.const_buffer_sequence
  | .v3_1_1_pubcomp_packet p => p.const_buffer_sequence
  | .v3_1_1_subscribe_packet p => p.const_buffer_sequence
  | .v3_1_1_suback_packet p => p.const_buffer_sequence
  | .v3_1_1_unsubscribe_packet p => p.const_buffer_sequence
  | .v3_1_1_unsuback_packet p => p.const_buffer_sequence
  | .v3_1_1_pingreq_packet p => p.const_buffer_sequence
  | .v3_1_1_pingresp_packet p => p.const_buffer_sequence
  | .v3_1_1_disconnect_packet p => p.const_buffer_sequence
  | .v5_connect_packet p => p.const_buffer_sequence
  | .v5_connack_packet p => p.const_buffer_sequence
  | .v5_publish_packet p => p.const_buffer_sequence
  | .v5_puback_packet p => p.const_buffer_sequence
  | .v5_pubrec_packet p => p.const_buffer_sequence
  | .v5_pubrel_packet p => p.const_buffer_sequence
  | .v5_pubcomp_packet p => p.const_buffer_sequence
  | .v5_subscribe_packet p => p.const_buffer_sequence pf
  | .v5_suback_packet p => p.const_buffer_sequence
  | .v5_unsubscribe_packet p => p.const_buffer_sequence
  | .v5_unsuback_packet p => p.const_buffer_sequence
  | .v5_pingreq_packet p => p.const_buffer_sequence
  | .v5_pingresp_packet p => p.const_buffer_sequence
  | .v5_disconnect_packet p => p.const_buffer_sequence
  | .v5_auth_packet p => p.const_buffer_sequence

/-- The member `operator bool()`. -/
def operator_bool {property : Type} {W : Nat} (v : basic_packet_variant property W) : Bool :=
  v.var_.index != 0

end basic_packet_variant

/-! ## The receive operation of the client (`impl/client_recv.hpp`) -/

/-- The struct `recv_type` of `impl/client_impl.hpp`: an entry of the recv
queue. -/
structure recv_type (property : Type) (PacketIdBytes : Nat) where
  ec : error_code
  pv : basic_packet_variant property PacketIdBytes

/-- The constructor `recv_type(packet_variant packet)`. -/
def recv_type.of_packet {property : Type} {W : Nat} (packet : basic_packet_variant property W) :
    recv_type property W :=
  { ec := .no_error, pv := packet }

/-- The constructor `recv_type(error_code ec)`. -/
def recv_type.of_error {property : Type} {W : Nat} (ec : error_code) : recv_type property W :=
  { ec := ec, pv := basic_packet_variant.new }

/-- Modelled from the spec: the class `client` is declared outside the
available sources. These are the members `recv_op` reads and writes: the recv
queue, a `std::deque<recv_type>` with its front at the head of the list, and
the flag `recv_queue_inserted_`. The timer `tim_notify_publish_recv_` is
represented by the effect of the step that waits on it. -/
structure client (property : Type) (PacketIdBytes : Nat) where
  recv_queue_ : List (recv_type property PacketIdBytes)
  recv_queue_inserted_ : Bool

namespace recv_op

/-- The member `state` of `recv_op`. -/
inductive state where
  | dispatch
  | recv
  | complete
  deriving DecidableEq, Repr

/-- What a step of `recv_op` does besides changing the client and its own
state: it dispatches itself to the executor of the endpoint, it sets the expiry
of `tim_notify_publish_recv_` to the maximum time point and waits on it, it
completes with an error code and a packet variant, it takes `front()` of an
empty queue, or it fails a `BOOST_ASSERT`. -/
inductive effect (property : Type) (PacketIdBytes : Nat) where
  | dispatch_self
  | async_wait
  | complete (ec : error_code) (pv : basic_packet_variant property PacketIdBytes)
  | front_of_empty_queue
  | assert_failed

/-- The step `operator()(Self& self)`. -/
def step {property : Type} {W : Nat} (cl : client property W) (st : state) :
    client property W × state × effect property W :=
  if st = .dispatch then
    (cl, .recv, .dispatch_self)
  else if st ≠ .recv then
    (cl, st, .assert_failed)
  else if cl.recv_queue_.isEmpty then
    ({ cl with recv_queue_inserted_ := false }, .complete, .async_wait)
  else
    match cl.recv_queue_ with
    | [] => (cl, .complete, .front_of_empty_queue)
    | front :: rest => ({ cl with recv_queue_ := rest }, .complete, .complete front.ec front.pv)

/-- The step `operator()(Self& self, error_code)`, the handler of the wait on
the timer; it does not look at the error code it is given. -/
def step_ec {property : Type} {W : Nat} (cl : client property W) (st : state)
    (_ : error_code) : client property W × state × effect property W :=
  if st ≠ .complete then
    (cl, st, .assert_failed)
  else if cl.recv_queue_inserted_ then
    match cl.recv_queue_ with
    | [] => (cl, st, .front_of_empty_queue)
    | front :: rest => ({ cl with recv_queue_ := rest }, st, .complete front.ec front.pv)
  else
    (cl, st, .complete (.of_errc .operation_canceled) basic_packet_variant.new)

end recv_op

/-- The call `async_recv` up to its first suspension or its completion, on the
executor of the endpoint: `async_compose` starts the operation in state
`dispatch`, and the dispatched operation runs its recv step. -/
def client.async_recv {property : Type} {W : Nat} (cl : client property W) :
    client property W × recv_op.state × recv_op.effect property W :=
  match recv_op.step cl .dispatch with
  | (cl1, st1, .dispatch_self) => recv_op.step cl1 st1
  | r => r

/-- The calls `async_recv` made one after the other, `n` times, each one after
the one before it has completed: the client afterwards and the completions in
the order of the calls. A call that does not complete at once ends the run. -/
def client.async_recv_successively {property : Type} {W : Nat} :
    Nat → client property W →
      client property W × List (error_code × basic_packet_variant property W)
  | 0, cl => (cl, [])
  | n + 1, cl =>
    match cl.async_recv with
    | (cl1, _, .complete ec pv) =>
      let r := client.async_recv_successively n cl1
      (r.1, (ec, pv) :: r.2)
    | (cl1, _, _) => (cl1, [])

/-! ## Waiting for a packet identifier
(`impl/endpoint_acquire_unique_packet_id_wait_until.hpp`) -/

/-- Modelled from the spec: the packet-id manager is declared outside the
available sources. It holds the currently allocated ids; the ids of a
`PacketIdBytes`-byte packet id type are 1 to `2 ^ (8 * PacketIdBytes) - 1`. -/
structure packet_id_manager (PacketIdBytes : Nat) where
  allocated : List Nat
  deriving DecidableEq, Repr

/-- The lowest-free-id search of the packet-id manager: the smallest id from
`id` on, among `count` ids, that is not allocated. -/
def packet_id_manager.first_free (allocated : List Nat) : Nat → Nat → Option Nat
  | 0, _ => none
  | count + 1, id =>
    if id ∈ allocated then packet_id_manager.first_free allocated count (id + 1) else some id

/-- Modelled from the spec: `acquire_unique_id` allocates and returns the
smallest free id, or returns `std::nullopt` when every id is allocated. -/
def packet_id_manager.acquire_unique_id {W : Nat} (m : packet_id_manager W) :
    Option Nat × packet_id_manager W :=
  match packet_id_manager.first_free m.allocated (2 ^ (8 * W) - 1) 1 with
  | some id => (some id, ⟨id :: m.allocated⟩)
  | none => (none, m)

/-- Modelled from the spec: `release_id(id)` of the packet-id manager takes the
id out of the allocated ids. -/
def packet_id_manager.release_id {W : Nat} (m : packet_id_manager W) (id : Nat) :
    packet_id_manager W :=
  ⟨m.allocated.filter (fun j => j != id)⟩

/-- Modelled from the spec: the class `basic_endpoint` is declared outside the
available sources. These are the members the operation reads and writes: the
packet-id manager, the flag `packet_id_released_`, and the retry wait queue, a
first-in first-out queue of the suspended callers, each identified by a number,
with the oldest waiter at the head of the list. -/
structure basic_endpoint (PacketIdBytes : Nat) where
  pid_man_ : packet_id_manager PacketIdBytes
  packet_id_released_ : Bool
  retry_queue : List Nat
  deriving DecidableEq, Repr

namespace basic_endpoint

/-- Modelled from the spec: `has_retry()` tells whether a caller is waiting in
the retry queue. -/
def has_retry {W : Nat} (ep : basic_endpoint W) : Bool :=
  !ep.retry_queue.isEmpty

/-- Modelled from the spec: `complete_retry_one()` removes the entry of the
oldest waiter from the retry queue. -/
def complete_retry_one {W : Nat} (ep : basic_endpoint W) : basic_endpoint W :=
  { ep with retry_queue := ep.retry_queue.tail }

/-- Modelled from the spec: `async_add_retry(self)` appends the caller to the
retry queue, where it waits on a timer that never expires. -/
def async_add_retry {W : Nat} (ep : basic_endpoint W) (self : Nat) : basic_endpoint W :=
  { ep with retry_queue := ep.retry_queue ++ [self] }

/-- Modelled from the spec: the synchronous `acquire_unique_packet_id()`, which
is called from the executor of the endpoint and returns the smallest unused id
or none. -/
def acquire_unique_packet_id {W : Nat} (ep : basic_endpoint W) :
    basic_endpoint W × Option Nat :=
  match ep.pid_man_.acquire_unique_id with
  | (pid_opt, pid_man) => ({ ep with pid_man_ := pid_man }, pid_opt)

/-- Modelled from the spec: the release of a packet id is defined outside the
available sources. The id is given back to the packet-id manager,
`packet_id_released_` is set, and the oldest waiter of the retry queue is
awakened: the wait on its timer is cancelled, so that its operation is going to
be run with `as::error::operation_aborted`. The result is the endpoint and the
awakened waiter, if there is one. -/
def release_packet_id {W : Nat} (ep : basic_endpoint W) (id : Nat) :
    basic_endpoint W × Option Nat :=
  ({ ep with pid_man_ := ep.pid_man_.release_id id, packet_id_released_ := true },
    ep.retry_queue.head?)

end basic_endpoint

namespace acquire_unique_packet_id_wait_until_op

/-- The member `state` of `acquire_unique_packet_id_wait_until_op`. -/
inductive state where
  | dispatch
  | complete
  deriving DecidableEq, Repr

/-- What a step of the operation does besides changing the endpoint and its own
state: it returns at once because the endpoint is gone, it dispatches itself to
the executor of the endpoint, it completes with an error code and a packet id,
or it has added itself to the retry queue and is suspended. -/
inductive effect where
  | returned
  | dispatch_self
  | complete (ec : error_code) (pid : Nat)
  | async_add_retry
  deriving DecidableEq, Repr

/-- The lambda `acq_proc` of the step. -/
def acq_proc {W : Nat} (ep : basic_endpoint W) (self : Nat) : basic_endpoint W × effect :=
  match ep.pid_man_.acquire_unique_id with
  | (some pid, pid_man) => ({ ep with pid_man_ := pid_man }, .complete .no_error pid)
  | (none, pid_man) =>
    (({ ep with pid_man_ := pid_man, packet_id_released_ := false }).async_add_retry self,
      .async_add_retry)

/-- The step `operator()(Self& self, error_code ec = error_code{})` of the
operation `self`; `expired` is the result of `retry_wp.expired()`. -/
def step {W : Nat} (ep : basic_endpoint W) (expired : Bool) (self : Nat) (st : state)
    (ec : error_code) : basic_endpoint W × state × effect :=
  if expired then (ep, st, .returned)
  else
    match st with
    | .dispatch => (ep, .complete, .dispatch_self)
    | .complete =>
      if ec = .operation_aborted then
        if ep.packet_id_released_ then
          let r := acq_proc ep.complete_retry_one self
          (r.1, .complete, r.2)
        else
          (ep, .complete, .complete (.of_errc .operation_canceled) 0)
      else if ep.has_retry then
        (ep.async_add_retry self, .complete, .async_add_retry)
      else
        let r := acq_proc ep self
        (r.1, .complete, r.2)

end acquire_unique_packet_id_wait_until_op

/-- The call `async_acquire_unique_packet_id_wait_until` by the caller `self` up
to its first suspension or its completion, on the executor of a living
endpoint: `async_compose` starts the operation in state `dispatch`, and the
dispatched operation runs with the default error code. -/
def basic_endpoint.async_acquire_unique_packet_id_wait_until {W : Nat} (ep : basic_endpoint W)
    (self : Nat) :
    basic_endpoint W × acquire_unique_packet_id_wait_until_op.state
      × acquire_unique_packet_id_wait_until_op.effect :=
  match acquire_unique_packet_id_wait_until_op.step ep false self .dispatch .no_error with
  | (ep1, st1, .dispatch_self) =>
    acquire_unique_packet_id_wait_until_op.step ep1 false self st1 .no_error
  | r => r

/-! ## Writing a packet to the stream (`util/stream.hpp`,
`util/impl/stream_write_packet.hpp`) -/

/-- Modelled from the spec: `ioc_queue` is declared outside the available
sources; the single-writer queue that serializes the writes. Handlers posted to
it wait in the order of their posting, and the queue runs the oldest one only
while no work is in progress; work is in progress from `start_work()` to
`stop_work()`. -/
structure ioc_queue (handler : Type) where
  queue_ : List handler
  working_ : Bool
  deriving DecidableEq, Repr

namespace ioc_queue

/-- Modelled from the spec: `immediate_executable()` tells whether a handler
posted now would be run at once: no work is in progress and no handler
waits. -/
def immediate_executable {handler : Type} (q : ioc_queue handler) : Bool :=
  !q.working_ && q.queue_.isEmpty

/-- Modelled from the spec: `post(handler)` puts the handler at the end of the
queue. -/
def post {handler : Type} (q : ioc_queue handler) (h : handler) : ioc_queue handler :=
  { q with queue_ := q.queue_ ++ [h] }

/-- Modelled from the spec: `start_work()`. -/
def start_work {handler : Type} (q : ioc_queue handler) : ioc_queue handler :=
  { q with working_ := true }

/-- Modelled from the spec: `stop_work()`. -/
def stop_work {handler : Type} (q : ioc_queue handler) : ioc_queue handler :=
  { q with working_ := false }

end ioc_queue

/-- The template parameter `Packet` of `stream_write_packet_op`: of a packet,
the operation uses the members `const_buffer_sequence()` and `size()`. -/
structure write_packet where
  const_buffer_sequence : List (List Nat)
  size : Nat
  deriving DecidableEq, Repr

namespace stream_write_packet_op

/-- The unnamed enumeration type of the member `state` of
`stream_write_packet_op`. -/
inductive state_t where
  | dispatch
  | post
  | write
  | bulk_write
  | complete
  deriving DecidableEq, Repr

end stream_write_packet_op

/-- The data members of `stream_write_packet_op<Packet>` apart from the stream,
which the steps take and return. -/
structure stream_write_packet_op where
  packet : write_packet
  size : Nat
  state : stream_write_packet_op.state_t
  deriving DecidableEq, Repr

/-- The members of `stream<NextLayer>` that the write operation reads and
writes; `lowest_layer_is_open` is the result of `lowest_layer().is_open()` of
the next layer `nl_`. -/
structure stream where
  lowest_layer_is_open : Bool
  write_queue_ : ioc_queue stream_write_packet_op
  storing_cbs_ : List (List Nat)
  sending_cbs_ : List (List Nat)
  bulk_write_ : Bool
  deriving DecidableEq, Repr

namespace stream_write_packet_op

/-- The operation as `async_write_packet` makes it: it holds the packet, the
size of the packet, and starts in state `dispatch`. -/
def new (packet : write_packet) : stream_write_packet_op :=
  { packet := packet, size := packet.size, state := .dispatch }

/-- What the step `operator()(Self& self)` does besides changing the stream and
the operation: it dispatches the operation to the executor of the stream, it
has posted the operation to the write queue, it starts `async_write` of a
buffer sequence on the next layer with the operation as the handler, it
dispatches the operation together with an error code and a number of bytes, or
it fails a `BOOST_ASSERT`. -/
inductive effect where
  | dispatch_self
  | post_self
  | async_write (cbs : List (List Nat))
  | dispatch_self_with (ec : error_code) (bytes_transferred : Nat)
  | assert_failed
  deriving DecidableEq, Repr

/-- The step `operator()(Self& self)`. -/
def step (strm : stream) (op : stream_write_packet_op) :
    stream × stream_write_packet_op × effect :=
  match op.state with
  | .dispatch => (strm, { op with state := .post }, .dispatch_self)
  | .post =>
    if !strm.bulk_write_ || strm.write_queue_.immediate_executable then
      let op1 := { op with state := .write }
      ({ strm with write_queue_ := strm.write_queue_.post op1 }, op1, .post_self)
    else
      let op1 := { op with state := .bulk_write }
      let cbs := op.packet.const_buffer_sequence
      let strm1 := { strm with storing_cbs_ := strm.storing_cbs_ ++ cbs }
      ({ strm1 with write_queue_ := strm1.write_queue_.post op1 }, op1, .post_self)
  | .write =>
    let strm1 := { strm with write_queue_ := strm.write_queue_.start_work }
    if strm1.lowest_layer_is_open then
      (strm1, { op with state := .complete }, .async_write op.packet.const_buffer_sequence)
    else
      (strm1, { op with state := .complete },
        .dispatch_self_with (.of_errc .connection_reset) 0)
  | .bulk_write =>
    let strm1 := { strm with write_queue_ := strm.write_queue_.start_work }
    if strm1.lowest_layer_is_open then
      if strm1.storing_cbs_.isEmpty then
        (strm1, { op with state := .complete },
          .dispatch_self_with (.of_errc .success) op.size)
      else
        let strm2 := { strm1 with sending_cbs_ := strm1.storing_cbs_, storing_cbs_ := [] }
        (strm2, { op with state := .complete }, .async_write strm2.sending_cbs_)
    else
      (strm1, { op with state := .complete },
        .dispatch_self_with (.of_errc .connection_reset) 0)
  | .complete => (strm, op, .assert_failed)

/-- What the step `operator()(Self& self, error_code, std::size_t)` does
besides changing the stream: it posts `poll_one()` of the write queue to the
executor and completes the operation with an error code and a number of bytes,
or it fails a `BOOST_ASSERT`. -/
inductive completion where
  | complete (ec : error_code) (bytes : Nat)
  | assert_failed
  deriving DecidableEq, Repr

/-- The step `operator()(Self& self, error_code ec, std::size_t
bytes_transferred)`, the handler of the write and of the dispatch with an error
code. -/
def step_ec (strm : stream) (op : stream_write_packet_op) (ec : error_code)
    (bytes_transferred : Nat) : stream × completion :=
  if ec.failed then
    ({ strm with write_queue_ := strm.write_queue_.stop_work },
      .complete ec bytes_transferred)
  else
    match op.state with
    | .complete =>
      ({ strm with write_queue_ := strm.write_queue_.stop_work, sending_cbs_ := [] },
        .complete ec op.size)
    | _ => (strm, .assert_failed)

end stream_write_packet_op

/-- The call `async_write_packet(packet)` on the executor of the stream, up to
the posting of the operation to the write queue: `async_compose` starts the
operation in state `dispatch`, and the dispatched operation runs its `post`
step. -/
def stream.async_write_packet (strm : stream) (packet : write_packet) :
    stream × stream_write_packet_op × stream_write_packet_op.effect :=
  match stream_write_packet_op.step strm (stream_write_packet_op.new packet) with
  | (strm1, op1, .dispatch_self) => stream_write_packet_op.step strm1 op1
  | r => r

/-! ## The write operations of one stream at work -/

/-- The buffers of a list of packets, in order: their
`const_buffer_sequence()`s one after the other. -/
def gather (packets : List write_packet) : List (List Nat) :=
  (packets.map fun p => p.const_buffer_sequence).flatten

/-- The bytes of a list of packets, in order: the encoding of each packet, which
is its `const_buffer_sequence()` concatenated, one after the other. -/
def encodings (packets : List write_packet) : List Nat :=
  (packets.map fun p => p.const_buffer_sequence.flatten).flatten

/-- One stream together with what is outside of it while write operations run
on an open transport whose writes succeed: the operation in progress, whose
handler is to be invoked with an error code and a number of bytes, the buffers
handed to the next layer so far, the completions so far, each with the packet
of its operation, and the packets submitted so far. -/
structure write_system where
  strm : stream
  in_progress : Option (stream_write_packet_op × error_code × Nat)
  next_layer : List (List Nat)
  completions : List (write_packet × error_code × Nat)
  submissions : List write_packet

/-- What happens on the executor of the stream: a packet is submitted with
`async_write_packet`; the write queue runs its oldest handler; the handler of
the operation in progress is invoked. -/
inductive write_event where
  | async_write_packet (packet : write_packet)
  | run_queue
  | invoke_handler

namespace write_system

/-- A stream on an open transport with nothing submitted yet. -/
def init (bulk_write : Bool) : write_system :=
  { strm := ⟨true, ⟨[], false⟩, [], [], bulk_write⟩
    in_progress := none
    next_layer := []
    completions := []
    submissions := [] }

/-- The packet of the operation in progress, if there is one. -/
def in_progress_packets (s : write_system) : List write_packet :=
  match s.in_progress with
  | none => []
  | some (op, _, _) => [op.packet]

/-- The packets of the completed operations, in the order of completion. -/
def completed_packets (s : write_system) : List write_packet :=
  s.completions.map Prod.fst

/-- One event. A submission runs `async_write_packet` up to the posting of the
operation. The write queue runs a handler only while no work is in progress and
a handler waits: it takes the oldest operation and runs its step; an
`async_write` hands the buffers to the next layer and, as writes succeed, the
handler will be invoked with no error and the number of bytes written. The
handler runs the step with the error code and the number of bytes, and the
operation is complete. -/
def exec (s : write_system) : write_event → write_system
  | .async_write_packet packet =>
    { s with
      strm := (s.strm.async_write_packet packet).1
      submissions := s.submissions ++ [packet] }
  | .run_queue =>
    if s.strm.write_queue_.working_ then s
    else
      match s.strm.write_queue_.queue_ with
      | [] => s
      | op :: rest =>
        match stream_write_packet_op.step
            { s.strm with write_queue_ := { s.strm.write_queue_ with queue_ := rest } } op with
        | (strm1, op1, .async_write cbs) =>
          { s with
            strm := strm1
            in_progress := some (op1, .no_error, (cbs.map List.length).sum)
            next_layer := s.next_layer ++ cbs }
        | (strm1, op1, .dispatch_self_with ec bytes_transferred) =>
          { s with strm := strm1, in_progress := some (op1, ec, bytes_transferred) }
        | (strm1, _, _) => { s with strm := strm1 }
  | .invoke_handler =>
    match s.in_progress with
    | none => s
    | some (op, ec, bytes_transferred) =>
      match stream_write_packet_op.step_ec s.strm op ec bytes_transferred with
      | (strm1, .complete ec1 bytes) =>
        { s with
          strm := strm1
          in_progress := none
          completions := s.completions ++ [(op.packet, ec1, bytes)] }
      | (strm1, .assert_failed) => { s with strm := strm1, in_progress := none }

/-- A sequence of events, one after the other. -/
def run (s : write_system) (events : List write_event) : write_system :=
  events.foldl exec s

/-- The events that let the write queue work `n` times: the queue runs a
handler, then the handler of the operation in progress is invoked. -/
def drain : Nat → List write_event
  | 0 => []
  | n + 1 => .run_queue :: .invoke_handler :: drain n

/-- Nothing is left to do: no operation waits in the write queue and none is in
progress. -/
def idle (s : write_system) : Prop :=
  s.strm.write_queue_.queue_ = [] ∧ s.in_progress = none

/-- What holds of the stream whatever events happened. The write queue is made
of three parts in this order: `bulk_write` operations whose buffers an earlier
scatter write has already carried, `write` operations, and `bulk_write`
operations whose buffers are the content of `storing_cbs_`. -/
structure invariant (s : write_system) : Prop where
  is_open : s.strm.lowest_layer_is_open = true
  working : s.strm.write_queue_.working_ = s.in_progress.isSome
  in_progress_ok : ∀ op ec n, s.in_progress = some (op, ec, n) →
    op.state = .complete ∧ ec.failed = false ∧ op.size = op.packet.size
  queue_size : ∀ op ∈ s.strm.write_queue_.queue_, op.size = op.packet.size
  completions_ok : ∀ c ∈ s.completions, c.2.1.failed = false ∧ c.2.2 = c.1.size
  submissions_eq : s.submissions
    = s.completed_packets ++ s.in_progress_packets
        ++ s.strm.write_queue_.queue_.map fun op => op.packet
  shape : ∃ F X B : List stream_write_packet_op,
    s.strm.write_queue_.queue_ = F ++ X ++ B ∧
    (∀ op ∈ F, op.state = .bulk_write) ∧
    (∀ op ∈ X, op.state = .write) ∧
    (∀ op ∈ B, op.state = .bulk_write) ∧
    s.strm.storing_cbs_ = gather (B.map fun op => op.packet) ∧
    (X ≠ [] → F = []) ∧
    (s.strm.bulk_write_ = false → F = [] ∧ B = []) ∧
    s.next_layer
      = gather (s.completed_packets ++ s.in_progress_packets ++ F.map fun op => op.packet)

end write_system

/-- The stream after a sequence of events on a new stream. -/
def write_system.after (bulk_write : Bool) (events : List write_event) : write_system :=
  (write_system.init bulk_write).run events

/-- The stream after its pending work is done: the handler of the operation in
progress is invoked, and the write queue works once for every operation that
waits in it. -/
def write_system.finish (s : write_system) : write_system :=
  s.run (.invoke_handler :: write_system.drain s.strm.write_queue_.queue_.length)

/-- The acceptance of a subscribe options byte in the words of the
specification: the reserved bits 7 and 6 are clear, the QoS bits are not 3 and
the retain-handling bits are not both set. -/
def subscribe_options_accepted (o : Nat) : Bool :=
  (o &&& 0xC0 == 0) && (o &&& 0x03 != 3) && (o &&& 0x30 != 0x30)

/-- The write in progress fails: the handler of the operation in progress is to
be invoked with the error code `ec` and `bytes_transferred` bytes, not with the
result of a successful write. -/
def write_system.fail_write (s : write_system) (ec : error_code) (bytes_transferred : Nat) :
    write_system :=
  match s.in_progress with
  | none => s
  | some (op, _, _) => { s with in_progress := some (op, ec, bytes_transferred) }

/-! ## The receive operations of one client at work -/

/-- One client together with what is outside of it while receive operations
run: the number of operations whose wait on `tim_notify_publish_recv_` is
pending, the number of operations whose wait has been cancelled and whose
handler is yet to run on the executor, and what the steps run so far did. -/
structure recv_system (property : Type) (PacketIdBytes : Nat) where
  cl : client property PacketIdBytes
  waiting : Nat
  cancelled : Nat
  effects : List (recv_op.effect property PacketIdBytes)

/-- What happens on the executor of the endpoint: `async_recv` is called; an
entry is inserted into the recv queue; the pending wait is cancelled without
an insertion, as when the caller cancels the call; the handler of a cancelled
wait runs. -/
inductive recv_event (property : Type) (PacketIdBytes : Nat) where
  | async_recv
  | insert (e : recv_type property PacketIdBytes)
  | cancel
  | wake

namespace recv_system

/-- A client with an empty recv queue and no operation. -/
def init {property : Type} {W : Nat} : recv_system property W :=
  { cl := ⟨[], false⟩, waiting := 0, cancelled := 0, effects := [] }

/-- Modelled from the spec: the insertion into the recv queue is defined outside
the available sources; it pushes the entry to the back of the queue, sets
`recv_queue_inserted_` and cancels the notify timer. -/
def insert {property : Type} {W : Nat} (s : recv_system property W)
    (e : recv_type property W) : recv_system property W :=
  { s with
    cl := { recv_queue_ := s.cl.recv_queue_ ++ [e], recv_queue_inserted_ := true }
    cancelled := s.cancelled + s.waiting
    waiting := 0 }

/-- One event. A call of `async_recv` runs the operation up to its wait or its
completion; when it waits, setting the expiry of the timer has cancelled the
waits that were pending, and its own wait is the pending one. A cancellation
turns the pending wait into a cancelled one and touches nothing of the client.
A cancelled wait runs the handler of its operation with
`as::error::operation_aborted`. -/
def exec {property : Type} {W : Nat} (s : recv_system property W) :
    recv_event property W → recv_system property W
  | .async_recv =>
    match s.cl.async_recv with
    | (cl1, _, .async_wait) =>
      { cl := cl1, waiting := 1, cancelled := s.cancelled + s.waiting,
        effects := s.effects ++ [.async_wait] }
    | (cl1, _, eff) => { s with cl := cl1, effects := s.effects ++ [eff] }
  | .insert e => s.insert e
  | .cancel => { s with cancelled := s.cancelled + s.waiting, waiting := 0 }
  | .wake =>
    match s.cancelled with
    | 0 => s
    | n + 1 =>
      match recv_op.step_ec s.cl .complete .operation_aborted with
      | (cl1, _, eff) => { s with cl := cl1, cancelled := n, effects := s.effects ++ [eff] }

/-- A sequence of events, one after the other. -/
def run {property : Type} {W : Nat} (s : recv_system property W)
    (events : List (recv_event property W)) : recv_system property W :=
  events.foldl exec s

/-- The sequences of events in which the calls of `async_recv` do not overlap:
`async_recv` is called only while no operation of an earlier call waits or has
its handler yet to run. -/
def one_at_a_time {property : Type} {W : Nat} :
    recv_system property W → List (recv_event property W) → Bool
  | _, [] => true
  | s, .async_recv :: events =>
    (s.waiting + s.cancelled == 0) && one_at_a_time (s.exec .async_recv) events
  | s, ev :: events => one_at_a_time (s.exec ev) events

/-- What holds of a client between the events while the calls of `async_recv`
do not overlap: at most one operation is outstanding, an outstanding operation
that finds `recv_queue_inserted_` set finds an entry in the queue, and no step
so far took the front of an empty queue or failed an assertion. -/
def invariant {property : Type} {W : Nat} (s : recv_system property W) :
    Prop :=
  s.waiting + s.cancelled ≤ 1 ∧
  (s.waiting + s.cancelled = 1 → s.cl.recv_queue_inserted_ = true →
    s.cl.recv_queue_ ≠ []) ∧
  ∀ eff ∈ s.effects, (eff = .async_wait ∨ ∃ ec pv, eff = .complete ec pv)

end recv_system

/-! ## v3.1.1 CONNECT -/

/-- Modelled from the spec: the class `will` is declared outside the available
sources; a will message with its topic, its payload and the publish options
that carry its QoS and its retain flag. -/
structure will where
  topic : List Nat
  message : List Nat
  pubopts : pub.opts
  deriving DecidableEq

/-- Modelled from the spec: `will::get_qos`. -/
def will.get_qos (w : will) : qos := w.pubopts.get_qos

/-- Modelled from the spec: `will::get_retain`. -/
def will.get_retain (w : will) : Bool := w.pubopts.get_retain

namespace connect_flags

/-- Modelled from the spec: the bits of the connect-flags byte of the MQTT wire
protocol: bit 1 clean session, bit 2 will flag, bits 4-3 will QoS, bit 5 will
retain, bit 6 password flag, bit 7 user name flag; bit 0 is reserved. -/
def mask_clean_session : Nat := 0b00000010

/-- Modelled from the spec: the will flag, bit 2. -/
def mask_will_flag : Nat := 0b00000100

/-- Modelled from the spec: the will retain flag, bit 5. -/
def mask_will_retain : Nat := 0b00100000

/-- Modelled from the spec: the password flag, bit 6. -/
def mask_password_flag : Nat := 0b01000000

/-- Modelled from the spec: the user name flag, bit 7. -/
def mask_user_name_flag : Nat := 0b10000000

/-- Modelled from the spec: clean session, bit 1 of the flags. -/
def is_clean_session (v : Nat) : Bool := v / 2 % 2 == 1

/-- Modelled from the spec: the will flag, bit 2 of the flags. -/
def has_will_flag (v : Nat) : Bool := v / 4 % 2 == 1

/-- Modelled from the spec: the will QoS, bits 4-3 of the flags. -/
def will_qos (v : Nat) : qos := qos.of_bits (v / 8 % 4)

/-- Modelled from the spec: the will retain flag, bit 5 of the flags. -/
def will_retain (v : Nat) : Bool := v / 32 % 2 == 1

/-- Modelled from the spec: the password flag, bit 6 of the flags. -/
def has_password_flag (v : Nat) : Bool := v / 64 % 2 == 1

/-- Modelled from the spec: the user name flag, bit 7 of the flags. -/
def has_user_name_flag (v : Nat) : Bool := v / 128 % 2 == 1

/-- Modelled from the spec: the will QoS written into bits 4-3 of the flags. -/
def set_will_qos (v : Nat) (q : qos) : Nat := v ||| (q.toNat <<< 3)

end connect_flags

namespace v3_1_1

/-- Modelled from the spec: the class `connect_packet` is declared outside the
available sources, which hold its unit test. Its data members are the fields
of the wire form: the fixed header, the remaining length with its buffer, the
seven bytes of protocol name and level, the connect flags, the keep alive
buffer, and each string with its two-byte length buffer; the strings that the
flags mark as absent, with their length buffers, are empty. -/
structure connect_packet where
  fixed_header_ : Nat
  connect_flags_ : Nat
  remaining_length_ : Nat
  remaining_length_buf_ : List Nat
  protocol_name_and_level_ : List Nat
  client_id_ : List Nat
  client_id_length_buf_ : List Nat
  will_topic_ : List Nat
  will_topic_length_buf_ : List Nat
  will_message_ : List Nat
  will_message_length_buf_ : List Nat
  user_name_ : List Nat
  user_name_length_buf_ : List Nat
  password_ : List Nat
  password_length_buf_ : List Nat
  keep_alive_buf_ : List Nat
  deriving DecidableEq

namespace connect_packet

/-- The bytes 00 04 'M' 'Q' 'T' 'T' 04: protocol name and protocol level of
MQTT 3.1.1. -/
def protocol_name_and_level : List Nat := [0x00, 0x04, 0x4D, 0x51, 0x54, 0x54, 0x04]

/-- Modelled from the spec: a length-prefixed string of the constructor, which
must fit a two-byte length and, where the wire protocol asks for a UTF-8
string, be valid UTF-8. The result is the two-byte length buffer. -/
def new.field (check_utf8 : Bool) (what : String) (s : List Nat) :
    Except packet_exception (List Nat) :=
  match numeric_cast_or_throw 16 s.length with
  | .error x => .error x
  | .ok n =>
    if check_utf8 && !utf8string_check s then
      .error (make_error .bad_message ("v3_1_1::connect_packet " ++ what ++ " invalid utf8"))
    else .ok (endian_static_vector n)

/-- Modelled from the spec: an optional length-prefixed string of the
constructor; the result is the length buffer and the string, both empty for an
absent string. -/
def new.optional_field (check_utf8 : Bool) (what : String) :
    Option (List Nat) → Except packet_exception (List Nat × List Nat)
  | none => .ok ([], [])
  | some s =>
    match new.field check_utf8 what s with
    | .error x => .error x
    | .ok length_buf => .ok (length_buf, s)

/-- Modelled from the spec: the connect flags the constructor computes. -/
def new.connect_flags (clean_session : Bool) (w : Option will)
    (user_name password : Option (List Nat)) : Nat :=
  let flags0 := if clean_session then connect_flags.mask_clean_session else 0
  let flags1 := if user_name.isSome then flags0 ||| connect_flags.mask_user_name_flag
    else flags0
  let flags2 := if password.isSome then flags1 ||| connect_flags.mask_password_flag
    else flags1
  match w with
  | none => flags2
  | some w =>
    let flags3 := flags2 ||| connect_flags.mask_will_flag
    let flags4 := if w.get_retain then flags3 ||| connect_flags.mask_will_retain else flags3
    connect_flags.set_will_qos flags4 w.get_qos

/-- Modelled from the spec: the constructor `connect_packet(clean_session,
keep_alive, client_id, will, user_name, password)`, which throws when a string
does not fit its length field or is not valid UTF-8 where UTF-8 is asked
for. -/
def new (clean_session : Bool) (keep_alive : Nat) (client_id : List Nat) (w : Option will)
    (user_name password : Option (List Nat)) : Except packet_exception connect_packet :=
  match new.field true "client_id" client_id with
  | .error x => .error x
  | .ok client_id_length_buf_ =>
    match new.optional_field true "user_name" user_name with
    | .error x => .error x
    | .ok (user_name_length_buf_, user_name_) =>
      match new.optional_field false "password" password with
      | .error x => .error x
      | .ok (password_length_buf_, password_) =>
        match new.optional_field true "will topic" (w.map will.topic) with
        | .error x => .error x
        | .ok (will_topic_length_buf_, will_topic_) =>
          match new.optional_field false "will message" (w.map will.message) with
          | .error x => .error x
          | .ok (will_message_length_buf_, will_message_) =>
            let remaining_length_ :=
              2 + 4 + 1 + 1 + 2 + (2 + client_id.length)
                + (will_topic_length_buf_.length + will_topic_.length)
                + (will_message_length_buf_.length + will_message_.length)
                + (user_name_length_buf_.length + user_name_.length)
                + (password_length_buf_.length + password_.length)
            .ok { fixed_header_ := make_fixed_header .connect 0b0000
                  connect_flags_ := new.connect_flags clean_session w user_name password
                  remaining_length_
                  remaining_length_buf_ := val_to_variable_bytes remaining_length_
                  protocol_name_and_level_ := protocol_name_and_level
                  client_id_ := client_id
                  client_id_length_buf_
                  will_topic_, will_topic_length_buf_
                  will_message_, will_message_length_buf_
                  user_name_, user_name_length_buf_
                  password_, password_length_buf_
                  keep_alive_buf_ := endian_static_vector keep_alive }

/-- Modelled from the spec: the member `const_buffer_sequence()`; the buffers
of will, user name and password are there when the flags say so. -/
def const_buffer_sequence (p : connect_packet) : List (List Nat) :=
  [[p.fixed_header_], p.remaining_length_buf_, p.protocol_name_and_level_,
    [p.connect_flags_], p.keep_alive_buf_, p.client_id_length_buf_, p.client_id_]
    ++ (if connect_flags.has_will_flag p.connect_flags_ then
          [p.will_topic_length_buf_, p.will_topic_, p.will_message_length_buf_,
            p.will_message_]
        else [])
    ++ (if connect_flags.has_user_name_flag p.connect_flags_ then
          [p.user_name_length_buf_, p.user_name_]
        else [])
    ++ (if connect_flags.has_password_flag p.connect_flags_ then
          [p.password_length_buf_, p.password_]
        else [])

/-- Modelled from the spec: the member `size()`. -/
def size (p : connect_packet) : Nat :=
  1 + p.remaining_length_buf_.length + p.remaining_length_

/-- Modelled from the spec: the member `num_of_const_buffer_sequence()`. -/
def num_of_const_buffer_sequence (p : connect_packet) : Nat :=
  1 + 1 + 1 + 1 + 1 + 2
    + (if connect_flags.has_will_flag p.connect_flags_ then 4 else 0)
    + (if connect_flags.has_user_name_flag p.connect_flags_ then 2 else 0)
    + (if connect_flags.has_password_flag p.connect_flags_ then 2 else 0)

/-- Modelled from the spec: the member `clean_session()`. -/
def clean_session (p : connect_packet) : Bool :=
  connect_flags.is_clean_session p.connect_flags_

/-- Modelled from the spec: the member `keep_alive()`. -/
def keep_alive (p : connect_packet) : Nat := endian_load p.keep_alive_buf_

/-- Modelled from the spec: the member `client_id()`. -/
def client_id (p : connect_packet) : List Nat := p.client_id_

/-- Modelled from the spec: the member `get_will()`, the will made of the
stored topic and message and of the QoS and retain bits of the flags. -/
def get_will (p : connect_packet) : Option will :=
  if connect_flags.has_will_flag p.connect_flags_ then
    some ⟨p.will_topic_, p.will_message_,
      pub.opts.of false (connect_flags.will_qos p.connect_flags_)
        (connect_flags.will_retain p.connect_flags_)⟩
  else none

/-- Modelled from the spec: the member `user_name()`. -/
def user_name (p : connect_packet) : Option (List Nat) :=
  if connect_flags.has_user_name_flag p.connect_flags_ then some p.user_name_ else none

/-- Modelled from the spec: the member `password()`. -/
def password (p : connect_packet) : Option (List Nat) :=
  if connect_flags.has_password_flag p.connect_flags_ then some p.password_ else none

/-- Modelled from the spec: a length-prefixed string of the decoder: the
two-byte length, then that many bytes, valid UTF-8 where asked for. The result
is the length buffer, the string and the rest of the buffer. -/
def from_buffer.field (check_utf8 : Bool) (what : String) (buf : List Nat) :
    Except packet_exception (List Nat × List Nat × List Nat) :=
  match insert_advance 2 buf with
  | none =>
    .error (make_error .bad_message
      ("v3_1_1::connect_packet length of " ++ what ++ " is invalid"))
  | some (length_buf, buf1) =>
    let length := endian_load length_buf
    if buf1.length < length then
      .error (make_error .bad_message
        ("v3_1_1::connect_packet " ++ what ++ " doesn't match its length"))
    else
      let s := buf1.take length
      if check_utf8 && !utf8string_check s then
        .error (make_error .bad_message ("v3_1_1::connect_packet " ++ what ++ " invalid utf8"))
      else .ok (length_buf, s, buf1.drop length)

/-- Modelled from the spec: a length-prefixed string of the decoder that is
there when its flag is set. -/
def from_buffer.optional_field (flag : Bool) (check_utf8 : Bool) (what : String)
    (buf : List Nat) : Except packet_exception (List Nat × List Nat × List Nat) :=
  if flag then from_buffer.field check_utf8 what buf else .ok ([], [], buf)

/-- Modelled from the spec: the decoding constructor `connect_packet(buffer)`,
which throws on a malformed buffer: fixed header, remaining length, protocol
name and level, connect flags (reserved bit clear, a valid will QoS with the
will flag, no will QoS and no will retain without it), keep alive, client id,
then will topic and will message, user name and password as the flags say. -/
def from_buffer (buf : List Nat) : Except packet_exception connect_packet :=
  match buf with
  | [] => .error (make_error .bad_message "v3_1_1::connect_packet fixed_header doesn't exist")
  | front :: buf1 =>
    let fixed_header_ := front
    if get_control_packet_type_with_check fixed_header_ ≠ some .connect then
      .error (make_error .bad_message "v3_1_1::connect_packet fixed_header is invalid")
    else
      match insert_advance_variable_length buf1 with
      | none =>
        .error (make_error .bad_message "v3_1_1::connect_packet remaining length is invalid")
      | some (remaining_length_, remaining_length_buf_, buf2) =>
        if remaining_length_ ≠ buf2.length then
          .error (make_error .bad_message
            "v3_1_1::connect_packet remaining length doesn't match buf.size()")
        else
          match insert_advance 7 buf2 with
          | none =>
            .error (make_error .bad_message
              "v3_1_1::connect_packet length of protocol_name or version is invalid")
          | some (protocol_name_and_level_, buf3) =>
            if protocol_name_and_level_ ≠ protocol_name_and_level then
              .error (make_error .bad_message
                "v3_1_1::connect_packet contents of protocol_name or version is invalid")
            else
              match buf3 with
              | [] =>
                .error (make_error .bad_message
                  "v3_1_1::connect_packet connect_flags doesn't exist")
              | connect_flags_ :: buf4 =>
                if connect_flags_ % 2 = 1 then
                  .error (make_error .bad_message
                    "v3_1_1::connect_packet connect_flags reserved bit0 is 1 (must be 0)")
                else if connect_flags.has_will_flag connect_flags_
                    && connect_flags.will_qos connect_flags_ == .reserved then
                  .error (make_error .bad_message "v3_1_1::connect_packet will_qos is invalid")
                else if !connect_flags.has_will_flag connect_flags_
                    && (connect_flags.will_retain connect_flags_
                      || connect_flags.will_qos connect_flags_ != .at_most_once) then
                  .error (make_error .bad_message
                    "v3_1_1::connect_packet combination of will_flag and will options is invalid")
                else
                  match insert_advance 2 buf4 with
                  | none =>
                    .error (make_error .bad_message
                      "v3_1_1::connect_packet keep_alive is invalid")
                  | some (keep_alive_buf_, buf5) =>
                    match from_buffer.field true "client_id" buf5 with
                    | .error x => .error x
                    | .ok (client_id_length_buf_, client_id_, buf6) =>
                      match from_buffer.optional_field
                          (connect_flags.has_will_flag connect_flags_) true "will topic"
                          buf6 with
                      | .error x => .error x
                      | .ok (will_topic_length_buf_, will_topic_, buf7) =>
                        match from_buffer.optional_field
                            (connect_flags.has_will_flag connect_flags_) false "will message"
                            buf7 with
                        | .error x => .error x
                        | .ok (will_message_length_buf_, will_message_, buf8) =>
                          match from_buffer.optional_field
                              (connect_flags.has_user_name_flag connect_flags_) true
                              "user_name" buf8 with
                          | .error x => .error x
                          | .ok (user_name_length_buf_, user_name_, buf9) =>
                            match from_buffer.optional_field
                                (connect_flags.has_password_flag connect_flags_) false
                                "password" buf9 with
                            | .error x => .error x
                            | .ok (password_length_buf_, password_, _) =>
                              .ok { fixed_header_, connect_flags_, remaining_length_,
                                    remaining_length_buf_, protocol_name_and_level_,
                                    client_id_, client_id_length_buf_,
                                    will_topic_, will_topic_length_buf_,
                                    will_message_, will_message_length_buf_,
                                    user_name_, user_name_length_buf_,
                                    password_, password_length_buf_, keep_alive_buf_ }

end connect_packet

end v3_1_1

/-- A length-prefixed string in the words of the specification: the two-byte
big-endian length followed by the bytes. -/
def length_prefixed (s : List Nat) : List Nat :=
  endian_store 2 s.length ++ s

/-- An optional length-prefixed string on the wire: nothing when it is
absent. -/
def length_prefixed_opt : Option (List Nat) → List Nat
  | none => []
  | some s => length_prefixed s

/-! ## v5 PUBREL (`packet/v5_pubrel.hpp`, declared outside the available sources) -/

/-- Modelled from the spec: the property functions a PUBREL packet uses. Next
to the functions of `property_functions`, the predicate `validate_property`
and the decoder `make_properties` at `property_location::pubrel`; the
property types are declared outside the available sources and are taken as a
parameter. -/
structure pubrel_property_functions (property : Type) extends
    property_functions property where
  validate_property_pubrel : Nat → Bool
  make_properties_pubrel : List Nat → Except packet_exception (List property)

/-- The property functions of PUBREL without any property: only the empty
property section can be decoded. -/
def no_pubrel_property_functions : pubrel_property_functions Empty where
  toproperty_functions := no_property_functions
  validate_property_pubrel := fun _ => false
  make_properties_pubrel := fun buf =>
    if buf.isEmpty then .ok [] else .error (make_error .bad_message "property is invalid")

namespace v5

/-- Modelled from the spec: the enumeration `pubrel_reason_code` is declared
outside the available sources; the unit test names `success` (0x00) and
`packet_identifier_not_found` (0x92), the two reason codes of a PUBREL. -/
inductive pubrel_reason_code where
  | success
  | packet_identifier_not_found
  deriving DecidableEq, Repr

/-- The byte a `pubrel_reason_code` stands for. -/
def pubrel_reason_code.toNat : pubrel_reason_code → Nat
  | .success => 0x00
  | .packet_identifier_not_found => 0x92

/-- Modelled from the spec: the data members of
`basic_pubrel_packet<PacketIdBytes>`, which is declared outside the available
sources. The reason code is optional, and the property length buffer is empty
when the packet has no property length on the wire. -/
structure basic_pubrel_packet (property : Type) (PacketIdBytes : Nat) where
  fixed_header_ : Nat
  remaining_length_ : Nat
  remaining_length_buf_ : List Nat
  packet_id_ : List Nat
  reason_code_ : Option pubrel_reason_code
  property_length_ : Nat
  property_length_buf_ : List Nat
  props_ : List property
  deriving DecidableEq

namespace basic_pubrel_packet

/-- Modelled from the spec: the loop of the constructor over the properties;
every property must be allowed in a PUBREL. -/
def new.check_props {property : Type} (pf : pubrel_property_functions property) :
    List property → Except packet_exception Unit
  | [] => .ok ()
  | prop :: rest =>
    if !pf.validate_property_pubrel (pf.id prop) then
      .error (make_error .bad_message
        ("v5::pubrel_packet property " ++ pf.id_to_str (pf.id prop) ++ " is not allowed"))
    else new.check_props pf rest

/-- Modelled from the spec: the constructor all public constructors delegate
to, from a packet id, an optional reason code and the properties. The
remaining length counts the packet id; the reason code when there is one; and
the property length and the properties when there is a reason code and the
property list is not empty. The fixed header is PUBREL with the flags
`0b0010`. -/
def new {property : Type} (pf : pubrel_property_functions property) (PacketIdBytes : Nat)
    (packet_id : Nat) (reason_code : Option pubrel_reason_code) (props : List property) :
    Except packet_exception (basic_pubrel_packet property PacketIdBytes) :=
  let fixed_header_ := make_fixed_header .pubrel 0b0010
  let remaining_length_0 := PacketIdBytes
  let packet_id_ := endian_store PacketIdBytes packet_id
  let reason_code_ := reason_code
  let property_length_ := pf.size props
  let props_ := props
  if reason_code_.isNone then
    match numeric_cast_or_throw 32 remaining_length_0 with
    | .error x => .error x
    | .ok rl =>
      .ok { fixed_header_, remaining_length_ := remaining_length_0,
            remaining_length_buf_ := val_to_variable_bytes rl, packet_id_, reason_code_,
            property_length_, property_length_buf_ := [], props_ }
  else
    let remaining_length_1 := remaining_length_0 + 1
    if props_.isEmpty then
      match numeric_cast_or_throw 32 remaining_length_1 with
      | .error x => .error x
      | .ok rl =>
        .ok { fixed_header_, remaining_length_ := remaining_length_1,
              remaining_length_buf_ := val_to_variable_bytes rl, packet_id_, reason_code_,
              property_length_, property_length_buf_ := [], props_ }
    else
      match numeric_cast_or_throw 32 property_length_ with
      | .error x => .error x
      | .ok pl =>
        let property_length_buf_ := val_to_variable_bytes pl
        match new.check_props pf props_ with
        | .error x => .error x
        | .ok () =>
          let remaining_length_ :=
            remaining_length_1 + (property_length_buf_.length + property_length_)
          match numeric_cast_or_throw 32 remaining_length_ with
          | .error x => .error x
          | .ok rl =>
            .ok { fixed_header_, remaining_length_,
                  remaining_length_buf_ := val_to_variable_bytes rl, packet_id_,
                  reason_code_, property_length_, property_length_buf_, props_ }

/-- Modelled from the spec: the constructor `basic_pubrel_packet(packet_id)`,
which leaves out the reason code and the properties. -/
def new_packet_id {property : Type} (pf : pubrel_property_functions property)
    (PacketIdBytes : Nat) (packet_id : Nat) :
    Except packet_exception (basic_pubrel_packet property PacketIdBytes) :=
  new pf PacketIdBytes packet_id none []

/-- Modelled from the spec: the constructor
`basic_pubrel_packet(packet_id, reason_code)`, without properties. -/
def new_reason_code {property : Type} (pf : pubrel_property_functions property)
    (PacketIdBytes : Nat) (packet_id : Nat) (reason_code : pubrel_reason_code) :
    Except packet_exception (basic_pubrel_packet property PacketIdBytes) :=
  new pf PacketIdBytes packet_id (some reason_code) []

/-- Modelled from the spec: the constructor
`basic_pubrel_packet(packet_id, reason_code, props)`. -/
def new_props {property : Type} (pf : pubrel_property_functions property)
    (PacketIdBytes : Nat) (packet_id : Nat) (reason_code : pubrel_reason_code)
    (props : List property) :
    Except packet_exception (basic_pubrel_packet property PacketIdBytes) :=
  new pf PacketIdBytes packet_id (some reason_code) props

/-- Modelled from the spec: the member `const_buffer_sequence()`. The reason
code is emitted when the packet has one, and the property length and the
properties when in addition the property length buffer is not empty. -/
def const_buffer_sequence {property : Type} {W : Nat} (pf : pubrel_property_functions property)
    (p : basic_pubrel_packet property W) : List (List Nat) :=
  [[p.fixed_header_], p.remaining_length_buf_, p.packet_id_]
    ++ (match p.reason_code_ with
        | none => []
        | some rc =>
          [rc.toNat] ::
            (if p.property_length_buf_.length ≠ 0 then
              p.property_length_buf_ :: pf.const_buffer_sequence p.props_
             else []))

/-- Modelled from the spec: the member `size()`. -/
def size {property : Type} {W : Nat} (p : basic_pubrel_packet property W) : Nat :=
  1 + p.remaining_length_buf_.length + p.remaining_length_

/-- Modelled from the spec: the member `num_of_const_buffer_sequence()`. -/
def num_of_const_buffer_sequence {property : Type} {W : Nat}
    (pf : pubrel_property_functions property) (p : basic_pubrel_packet property W) : Nat :=
  1 + 1 + 1
    + (if p.reason_code_.isSome then
        1 + (if p.property_length_buf_.length = 0 then 0
             else 1 + pf.num_of_const_buffer_sequence p.props_)
       else 0)

/-- Modelled from the spec: the member `packet_id()`. -/
def packet_id {property : Type} {W : Nat} (p : basic_pubrel_packet property W) : Nat :=
  endian_load p.packet_id_

/-- Modelled from the spec: the member `code()`; a packet without a reason
code reports `success`. -/
def code {property : Type} {W : Nat} (p : basic_pubrel_packet property W) :
    pubrel_reason_code :=
  match p.reason_code_ with
  | some rc => rc
  | none => .success

/-- Modelled from the spec: the member `props()`. -/
def props {property : Type} {W : Nat} (p : basic_pubrel_packet property W) :
    List property :=
  p.props_

/-- Modelled from the spec: the decoding constructor
`basic_pubrel_packet(buffer buf)`, which throws on a malformed buffer. After
the packet id the packet may end (no reason code), or hold a reason code and
end (no property length), or hold a reason code, a property length and the
properties; the decoder keeps which of them were there. -/
def from_buffer {property : Type} (pf : pubrel_property_functions property)
    (PacketIdBytes : Nat) (buf : List Nat) :
    Except packet_exception (basic_pubrel_packet property PacketIdBytes) :=
  match buf with
  | [] => .error (make_error .bad_message "v5::pubrel_packet fixed_header doesn't exist")
  | front :: buf1 =>
    let fixed_header_ := front
    if get_control_packet_type_with_check fixed_header_ ≠ some .pubrel then
      .error (make_error .bad_message "v5::pubrel_packet fixed_header is invalid")
    else
      match insert_advance_variable_length buf1 with
      | none =>
        .error (make_error .bad_message "v5::pubrel_packet remaining length is invalid")
      | some (remaining_length_, remaining_length_buf_, buf2) =>
        if remaining_length_ ≠ buf2.length then
          .error (make_error .bad_message
            "v5::pubrel_packet remaining length doesn't match buf.size()")
        else
          match copy_advance PacketIdBytes buf2 with
          | none =>
            .error (make_error .bad_message "v5::pubrel_packet packet_id doesn't exist")
          | some (packet_id_, buf3) =>
            match buf3 with
            | [] =>
              .ok { fixed_header_, remaining_length_, remaining_length_buf_, packet_id_,
                    reason_code_ := none, property_length_ := 0,
                    property_length_buf_ := [], props_ := [] }
            | rc :: buf4 =>
              let reason_code_opt : Option pubrel_reason_code :=
                if rc = 0x00 then some .success
                else if rc = 0x92 then some .packet_identifier_not_found
                else none
              match reason_code_opt with
              | none =>
                .error (make_error .bad_message
                  "v5::pubrel_packet pubrel reason_code is invalid")
              | some reason_code =>
                if buf4.isEmpty then
                  .ok { fixed_header_, remaining_length_, remaining_length_buf_, packet_id_,
                        reason_code_ := some reason_code, property_length_ := 0,
                        property_length_buf_ := [], props_ := [] }
                else
                  match variable_bytes_to_val buf4 with
                  | none =>
                    .error (make_error .bad_message
                      "v5::pubrel_packet property_length is invalid")
                  | some (property_length_, buf5) =>
                    let property_length_buf_ := buf4.take (buf4.length - buf5.length)
                    if buf5.length ≠ property_length_ then
                      .error (make_error .bad_message
                        "v5::pubrel_packet properties_don't match its length")
                    else
                      match pf.make_properties_pubrel buf5 with
                      | .error x => .error x
                      | .ok props_ =>
                        .ok { fixed_header_, remaining_length_, remaining_length_buf_,
                              packet_id_, reason_code_ := some reason_code,
                              property_length_, property_length_buf_, props_ }

end basic_pubrel_packet

end v5

/-! ## Lemmas on the wire helpers -/

theorem endian_load_foldl (n v acc : Nat) :
    (endian_store n v).foldl (fun acc b => acc * 256 + b % 256) acc
      = acc * 256 ^ n + v % 256 ^ n := by
  induction n generalizing acc with
  | zero => simp [endian_store, Nat.mod_one]
  | succ n ih =>
    simp only [endian_store, List.foldl_cons, ih, Nat.mod_mod]
    rw [Nat.mod_pow_succ]
    ring

theorem endian_load_store (n v : Nat) : endian_load (endian_store n v) = v % 256 ^ n := by
  simp [endian_load, endian_load_foldl]

theorem endian_store_length (n v : Nat) : (endian_store n v).length = n := by
  induction n with
  | zero => rfl
  | succ n ih => simp [endian_store, ih]

theorem variable_bytes_go_roundtrip (n : Nat) :
    ∀ (val acc mul : Nat) (rest : List Nat), val < 128 ^ (n + 1) →
      variable_bytes_to_val.go (n + 1) (val_to_variable_bytes.go (n + 1) val ++ rest) acc mul
        = some (acc + val * mul, rest) := by
  induction n with
  | zero =>
    intro val acc mul rest h
    have h1 : val < 128 := by simpa using h
    have h2 : ¬ val > 127 := by omega
    have h3 : val / 128 % 2 = 0 := by omega
    have h4 : val % 128 = val := by omega
    simp [val_to_variable_bytes.go, variable_bytes_to_val.go, h2, h3, h4]
  | succ n ih =>
    intro val acc mul rest h
    by_cases hv : val > 127
    · have hdiv : val / 128 < 128 ^ (n + 1) := by
        rw [Nat.div_lt_iff_lt_mul (by norm_num)]
        calc val < 128 ^ (n + 1 + 1) := h
          _ = 128 ^ (n + 1) * 128 := by ring
      have h3 : ¬ ((val % 128 + 128) / 128 % 2 = 0) := by omega
      have h4 : (val % 128 + 128) % 128 = val % 128 := by omega
      rw [val_to_variable_bytes.go]
      simp only [hv, if_true, List.cons_append]
      rw [variable_bytes_to_val.go]
      simp only [h3, if_false, h4]
      rw [ih _ _ _ _ hdiv]
      congr 2
      have := Nat.mod_add_div val 128
      calc acc + val % 128 * mul + val / 128 * (mul * 128)
          = acc + (val % 128 + 128 * (val / 128)) * mul := by ring
        _ = acc + val * mul := by rw [this]
    · have h3 : val / 128 % 2 = 0 := by omega
      have h4 : val % 128 = val := by omega
      rw [val_to_variable_bytes.go]
      simp only [hv, if_false, List.singleton_append]
      rw [variable_bytes_to_val.go]
      simp [h3, h4]

theorem variable_bytes_roundtrip (val : Nat) (rest : List Nat) (h : val ≤ 0xfffffff) :
    variable_bytes_to_val (val_to_variable_bytes val ++ rest) = some (val, rest) := by
  have h1 : ¬ val > 0xfffffff := by omega
  have h2 : val < 128 ^ (3 + 1) := by norm_num; omega
  simp only [variable_bytes_to_val, val_to_variable_bytes, h1, if_false]
  rw [variable_bytes_go_roundtrip 3 val 0 1 rest h2]
  simp

theorem variable_bytes_go_suffix (n : Nat) :
    ∀ (buf : List Nat) (acc mul v : Nat) (rest : List Nat),
      variable_bytes_to_val.go n buf acc mul = some (v, rest) →
      ∃ pre, buf = pre ++ rest ∧ pre.length ≤ n ∧ 0 < pre.length := by
  induction n with
  | zero => intro buf acc mul v rest h; simp [variable_bytes_to_val.go] at h
  | succ n ih =>
    intro buf acc mul v rest h
    cases buf with
    | nil => simp [variable_bytes_to_val.go] at h
    | cons b tl =>
      rw [variable_bytes_to_val.go] at h
      split at h
      · simp only [Option.some.injEq, Prod.mk.injEq] at h
        exact ⟨[b], by simp [h.2], by simp, by simp⟩
      · obtain ⟨pre, hpre, hlen, _⟩ := ih _ _ _ _ _ h
        exact ⟨b :: pre, by simp [hpre], by simp; omega, by simp⟩

theorem insert_advance_variable_length_parts (buf : List Nat) (v : Nat) (rl rest : List Nat)
    (h : insert_advance_variable_length buf = some (v, rl, rest)) :
    buf = rl ++ rest ∧ rl.length ≤ 4 ∧ 0 < rl.length := by
  unfold insert_advance_variable_length at h
  cases hv : variable_bytes_to_val buf with
  | none => simp [hv] at h
  | some r =>
    obtain ⟨v1, rest1⟩ := r
    simp only [hv, Option.some.injEq, Prod.mk.injEq] at h
    obtain ⟨pre, hpre, hlen, hpos⟩ := variable_bytes_go_suffix 4 buf 0 1 v1 rest1 hv
    obtain ⟨_, h2, h3⟩ := h
    subst h3
    subst hpre
    simp at h2
    subst h2
    exact ⟨rfl, hlen, hpos⟩

theorem insert_advance_variable_length_roundtrip (val : Nat) (rest : List Nat)
    (h : val ≤ 0xfffffff) :
    insert_advance_variable_length (val_to_variable_bytes val ++ rest)
      = some (val, val_to_variable_bytes val, rest) := by
  simp [insert_advance_variable_length, variable_bytes_roundtrip val rest h]


open v3_1_1 v3_1_1.basic_publish_packet

theorem opts_of_get_qos (d : Bool) (q : qos) (r : Bool) : (pub.opts.of d q r).get_qos = q := by
  cases d <;> cases q <;> cases r <;> decide

theorem opts_of_get_dup (d : Bool) (q : qos) (r : Bool) : (pub.opts.of d q r).get_dup = d := by
  cases d <;> cases q <;> cases r <;> decide

theorem opts_of_get_retain (d : Bool) (q : qos) (r : Bool) :
    (pub.opts.of d q r).get_retain = r := by
  cases d <;> cases q <;> cases r <;> decide

theorem foldl_payload_length (payloads : List (List Nat)) (a : Nat) :
    payloads.foldl (fun acc payload => acc + payload.length) a
      = a + (payloads.map List.length).sum := by
  induction payloads generalizing a with
  | nil => simp
  | cons x xs ih => simp [ih]; omega

/-- What the constructor from fields does once the topic passes its checks and
the remaining length fits 32 bits: only the QoS switch is left. -/
theorem new_eq (W p : Nat) (topic : List Nat) (payloads : List (List Nat)) (o : pub.opts)
    (htopic : utf8string_check topic = true) (hlen : topic.length ≤ 65535)
    (hR : 2 + topic.length
        + (if o.get_qos = .at_least_once ∨ o.get_qos = .exactly_once then W else 0)
        + (payloads.map List.length).sum < 2 ^ 32) :
    new W p topic payloads o =
      match o.get_qos with
      | .at_most_once =>
        if p ≠ 0 then .error (.system_error .protocol_error)
        else .ok
          { fixed_header_ := make_fixed_header .publish 0 ||| o.data_,
            topic_name_ := topic,
            topic_name_length_buf_ := endian_store 2 topic.length,
            packet_id_ := endian_store W 0,
            payloads_ := payloads,
            remaining_length_ := 2 + topic.length
              + (if o.get_qos = .at_least_once ∨ o.get_qos = .exactly_once then W else 0)
              + (payloads.map List.length).sum,
            remaining_length_buf_ := val_to_variable_bytes (2 + topic.length
              + (if o.get_qos = .at_least_once ∨ o.get_qos = .exactly_once then W else 0)
              + (payloads.map List.length).sum) }
      | .at_least_once | .exactly_once =>
        if p = 0 then .error (.system_error .protocol_error)
        else .ok
          { fixed_header_ := make_fixed_header .publish 0 ||| o.data_,
            topic_name_ := topic,
            topic_name_length_buf_ := endian_store 2 topic.length,
            packet_id_ := endian_store W p,
            payloads_ := payloads,
            remaining_length_ := 2 + topic.length
              + (if o.get_qos = .at_least_once ∨ o.get_qos = .exactly_once then W else 0)
              + (payloads.map List.length).sum,
            remaining_length_buf_ := val_to_variable_bytes (2 + topic.length
              + (if o.get_qos = .at_least_once ∨ o.get_qos = .exactly_once then W else 0)
              + (payloads.map List.length).sum) }
      | .reserved => .error (.system_error .malformed_packet) := by
  have h16 : topic.length < 2 ^ 16 := by norm_num; omega
  unfold new
  simp only [numeric_cast, h16, if_true, htopic, foldl_payload_length, hR]
  cases o.get_qos <;> simp

/-- What the decoder does on a frame whose header is a PUBLISH header, whose
remaining length is consistent and whose topic is complete and passes the
UTF-8 check: only the QoS switch is left. -/
theorem from_buffer_frame (W h : Nat) (rl topic tail : List Nat)
    (hh : get_control_packet_type_with_check h = some .publish)
    (hrl : insert_advance_variable_length
        (rl ++ (endian_store 2 topic.length ++ (topic ++ tail)))
      = some ((endian_store 2 topic.length ++ (topic ++ tail)).length, rl,
          endian_store 2 topic.length ++ (topic ++ tail)))
    (htopic : utf8string_check topic = true) (hlen : topic.length ≤ 65535) :
    from_buffer W (h :: (rl ++ (endian_store 2 topic.length ++ (topic ++ tail)))) =
      match pub.get_qos h with
      | .at_most_once =>
        .ok
          { fixed_header_ := h, topic_name_ := topic,
            topic_name_length_buf_ := endian_store 2 topic.length,
            packet_id_ := endian_store W 0,
            payloads_ := if tail.isEmpty then [] else [tail],
            remaining_length_ := (endian_store 2 topic.length ++ (topic ++ tail)).length,
            remaining_length_buf_ := rl }
      | .at_least_once | .exactly_once =>
        match copy_advance W tail with
        | none => .error .protocol_error
        | some (packet_id_, buf5) =>
          .ok
            { fixed_header_ := h, topic_name_ := topic,
              topic_name_length_buf_ := endian_store 2 topic.length,
              packet_id_,
              payloads_ := if buf5.isEmpty then [] else [buf5],
              remaining_length_ := (endian_store 2 topic.length ++ (topic ++ tail)).length,
              remaining_length_buf_ := rl }
      | .reserved => .error .malformed_packet := by
  have hmod : topic.length % 256 ^ 2 = topic.length := Nat.mod_eq_of_lt (by norm_num; omega)
  have hes : (endian_store 2 topic.length).length = 2 := endian_store_length 2 _
  have htake : List.take 2 (endian_store 2 topic.length ++ (topic ++ tail))
      = endian_store 2 topic.length := by
    rw [List.take_append_of_le_length (by omega)]
    exact List.take_of_length_le (by omega)
  have hdrop : List.drop 2 (endian_store 2 topic.length ++ (topic ++ tail))
      = topic ++ tail := by
    rw [List.drop_append_of_le_length (by omega)]
    rw [List.drop_of_length_le (by omega)]
    rfl
  unfold from_buffer
  simp only [hh, ne_eq, not_true_eq_false, if_false, hrl, insert_advance]
  have hlt : ¬ (endian_store 2 topic.length ++ (topic ++ tail)).length < 2 := by
    simp [hes]
  simp only [hlt, if_false, htake, hdrop, endian_load_store, hmod]
  simp only [List.length_append, List.take_left', List.drop_left', htopic]
  simp


theorem payload_of_decoded (tail : List Nat) :
    (if tail.isEmpty then ([] : List (List Nat)) else [tail]).flatten = tail := by
  cases tail <;> simp

theorem copy_advance_append (W : Nat) (pre rest : List Nat) (h : pre.length = W) :
    copy_advance W (pre ++ rest) = some (pre, rest) := by
  subst h
  simp [copy_advance]

/-- The wire form of a packet whose packet-id element is emitted or not. -/
theorem wire_eq {W : Nat} (p : basic_publish_packet W) :
    p.wire = p.fixed_header_ :: (p.remaining_length_buf_ ++ (p.topic_name_length_buf_
      ++ (p.topic_name_ ++ ((if p.packet_id ≠ 0 then p.packet_id_ else [])
        ++ p.payloads_.flatten)))) := by
  unfold wire const_buffer_sequence
  by_cases h : p.packet_id = 0 <;> simp [h]

/-- What a successful construction tells: the checks that passed and the
packet that was built. -/
theorem new_ok_inv (W p : Nat) (topic : List Nat) (payloads : List (List Nat)) (o : pub.opts)
    (pkt : basic_publish_packet W) (h : new W p topic payloads o = .ok pkt) :
    utf8string_check topic = true ∧ topic.length < 65536 ∧
    2 + topic.length + (if o.get_qos = .at_most_once then 0 else W)
      + (payloads.map List.length).sum < 4294967296 ∧
    o.get_qos ≠ .reserved ∧ (o.get_qos = .at_most_once ↔ p = 0) ∧
    pkt =
      { fixed_header_ := make_fixed_header .publish 0 ||| o.data_,
        topic_name_ := topic,
        topic_name_length_buf_ := endian_store 2 topic.length,
        packet_id_ := endian_store W p,
        payloads_ := payloads,
        remaining_length_ := 2 + topic.length + (if o.get_qos = .at_most_once then 0 else W)
          + (payloads.map List.length).sum,
        remaining_length_buf_ := val_to_variable_bytes
          (2 + topic.length + (if o.get_qos = .at_most_once then 0 else W)
            + (payloads.map List.length).sum) } := by
  by_cases h16 : topic.length < 65536
  swap
  · simp [new, numeric_cast, h16] at h
  by_cases hu : utf8string_check topic = true
  swap
  · simp [new, numeric_cast, h16, hu] at h
  by_cases hR : 2 + topic.length
        + (if o.get_qos = .at_least_once ∨ o.get_qos = .exactly_once then W else 0)
        + (payloads.map List.length).sum < 4294967296
  swap
  · simp [new, numeric_cast, h16, hu, foldl_payload_length, hR] at h
  rw [new_eq W p topic payloads o hu (by omega) (by norm_num; exact hR)] at h
  cases hq : o.get_qos <;> simp only [hq] at h hR ⊢
  · by_cases hp : p = 0
    · subst hp
      simp at h hR ⊢
      exact ⟨hu, h16, hR, h.symm⟩
    · simp [hp] at h
  · by_cases hp : p = 0
    · simp [hp] at h
    · simp [hp] at h hR ⊢
      exact ⟨hu, h16, hR, h.symm⟩
  · by_cases hp : p = 0
    · simp [hp] at h
    · simp [hp] at h hR ⊢
      exact ⟨hu, h16, hR, h.symm⟩
  · simp at h


theorem insert_advance_append (n : Nat) (pre rest : List Nat) (h : pre.length = n) :
    insert_advance n (pre ++ rest) = some (pre, rest) := by
  subst h
  simp [insert_advance]

theorem insert_advance_parts (n : Nat) (buf a b : List Nat)
    (h : insert_advance n buf = some (a, b)) : buf = a ++ b ∧ a.length = n := by
  unfold insert_advance at h
  split at h
  · simp at h
  · simp only [Option.some.injEq, Prod.mk.injEq] at h
    obtain ⟨h1, h2⟩ := h
    subst h1 h2
    exact ⟨(List.take_append_drop n buf).symm, by simp; omega⟩

theorem copy_advance_parts (n : Nat) (buf a b : List Nat)
    (h : copy_advance n buf = some (a, b)) : buf = a ++ b ∧ a.length = n :=
  insert_advance_parts n buf a b h

/-- Every buffer the decoder accepts has `size()` bytes, and the decoded
packet re-encodes to the buffer when its QoS is 0 or its packet id is not
zero. -/
theorem from_buffer_reencode (W : Nat) (b : List Nat) (pkt : basic_publish_packet W)
    (h : from_buffer W b = .ok pkt) :
    pkt.size = b.length ∧
    (pkt.opts.get_qos = .at_most_once ∨ pkt.packet_id ≠ 0 → pkt.wire = b) := by
  unfold from_buffer at h
  cases b with
  | nil => simp at h
  | cons front buf1 =>
    simp only at h
    split at h
    · simp at h
    · cases hv : insert_advance_variable_length buf1 with
      | none => simp [hv] at h
      | some r1 =>
        obtain ⟨R, rl, buf2⟩ := r1
        obtain ⟨hb1, _, _⟩ := insert_advance_variable_length_parts buf1 R rl buf2 hv
        simp only [hv] at h
        split at h
        · simp at h
        · rename_i hR
          cases ht : insert_advance 2 buf2 with
          | none => simp [ht] at h
          | some r2 =>
            obtain ⟨tl, buf3⟩ := r2
            obtain ⟨hb2, _⟩ := insert_advance_parts 2 buf2 tl buf3 ht
            simp only [ht] at h
            split at h
            · simp at h
            · split at h
              · simp at h
              · have hb3 : buf3 = buf3.take (endian_load tl) ++ buf3.drop (endian_load tl) :=
                  (List.take_append_drop _ _).symm
                have hR2 : R = buf2.length := by
                  by_contra hne
                  exact hR hne
                cases hq : pub.get_qos front with
                | at_most_once =>
                  simp only [hq, Except.ok.injEq] at h
                  subst h
                  refine ⟨?_, fun _ => ?_⟩
                  · simp [size, hb1, hR2]
                    omega
                  · rw [wire_eq]
                    simp only [packet_id, endian_load_store, Nat.zero_mod, ne_eq,
                      not_true_eq_false, if_false, List.nil_append, payload_of_decoded]
                    rw [← hb3, ← hb2, ← hb1]
                | at_least_once =>
                  simp only [hq] at h
                  cases hc : copy_advance W (buf3.drop (endian_load tl)) with
                  | none => simp [hc] at h
                  | some r5 =>
                    obtain ⟨pid, buf5⟩ := r5
                    obtain ⟨hb4, _⟩ := copy_advance_parts W _ pid buf5 hc
                    simp only [hc, Except.ok.injEq] at h
                    subst h
                    refine ⟨?_, fun hor => ?_⟩
                    · simp [size, hb1, hR2]
                      omega
                    · have hne : endian_load pid ≠ 0 := by
                        rcases hor with h0 | h0
                        · simp [opts, pub.opts.get_qos, hq] at h0
                        · exact h0
                      rw [wire_eq]
                      simp only [packet_id, ne_eq, hne, not_false_eq_true, if_true,
                        payload_of_decoded]
                      rw [← hb4, ← hb3, ← hb2, ← hb1]
                | exactly_once =>
                  simp only [hq] at h
                  cases hc : copy_advance W (buf3.drop (endian_load tl)) with
                  | none => simp [hc] at h
                  | some r5 =>
                    obtain ⟨pid, buf5⟩ := r5
                    obtain ⟨hb4, _⟩ := copy_advance_parts W _ pid buf5 hc
                    simp only [hc, Except.ok.injEq] at h
                    subst h
                    refine ⟨?_, fun hor => ?_⟩
                    · simp [size, hb1, hR2]
                      omega
                    · have hne : endian_load pid ≠ 0 := by
                        rcases hor with h0 | h0
                        · simp [opts, pub.opts.get_qos, hq] at h0
                        · exact h0
                      rw [wire_eq]
                      simp only [packet_id, ne_eq, hne, not_false_eq_true, if_true,
                        payload_of_decoded]
                      rw [← hb4, ← hb3, ← hb2, ← hb1]
                | reserved => simp [hq] at h


theorem make_fixed_header_publish : make_fixed_header .publish 0 = 0x30 := by decide


/-- The decoder on a frame whose header is a PUBLISH header and whose remaining
length is consistent: what is left is the body. -/
theorem from_buffer_body (W h : Nat) (buf1 rl body : List Nat)
    (hh : get_control_packet_type_with_check h = some .publish)
    (hrl : insert_advance_variable_length buf1 = some (body.length, rl, body)) :
    from_buffer W (h :: buf1) =
      match insert_advance 2 body with
      | none => .error .malformed_packet
      | some (topic_name_length_buf_, buf3) =>
        if buf3.length < endian_load topic_name_length_buf_ then .error .malformed_packet
        else if !utf8string_check (buf3.take (endian_load topic_name_length_buf_)) then
          .error .topic_name_invalid
        else
          match pub.get_qos h with
          | .at_most_once =>
            .ok
              { fixed_header_ := h,
                topic_name_ := buf3.take (endian_load topic_name_length_buf_),
                topic_name_length_buf_,
                packet_id_ := endian_store W 0,
                payloads_ :=
                  if (buf3.drop (endian_load topic_name_length_buf_)).isEmpty then []
                  else [buf3.drop (endian_load topic_name_length_buf_)],
                remaining_length_ := body.length, remaining_length_buf_ := rl }
          | .at_least_once | .exactly_once =>
            match copy_advance W (buf3.drop (endian_load topic_name_length_buf_)) with
            | none => .error .protocol_error
            | some (packet_id_, buf5) =>
              .ok
                { fixed_header_ := h,
                  topic_name_ := buf3.take (endian_load topic_name_length_buf_),
                  topic_name_length_buf_,
                  packet_id_,
                  payloads_ := if buf5.isEmpty then [] else [buf5],
                  remaining_length_ := body.length, remaining_length_buf_ := rl }
          | .reserved => .error .malformed_packet := by
  unfold from_buffer
  simp only [hh, ne_eq, not_true_eq_false, if_false, hrl]

theorem insert_advance_topic_length (n : Nat) (rest : List Nat) (hn : n ≤ 65535) :
    insert_advance 2 (endian_store 2 n ++ rest) = some (endian_store 2 n, rest) ∧
    endian_load (endian_store 2 n) = n := by
  constructor
  · exact insert_advance_append 2 (endian_store 2 n) rest (endian_store_length 2 n)
  · rw [endian_load_store]
    exact Nat.mod_eq_of_lt (by norm_num; omega)

theorem variable_bytes_four_continuation (b1 b2 b3 b4 : Nat) (rest : List Nat)
    (h1 : 128 ≤ b1 ∧ b1 < 256) (h2 : 128 ≤ b2 ∧ b2 < 256)
    (h3 : 128 ≤ b3 ∧ b3 < 256) (h4 : 128 ≤ b4 ∧ b4 < 256) :
    insert_advance_variable_length (b1 :: b2 :: b3 :: b4 :: rest) = none := by
  have e1 : ¬ (b1 / 128 % 2 = 0) := by omega
  have e2 : ¬ (b2 / 128 % 2 = 0) := by omega
  have e3 : ¬ (b3 / 128 % 2 = 0) := by omega
  have e4 : ¬ (b4 / 128 % 2 = 0) := by omega
  simp [insert_advance_variable_length, variable_bytes_to_val, variable_bytes_to_val.go,
    e1, e2, e3, e4]
/-- The constructor on a topic that fails the UTF-8 check. -/
theorem new_topic_invalid (W p : Nat) (topic : List Nat) (payloads : List (List Nat))
    (o : pub.opts) (hlen : topic.length ≤ 65535) (hu : utf8string_check topic = false) :
    new W p topic payloads o = .error (.system_error .topic_name_invalid) := by
  have h16 : topic.length < 65536 := by omega
  simp [new, numeric_cast, h16, hu]

/-- The constructor on a topic that passes the UTF-8 check never reports
`topic_name_invalid`. -/
theorem new_topic_valid (W p : Nat) (topic : List Nat) (payloads : List (List Nat))
    (o : pub.opts) (hlen : topic.length ≤ 65535) (hu : utf8string_check topic = true) :
    new W p topic payloads o ≠ .error (.system_error .topic_name_invalid) := by
  by_cases hR : 2 + topic.length
        + (if o.get_qos = .at_least_once ∨ o.get_qos = .exactly_once then W else 0)
        + (payloads.map List.length).sum < 4294967296
  · rw [new_eq W p topic payloads o hu hlen (by norm_num; exact hR)]
    cases o.get_qos <;> by_cases hp : p = 0 <;> simp [hp]
  · have h16 : topic.length < 65536 := by omega
    simp [new, numeric_cast, h16, hu, foldl_payload_length, hR]

/-- The constructor when the remaining length does not fit 32 bits. -/
theorem new_oversize (W p : Nat) (topic : List Nat) (payloads : List (List Nat))
    (o : pub.opts) (hlen : topic.length ≤ 65535) (hu : utf8string_check topic = true)
    (hR : 4294967296 ≤ 2 + topic.length
        + (if o.get_qos = .at_least_once ∨ o.get_qos = .exactly_once then W else 0)
        + (payloads.map List.length).sum) :
    new W p topic payloads o = .error .bad_numeric_cast := by
  have h16 : topic.length < 65536 := by omega
  have hR2 : ¬ (2 + topic.length
        + (if o.get_qos = .at_least_once ∨ o.get_qos = .exactly_once then W else 0)
        + (payloads.map List.length).sum < 4294967296) := by omega
  simp [new, numeric_cast, h16, hu, foldl_payload_length, hR2]

/-- The decoder on a frame whose topic fails or passes the UTF-8 check. -/
theorem from_buffer_topic (W h : Nat) (rl topic tail : List Nat)
    (hh : get_control_packet_type_with_check h = some .publish)
    (hrl : insert_advance_variable_length
        (rl ++ (endian_store 2 topic.length ++ (topic ++ tail)))
      = some ((endian_store 2 topic.length ++ (topic ++ tail)).length, rl,
          endian_store 2 topic.length ++ (topic ++ tail)))
    (hlen : topic.length ≤ 65535) :
    (utf8string_check topic = false →
      from_buffer W (h :: (rl ++ (endian_store 2 topic.length ++ (topic ++ tail))))
        = .error .topic_name_invalid) ∧
    (utf8string_check topic = true →
      from_buffer W (h :: (rl ++ (endian_store 2 topic.length ++ (topic ++ tail))))
        ≠ .error .topic_name_invalid) := by
  obtain ⟨h1, h2⟩ := insert_advance_topic_length topic.length (topic ++ tail) hlen
  constructor
  · intro hu
    rw [from_buffer_body W h _ rl _ hh hrl, h1]
    simp [h2, hu]
  · intro hu
    rw [from_buffer_frame W h rl topic tail hh hrl hu hlen]
    cases pub.get_qos h <;> simp
    all_goals
      cases copy_advance W tail <;> simp

/-- The constructor with QoS 0, packet id 0, the empty topic and one payload
chunk of `n` zero bytes, when `n` is 4294967294 or more. -/
theorem new_oversize_replicate (n : Nat) (hn : 4294967294 ≤ n) :
    new 2 0 [] [List.replicate n 0] (pub.opts.of false .at_most_once false)
      = .error .bad_numeric_cast := by
  apply new_oversize 2 0 [] [List.replicate n 0] _ (by decide) (by decide)
  simp only [List.map, List.sum_cons, List.sum_nil, List.length_replicate,
    List.length_nil, opts_of_get_qos]
  simp
  omega

/-! ## The claims on v3.1.1 PUBLISH -/

/-- C2: size law for a constructed v3.1.1 PUBLISH. For every packet the
constructor from fields returns (packet id of `W` bytes), the byte lengths of
the elements of `const_buffer_sequence()` sum to `size()`, where
`size() = 1 + (number of bytes of the variable-byte encoding of R) + R` and
`R = 2 + |topic| + (W if QoS >= 1 else 0) + sum of the payload chunk lengths`,
and the first byte of the concatenation is the fixed header 0x30 OR'ed with
the publish options byte. -/
theorem publish_size_law (W p : Nat) (topic : List Nat) (payloads : List (List Nat))
    (o : pub.opts) (pkt : basic_publish_packet W) (hp : p < 256 ^ W)
    (h : new W p topic payloads o = .ok pkt) :
    (pkt.const_buffer_sequence.map List.length).sum = pkt.size ∧
    pkt.size =
      1 + (val_to_variable_bytes (2 + topic.length
            + (if o.get_qos = .at_most_once then 0 else W)
            + (payloads.map List.length).sum)).length
        + (2 + topic.length + (if o.get_qos = .at_most_once then 0 else W)
            + (payloads.map List.length).sum) ∧
    pkt.const_buffer_sequence.flatten.head? = some (0x30 ||| o.data_) := by
  obtain ⟨_, _, _, _, hpid, hpkt⟩ := new_ok_inv W p topic payloads o pkt h
  have hpm : p % 256 ^ W = p := Nat.mod_eq_of_lt hp
  subst hpkt
  refine ⟨?_, rfl, ?_⟩
  · by_cases hq : o.get_qos = .at_most_once
    · have hp0 : p = 0 := hpid.mp hq
      simp [const_buffer_sequence, size, packet_id, endian_load_store, hpm, hp0, hq,
        endian_store_length]
      omega
    · have hp0 : p ≠ 0 := fun hz => hq (hpid.mpr hz)
      simp [const_buffer_sequence, size, packet_id, endian_load_store, hpm, hp0, hq,
        endian_store_length]
      omega
  · simp [const_buffer_sequence, make_fixed_header_publish]

/-- Witness of C2: the packet built from packet id 1, topic "t", payload "x"
and QoS 1. -/
theorem publish_size_law_witness :
    ∃ pkt : basic_publish_packet 2,
      new 2 1 [0x74] [[0x78]] (pub.opts.of false .at_least_once false) = .ok pkt ∧
      (pkt.const_buffer_sequence.map List.length).sum = pkt.size ∧
      pkt.size = 8 ∧
      pkt.const_buffer_sequence.flatten.head? = some 0x32 :=
  ⟨_, rfl,
    (publish_size_law 2 1 [0x74] [[0x78]] (pub.opts.of false .at_least_once false) _
      (by decide) rfl).1,
    (publish_size_law 2 1 [0x74] [[0x78]] (pub.opts.of false .at_least_once false) _
      (by decide) rfl).2.1,
    (publish_size_law 2 1 [0x74] [[0x78]] (pub.opts.of false .at_least_once false) _
      (by decide) rfl).2.2⟩


/-- C3: re-encoding a decoded v3.1.1 PUBLISH. The decoder accepts the buffer
32 05 00 01 74 00 00 (QoS 1, topic "t", packet identifier 0); the decoded
packet has `packet_id() == 0`, so `const_buffer_sequence()` leaves the
packet-id element out and concatenates to the five bytes 32 05 00 01 74, not
to the buffer, while `size()` is 7. -/
theorem publish_reencode_zero_packet_id :
    ∃ pkt : basic_publish_packet 2,
      from_buffer 2 [0x32, 0x05, 0x00, 0x01, 0x74, 0x00, 0x00] = .ok pkt ∧
      pkt.const_buffer_sequence.flatten = [0x32, 0x05, 0x00, 0x01, 0x74] ∧
      pkt.const_buffer_sequence.flatten ≠ [0x32, 0x05, 0x00, 0x01, 0x74, 0x00, 0x00] ∧
      pkt.size = 7 :=
  ⟨_, rfl, by decide, by decide, by decide⟩

/-- C5: decoding a QoS 1 PUBLISH whose packet-identifier bytes are all zero.
On the buffer 32 05 00 01 74 00 00 the decoder sets no error: it returns the
packet with QoS 1 and packet id 0. -/
theorem publish_decode_zero_packet_id :
    from_buffer 2 [0x32, 0x05, 0x00, 0x01, 0x74, 0x00, 0x00] =
      .ok { fixed_header_ := 0x32, topic_name_ := [0x74],
            topic_name_length_buf_ := [0x00, 0x01], packet_id_ := [0x00, 0x00],
            payloads_ := [], remaining_length_ := 5, remaining_length_buf_ := [0x05] } ∧
    pub.get_qos 0x32 = .at_least_once ∧
    endian_load [0x00, 0x00] = 0 := by
  decide

/-- C4 (counterexample): with the empty topic, which passes
`utf8string_check`, QoS 0 and packet id 0, a payload of 4294967294 bytes makes
the remaining length 4294967296; `boost::numeric_cast<std::uint32_t>` throws
and the constructor fails although neither packet-id condition holds, and the
failure is not `protocol_error`. -/
theorem publish_ctor_oversize_payload :
    utf8string_check [] = true ∧
    new 2 0 [] [List.replicate 4294967294 0] (pub.opts.of false .at_most_once false)
      = .error .bad_numeric_cast :=
  ⟨by decide, new_oversize_replicate 4294967294 (Nat.le_refl _)⟩

/-- C4 (amended): packet-id / QoS validation on construction. For every topic
that passes `utf8string_check` (at most 65535 bytes), every QoS in {0,1,2} and
every payload for which the remaining length is at most 4294967295, the
constructor fails if and only if (QoS = 0 and packet id != 0) or (QoS >= 1 and
packet id = 0), every failure is `protocol_error`, and the overload without a
packet id succeeds exactly for QoS 0. -/
theorem publish_ctor_packet_id_validation (W p : Nat) (topic : List Nat)
    (payloads : List (List Nat)) (dup : Bool) (q : qos) (retain : Bool)
    (htopic : utf8string_check topic = true) (hlen : topic.length ≤ 65535)
    (hq : q = .at_most_once ∨ q = .at_least_once ∨ q = .exactly_once)
    (hR : 2 + topic.length + (if q = .at_most_once then 0 else W)
        + (payloads.map List.length).sum ≤ 4294967295) :
    ((∃ e, new W p topic payloads (pub.opts.of dup q retain) = .error e) ↔
      (q = .at_most_once ∧ p ≠ 0) ∨ ((q = .at_least_once ∨ q = .exactly_once) ∧ p = 0)) ∧
    (∀ e, new W p topic payloads (pub.opts.of dup q retain) = .error e →
      e = .system_error .protocol_error) ∧
    ((∃ pkt, new_without_packet_id W topic payloads (pub.opts.of dup q retain) = .ok pkt) ↔
      q = .at_most_once) := by
  have hnew : ∀ p, new W p topic payloads (pub.opts.of dup q retain) = _ :=
    fun p => new_eq W p topic payloads (pub.opts.of dup q retain) htopic hlen (by
      rw [opts_of_get_qos]
      rcases hq with h | h | h <;> subst h <;> simp at hR ⊢ <;> omega)
  unfold new_without_packet_id
  simp only [hnew, opts_of_get_qos]
  rcases hq with h | h | h <;> subst h <;> by_cases hp : p = 0 <;> simp [hp]

/-- Witness of C4 (amended): topic "t", payload "x", QoS 1 and packet id 0,
which the constructor rejects. -/
theorem publish_ctor_packet_id_validation_witness :
    ((∃ e, new 2 0 [0x74] [[0x78]] (pub.opts.of false .at_least_once false) = .error e) ↔
      (qos.at_least_once = .at_most_once ∧ (0 : Nat) ≠ 0) ∨
        ((qos.at_least_once = .at_least_once ∨ qos.at_least_once = .exactly_once)
          ∧ (0 : Nat) = 0)) ∧
    (∀ e, new 2 0 [0x74] [[0x78]] (pub.opts.of false .at_least_once false) = .error e →
      e = .system_error .protocol_error) ∧
    ((∃ pkt, new_without_packet_id 2 [0x74] [[0x78]] (pub.opts.of false .at_least_once false)
        = .ok pkt) ↔ qos.at_least_once = .at_most_once) :=
  publish_ctor_packet_id_validation 2 0 [0x74] [[0x78]] false .at_least_once false
    (by decide) (by decide) (by decide) (by decide)

/-- C6: an invalid UTF-8 topic is rejected with `topic_name_invalid`. For
every topic of at most 65535 bytes on which `utf8string_check` returns false,
the constructor fails with `topic_name_invalid` whatever the QoS, the packet
id and the payload are, and decoding any frame that has a PUBLISH header, a
consistent remaining length and carries that topic sets the error to
`topic_name_invalid`, whatever follows the topic. -/
theorem publish_invalid_utf8_topic (W p : Nat) (topic : List Nat)
    (payloads : List (List Nat)) (o : pub.opts) (h : Nat) (rl tail : List Nat)
    (hlen : topic.length ≤ 65535) (hu : utf8string_check topic = false)
    (hh : get_control_packet_type_with_check h = some .publish)
    (hrl : insert_advance_variable_length
        (rl ++ (endian_store 2 topic.length ++ (topic ++ tail)))
      = some ((endian_store 2 topic.length ++ (topic ++ tail)).length, rl,
          endian_store 2 topic.length ++ (topic ++ tail))) :
    new W p topic payloads o = .error (.system_error .topic_name_invalid) ∧
    from_buffer W (h :: (rl ++ (endian_store 2 topic.length ++ (topic ++ tail))))
      = .error .topic_name_invalid :=
  ⟨new_topic_invalid W p topic payloads o hlen hu,
    (from_buffer_topic W h rl topic tail hh hrl hlen).1 hu⟩

/-- Witness of C6: the topic is the single byte 0xFF, which is not UTF-8; the
constructor is called with QoS 1 and packet id 0, the frame is
32 05 00 01 FF 00 01. -/
theorem publish_invalid_utf8_topic_witness :
    new 2 0 [0xFF] [[0x78]] (pub.opts.of false .at_least_once false)
      = .error (.system_error .topic_name_invalid) ∧
    from_buffer 2 (0x32 :: ([0x05] ++ (endian_store 2 [0xFF].length ++ ([0xFF] ++ [0x00, 0x01]))))
      = .error .topic_name_invalid :=
  publish_invalid_utf8_topic 2 0 [0xFF] [[0x78]] (pub.opts.of false .at_least_once false)
    0x32 [0x05] [0x00, 0x01] (by decide) (by decide) (by decide) (by decide)

/-- C7 (counterexample): the topic "+/#" holds both wildcard characters and is
valid UTF-8. The constructor accepts it, and the decoder accepts the frame
30 05 00 03 2B 2F 23 that carries it. -/
theorem publish_wildcard_topic_accepted :
    utf8string_check [0x2B, 0x2F, 0x23] = true ∧
    (∃ pkt, new 2 0 [0x2B, 0x2F, 0x23] [] (pub.opts.of false .at_most_once false) = .ok pkt ∧
      pkt.topic = [0x2B, 0x2F, 0x23]) ∧
    (∃ pkt, from_buffer 2 [0x30, 0x05, 0x00, 0x03, 0x2B, 0x2F, 0x23] = .ok pkt ∧
      pkt.topic = [0x2B, 0x2F, 0x23]) :=
  ⟨by decide, ⟨_, rfl, rfl⟩, ⟨_, rfl, rfl⟩⟩

/-- C7 (amended): a PUBLISH topic is validated by `utf8string_check` alone.
For every topic of at most 65535 bytes that contains '+' or '#', the
constructor fails with `topic_name_invalid` exactly when `utf8string_check`
fails on the topic, and so does the decoder on every frame with a PUBLISH
header and a consistent remaining length that carries the topic; a wildcard
in a topic that passes `utf8string_check` is not rejected. -/
theorem publish_wildcard_topic_validation (W p : Nat) (topic : List Nat)
    (payloads : List (List Nat)) (o : pub.opts) (h : Nat) (rl tail : List Nat)
    (_hwild : 0x2B ∈ topic ∨ 0x23 ∈ topic)
    (hlen : topic.length ≤ 65535)
    (hh : get_control_packet_type_with_check h = some .publish)
    (hrl : insert_advance_variable_length
        (rl ++ (endian_store 2 topic.length ++ (topic ++ tail)))
      = some ((endian_store 2 topic.length ++ (topic ++ tail)).length, rl,
          endian_store 2 topic.length ++ (topic ++ tail))) :
    (new W p topic payloads o = .error (.system_error .topic_name_invalid)
      ↔ utf8string_check topic = false) ∧
    (from_buffer W (h :: (rl ++ (endian_store 2 topic.length ++ (topic ++ tail))))
        = .error .topic_name_invalid
      ↔ utf8string_check topic = false) := by
  obtain ⟨d1, d2⟩ := from_buffer_topic W h rl topic tail hh hrl hlen
  constructor
  · constructor
    · intro he
      by_contra hu
      exact new_topic_valid W p topic payloads o hlen (by simpa using hu) he
    · exact new_topic_invalid W p topic payloads o hlen
  · constructor
    · intro he
      by_contra hu
      exact d2 (by simpa using hu) he
    · exact d1

/-- Witness of C7 (amended): the topic "+", QoS 0, and the frame
30 03 00 01 2B. -/
theorem publish_wildcard_topic_validation_witness :
    (new 2 0 [0x2B] [] (pub.opts.of false .at_most_once false)
        = .error (.system_error .topic_name_invalid)
      ↔ utf8string_check [0x2B] = false) ∧
    (from_buffer 2 (0x30 :: ([0x03] ++ (endian_store 2 [0x2B].length ++ ([0x2B] ++ []))))
        = .error .topic_name_invalid
      ↔ utf8string_check [0x2B] = false) :=
  publish_wildcard_topic_validation 2 0 [0x2B] [] (pub.opts.of false .at_most_once false)
    0x30 [0x03] [] (by decide) (by decide) (by decide) (by decide)

/-- C8: a remaining-length mismatch is `malformed_packet`. For every buffer
whose first byte is a PUBLISH fixed header and whose variable-byte remaining
length decodes to a value different from the number of bytes that follow the
length field, the decoder sets the error to `malformed_packet`; so it does on
the empty buffer and on every buffer whose first byte is not a PUBLISH
header. -/
theorem publish_remaining_length_mismatch (W : Nat) :
    from_buffer W [] = .error .malformed_packet ∧
    (∀ (h : Nat) (buf1 : List Nat),
      get_control_packet_type_with_check h ≠ some .publish →
      from_buffer W (h :: buf1) = .error .malformed_packet) ∧
    (∀ (h : Nat) (buf1 : List Nat) (v : Nat) (rl rest : List Nat),
      get_control_packet_type_with_check h = some .publish →
      insert_advance_variable_length buf1 = some (v, rl, rest) →
      v ≠ rest.length →
      from_buffer W (h :: buf1) = .error .malformed_packet) := by
  refine ⟨rfl, ?_, ?_⟩
  · intro h buf1 hh
    simp [from_buffer, hh]
  · intro h buf1 v rl rest hh hrl hne
    simp [from_buffer, hh, hrl, hne]

/-- Witness of C8: the frame 30 05 00 01 74 announces five bytes and holds
three; D0 00 is not a PUBLISH. -/
theorem publish_remaining_length_mismatch_witness :
    from_buffer 2 [0xD0, 0x00] = .error .malformed_packet ∧
    from_buffer 2 [0x30, 0x05, 0x00, 0x01, 0x74] = .error .malformed_packet :=
  ⟨(publish_remaining_length_mismatch 2).2.1 0xD0 [0x00] (by decide),
    (publish_remaining_length_mismatch 2).2.2 0x30 [0x05, 0x00, 0x01, 0x74] 5 [0x05]
      [0x00, 0x01, 0x74] (by decide) (by decide) (by decide)⟩

/-- C9 (counterexample): the frame 32 04 00 01 74 00 has QoS 1, a consistent
remaining length and the complete topic "t", and ends after one of the two
packet-identifier bytes; the decoder sets `protocol_error`, not
`malformed_packet`. -/
theorem publish_truncated_packet_id :
    from_buffer 2 [0x32, 0x04, 0x00, 0x01, 0x74, 0x00] = .error .protocol_error ∧
    from_buffer 2 [0x32, 0x04, 0x00, 0x01, 0x74, 0x00] ≠ .error .malformed_packet := by
  decide

/-- C9 (amended): truncation of a v3.1.1 PUBLISH whose header is a PUBLISH
header and whose remaining length equals the number of following bytes. When
the bytes end before the 2-byte topic length or before the topic bytes are
complete, the decoder sets `malformed_packet`; when the topic is complete and
passes `utf8string_check`, the QoS is 1 or 2 and the bytes end before the
packet identifier of `W` bytes is complete, the decoder sets
`protocol_error`. -/
theorem publish_truncation (W h : Nat) (buf1 rl body : List Nat)
    (hh : get_control_packet_type_with_check h = some .publish)
    (hrl : insert_advance_variable_length buf1 = some (body.length, rl, body)) :
    (body.length < 2 → from_buffer W (h :: buf1) = .error .malformed_packet) ∧
    (∀ tl rest, body = tl ++ rest → tl.length = 2 → rest.length < endian_load tl →
      from_buffer W (h :: buf1) = .error .malformed_packet) ∧
    (∀ topic tail, body = endian_store 2 topic.length ++ (topic ++ tail) →
      topic.length ≤ 65535 → utf8string_check topic = true →
      pub.get_qos h = .at_least_once ∨ pub.get_qos h = .exactly_once →
      tail.length < W →
      from_buffer W (h :: buf1) = .error .protocol_error) := by
  rw [from_buffer_body W h buf1 rl body hh hrl]
  refine ⟨?_, ?_, ?_⟩
  · intro hlt
    simp [insert_advance, hlt]
  · intro tl rest hb htl hlt
    subst hb
    rw [insert_advance_append 2 tl rest htl]
    simp [hlt]
  · intro topic tail hb hlen hu hq hlt
    subst hb
    obtain ⟨h1, h2⟩ := insert_advance_topic_length topic.length (topic ++ tail) hlen
    rw [h1]
    simp only [h2, List.length_append, List.take_left', List.drop_left', hu]
    have hc : copy_advance W tail = none := by simp [copy_advance, hlt]
    rcases hq with hq | hq <;> simp [hq, hc]

/-- Witness of C9 (amended): 30 01 00 ends inside the topic length,
30 03 00 02 74 ends inside the topic, 32 04 00 01 74 00 ends inside the packet
identifier. -/
theorem publish_truncation_witness :
    from_buffer 2 [0x30, 0x01, 0x00] = .error .malformed_packet ∧
    from_buffer 2 [0x30, 0x03, 0x00, 0x02, 0x74] = .error .malformed_packet ∧
    from_buffer 2 (0x32 :: [0x04, 0x00, 0x01, 0x74, 0x00]) = .error .protocol_error :=
  ⟨(publish_truncation 2 0x30 [0x01, 0x00] [0x01] [0x00] (by decide) (by decide)).1
      (by decide),
    (publish_truncation 2 0x30 [0x03, 0x00, 0x02, 0x74] [0x03] [0x00, 0x02, 0x74]
      (by decide) (by decide)).2.1 [0x00, 0x02] [0x74] (by decide) (by decide) (by decide),
    (publish_truncation 2 0x32 [0x04, 0x00, 0x01, 0x74, 0x00] [0x04] [0x00, 0x01, 0x74, 0x00]
      (by decide) (by decide)).2.2 [0x74] [0x00] (by decide) (by decide) (by decide)
      (by decide) (by decide)⟩

/-- C10: an over-long variable-byte remaining length is `malformed_packet`.
For every buffer whose first byte is a PUBLISH fixed header followed by four
bytes that all have the continuation bit 0x80 set, the decoder sets the error
to `malformed_packet`, whatever follows. -/
theorem publish_overlong_remaining_length (W h b1 b2 b3 b4 : Nat) (rest : List Nat)
    (_hh : get_control_packet_type_with_check h = some .publish)
    (h1 : 128 ≤ b1 ∧ b1 < 256) (h2 : 128 ≤ b2 ∧ b2 < 256)
    (h3 : 128 ≤ b3 ∧ b3 < 256) (h4 : 128 ≤ b4 ∧ b4 < 256) :
    from_buffer W (h :: b1 :: b2 :: b3 :: b4 :: rest) = .error .malformed_packet := by
  have hv := variable_bytes_four_continuation b1 b2 b3 b4 rest h1 h2 h3 h4
  unfold from_buffer
  simp only [hv]
  split <;> rfl

/-- Witness of C10: the bytes 30 FF FF FF FF FF. -/
theorem publish_overlong_remaining_length_witness :
    from_buffer 2 [0x30, 0xFF, 0xFF, 0xFF, 0xFF, 0xFF] = .error .malformed_packet :=
  publish_overlong_remaining_length 2 0x30 0xFF 0xFF 0xFF 0xFF [0xFF]
    (by decide) (by decide) (by decide) (by decide) (by decide)

/-- The decoded packet and the buffer it was decoded from: the buffer is the
fixed header, the remaining-length bytes, the two topic-length bytes, the
topic, the packet identifier (absent for QoS 0) and the bytes `tail` that
follow; the payload is no buffer when `tail` is empty and the one buffer
`tail` otherwise. -/
theorem from_buffer_ok_inv (W : Nat) (b : List Nat) (pkt : basic_publish_packet W)
    (h : from_buffer W b = .ok pkt) :
    ∃ tail,
      b = pkt.fixed_header_ :: (pkt.remaining_length_buf_ ++ (pkt.topic_name_length_buf_
        ++ (pkt.topic_name_
          ++ ((if pub.get_qos pkt.fixed_header_ = .at_most_once then [] else pkt.packet_id_)
            ++ tail)))) ∧
      pkt.payloads_ = (if tail.isEmpty then [] else [tail]) ∧
      pkt.topic_name_length_buf_.length = 2 ∧
      pkt.topic_name_.length = endian_load pkt.topic_name_length_buf_ ∧
      (pub.get_qos pkt.fixed_header_ ≠ .at_most_once → pkt.packet_id_.length = W) ∧
      pub.get_qos pkt.fixed_header_ ≠ .reserved := by
  unfold from_buffer at h
  cases b with
  | nil => simp at h
  | cons front buf1 =>
    simp only at h
    split at h
    · simp at h
    · cases hv : insert_advance_variable_length buf1 with
      | none => simp [hv] at h
      | some r1 =>
        obtain ⟨R, rl, buf2⟩ := r1
        obtain ⟨hb1, _, _⟩ := insert_advance_variable_length_parts buf1 R rl buf2 hv
        simp only [hv] at h
        split at h
        · simp at h
        · cases ht : insert_advance 2 buf2 with
          | none => simp [ht] at h
          | some r2 =>
            obtain ⟨tl, buf3⟩ := r2
            obtain ⟨hb2, htl⟩ := insert_advance_parts 2 buf2 tl buf3 ht
            simp only [ht] at h
            split at h
            · simp at h
            · rename_i hlt
              split at h
              · simp at h
              · have hb3 : buf3 = buf3.take (endian_load tl) ++ buf3.drop (endian_load tl) :=
                  (List.take_append_drop _ _).symm
                have htk : (buf3.take (endian_load tl)).length = endian_load tl := by
                  rw [List.length_take]
                  omega
                cases hq : pub.get_qos front with
                | at_most_once =>
                  simp only [hq, Except.ok.injEq] at h
                  subst h
                  refine ⟨buf3.drop (endian_load tl), ?_, rfl, htl, htk, ?_, ?_⟩
                  · simp only [hq, if_true, List.nil_append]
                    rw [← hb3, ← hb2, ← hb1]
                  · simp [hq]
                  · simp [hq]
                | at_least_once =>
                  simp only [hq] at h
                  cases hc : copy_advance W (buf3.drop (endian_load tl)) with
                  | none => simp [hc] at h
                  | some r5 =>
                    obtain ⟨pid, buf5⟩ := r5
                    obtain ⟨hb4, hpl⟩ := copy_advance_parts W _ pid buf5 hc
                    simp only [hc, Except.ok.injEq] at h
                    subst h
                    refine ⟨buf5, ?_, rfl, htl, htk, fun _ => hpl, ?_⟩
                    · simp only [hq, reduceCtorEq, if_false]
                      rw [← hb4, ← hb3, ← hb2, ← hb1]
                    · simp [hq]
                | exactly_once =>
                  simp only [hq] at h
                  cases hc : copy_advance W (buf3.drop (endian_load tl)) with
                  | none => simp [hc] at h
                  | some r5 =>
                    obtain ⟨pid, buf5⟩ := r5
                    obtain ⟨hb4, hpl⟩ := copy_advance_parts W _ pid buf5 hc
                    simp only [hc, Except.ok.injEq] at h
                    subst h
                    refine ⟨buf5, ?_, rfl, htl, htk, fun _ => hpl, ?_⟩
                    · simp only [hq, reduceCtorEq, if_false]
                      rw [← hb4, ← hb3, ← hb2, ← hb1]
                    · simp [hq]
                | reserved => simp [hq] at h

set_option maxRecDepth 100000 in
theorem set_dup_byte :
    ∀ h < 256, ∀ d : Bool,
      ((pub.set_dup h d / 8 % 2 == 1) = d) ∧
      pub.set_dup h d / 2 % 4 = h / 2 % 4 ∧
      pub.set_dup h d % 2 = h % 2 ∧
      pub.set_dup h d / 16 = h / 16 ∧
      pub.set_dup h d % 8 = h % 8 ∧
      pub.set_dup (pub.set_dup h d) d = pub.set_dup h d := by
  decide
/-- C11 (counterexample): the v3.1.1 PUBLISH built with topic "t1", payload
"p1" and QoS 0 (no DUP, no RETAIN, packet id 0) does not encode to
30 07 00 02 74 31 70 31: its remaining length is 2 + 2 + 2 = 6, not 7. -/
theorem publish_scenario_qos0_not_07 :
    ∃ pkt : basic_publish_packet 2,
      new 2 0 [0x74, 0x31] [[0x70, 0x31]] (pub.opts.of false .at_most_once false) = .ok pkt ∧
      pkt.const_buffer_sequence.flatten ≠ [0x30, 0x07, 0x00, 0x02, 0x74, 0x31, 0x70, 0x31] ∧
      pkt.remaining_length_ = 6 :=
  ⟨_, rfl, by decide, by decide⟩

/-- C11 (amended): concrete scenario 1. The v3.1.1 PUBLISH built with topic
"t1", payload "p1" and QoS 0 (no DUP, no RETAIN, packet id 0, with either
constructor) encodes to exactly the bytes 30 06 00 02 74 31 70 31: fixed
header 0x30, remaining length 6, topic length 0x0002, "t1", "p1"; `size()` is
8. -/
theorem publish_scenario_qos0 :
    ∃ pkt : basic_publish_packet 2,
      new_without_packet_id 2 [0x74, 0x31] [[0x70, 0x31]]
          (pub.opts.of false .at_most_once false) = .ok pkt ∧
      new 2 0 [0x74, 0x31] [[0x70, 0x31]] (pub.opts.of false .at_most_once false) = .ok pkt ∧
      pkt.const_buffer_sequence = [[0x30], [0x06], [0x00, 0x02], [0x74, 0x31], [0x70, 0x31]] ∧
      pkt.const_buffer_sequence.flatten = [0x30, 0x06, 0x00, 0x02, 0x74, 0x31, 0x70, 0x31] ∧
      pkt.size = 8 :=
  ⟨_, rfl, rfl, by decide, by decide, by decide⟩

/-- C12: concrete scenario 2. The v3.1.1 PUBLISH built with packet id 1, topic
"t", payload "x" and QoS 1 (no DUP, no RETAIN, 2-byte packet id) encodes to
exactly the bytes 32 06 00 01 74 00 01 78, and decoding those bytes sets no
error and yields packet id 1, topic "t", payload "x" and QoS 1. -/
theorem publish_scenario_qos1 :
    (∃ pkt : basic_publish_packet 2,
      new 2 1 [0x74] [[0x78]] (pub.opts.of false .at_least_once false) = .ok pkt ∧
      pkt.const_buffer_sequence.flatten = [0x32, 0x06, 0x00, 0x01, 0x74, 0x00, 0x01, 0x78]) ∧
    (∃ pkt2 : basic_publish_packet 2,
      from_buffer 2 [0x32, 0x06, 0x00, 0x01, 0x74, 0x00, 0x01, 0x78] = .ok pkt2 ∧
      pkt2.packet_id = 1 ∧ pkt2.topic = [0x74] ∧ pkt2.payload = [0x78] ∧
      pkt2.opts.get_qos = .at_least_once ∧ pkt2.opts.get_dup = false ∧
      pkt2.opts.get_retain = false) :=
  ⟨⟨_, rfl, by decide⟩, ⟨_, rfl, by decide, by decide, by decide, by decide, by decide,
    by decide⟩⟩

/-- C13: `set_dup` changes only the DUP flag. For every v3.1.1 PUBLISH packet
`P` (its fixed header is a byte) and boolean `d`, after `P.set_dup(d)` the DUP
flag of `opts()` equals `d`, while `packet_id()`, `topic()`, `payload()`, QoS,
RETAIN and `size()` are unchanged, the gather list keeps every element after
the first, and the encoded bytes are those of `P` with the first byte changed
in bit 3 at most; `set_dup(d)` applied twice equals applying it once. -/
theorem publish_set_dup (W : Nat) (P : basic_publish_packet W) (d : Bool)
    (hb : P.fixed_header_ < 256) :
    (P.set_dup d).opts.get_dup = d ∧
    (P.set_dup d).packet_id = P.packet_id ∧
    (P.set_dup d).topic = P.topic ∧
    (P.set_dup d).payload = P.payload ∧
    (P.set_dup d).opts.get_qos = P.opts.get_qos ∧
    (P.set_dup d).opts.get_retain = P.opts.get_retain ∧
    (P.set_dup d).size = P.size ∧
    (P.set_dup d).const_buffer_sequence.tail = P.const_buffer_sequence.tail ∧
    P.const_buffer_sequence.flatten.head? = some P.fixed_header_ ∧
    (P.set_dup d).const_buffer_sequence.flatten
      = (P.set_dup d).fixed_header_ :: P.const_buffer_sequence.flatten.tail ∧
    (P.set_dup d).fixed_header_ / 16 = P.fixed_header_ / 16 ∧
    (P.set_dup d).fixed_header_ % 8 = P.fixed_header_ % 8 ∧
    (P.set_dup d).set_dup d = P.set_dup d := by
  obtain ⟨h1, h2, h3, h4, h5, h6⟩ := set_dup_byte P.fixed_header_ hb d
  refine ⟨h1, rfl, rfl, rfl, ?_, ?_, rfl, ?_, ?_, ?_, h4, h5, ?_⟩
  · simp only [set_dup, opts, pub.opts.get_qos, pub.get_qos, h2]
  · simp only [set_dup, opts, pub.opts.get_retain, h3]
  · simp [set_dup, const_buffer_sequence, packet_id]
  · simp [const_buffer_sequence]
  · simp [set_dup, const_buffer_sequence, packet_id]
  · simp only [set_dup, h6]

/-- Witness of C13: the packet decoded from 32 06 00 01 74 00 01 78, with DUP
set. -/
theorem publish_set_dup_witness :
    ((⟨0x32, [0x74], [0x00, 0x01], [0x00, 0x01], [[0x78]], 6, [0x06]⟩ :
        basic_publish_packet 2).set_dup true).opts.get_dup = true ∧
    ((⟨0x32, [0x74], [0x00, 0x01], [0x00, 0x01], [[0x78]], 6, [0x06]⟩ :
        basic_publish_packet 2).set_dup true).const_buffer_sequence.flatten
      = [0x3A, 0x06, 0x00, 0x01, 0x74, 0x00, 0x01, 0x78] :=
  ⟨(publish_set_dup 2 ⟨0x32, [0x74], [0x00, 0x01], [0x00, 0x01], [[0x78]], 6, [0x06]⟩ true
      (by decide)).1,
    (publish_set_dup 2 ⟨0x32, [0x74], [0x00, 0x01], [0x00, 0x01], [[0x78]], 6, [0x06]⟩ true
      (by decide)).2.2.2.2.2.2.2.2.2.1⟩

/-- C14 (counterexample): the frame 30 03 00 01 74 is a QoS 0 PUBLISH with
topic "t" and no byte after the topic. The decoder sets no error and the
decoded packet holds no payload buffer. -/
theorem publish_decoded_empty_payload :
    ∃ pkt : basic_publish_packet 2,
      from_buffer 2 [0x30, 0x03, 0x00, 0x01, 0x74] = .ok pkt ∧
      pkt.payload_as_buffer = [] ∧ pkt.payload_as_buffer.length ≠ 1 :=
  ⟨_, rfl, by decide, by decide⟩

/-- C14 (amended): payload chunking of v3.1.1 PUBLISH. A packet constructed
from a list of payload chunks keeps exactly those chunks in the same order in
`payload_as_buffer()` and emits each as its own element of
`const_buffer_sequence()` after the header, remaining-length, topic-length,
topic and (for QoS 1 and 2) packet-id elements. Every successfully decoded
PUBLISH holds as payload the bytes that follow the topic (and, for QoS 1 and
2, the packet id): as exactly one buffer when there is such a byte, as no
buffer when there is none. -/
theorem publish_payload_chunking (W : Nat) :
    (∀ (p : Nat) (topic : List Nat) (payloads : List (List Nat)) (o : pub.opts)
        (pkt : basic_publish_packet W),
      p < 256 ^ W → new W p topic payloads o = .ok pkt →
      pkt.payload_as_buffer = payloads ∧
      pkt.const_buffer_sequence =
        [[pkt.fixed_header_], pkt.remaining_length_buf_, pkt.topic_name_length_buf_,
            pkt.topic_name_]
          ++ (if o.get_qos = .at_most_once then [] else [pkt.packet_id_])
          ++ payloads) ∧
    (∀ (b : List Nat) (pkt : basic_publish_packet W),
      from_buffer W b = .ok pkt →
      pkt.payload_as_buffer =
        if (b.drop (1 + pkt.remaining_length_buf_.length + 2 + pkt.topic.length
              + (if pkt.opts.get_qos = .at_most_once then 0 else W))).isEmpty
        then []
        else [b.drop (1 + pkt.remaining_length_buf_.length + 2 + pkt.topic.length
              + (if pkt.opts.get_qos = .at_most_once then 0 else W))]) := by
  constructor
  · intro p topic payloads o pkt hp h
    obtain ⟨_, _, _, _, hpid, hpkt⟩ := new_ok_inv W p topic payloads o pkt h
    have hpm : p % 256 ^ W = p := Nat.mod_eq_of_lt hp
    subst hpkt
    refine ⟨rfl, ?_⟩
    by_cases hq : o.get_qos = .at_most_once
    · have hp0 : p = 0 := hpid.mp hq
      simp [const_buffer_sequence, packet_id, endian_load_store, hp0, hq]
    · have hp0 : p ≠ 0 := fun hz => hq (hpid.mpr hz)
      simp [const_buffer_sequence, packet_id, endian_load_store, hpm, hp0, hq]
  · intro b pkt h
    obtain ⟨tail, hb, hpay, htl, _, hpl, _⟩ := from_buffer_ok_inv W b pkt h
    have hdrop : b.drop (1 + pkt.remaining_length_buf_.length + 2 + pkt.topic.length
              + (if pkt.opts.get_qos = .at_most_once then 0 else W)) = tail := by
      have hq : pkt.opts.get_qos = pub.get_qos pkt.fixed_header_ := rfl
      rw [hq]
      by_cases hq0 : pub.get_qos pkt.fixed_header_ = .at_most_once
      · rw [hb]
        simp only [hq0, if_true, List.nil_append, basic_publish_packet.topic]
        rw [show 1 + pkt.remaining_length_buf_.length + 2 + pkt.topic_name_.length + 0
            = (pkt.remaining_length_buf_.length + (pkt.topic_name_length_buf_.length
              + pkt.topic_name_.length)) + 1 by omega]
        rw [List.drop_succ_cons, ← List.append_assoc, ← List.append_assoc,
          List.drop_left' (by simp [List.length_append, Nat.add_assoc])]
      · have hW := hpl hq0
        rw [hb]
        simp only [hq0, if_false, basic_publish_packet.topic]
        rw [show 1 + pkt.remaining_length_buf_.length + 2 + pkt.topic_name_.length + W
            = (pkt.remaining_length_buf_.length + (pkt.topic_name_length_buf_.length
              + (pkt.topic_name_.length + pkt.packet_id_.length))) + 1 by omega]
        rw [List.drop_succ_cons, ← List.append_assoc, ← List.append_assoc,
          ← List.append_assoc,
          List.drop_left' (by simp [List.length_append, Nat.add_assoc])]
    rw [hdrop]
    exact hpay

/-- Witness of C14 (amended): the packet built from packet id 1, topic "t" and
the chunks "x", "" and "yz" with QoS 1, and the frame 32 06 00 01 74 00 01 78. -/
theorem publish_payload_chunking_witness :
    (∃ pkt : basic_publish_packet 2,
      new 2 1 [0x74] [[0x78], [], [0x79, 0x7A]] (pub.opts.of false .at_least_once false)
        = .ok pkt ∧
      pkt.payload_as_buffer = [[0x78], [], [0x79, 0x7A]] ∧
      pkt.const_buffer_sequence =
        [[0x32], [0x08], [0x00, 0x01], [0x74], [0x00, 0x01], [0x78], [], [0x79, 0x7A]]) ∧
    (∃ pkt : basic_publish_packet 2,
      from_buffer 2 [0x32, 0x06, 0x00, 0x01, 0x74, 0x00, 0x01, 0x78] = .ok pkt ∧
      pkt.payload_as_buffer = [[0x78]]) :=
  ⟨⟨_, rfl,
      ((publish_payload_chunking 2).1 1 [0x74] [[0x78], [], [0x79, 0x7A]]
        (pub.opts.of false .at_least_once false) _ (by decide) rfl).1,
      ((publish_payload_chunking 2).1 1 [0x74] [[0x78], [], [0x79, 0x7A]]
        (pub.opts.of false .at_least_once false) _ (by decide) rfl).2⟩,
    ⟨_, rfl,
      (publish_payload_chunking 2).2 [0x32, 0x06, 0x00, 0x01, 0x74, 0x00, 0x01, 0x78] _ rfl⟩⟩

/-! ## The claims on v5 PINGRESP -/

set_option maxRecDepth 100000 in
/-- The first bytes the fixed-header check accepts for PINGRESP, SUBSCRIBE and
UNSUBSCRIBE. -/
theorem fixed_header_check_bytes :
    ∀ h < 256,
      (get_control_packet_type_with_check h = some .pingresp ↔ h = 0xD0) ∧
      (get_control_packet_type_with_check h = some .subscribe ↔ h = 0x82) ∧
      (get_control_packet_type_with_check h = some .unsubscribe ↔ h = 0xA2) := by
  decide

/-- What the PINGRESP decoder accepts: the buffers that begin with the bytes
D0 00, whatever follows; every other buffer of bytes is `malformed_packet`. -/
theorem pingresp_from_buffer_cases (buf : List Nat) (hb : ∀ x ∈ buf, x < 256) :
    ((∃ rest, buf = 0xD0 :: 0x00 :: rest) →
      v5.pingresp_packet.from_buffer buf = .ok ⟨[0xD0, 0x00]⟩) ∧
    ((¬ ∃ rest, buf = 0xD0 :: 0x00 :: rest) →
      v5.pingresp_packet.from_buffer buf = .error .malformed_packet) := by
  constructor
  · rintro ⟨rest, rfl⟩
    rfl
  · intro hne
    cases buf with
    | nil => rfl
    | cons front buf1 =>
      have hf : front < 256 := hb front (by simp)
      have hc := (fixed_header_check_bytes front hf).1
      by_cases hfr : front = 0xD0
      · subst hfr
        cases buf1 with
        | nil => rfl
        | cons front1 buf2 =>
          have h1 : front1 ≠ 0 := by
            intro h0
            exact hne ⟨buf2, by rw [h0]⟩
          simp [v5.pingresp_packet.from_buffer, h1]
      · have hc2 : get_control_packet_type_with_check front ≠ some .pingresp :=
          fun h => hfr (hc.mp h)
        simp [v5.pingresp_packet.from_buffer, hc2]

/-- C15: v5 PINGRESP wire form. The default-constructed `pingresp_packet` has
`size() = 2` and a `const_buffer_sequence()` of exactly one element, which
holds the bytes D0 00; decoding the bytes D0 00 sets no error and the decoded
packet re-encodes to D0 00. -/
theorem pingresp_wire_form :
    v5.pingresp_packet.new.size = 2 ∧
    v5.pingresp_packet.new.const_buffer_sequence = [[0xD0, 0x00]] ∧
    v5.pingresp_packet.new.const_buffer_sequence.length
      = v5.pingresp_packet.num_of_const_buffer_sequence ∧
    (∃ p, v5.pingresp_packet.from_buffer [0xD0, 0x00] = .ok p ∧
      p.const_buffer_sequence.flatten = [0xD0, 0x00] ∧ p.size = 2) :=
  ⟨by decide, by decide, by decide, ⟨_, rfl, by decide, by decide⟩⟩

/-- C16: what the v5 PINGRESP decoder accepts. On the three bytes D0 00 00,
which are not the frame D0 00 (a byte follows the remaining length 0), the
decoder sets no error and returns the packet D0 00; so it does on D0 00 FF. -/
theorem pingresp_trailing_bytes_accepted :
    v5.pingresp_packet.from_buffer [0xD0, 0x00, 0x00] = .ok ⟨[0xD0, 0x00]⟩ ∧
    v5.pingresp_packet.from_buffer [0xD0, 0x00, 0xFF] = .ok ⟨[0xD0, 0x00]⟩ ∧
    [0xD0, 0x00, 0x00] ≠ [0xD0, 0x00] := by
  decide
/-! ## Lemmas on v3.1.1 UNSUBSCRIBE -/

theorem endian_store_two (n : Nat) :
    endian_store 2 n = [n / 256 % 256, n % 256] := by
  simp [endian_store]

theorem unsubscribe_topic_length_bufs (params : List topic_sharename)
    (h : ∀ e ∈ params, e.all_topic.length ≤ 65535) :
    basic_unsubscribe_packet.new.topic_length_bufs params
      = .ok (params.map fun e => endian_store 2 e.all_topic.length) := by
  induction params with
  | nil => rfl
  | cons e es ih =>
    have he : e.all_topic.length < 65536 := by
      have := h e (by simp)
      omega
    have ih2 := ih (fun x hx => h x (by simp [hx]))
    simp [basic_unsubscribe_packet.new.topic_length_bufs, numeric_cast_or_throw, he, ih2,
      endian_static_vector]

theorem unsubscribe_check_entries (params : List topic_sharename)
    (h : ∀ e ∈ params, utf8string_check e.all_topic = true ∧ e.all_topic.length ≤ 65535)
    (acc : Nat) :
    basic_unsubscribe_packet.new.check_entries params acc
      = .ok (acc + (params.map fun e => 2 + e.all_topic.length).sum) := by
  induction params generalizing acc with
  | nil => rfl
  | cons e es ih =>
    obtain ⟨hu, hl⟩ := h e (by simp)
    have hl2 : ¬ e.all_topic.length > 65535 := by omega
    have ih2 := ih (fun x hx => h x (by simp [hx]))
    simp only [basic_unsubscribe_packet.new.check_entries, hl2, if_false, hu, Bool.not_true,
      ih2, List.map_cons, List.sum_cons]
    simp [Nat.add_assoc]

theorem unsubscribe_wire_entries (params : List topic_sharename) :
    ((((params.map fun e => endian_store 2 e.all_topic.length).zip params).map
        (fun ite => [ite.1, ite.2.all_topic])).flatten).flatten
      = (params.map fun e => endian_store 2 e.all_topic.length ++ e.all_topic).flatten := by
  induction params with
  | nil => rfl
  | cons e es ih => simp [ih]

theorem unsubscribe_entries_length (params : List topic_sharename) :
    (params.map fun e => endian_store 2 e.all_topic.length ++ e.all_topic).flatten.length
      = (params.map fun e => 2 + e.all_topic.length).sum := by
  induction params with
  | nil => rfl
  | cons e es ih =>
    simp only [List.map_cons, List.flatten_cons, List.length_append, endian_store_length,
      List.sum_cons, ih]

theorem unsubscribe_entries_count (params : List topic_sharename) :
    params.length ≤ (params.map fun e => 2 + e.all_topic.length).sum := by
  induction params with
  | nil => simp
  | cons e es ih => simp; omega

/-- One turn of the decoding loop on a well-formed entry. -/
theorem unsubscribe_entries_loop_step (turns : Nat) (t rest : List Nat)
    (tl : List (List Nat)) (acc : List topic_sharename)
    (hu : utf8string_check t = true) (hl : t.length ≤ 65535) :
    basic_unsubscribe_packet.from_buffer.entries_loop (turns + 1)
        (endian_store 2 t.length ++ (t ++ rest)) tl acc
      = basic_unsubscribe_packet.from_buffer.entries_loop turns rest
          (tl ++ [endian_store 2 t.length]) (acc ++ [⟨t⟩]) := by
  obtain ⟨h1, h2⟩ := insert_advance_topic_length t.length (t ++ rest) hl
  have hcons : endian_store 2 t.length ++ (t ++ rest)
      = (t.length / 256 % 256) :: ((t.length % 256) :: (t ++ rest)) := by
    rw [endian_store_two]
    rfl
  rw [hcons, basic_unsubscribe_packet.from_buffer.entries_loop, ← hcons, h1]
  simp [h2, hu]

/-- The decoding loop on a sequence of well-formed entries followed by
`rest`. -/
theorem unsubscribe_entries_loop (es : List topic_sharename)
    (h : ∀ e ∈ es, utf8string_check e.all_topic = true ∧ e.all_topic.length ≤ 65535) :
    ∀ (m : Nat) (rest : List Nat) (tl : List (List Nat)) (acc : List topic_sharename),
      basic_unsubscribe_packet.from_buffer.entries_loop (es.length + m)
          ((es.map fun e => endian_store 2 e.all_topic.length ++ e.all_topic).flatten ++ rest)
          tl acc
        = basic_unsubscribe_packet.from_buffer.entries_loop m rest
            (tl ++ es.map fun e => endian_store 2 e.all_topic.length) (acc ++ es) := by
  induction es with
  | nil => intro m rest tl acc; simp
  | cons e es ih =>
    intro m rest tl acc
    obtain ⟨hu, hl⟩ := h e (by simp)
    have ih2 := ih (fun x hx => h x (by simp [hx]))
    have hfuel : (e :: es).length + m = (es.length + m) + 1 := by simp; omega
    simp only [List.map_cons, List.flatten_cons, List.append_assoc]
    rw [hfuel, unsubscribe_entries_loop_step _ _ _ _ _ hu hl, ih2]
    simp

theorem unsubscribe_header :
    make_fixed_header .unsubscribe 0b0010 = 0xA2 ∧
    get_control_packet_type_with_check 0xA2 = some .unsubscribe := by
  decide

/-- The constructor on well-formed entries. -/
theorem unsubscribe_new_eq (W pid : Nat) (params : List topic_sharename)
    (h : ∀ e ∈ params, utf8string_check e.all_topic = true ∧ e.all_topic.length ≤ 65535)
    (hR : W + (params.map fun e => 2 + e.all_topic.length).sum ≤ 4294967295) :
    basic_unsubscribe_packet.new W pid params =
      .ok { fixed_header_ := 0xA2,
            topic_length_buf_entries_ := params.map fun e => endian_store 2 e.all_topic.length,
            entries_ := params,
            packet_id_ := endian_store W pid,
            remaining_length_ := W + (params.map fun e => 2 + e.all_topic.length).sum,
            remaining_length_buf_ :=
              val_to_variable_bytes (W + (params.map fun e => 2 + e.all_topic.length).sum) } := by
  have hR2 : W + (params.map fun e => 2 + e.all_topic.length).sum < 2 ^ 32 := by
    have h32 : (2 : Nat) ^ 32 = 4294967296 := by norm_num
    omega
  unfold basic_unsubscribe_packet.new
  simp only [unsubscribe_topic_length_bufs params (fun e he => (h e he).2),
    unsubscribe_check_entries params h, numeric_cast_or_throw, hR2, if_true,
    unsubscribe_header.1]

/-- The decoder on the frame of well-formed entries. -/
theorem unsubscribe_from_buffer_frame (W : Nat) (pidb : List Nat) (es : List topic_sharename)
    (hW : 0 < W) (hpid : pidb.length = W)
    (h : ∀ e ∈ es, utf8string_check e.all_topic = true ∧ e.all_topic.length ≤ 65535)
    (hR : W + (es.map fun e => 2 + e.all_topic.length).sum ≤ 268435455) :
    basic_unsubscribe_packet.from_buffer W
        (0xA2 :: (val_to_variable_bytes (W + (es.map fun e => 2 + e.all_topic.length).sum)
          ++ (pidb
            ++ (es.map fun e => endian_store 2 e.all_topic.length ++ e.all_topic).flatten))) =
      .ok { fixed_header_ := 0xA2,
            topic_length_buf_entries_ := es.map fun e => endian_store 2 e.all_topic.length,
            entries_ := es,
            packet_id_ := pidb,
            remaining_length_ := W + (es.map fun e => 2 + e.all_topic.length).sum,
            remaining_length_buf_ :=
              val_to_variable_bytes (W + (es.map fun e => 2 + e.all_topic.length).sum) } := by
  have hlen : (pidb
      ++ (es.map fun e => endian_store 2 e.all_topic.length ++ e.all_topic).flatten).length
      = W + (es.map fun e => 2 + e.all_topic.length).sum := by
    rw [List.length_append, unsubscribe_entries_length, hpid]
  have hrl := insert_advance_variable_length_roundtrip
    (W + (es.map fun e => 2 + e.all_topic.length).sum)
    (pidb ++ (es.map fun e => endian_store 2 e.all_topic.length ++ e.all_topic).flatten) hR
  have hne : ¬ (W + (es.map fun e => 2 + e.all_topic.length).sum = 0) := by omega
  have hcount := unsubscribe_entries_count es
  have hloop := unsubscribe_entries_loop es h
    ((es.map fun e => 2 + e.all_topic.length).sum - es.length) [] [] []
  rw [show es.length + ((es.map fun e => 2 + e.all_topic.length).sum - es.length)
      = (es.map fun e => endian_store 2 e.all_topic.length ++ e.all_topic).flatten.length by
    rw [unsubscribe_entries_length]; omega] at hloop
  simp only [List.append_nil, List.nil_append] at hloop
  unfold basic_unsubscribe_packet.from_buffer
  simp only [unsubscribe_header.2, ne_eq, not_true_eq_false, if_false, hrl, hlen,
    copy_advance_append W _ _ hpid, hne, hloop]
  simp [basic_unsubscribe_packet.from_buffer.entries_loop]
/-- The turns the decoder gives its loop are enough: with at least as many
turns as the buffer has bytes, the result of the loop does not depend on the
number of turns. -/
theorem unsubscribe_entries_loop_turns (n : Nat) :
    ∀ (m : Nat) (buf : List Nat) (tl : List (List Nat)) (acc : List topic_sharename),
      buf.length ≤ n → buf.length ≤ m →
      basic_unsubscribe_packet.from_buffer.entries_loop n buf tl acc
        = basic_unsubscribe_packet.from_buffer.entries_loop m buf tl acc := by
  induction n with
  | zero =>
    intro m buf tl acc hn _
    have : buf = [] := List.length_eq_zero.mp (by omega)
    subst this
    cases m <;> rfl
  | succ n ih =>
    intro m buf tl acc hn hm
    cases buf with
    | nil => cases m <;> rfl
    | cons b bs =>
      cases m with
      | zero => simp at hm
      | succ m =>
        rw [basic_unsubscribe_packet.from_buffer.entries_loop,
          basic_unsubscribe_packet.from_buffer.entries_loop]
        cases hia : insert_advance 2 (b :: bs) with
        | none => rfl
        | some r =>
          obtain ⟨tlb, buf1⟩ := r
          obtain ⟨hparts, htl⟩ := insert_advance_parts 2 (b :: bs) tlb buf1 hia
          have hlen : buf1.length + 2 = (b :: bs).length := by
            rw [hparts, List.length_append, htl]
            omega
          simp only [List.length_cons] at hlen hn hm
          simp only
          split
          · rfl
          · split
            · rfl
            · apply ih
              · rw [List.length_drop]
                omega
              · rw [List.length_drop]
                omega

/-- C19: v3.1.1 UNSUBSCRIBE round trip and wire form. For every packet id of
`W` bytes (`W` at least 1, in particular 2 and 4) and every list of topic
filters, each passing `utf8string_check` and of at most 65535 bytes, with a
remaining length `R = W + sum over entries of (2 + |topic|)` of at most
268435455: the constructor succeeds; the packet encodes to A2, the
variable-byte encoding of `R`, the packet id big-endian in `W` bytes, then for
each entry in order its 2-byte big-endian length and its bytes; the encoding
has `size()` bytes; decoding it succeeds and yields the same `packet_id()` and
the same entries in the same order. -/
theorem unsubscribe_round_trip (W pid : Nat) (params : List topic_sharename)
    (hW : 0 < W) (hpid : pid < 256 ^ W)
    (h : ∀ e ∈ params, utf8string_check e.all_topic = true ∧ e.all_topic.length ≤ 65535)
    (hR : W + (params.map fun e => 2 + e.all_topic.length).sum ≤ 268435455) :
    ∃ pkt, basic_unsubscribe_packet.new W pid params = .ok pkt ∧
      pkt.const_buffer_sequence.flatten =
        0xA2 :: (val_to_variable_bytes (W + (params.map fun e => 2 + e.all_topic.length).sum)
          ++ (endian_store W pid
            ++ (params.map fun e =>
                  endian_store 2 e.all_topic.length ++ e.all_topic).flatten)) ∧
      pkt.const_buffer_sequence.flatten.length = pkt.size ∧
      pkt.packet_id = pid ∧ pkt.entries = params ∧
      ∃ pkt2, basic_unsubscribe_packet.from_buffer W pkt.const_buffer_sequence.flatten
          = .ok pkt2 ∧
        pkt2.packet_id = pkt.packet_id ∧ pkt2.entries = pkt.entries := by
  have hnew := unsubscribe_new_eq W pid params h (by omega)
  have hdec := unsubscribe_from_buffer_frame W (endian_store W pid) params hW
    (endian_store_length W pid) h hR
  have hwire : ∀ pkt : basic_unsubscribe_packet W,
      pkt = { fixed_header_ := 0xA2,
              topic_length_buf_entries_ := params.map fun e => endian_store 2 e.all_topic.length,
              entries_ := params,
              packet_id_ := endian_store W pid,
              remaining_length_ := W + (params.map fun e => 2 + e.all_topic.length).sum,
              remaining_length_buf_ :=
                val_to_variable_bytes
                  (W + (params.map fun e => 2 + e.all_topic.length).sum) } →
      pkt.const_buffer_sequence.flatten =
        0xA2 :: (val_to_variable_bytes (W + (params.map fun e => 2 + e.all_topic.length).sum)
          ++ (endian_store W pid
            ++ (params.map fun e =>
                  endian_store 2 e.all_topic.length ++ e.all_topic).flatten)) := by
    intro pkt hp
    subst hp
    simp only [basic_unsubscribe_packet.const_buffer_sequence, List.flatten_append,
      unsubscribe_wire_entries]
    simp
  refine ⟨_, hnew, hwire _ rfl, ?_, ?_, rfl, ?_⟩
  · rw [hwire _ rfl]
    simp only [List.length_cons, List.length_append, unsubscribe_entries_length,
      endian_store_length, basic_unsubscribe_packet.size]
    omega
  · simp only [basic_unsubscribe_packet.packet_id, endian_load_store]
    exact Nat.mod_eq_of_lt hpid
  · rw [hwire _ rfl, hdec]
    exact ⟨_, rfl, rfl, rfl⟩

/-- Witness of C19: packet id 1 of two bytes and the topic filters "a" and
"bc". -/
theorem unsubscribe_round_trip_witness :
    ∃ pkt, basic_unsubscribe_packet.new 2 1 [⟨[0x61]⟩, ⟨[0x62, 0x63]⟩] = .ok pkt ∧
      pkt.const_buffer_sequence.flatten =
        [0xA2, 0x09, 0x00, 0x01, 0x00, 0x01, 0x61, 0x00, 0x02, 0x62, 0x63] ∧
      pkt.const_buffer_sequence.flatten.length = pkt.size ∧
      pkt.packet_id = 1 ∧ pkt.entries = [⟨[0x61]⟩, ⟨[0x62, 0x63]⟩] ∧
      ∃ pkt2, basic_unsubscribe_packet.from_buffer 2 pkt.const_buffer_sequence.flatten
          = .ok pkt2 ∧
        pkt2.packet_id = pkt.packet_id ∧ pkt2.entries = pkt.entries :=
  unsubscribe_round_trip 2 1 [⟨[0x61]⟩, ⟨[0x62, 0x63]⟩] (by decide) (by decide)
    (by decide) (by decide)

/-! ## Lemmas on v5 SUBSCRIBE -/

set_option maxRecDepth 100000 in
/-- The three option checks on a byte: the reserved-bits test of the source,
and the QoS and retain-handling fields that reach the `default:` labels. -/
theorem subopts_byte_checks :
    ∀ o < 256,
      ((o % 256 &&& 0b11000000 ≠ 0) ↔ 64 ≤ o) ∧
      ((o % 256 &&& 0b11000000 ≠ 0) ↔ o &&& 0xC0 ≠ 0) ∧
      (sub.opts.get_qos ⟨o⟩ = .reserved ↔ o &&& 0x03 = 3) ∧
      (sub.opts.get_retain_handling ⟨o⟩ = .reserved ↔ o &&& 0x30 = 0x30) := by
  decide

theorem subscribe_header :
    make_fixed_header .subscribe 0b0010 = 0x82 ∧
    get_control_packet_type_with_check 0x82 = some .subscribe := by
  decide

/-- An entry the constructor and the decoder accept: the topic filter passes
`utf8string_check` and has at most 65535 bytes, the options byte has no
reserved bit set, a QoS other than 3 and a retain handling other than 3. -/
theorem subscribe_check_entries_step (e : topic_subopts) (es : List topic_subopts) (acc : Nat)
    (hu : utf8string_check e.all_topic = true) (hl : e.all_topic.length ≤ 65535)
    (ho : e.opts.data_ < 256 ∧ e.opts.data_ &&& 0xC0 = 0 ∧ e.opts.data_ &&& 0x03 ≠ 3
      ∧ e.opts.data_ &&& 0x30 ≠ 0x30) :
    v5.basic_subscribe_packet.new.check_entries (e :: es) acc
      = v5.basic_subscribe_packet.new.check_entries es (acc + (2 + e.all_topic.length + 1)) := by
  obtain ⟨hb, h1, h2, h3⟩ := ho
  obtain ⟨_, c2, c3, c4⟩ := subopts_byte_checks e.opts.data_ hb
  have hbits : ¬ (e.opts.data_ % 256 &&& 0b11000000 ≠ 0) := fun hc => (c2.mp hc) h1
  have hq : e.opts.get_qos ≠ .reserved := fun hc => h2 (c3.mp hc)
  have hr : e.opts.get_retain_handling ≠ .reserved := fun hc => h3 (c4.mp hc)
  have hl2 : ¬ e.all_topic.length > 65535 := by omega
  rw [v5.basic_subscribe_packet.new.check_entries]
  simp only [hbits, if_false]
  cases hqv : e.opts.get_qos <;> cases hrv : e.opts.get_retain_handling <;>
    first
    | exact absurd hqv hq
    | exact absurd hrv hr
    | simp [hl2, hu]

theorem subscribe_topic_length_bufs (params : List topic_subopts)
    (h : ∀ e ∈ params, e.all_topic.length ≤ 65535) :
    v5.basic_subscribe_packet.new.topic_length_bufs params
      = .ok (params.map fun e => endian_store 2 e.all_topic.length) := by
  induction params with
  | nil => rfl
  | cons e es ih =>
    have he : e.all_topic.length < 65536 := by
      have := h e (by simp)
      omega
    have ih2 := ih (fun x hx => h x (by simp [hx]))
    simp [v5.basic_subscribe_packet.new.topic_length_bufs, numeric_cast_or_throw, he, ih2,
      endian_static_vector]

theorem subscribe_check_entries (params : List topic_subopts)
    (h : ∀ e ∈ params, utf8string_check e.all_topic = true ∧ e.all_topic.length ≤ 65535 ∧
      e.opts.data_ < 256 ∧ e.opts.data_ &&& 0xC0 = 0 ∧ e.opts.data_ &&& 0x03 ≠ 3
        ∧ e.opts.data_ &&& 0x30 ≠ 0x30)
    (acc : Nat) :
    v5.basic_subscribe_packet.new.check_entries params acc
      = .ok (acc + (params.map fun e => 2 + e.all_topic.length + 1).sum) := by
  induction params generalizing acc with
  | nil => rfl
  | cons e es ih =>
    obtain ⟨hu, hl, ho⟩ := h e (by simp)
    have ih2 := ih (fun x hx => h x (by simp [hx]))
    rw [subscribe_check_entries_step e es acc hu hl ho, ih2]
    simp only [List.map_cons, List.sum_cons, Nat.add_assoc]

theorem subscribe_wire_entries (params : List topic_subopts) :
    ((((params.map fun e => endian_store 2 e.all_topic.length).zip params).map
        (fun ite => [ite.1, ite.2.all_topic, [ite.2.opts.data_]])).flatten).flatten
      = (params.map fun e =>
          endian_store 2 e.all_topic.length ++ (e.all_topic ++ [e.opts.data_])).flatten := by
  induction params with
  | nil => rfl
  | cons e es ih => simp [ih]

theorem subscribe_entries_length (params : List topic_subopts) :
    (params.map fun e =>
        endian_store 2 e.all_topic.length ++ (e.all_topic ++ [e.opts.data_])).flatten.length
      = (params.map fun e => 2 + e.all_topic.length + 1).sum := by
  induction params with
  | nil => rfl
  | cons e es ih =>
    simp only [List.map_cons, List.flatten_cons, List.length_append, endian_store_length,
      List.sum_cons, ih, List.length_singleton, Nat.add_assoc]

theorem subscribe_entries_count (params : List topic_subopts) :
    params.length ≤ (params.map fun e => 2 + e.all_topic.length + 1).sum := by
  induction params with
  | nil => simp
  | cons e es ih => simp only [List.map_cons, List.sum_cons, List.length_cons]; omega

/-- One turn of the decoding loop up to the options byte, on an entry with a
well-formed topic. -/
theorem subscribe_entries_loop_topic (turns : Nat) (t : List Nat) (o : Nat) (rest : List Nat)
    (tl : List (List Nat)) (acc : List topic_subopts)
    (hu : utf8string_check t = true) (hl : t.length ≤ 65535) :
    v5.basic_subscribe_packet.from_buffer.entries_loop (turns + 1)
        (endian_store 2 t.length ++ (t ++ (o :: rest))) tl acc
      = if o % 256 &&& 0b11000000 ≠ 0 then
          .error (make_error .bad_message "v5::subscribe_packet subopts is invalid")
        else
          match sub.opts.get_qos ⟨o⟩ with
          | .at_most_once | .at_least_once | .exactly_once =>
            match sub.opts.get_retain_handling ⟨o⟩ with
            | .send | .send_only_new_subscription | .not_send =>
              v5.basic_subscribe_packet.from_buffer.entries_loop turns rest
                (tl ++ [endian_store 2 t.length]) (acc ++ [⟨t, ⟨o⟩⟩])
            | .reserved =>
              .error (make_error .bad_message
                "v5::subscribe_packet retain_handling is invalid")
          | .reserved =>
            .error (make_error .bad_message "v5::subscribe_packet qos is invalid") := by
  obtain ⟨h1, h2⟩ := insert_advance_topic_length t.length (t ++ (o :: rest)) hl
  have hcons : endian_store 2 t.length ++ (t ++ (o :: rest))
      = (t.length / 256 % 256) :: ((t.length % 256) :: (t ++ (o :: rest))) := by
    rw [endian_store_two]
    rfl
  rw [hcons, v5.basic_subscribe_packet.from_buffer.entries_loop, ← hcons, h1]
  simp [h2, hu]

/-- One turn of the decoding loop on a well-formed entry. -/
theorem subscribe_entries_loop_step (turns : Nat) (e : topic_subopts) (rest : List Nat)
    (tl : List (List Nat)) (acc : List topic_subopts)
    (hu : utf8string_check e.all_topic = true) (hl : e.all_topic.length ≤ 65535)
    (ho : e.opts.data_ < 256 ∧ e.opts.data_ &&& 0xC0 = 0 ∧ e.opts.data_ &&& 0x03 ≠ 3
      ∧ e.opts.data_ &&& 0x30 ≠ 0x30) :
    v5.basic_subscribe_packet.from_buffer.entries_loop (turns + 1)
        (endian_store 2 e.all_topic.length ++ (e.all_topic ++ (e.opts.data_ :: rest))) tl acc
      = v5.basic_subscribe_packet.from_buffer.entries_loop turns rest
          (tl ++ [endian_store 2 e.all_topic.length]) (acc ++ [e]) := by
  obtain ⟨hb, h1, h2, h3⟩ := ho
  obtain ⟨_, c2, c3, c4⟩ := subopts_byte_checks e.opts.data_ hb
  have hbits : ¬ (e.opts.data_ % 256 &&& 0b11000000 ≠ 0) := fun hc => (c2.mp hc) h1
  have hq : sub.opts.get_qos ⟨e.opts.data_⟩ ≠ .reserved := fun hc => h2 (c3.mp hc)
  have hr : sub.opts.get_retain_handling ⟨e.opts.data_⟩ ≠ .reserved := fun hc => h3 (c4.mp hc)
  rw [subscribe_entries_loop_topic turns e.all_topic e.opts.data_ rest tl acc hu hl]
  simp only [hbits, if_false]
  cases hqv : sub.opts.get_qos ⟨e.opts.data_⟩ <;>
    cases hrv : sub.opts.get_retain_handling ⟨e.opts.data_⟩ <;>
    first
    | exact absurd hqv hq
    | exact absurd hrv hr
    | rfl

/-- The decoding loop on a sequence of well-formed entries followed by
`rest`. -/
theorem subscribe_entries_loop (es : List topic_subopts)
    (h : ∀ e ∈ es, utf8string_check e.all_topic = true ∧ e.all_topic.length ≤ 65535 ∧
      e.opts.data_ < 256 ∧ e.opts.data_ &&& 0xC0 = 0 ∧ e.opts.data_ &&& 0x03 ≠ 3
        ∧ e.opts.data_ &&& 0x30 ≠ 0x30) :
    ∀ (m : Nat) (rest : List Nat) (tl : List (List Nat)) (acc : List topic_subopts),
      v5.basic_subscribe_packet.from_buffer.entries_loop (es.length + m)
          ((es.map fun e =>
              endian_store 2 e.all_topic.length ++ (e.all_topic ++ [e.opts.data_])).flatten
            ++ rest)
          tl acc
        = v5.basic_subscribe_packet.from_buffer.entries_loop m rest
            (tl ++ es.map fun e => endian_store 2 e.all_topic.length) (acc ++ es) := by
  induction es with
  | nil => intro m rest tl acc; simp
  | cons e es ih =>
    intro m rest tl acc
    obtain ⟨hu, hl, ho⟩ := h e (by simp)
    have ih2 := ih (fun x hx => h x (by simp [hx]))
    have hfuel : (e :: es).length + m = (es.length + m) + 1 := by simp; omega
    simp only [List.map_cons, List.flatten_cons, List.append_assoc, List.singleton_append,
      List.cons_append]
    rw [hfuel, subscribe_entries_loop_step _ e _ _ _ hu hl ho, List.nil_append, ih2]
    simp

theorem val_to_variable_bytes_zero : val_to_variable_bytes 0 = [0] := by decide

theorem variable_bytes_to_val_zero (rest : List Nat) :
    variable_bytes_to_val (0 :: rest) = some (0, rest) := by
  simp [variable_bytes_to_val, variable_bytes_to_val.go]

/-- The constructor on well-formed entries and no property. -/
theorem subscribe_new_eq {property : Type} (pf : property_functions property)
    (W pid : Nat) (params : List topic_subopts)
    (hsize : pf.size [] = 0)
    (h : ∀ e ∈ params, utf8string_check e.all_topic = true ∧ e.all_topic.length ≤ 65535 ∧
      e.opts.data_ < 256 ∧ e.opts.data_ &&& 0xC0 = 0 ∧ e.opts.data_ &&& 0x03 ≠ 3
        ∧ e.opts.data_ &&& 0x30 ≠ 0x30)
    (hR : W + 1 + (params.map fun e => 2 + e.all_topic.length + 1).sum ≤ 4294967295) :
    v5.basic_subscribe_packet.new pf W pid params [] =
      .ok { fixed_header_ := 0x82,
            topic_length_buf_entries_ := params.map fun e => endian_store 2 e.all_topic.length,
            entries_ := params,
            packet_id_ := endian_store W pid,
            remaining_length_ := W + 1 + (params.map fun e => 2 + e.all_topic.length + 1).sum,
            remaining_length_buf_ :=
              val_to_variable_bytes
                (W + 1 + (params.map fun e => 2 + e.all_topic.length + 1).sum),
            property_length_ := 0,
            property_length_buf_ := [0],
            props_ := [] } := by
  have h32 : (2 : Nat) ^ 32 = 4294967296 := by norm_num
  have hR2 : W + (1 + 0) + (params.map fun e => 2 + e.all_topic.length + 1).sum < 2 ^ 32 := by
    omega
  have h0 : (0 : Nat) < 2 ^ 32 := by omega
  have hadd : W + (1 + 0) + (params.map fun e => 2 + e.all_topic.length + 1).sum
      = W + 1 + (params.map fun e => 2 + e.all_topic.length + 1).sum := by omega
  unfold v5.basic_subscribe_packet.new
  simp only [subscribe_topic_length_bufs params (fun e he => (h e he).2.1), hsize,
    numeric_cast_or_throw, h0, if_true, val_to_variable_bytes_zero,
    v5.basic_subscribe_packet.new.check_props, List.length_singleton,
    subscribe_check_entries params h, hR2, subscribe_header.1, hadd]

/-- The decoder on the frame of well-formed entries and an empty property
section. -/
theorem subscribe_from_buffer_frame {property : Type} (pf : property_functions property)
    (W : Nat) (pidb : List Nat) (es : List topic_subopts)
    (hmake : pf.make_properties_subscribe [] = .ok [])
    (hpid : pidb.length = W)
    (h : ∀ e ∈ es, utf8string_check e.all_topic = true ∧ e.all_topic.length ≤ 65535 ∧
      e.opts.data_ < 256 ∧ e.opts.data_ &&& 0xC0 = 0 ∧ e.opts.data_ &&& 0x03 ≠ 3
        ∧ e.opts.data_ &&& 0x30 ≠ 0x30)
    (hR : W + 1 + (es.map fun e => 2 + e.all_topic.length + 1).sum ≤ 268435455) :
    v5.basic_subscribe_packet.from_buffer pf W
        (0x82 :: (val_to_variable_bytes
            (W + 1 + (es.map fun e => 2 + e.all_topic.length + 1).sum)
          ++ (pidb ++ (0x00 :: (es.map fun e =>
                endian_store 2 e.all_topic.length
                  ++ (e.all_topic ++ [e.opts.data_])).flatten)))) =
      .ok { fixed_header_ := 0x82,
            topic_length_buf_entries_ := es.map fun e => endian_store 2 e.all_topic.length,
            entries_ := es,
            packet_id_ := pidb,
            remaining_length_ := W + 1 + (es.map fun e => 2 + e.all_topic.length + 1).sum,
            remaining_length_buf_ :=
              val_to_variable_bytes
                (W + 1 + (es.map fun e => 2 + e.all_topic.length + 1).sum),
            property_length_ := 0,
            property_length_buf_ := [0],
            props_ := [] } := by
  have hlen : (pidb ++ (0x00 :: (es.map fun e =>
        endian_store 2 e.all_topic.length ++ (e.all_topic ++ [e.opts.data_])).flatten)).length
      = W + 1 + (es.map fun e => 2 + e.all_topic.length + 1).sum := by
    rw [List.length_append, List.length_cons, subscribe_entries_length, hpid]
    omega
  have hrl := insert_advance_variable_length_roundtrip
    (W + 1 + (es.map fun e => 2 + e.all_topic.length + 1).sum)
    (pidb ++ (0x00 :: (es.map fun e =>
        endian_store 2 e.all_topic.length ++ (e.all_topic ++ [e.opts.data_])).flatten)) hR
  have hne : ¬ (W + 1 + (es.map fun e => 2 + e.all_topic.length + 1).sum = 0) := by omega
  have hcount := subscribe_entries_count es
  have hloop := subscribe_entries_loop es h
    ((es.map fun e => 2 + e.all_topic.length + 1).sum - es.length) [] [] []
  rw [show es.length + ((es.map fun e => 2 + e.all_topic.length + 1).sum - es.length)
      = (es.map fun e =>
          endian_store 2 e.all_topic.length ++ (e.all_topic ++ [e.opts.data_])).flatten.length by
    rw [subscribe_entries_length]; omega] at hloop
  simp only [List.append_nil, List.nil_append] at hloop
  unfold v5.basic_subscribe_packet.from_buffer
  simp only [subscribe_header.2, ne_eq, not_true_eq_false, if_false, hrl, hlen,
    copy_advance_append W _ _ hpid, hne, variable_bytes_to_val_zero, List.length_cons,
    Nat.add_sub_cancel_left, Nat.not_lt_zero, List.take_zero, hmake, List.drop_zero, hloop]
  simp [v5.basic_subscribe_packet.from_buffer.entries_loop]

/-- The turns the decoder gives its loop are enough: with at least as many
turns as the buffer has bytes, the result of the loop does not depend on the
number of turns. -/
theorem subscribe_entries_loop_turns (n : Nat) :
    ∀ (m : Nat) (buf : List Nat) (tl : List (List Nat)) (acc : List topic_subopts),
      buf.length ≤ n → buf.length ≤ m →
      v5.basic_subscribe_packet.from_buffer.entries_loop n buf tl acc
        = v5.basic_subscribe_packet.from_buffer.entries_loop m buf tl acc := by
  induction n with
  | zero =>
    intro m buf tl acc hn _
    have : buf = [] := List.length_eq_zero.mp (by omega)
    subst this
    cases m <;> rfl
  | succ n ih =>
    intro m buf tl acc hn hm
    cases buf with
    | nil => cases m <;> rfl
    | cons b bs =>
      cases m with
      | zero => simp at hm
      | succ m =>
        rw [v5.basic_subscribe_packet.from_buffer.entries_loop,
          v5.basic_subscribe_packet.from_buffer.entries_loop]
        cases hia : insert_advance 2 (b :: bs) with
        | none => rfl
        | some r =>
          obtain ⟨tlb, buf1⟩ := r
          obtain ⟨hparts, htl⟩ := insert_advance_parts 2 (b :: bs) tlb buf1 hia
          have hlen : buf1.length + 2 = (b :: bs).length := by
            rw [hparts, List.length_append, htl]
            omega
          simp only [List.length_cons] at hlen hn hm
          simp only
          split
          · rfl
          · split
            · rfl
            · cases hd : buf1.drop (endian_load tlb) with
              | nil => rfl
              | cons front buf2 =>
                have hl2 : buf2.length + 1 ≤ buf1.length := by
                  have := congrArg List.length hd
                  rw [List.length_drop, List.length_cons] at this
                  omega
                simp only
                split
                · rfl
                · split <;> first
                    | rfl
                    | (split <;> first
                        | rfl
                        | (apply ih <;> omega))

/-! ## The claims on v5 SUBSCRIBE and v3.1.1 UNSUBSCRIBE -/

/-- C20: v5 SUBSCRIBE round trip and wire form with no properties. For a
property list implementation in which the empty list has size 0, has no buffer
and is what the empty property section decodes to, for every packet id of `W`
bytes and every list of entries, each with a topic filter that passes
`utf8string_check` and has at most 65535 bytes and with a valid options byte
(no reserved bit, QoS and retain handling other than 3), with a remaining
length `R = W + 1 + sum over entries of (2 + |topic| + 1)` of at most
268435455: the constructor succeeds; the packet encodes to 82, the
variable-byte encoding of `R`, the packet id big-endian in `W` bytes, the
property-length byte 00, then for each entry in order its 2-byte big-endian
topic length, its topic bytes and its options byte; the encoding has `size()`
bytes; decoding it succeeds and yields the same `packet_id()`, empty `props()`
and the same entries in the same order. -/
theorem subscribe_round_trip {property : Type} (pf : property_functions property)
    (W pid : Nat) (params : List topic_subopts)
    (hsize : pf.size [] = 0) (hcbs : pf.const_buffer_sequence [] = [])
    (hmake : pf.make_properties_subscribe [] = .ok [])
    (hpid : pid < 256 ^ W)
    (h : ∀ e ∈ params, utf8string_check e.all_topic = true ∧ e.all_topic.length ≤ 65535 ∧
      e.opts.data_ < 256 ∧ e.opts.data_ &&& 0xC0 = 0 ∧ e.opts.data_ &&& 0x03 ≠ 3
        ∧ e.opts.data_ &&& 0x30 ≠ 0x30)
    (hR : W + 1 + (params.map fun e => 2 + e.all_topic.length + 1).sum ≤ 268435455) :
    ∃ pkt, v5.basic_subscribe_packet.new pf W pid params [] = .ok pkt ∧
      (pkt.const_buffer_sequence pf).flatten =
        0x82 :: (val_to_variable_bytes
            (W + 1 + (params.map fun e => 2 + e.all_topic.length + 1).sum)
          ++ (endian_store W pid ++ (0x00 :: (params.map fun e =>
                endian_store 2 e.all_topic.length
                  ++ (e.all_topic ++ [e.opts.data_])).flatten))) ∧
      (pkt.const_buffer_sequence pf).flatten.length = pkt.size ∧
      pkt.packet_id = pid ∧ pkt.props = [] ∧ pkt.entries = params ∧
      ∃ pkt2, v5.basic_subscribe_packet.from_buffer pf W (pkt.const_buffer_sequence pf).flatten
          = .ok pkt2 ∧
        pkt2.packet_id = pkt.packet_id ∧ pkt2.props = [] ∧ pkt2.entries = pkt.entries := by
  have hnew := subscribe_new_eq pf W pid params hsize h (by omega)
  have hdec := subscribe_from_buffer_frame pf W (endian_store W pid) params hmake
    (endian_store_length W pid) h hR
  have hwire : ∀ pkt : v5.basic_subscribe_packet property W,
      pkt = { fixed_header_ := 0x82,
              topic_length_buf_entries_ := params.map fun e => endian_store 2 e.all_topic.length,
              entries_ := params,
              packet_id_ := endian_store W pid,
              remaining_length_ :=
                W + 1 + (params.map fun e => 2 + e.all_topic.length + 1).sum,
              remaining_length_buf_ :=
                val_to_variable_bytes
                  (W + 1 + (params.map fun e => 2 + e.all_topic.length + 1).sum),
              property_length_ := 0,
              property_length_buf_ := [0],
              props_ := [] } →
      (pkt.const_buffer_sequence pf).flatten =
        0x82 :: (val_to_variable_bytes
            (W + 1 + (params.map fun e => 2 + e.all_topic.length + 1).sum)
          ++ (endian_store W pid ++ (0x00 :: (params.map fun e =>
                endian_store 2 e.all_topic.length
                  ++ (e.all_topic ++ [e.opts.data_])).flatten))) := by
    intro pkt hp
    subst hp
    simp only [v5.basic_subscribe_packet.const_buffer_sequence, List.flatten_append,
      subscribe_wire_entries, hcbs]
    simp
  refine ⟨_, hnew, hwire _ rfl, ?_, ?_, rfl, rfl, ?_⟩
  · rw [hwire _ rfl]
    simp only [List.length_cons, List.length_append, subscribe_entries_length,
      endian_store_length, v5.basic_subscribe_packet.size]
    omega
  · simp only [v5.basic_subscribe_packet.packet_id, endian_load_store]
    exact Nat.mod_eq_of_lt hpid
  · rw [hwire _ rfl, hdec]
    exact ⟨_, rfl, rfl, rfl, rfl⟩

/-- Witness of C20: no property, packet id 1 of two bytes, the entries "a"
with options 01 and "bc" with options 2E. -/
theorem subscribe_round_trip_witness :
    ∃ pkt, v5.basic_subscribe_packet.new no_property_functions 2 1
        [⟨[0x61], ⟨0x01⟩⟩, ⟨[0x62, 0x63], ⟨0x2E⟩⟩] [] = .ok pkt ∧
      (pkt.const_buffer_sequence no_property_functions).flatten =
        [0x82, 0x0C, 0x00, 0x01, 0x00, 0x00, 0x01, 0x61, 0x01, 0x00, 0x02, 0x62, 0x63, 0x2E] ∧
      (pkt.const_buffer_sequence no_property_functions).flatten.length = pkt.size ∧
      pkt.packet_id = 1 ∧ pkt.props = [] ∧
      pkt.entries = [⟨[0x61], ⟨0x01⟩⟩, ⟨[0x62, 0x63], ⟨0x2E⟩⟩] ∧
      ∃ pkt2, v5.basic_subscribe_packet.from_buffer no_property_functions 2
          (pkt.const_buffer_sequence no_property_functions).flatten = .ok pkt2 ∧
        pkt2.packet_id = pkt.packet_id ∧ pkt2.props = [] ∧ pkt2.entries = pkt.entries :=
  subscribe_round_trip no_property_functions 2 1 [⟨[0x61], ⟨0x01⟩⟩, ⟨[0x62, 0x63], ⟨0x2E⟩⟩]
    rfl rfl rfl (by decide) (by decide) (by decide)

/-- The constructor of SUBSCRIBE always stores the fixed header 0x82. -/
theorem subscribe_new_fixed_header {property : Type} (pf : property_functions property)
    (W pid : Nat) (params : List topic_subopts) (props : List property)
    (pkt : v5.basic_subscribe_packet property W)
    (h : v5.basic_subscribe_packet.new pf W pid params props = .ok pkt) :
    pkt.fixed_header_ = 0x82 := by
  unfold v5.basic_subscribe_packet.new at h
  simp only at h
  split at h
  · cases h
  · split at h
    · cases h
    · split at h
      · cases h
      · split at h
        · cases h
        · split at h
          · cases h
          · simp only [Except.ok.injEq] at h
            subst h
            exact subscribe_header.1

/-- The constructor of UNSUBSCRIBE always stores the fixed header 0xA2. -/
theorem unsubscribe_new_fixed_header (W pid : Nat) (params : List topic_sharename)
    (pkt : basic_unsubscribe_packet W)
    (h : basic_unsubscribe_packet.new W pid params = .ok pkt) :
    pkt.fixed_header_ = 0xA2 := by
  unfold basic_unsubscribe_packet.new at h
  simp only at h
  split at h
  · cases h
  · split at h
    · cases h
    · split at h
      · cases h
      · simp only [Except.ok.injEq] at h
        subst h
        exact unsubscribe_header.1

/-- C18: decode rejects non-conforming fixed-header flags. The v5 SUBSCRIBE
decoder fails for every buffer whose first byte is not exactly 0x82 and the
v3.1.1 UNSUBSCRIBE decoder fails for every buffer whose first byte is not
exactly 0xA2, both with "fixed_header is invalid"; every packet the
constructors from fields return has that first byte as fixed header and as
first byte of its encoding. -/
theorem subscribe_unsubscribe_fixed_header {property : Type}
    (pf : property_functions property) (W : Nat) :
    (∀ (h : Nat) (rest : List Nat), h < 256 → h ≠ 0x82 →
      v5.basic_subscribe_packet.from_buffer pf W (h :: rest)
        = .error (make_error .bad_message "v5::subscribe_packet fixed_header is invalid")) ∧
    (∀ (h : Nat) (rest : List Nat), h < 256 → h ≠ 0xA2 →
      basic_unsubscribe_packet.from_buffer W (h :: rest)
        = .error (make_error .bad_message
            "v3_1_1::unsubscribe_packet fixed_header is invalid")) ∧
    (∀ (pid : Nat) (params : List topic_subopts) (props : List property)
        (pkt : v5.basic_subscribe_packet property W),
      v5.basic_subscribe_packet.new pf W pid params props = .ok pkt →
      pkt.fixed_header_ = 0x82 ∧ (pkt.const_buffer_sequence pf).flatten.head? = some 0x82) ∧
    (∀ (pid : Nat) (params : List topic_sharename) (pkt : basic_unsubscribe_packet W),
      basic_unsubscribe_packet.new W pid params = .ok pkt →
      pkt.fixed_header_ = 0xA2 ∧ pkt.const_buffer_sequence.flatten.head? = some 0xA2) := by
  refine ⟨?_, ?_, ?_, ?_⟩
  · intro h rest hb hne
    have hc : get_control_packet_type_with_check h ≠ some .subscribe :=
      fun hx => hne ((fixed_header_check_bytes h hb).2.1.mp hx)
    simp [v5.basic_subscribe_packet.from_buffer, hc]
  · intro h rest hb hne
    have hc : get_control_packet_type_with_check h ≠ some .unsubscribe :=
      fun hx => hne ((fixed_header_check_bytes h hb).2.2.mp hx)
    simp [basic_unsubscribe_packet.from_buffer, hc]
  · intro pid params props pkt hnew
    have hfh := subscribe_new_fixed_header pf W pid params props pkt hnew
    refine ⟨hfh, ?_⟩
    simp [v5.basic_subscribe_packet.const_buffer_sequence, hfh]
  · intro pid params pkt hnew
    have hfh := unsubscribe_new_fixed_header W pid params pkt hnew
    refine ⟨hfh, ?_⟩
    simp [basic_unsubscribe_packet.const_buffer_sequence, hfh]

/-- Witness of C18: the first bytes 0x80 (SUBSCRIBE with flags 0) and 0xA0
(UNSUBSCRIBE with flags 0), and the packets built from packet id 1 and one
topic filter "a". -/
theorem subscribe_unsubscribe_fixed_header_witness :
    v5.basic_subscribe_packet.from_buffer no_property_functions 2
        (0x80 :: [0x06, 0x00, 0x01, 0x00, 0x00, 0x01, 0x61, 0x00])
      = .error (make_error .bad_message "v5::subscribe_packet fixed_header is invalid") ∧
    basic_unsubscribe_packet.from_buffer 2 (0xA0 :: [0x05, 0x00, 0x01, 0x00, 0x01, 0x61])
      = .error (make_error .bad_message
          "v3_1_1::unsubscribe_packet fixed_header is invalid") ∧
    (∃ pkt, v5.basic_subscribe_packet.new no_property_functions 2 1 [⟨[0x61], ⟨0x00⟩⟩] []
        = .ok pkt ∧ pkt.fixed_header_ = 0x82) ∧
    (∃ pkt, basic_unsubscribe_packet.new 2 1 [⟨[0x61]⟩] = .ok pkt ∧
      pkt.fixed_header_ = 0xA2) :=
  ⟨(subscribe_unsubscribe_fixed_header no_property_functions 2).1 0x80 _
      (by decide) (by decide),
    (subscribe_unsubscribe_fixed_header no_property_functions 2).2.1 0xA0 _
      (by decide) (by decide),
    ⟨_, rfl, ((subscribe_unsubscribe_fixed_header no_property_functions 2).2.2.1 1
      [⟨[0x61], ⟨0x00⟩⟩] [] _ rfl).1⟩,
    ⟨_, rfl, ((subscribe_unsubscribe_fixed_header no_property_functions 2).2.2.2 1
      [⟨[0x61]⟩] _ rfl).1⟩⟩


/-- The entries loop of the SUBSCRIBE constructor fails, with a `bad_message`
error, as soon as some entry has a reserved bit set in its options byte. -/
theorem subscribe_check_entries_reserved (params : List topic_subopts)
    (h : ∃ e ∈ params, 64 ≤ e.opts.data_ ∧ e.opts.data_ < 256) :
    ∀ acc, ∃ w, v5.basic_subscribe_packet.new.check_entries params acc
      = .error (make_error .bad_message w) := by
  induction params with
  | nil => simp at h
  | cons e es ih =>
    intro acc
    rw [v5.basic_subscribe_packet.new.check_entries]
    by_cases hbits : e.opts.data_ % 256 &&& 0b11000000 ≠ 0
    · rw [if_pos hbits]
      exact ⟨_, rfl⟩
    · have hes : ∃ x ∈ es, 64 ≤ x.opts.data_ ∧ x.opts.data_ < 256 := by
        obtain ⟨x, hx, h64, h256⟩ := h
        rcases List.mem_cons.mp hx with hxe | hxe
        · subst hxe
          exact absurd ((subopts_byte_checks x.opts.data_ h256).1.mpr h64) hbits
        · exact ⟨x, hxe, h64, h256⟩
      rw [if_neg hbits]
      split <;> (try split) <;> (try dsimp only) <;> (try split) <;> (try split) <;>
        first
        | exact ⟨_, rfl⟩
        | exact ih hes _

/-- The entries loop of the SUBSCRIBE constructor on well-formed entries
followed by an entry with a reserved bit set in its options byte. -/
theorem subscribe_check_entries_first_reserved (es : List topic_subopts) (e : topic_subopts)
    (rest : List topic_subopts)
    (h : ∀ x ∈ es, utf8string_check x.all_topic = true ∧ x.all_topic.length ≤ 65535 ∧
      x.opts.data_ < 256 ∧ x.opts.data_ &&& 0xC0 = 0 ∧ x.opts.data_ &&& 0x03 ≠ 3
        ∧ x.opts.data_ &&& 0x30 ≠ 0x30)
    (he : 64 ≤ e.opts.data_ ∧ e.opts.data_ < 256) :
    ∀ acc, v5.basic_subscribe_packet.new.check_entries (es ++ e :: rest) acc
      = .error (make_error .bad_message "v5::subscribe_packet subopts is invalid") := by
  induction es with
  | nil =>
    intro acc
    have hbits := (subopts_byte_checks e.opts.data_ he.2).1.mpr he.1
    simp only [List.nil_append]
    rw [v5.basic_subscribe_packet.new.check_entries, if_pos hbits]
  | cons x xs ih =>
    intro acc
    obtain ⟨hu, hl, ho⟩ := h x (by simp)
    simp only [List.cons_append]
    rw [subscribe_check_entries_step x _ acc hu hl ho]
    exact ih (fun y hy => h y (by simp [hy])) _

theorem subscribe_topic_length_bufs_error (params : List topic_subopts) (x : packet_exception)
    (h : v5.basic_subscribe_packet.new.topic_length_bufs params = .error x) :
    x = .bad_numeric_cast := by
  induction params with
  | nil => simp [v5.basic_subscribe_packet.new.topic_length_bufs] at h
  | cons e es ih =>
    rw [v5.basic_subscribe_packet.new.topic_length_bufs] at h
    unfold numeric_cast_or_throw at h
    split at h
    · rename_i hc
      split at hc
      · cases hc
      · simp only [Except.error.injEq] at hc h
        rw [← h, ← hc]
    · split at h
      · rename_i hx
        simp only [Except.error.injEq] at h
        subst h
        exact ih hx
      · cases h

theorem subscribe_check_props_error {property : Type} (pf : property_functions property)
    (props : List property) (x : packet_exception)
    (h : v5.basic_subscribe_packet.new.check_props pf props = .error x) :
    ∃ w, x = make_error .bad_message w := by
  induction props with
  | nil => simp [v5.basic_subscribe_packet.new.check_props] at h
  | cons p ps ih =>
    rw [v5.basic_subscribe_packet.new.check_props] at h
    split at h
    · simp only [Except.error.injEq] at h
      exact ⟨_, h.symm⟩
    · exact ih h

/-- The SUBSCRIBE constructor on a parameter list in which some entry has a
reserved bit set in its options byte: it throws, and what it throws is
`bad_numeric_cast` or a `bad_message` error. -/
theorem subscribe_new_reserved {property : Type} (pf : property_functions property)
    (W pid : Nat) (params : List topic_subopts) (props : List property)
    (h : ∃ e ∈ params, 64 ≤ e.opts.data_ ∧ e.opts.data_ < 256) :
    ∃ x, v5.basic_subscribe_packet.new pf W pid params props = .error x ∧
      (x = .bad_numeric_cast ∨ ∃ w, x = make_error .bad_message w) := by
  unfold v5.basic_subscribe_packet.new
  simp only
  split
  · rename_i x hx
    exact ⟨x, rfl, Or.inl (subscribe_topic_length_bufs_error params x hx)⟩
  · split
    · rename_i x hx
      refine ⟨x, rfl, Or.inl ?_⟩
      unfold numeric_cast_or_throw at hx
      split at hx
      · cases hx
      · simp only [Except.error.injEq] at hx
        exact hx.symm
    · split
      · rename_i x hx
        exact ⟨x, rfl, Or.inr (subscribe_check_props_error pf props x hx)⟩
      · obtain ⟨w, hw⟩ := subscribe_check_entries_reserved params h
          (W + ((val_to_variable_bytes _).length + pf.size props))
        split
        · rename_i x hx
          rw [hw] at hx
          simp only [Except.error.injEq] at hx
          exact ⟨x, rfl, Or.inr ⟨w, hx.symm⟩⟩
        · rename_i hx
          rw [hw] at hx
          cases hx

/-- The SUBSCRIBE decoder on a frame with a consistent remaining length, a
packet id and an empty property section: what is left is the loop over the
entries. -/
theorem subscribe_from_buffer_entries {property : Type} (pf : property_functions property)
    (W : Nat) (pidb buf5 : List Nat)
    (hmake : pf.make_properties_subscribe [] = .ok [])
    (hpid : pidb.length = W)
    (hR : (pidb ++ (0x00 :: buf5)).length ≤ 268435455) :
    v5.basic_subscribe_packet.from_buffer pf W
        (0x82 :: (val_to_variable_bytes (pidb ++ (0x00 :: buf5)).length
          ++ (pidb ++ (0x00 :: buf5)))) =
      match v5.basic_subscribe_packet.from_buffer.entries_loop buf5.length buf5 [] [] with
      | .error x => .error x
      | .ok (topic_length_buf_entries_, entries_) =>
        .ok { fixed_header_ := 0x82, topic_length_buf_entries_, entries_,
              packet_id_ := pidb,
              remaining_length_ := (pidb ++ (0x00 :: buf5)).length,
              remaining_length_buf_ :=
                val_to_variable_bytes (pidb ++ (0x00 :: buf5)).length,
              property_length_ := 0,
              property_length_buf_ := [0],
              props_ := [] } := by
  have hrl := insert_advance_variable_length_roundtrip
    (pidb ++ (0x00 :: buf5)).length (pidb ++ (0x00 :: buf5)) hR
  have hne : ¬ ((pidb ++ (0x00 :: buf5)).length = 0) := by simp
  unfold v5.basic_subscribe_packet.from_buffer
  simp only [subscribe_header.2, ne_eq, not_true_eq_false, if_false, hrl,
    copy_advance_append W _ _ hpid, hne, variable_bytes_to_val_zero, List.length_cons,
    Nat.add_sub_cancel_left, Nat.not_lt_zero, List.take_zero, hmake, List.drop_zero]
  simp

/-- The SUBSCRIBE decoder on a frame with an empty property section, some
well-formed entries and then an entry whose options byte has a reserved bit
set. -/
theorem subscribe_from_buffer_reserved {property : Type} (pf : property_functions property)
    (W : Nat) (pidb : List Nat) (es : List topic_subopts) (t : List Nat) (o : Nat)
    (rest : List Nat)
    (hmake : pf.make_properties_subscribe [] = .ok [])
    (hpid : pidb.length = W)
    (h : ∀ e ∈ es, utf8string_check e.all_topic = true ∧ e.all_topic.length ≤ 65535 ∧
      e.opts.data_ < 256 ∧ e.opts.data_ &&& 0xC0 = 0 ∧ e.opts.data_ &&& 0x03 ≠ 3
        ∧ e.opts.data_ &&& 0x30 ≠ 0x30)
    (hu : utf8string_check t = true) (hl : t.length ≤ 65535)
    (ho : 64 ≤ o ∧ o < 256)
    (hR : (pidb ++ (0x00 :: ((es.map fun e =>
              endian_store 2 e.all_topic.length ++ (e.all_topic ++ [e.opts.data_])).flatten
            ++ (endian_store 2 t.length ++ (t ++ (o :: rest)))))).length ≤ 268435455) :
    v5.basic_subscribe_packet.from_buffer pf W
        (0x82 :: (val_to_variable_bytes
            (pidb ++ (0x00 :: ((es.map fun e =>
              endian_store 2 e.all_topic.length ++ (e.all_topic ++ [e.opts.data_])).flatten
            ++ (endian_store 2 t.length ++ (t ++ (o :: rest)))))).length
          ++ (pidb ++ (0x00 :: ((es.map fun e =>
              endian_store 2 e.all_topic.length ++ (e.all_topic ++ [e.opts.data_])).flatten
            ++ (endian_store 2 t.length ++ (t ++ (o :: rest))))))))
      = .error (make_error .bad_message "v5::subscribe_packet subopts is invalid") := by
  have hbits := (subopts_byte_checks o ho.2).1.mpr ho.1
  have hcount := subscribe_entries_count es
  have hflat := subscribe_entries_length es
  have htotal : ((es.map fun e =>
        endian_store 2 e.all_topic.length ++ (e.all_topic ++ [e.opts.data_])).flatten
      ++ (endian_store 2 t.length ++ (t ++ (o :: rest)))).length
      = es.length + (((es.map fun e => 2 + e.all_topic.length + 1).sum - es.length
          + (2 + t.length + rest.length)) + 1) := by
    simp only [List.length_append, hflat, endian_store_length, List.length_cons]
    omega
  have hloop := subscribe_entries_loop es h
    (((es.map fun e => 2 + e.all_topic.length + 1).sum - es.length
          + (2 + t.length + rest.length)) + 1)
    (endian_store 2 t.length ++ (t ++ (o :: rest))) [] []
  rw [subscribe_entries_loop_topic _ t o rest _ _ hu hl, if_pos hbits, ← htotal] at hloop
  rw [subscribe_from_buffer_entries pf W pidb _ hmake hpid hR, hloop]

/-- C17 (counterexample): constructing a v5 SUBSCRIBE with the entry "a" and
the options byte 0x40 (bit 6 set), and decoding the frame
82 07 00 01 00 00 01 61 80 (options byte 0x80, bit 7 set), both fail with the
`system_error` of `errc::bad_message` and the text "v5::subscribe_packet
subopts is invalid"; its code is not the disconnect reason code
`protocol_error`. -/
theorem subscribe_reserved_bits_bad_message :
    v5.basic_subscribe_packet.new no_property_functions 2 1 [⟨[0x61], ⟨0x40⟩⟩] []
      = .error (.system_error
          ⟨.of_errc .bad_message, "v5::subscribe_packet subopts is invalid"⟩) ∧
    v5.basic_subscribe_packet.from_buffer no_property_functions 2
        [0x82, 0x07, 0x00, 0x01, 0x00, 0x00, 0x01, 0x61, 0x80]
      = .error (.system_error
          ⟨.of_errc .bad_message, "v5::subscribe_packet subopts is invalid"⟩) ∧
    error_code.of_errc .bad_message ≠ .of_disconnect_reason_code .protocol_error := by
  decide

/-- C17 (amended): reserved subscribe-option bits are rejected with
`errc::bad_message`. Constructing a v5 SUBSCRIBE with an entry whose options
byte has bit 6 or bit 7 set always throws, and what is thrown is
`bad_numeric_cast` or a `system_error` of `errc::bad_message`, never a
disconnect reason code; when the packet has no property, every topic filter
has at most 65535 bytes and the entries before that one are well-formed, the
text is "v5::subscribe_packet subopts is invalid". Decoding a frame with an
empty property section, well-formed entries and then an entry with a
well-formed topic and such an options byte throws the same error. -/
theorem subscribe_reserved_bits {property : Type} (pf : property_functions property)
    (W pid : Nat) :
    (∀ (params : List topic_subopts) (props : List property),
      (∃ e ∈ params, 64 ≤ e.opts.data_ ∧ e.opts.data_ < 256) →
      ∃ x, v5.basic_subscribe_packet.new pf W pid params props = .error x ∧
        (x = .bad_numeric_cast ∨ ∃ w, x = make_error .bad_message w)) ∧
    (∀ (es : List topic_subopts) (e : topic_subopts) (rest : List topic_subopts),
      pf.size [] = 0 →
      (∀ x ∈ es, utf8string_check x.all_topic = true ∧ x.all_topic.length ≤ 65535 ∧
        x.opts.data_ < 256 ∧ x.opts.data_ &&& 0xC0 = 0 ∧ x.opts.data_ &&& 0x03 ≠ 3
          ∧ x.opts.data_ &&& 0x30 ≠ 0x30) →
      (∀ x ∈ es ++ e :: rest, x.all_topic.length ≤ 65535) →
      64 ≤ e.opts.data_ ∧ e.opts.data_ < 256 →
      v5.basic_subscribe_packet.new pf W pid (es ++ e :: rest) []
        = .error (make_error .bad_message "v5::subscribe_packet subopts is invalid")) ∧
    (∀ (pidb : List Nat) (es : List topic_subopts) (t : List Nat) (o : Nat) (rest : List Nat),
      pf.make_properties_subscribe [] = .ok [] →
      pidb.length = W →
      (∀ x ∈ es, utf8string_check x.all_topic = true ∧ x.all_topic.length ≤ 65535 ∧
        x.opts.data_ < 256 ∧ x.opts.data_ &&& 0xC0 = 0 ∧ x.opts.data_ &&& 0x03 ≠ 3
          ∧ x.opts.data_ &&& 0x30 ≠ 0x30) →
      utf8string_check t = true → t.length ≤ 65535 →
      64 ≤ o ∧ o < 256 →
      (pidb ++ (0x00 :: ((es.map fun e =>
              endian_store 2 e.all_topic.length ++ (e.all_topic ++ [e.opts.data_])).flatten
            ++ (endian_store 2 t.length ++ (t ++ (o :: rest)))))).length ≤ 268435455 →
      v5.basic_subscribe_packet.from_buffer pf W
          (0x82 :: (val_to_variable_bytes
              (pidb ++ (0x00 :: ((es.map fun e =>
                endian_store 2 e.all_topic.length ++ (e.all_topic ++ [e.opts.data_])).flatten
              ++ (endian_store 2 t.length ++ (t ++ (o :: rest)))))).length
            ++ (pidb ++ (0x00 :: ((es.map fun e =>
                endian_store 2 e.all_topic.length ++ (e.all_topic ++ [e.opts.data_])).flatten
              ++ (endian_store 2 t.length ++ (t ++ (o :: rest))))))))
        = .error (make_error .bad_message "v5::subscribe_packet subopts is invalid")) := by
  refine ⟨?_, ?_, ?_⟩
  · intro params props h
    exact subscribe_new_reserved pf W pid params props h
  · intro es e rest hsize hes hlen he
    have h0 : (0 : Nat) < 2 ^ 32 := by norm_num
    unfold v5.basic_subscribe_packet.new
    simp only [subscribe_topic_length_bufs _ hlen, hsize, numeric_cast_or_throw, h0, if_true,
      v5.basic_subscribe_packet.new.check_props,
      subscribe_check_entries_first_reserved es e rest hes he]
  · intro pidb es t o rest hmake hpid hes hu hl ho hR
    exact subscribe_from_buffer_reserved pf W pidb es t o rest hmake hpid hes hu hl ho hR

/-- Witness of C17 (amended): the entries "a" with options 01 and "b" with
options C0 in the constructor, and the frame
82 0B 00 01 00 00 01 61 01 00 01 62 C0 FF. -/
theorem subscribe_reserved_bits_witness :
    (∃ x, v5.basic_subscribe_packet.new no_property_functions 2 1
          [⟨[0x61], ⟨0x01⟩⟩, ⟨[0x62], ⟨0xC0⟩⟩] [] = .error x ∧
        (x = .bad_numeric_cast ∨ ∃ w, x = make_error .bad_message w)) ∧
    v5.basic_subscribe_packet.new no_property_functions 2 1
          ([⟨[0x61], ⟨0x01⟩⟩] ++ ⟨[0x62], ⟨0xC0⟩⟩ :: []) []
      = .error (make_error .bad_message "v5::subscribe_packet subopts is invalid") ∧
    v5.basic_subscribe_packet.from_buffer no_property_functions 2
        [0x82, 0x0C, 0x00, 0x01, 0x00, 0x00, 0x01, 0x61, 0x01, 0x00, 0x01, 0x62, 0xC0, 0xFF]
      = .error (make_error .bad_message "v5::subscribe_packet subopts is invalid") :=
  ⟨(subscribe_reserved_bits no_property_functions 2 1).1
      [⟨[0x61], ⟨0x01⟩⟩, ⟨[0x62], ⟨0xC0⟩⟩] [] (by decide),
    (subscribe_reserved_bits no_property_functions 2 1).2.1
      [⟨[0x61], ⟨0x01⟩⟩] ⟨[0x62], ⟨0xC0⟩⟩ [] rfl (by decide) (by decide) (by decide),
    (subscribe_reserved_bits no_property_functions 2 1).2.2
      [0x00, 0x01] [⟨[0x61], ⟨0x01⟩⟩] [0x62] 0xC0 [0xFF] rfl rfl (by decide) (by decide)
      (by decide) (by decide) (by decide)⟩

/-! ## The gather list and its announced number of elements -/

theorem pairs_flatten_length {α β : Type} (l : List α) (f g : α → β) :
    ((l.map fun x => [f x, g x]).flatten).length = l.length * 2 := by
  induction l with
  | nil => rfl
  | cons x xs ih => simp only [List.map_cons, List.flatten_cons, List.length_append, ih,
      List.length_cons, List.length_nil]; omega

theorem triples_flatten_length {α β : Type} (l : List α) (f g k : α → β) :
    ((l.map fun x => [f x, g x, k x]).flatten).length = l.length * 3 := by
  induction l with
  | nil => rfl
  | cons x xs ih => simp only [List.map_cons, List.flatten_cons, List.length_append, ih,
      List.length_cons, List.length_nil]; omega

theorem unsubscribe_topic_length_bufs_length (params : List topic_sharename)
    (bufs : List (List Nat))
    (h : basic_unsubscribe_packet.new.topic_length_bufs params = .ok bufs) :
    bufs.length = params.length := by
  induction params generalizing bufs with
  | nil =>
    simp only [basic_unsubscribe_packet.new.topic_length_bufs, Except.ok.injEq] at h
    subst h
    rfl
  | cons e es ih =>
    rw [basic_unsubscribe_packet.new.topic_length_bufs] at h
    split at h
    · cases h
    · split at h
      · cases h
      · rename_i bufs2 hb
        simp only [Except.ok.injEq] at h
        rw [← h, List.length_cons, ih bufs2 hb, List.length_cons]

theorem subscribe_topic_length_bufs_length (params : List topic_subopts)
    (bufs : List (List Nat))
    (h : v5.basic_subscribe_packet.new.topic_length_bufs params = .ok bufs) :
    bufs.length = params.length := by
  induction params generalizing bufs with
  | nil =>
    simp only [v5.basic_subscribe_packet.new.topic_length_bufs, Except.ok.injEq] at h
    subst h
    rfl
  | cons e es ih =>
    rw [v5.basic_subscribe_packet.new.topic_length_bufs] at h
    split at h
    · cases h
    · split at h
      · cases h
      · rename_i bufs2 hb
        simp only [Except.ok.injEq] at h
        rw [← h, List.length_cons, ih bufs2 hb, List.length_cons]

/-- The decoding loop of UNSUBSCRIBE adds as many topic-length buffers as
entries. -/
theorem unsubscribe_entries_loop_lengths (n : Nat) :
    ∀ (buf : List Nat) (tl : List (List Nat)) (acc : List topic_sharename)
      (tl2 : List (List Nat)) (acc2 : List topic_sharename),
      basic_unsubscribe_packet.from_buffer.entries_loop n buf tl acc = .ok (tl2, acc2) →
      tl.length = acc.length → tl2.length = acc2.length := by
  induction n with
  | zero =>
    intro buf tl acc tl2 acc2 h hl
    cases buf <;>
      simp only [basic_unsubscribe_packet.from_buffer.entries_loop, Except.ok.injEq,
        Prod.mk.injEq] at h <;>
      rw [← h.1, ← h.2] <;> exact hl
  | succ n ih =>
    intro buf tl acc tl2 acc2 h hl
    cases buf with
    | nil =>
      simp only [basic_unsubscribe_packet.from_buffer.entries_loop, Except.ok.injEq,
        Prod.mk.injEq] at h
      rw [← h.1, ← h.2]
      exact hl
    | cons b bs =>
      rw [basic_unsubscribe_packet.from_buffer.entries_loop] at h
      split at h
      · cases h
      · simp only at h
        split at h
        · cases h
        · split at h
          · cases h
          · exact ih _ _ _ _ _ h (by simp [hl])

/-- The decoding loop of SUBSCRIBE adds as many topic-length buffers as
entries. -/
theorem subscribe_entries_loop_lengths (n : Nat) :
    ∀ (buf : List Nat) (tl : List (List Nat)) (acc : List topic_subopts)
      (tl2 : List (List Nat)) (acc2 : List topic_subopts),
      v5.basic_subscribe_packet.from_buffer.entries_loop n buf tl acc = .ok (tl2, acc2) →
      tl.length = acc.length → tl2.length = acc2.length := by
  induction n with
  | zero =>
    intro buf tl acc tl2 acc2 h hl
    cases buf <;>
      simp only [v5.basic_subscribe_packet.from_buffer.entries_loop, Except.ok.injEq,
        Prod.mk.injEq] at h <;>
      rw [← h.1, ← h.2] <;> exact hl
  | succ n ih =>
    intro buf tl acc tl2 acc2 h hl
    cases buf with
    | nil =>
      simp only [v5.basic_subscribe_packet.from_buffer.entries_loop, Except.ok.injEq,
        Prod.mk.injEq] at h
      rw [← h.1, ← h.2]
      exact hl
    | cons b bs =>
      rw [v5.basic_subscribe_packet.from_buffer.entries_loop] at h
      (repeat' (first | split at h | dsimp only at h)) <;> first
        | cases h
        | exact ih _ _ _ _ _ h (by simp [hl])

theorem unsubscribe_new_lengths (W pid : Nat) (params : List topic_sharename)
    (pkt : basic_unsubscribe_packet W)
    (h : basic_unsubscribe_packet.new W pid params = .ok pkt) :
    pkt.topic_length_buf_entries_.length = pkt.entries_.length := by
  unfold basic_unsubscribe_packet.new at h
  (repeat' (first | split at h | dsimp only at h)) <;> cases h
  exact unsubscribe_topic_length_bufs_length _ _ (by assumption)

theorem unsubscribe_from_buffer_lengths (W : Nat) (buf : List Nat)
    (pkt : basic_unsubscribe_packet W)
    (h : basic_unsubscribe_packet.from_buffer W buf = .ok pkt) :
    pkt.topic_length_buf_entries_.length = pkt.entries_.length := by
  unfold basic_unsubscribe_packet.from_buffer at h
  (repeat' (first | split at h | dsimp only at h)) <;> cases h
  exact unsubscribe_entries_loop_lengths _ _ _ _ _ _ (by assumption) rfl

theorem subscribe_new_lengths {property : Type} (pf : property_functions property)
    (W pid : Nat) (params : List topic_subopts) (props : List property)
    (pkt : v5.basic_subscribe_packet property W)
    (h : v5.basic_subscribe_packet.new pf W pid params props = .ok pkt) :
    pkt.topic_length_buf_entries_.length = pkt.entries_.length ∧
      pkt.property_length_buf_ = val_to_variable_bytes (pf.size props) := by
  unfold v5.basic_subscribe_packet.new at h
  (repeat' (first | split at h | dsimp only at h)) <;> cases h
  refine ⟨subscribe_topic_length_bufs_length _ _ (by assumption), ?_⟩
  rename_i pl hpl2 _ _ _ _ _ _ _ _
  unfold numeric_cast_or_throw at hpl2
  split at hpl2
  · simp only [Except.ok.injEq] at hpl2
    rw [hpl2]
  · cases hpl2

theorem val_to_variable_bytes_ne_nil (val : Nat) (h : val ≤ 268435455) :
    val_to_variable_bytes val ≠ [] := by
  unfold val_to_variable_bytes
  rw [if_neg (by omega)]
  rw [val_to_variable_bytes.go]
  split <;> simp

theorem subscribe_from_buffer_lengths {property : Type} (pf : property_functions property)
    (W : Nat) (buf : List Nat) (pkt : v5.basic_subscribe_packet property W)
    (h : v5.basic_subscribe_packet.from_buffer pf W buf = .ok pkt) :
    pkt.topic_length_buf_entries_.length = pkt.entries_.length ∧
      pkt.property_length_buf_ ≠ [] := by
  unfold v5.basic_subscribe_packet.from_buffer at h
  (repeat' (first | split at h | dsimp only at h)) <;> cases h
  refine ⟨subscribe_entries_loop_lengths _ _ _ _ _ _ (by assumption) rfl, ?_⟩
  rename_i buf3 _ pl buf4 hv _ _ _ _ _ _ _ _ _ _
  obtain ⟨pre, hpre, _, hpos⟩ := variable_bytes_go_suffix 4 _ 0 1 _ _ hv
  dsimp only
  rw [hpre, List.length_append, Nat.add_sub_cancel, List.take_left]
  intro hnil
  rw [hnil] at hpos
  exact Nat.lt_irrefl 0 hpos

/-- C21: the number of buffers announced by `num_of_const_buffer_sequence()` is
the length of the gather list of `const_buffer_sequence()`: for every v3.1.1
PUBLISH packet, for every v3.1.1 UNSUBSCRIBE packet made by the constructor or
by the decoder, for the v5 PINGRESP packet made by the constructor or by the
decoder, and, when the buffer count of the property list agrees with its
buffer sequence, for every v5 SUBSCRIBE packet made by the decoder and for
every v5 SUBSCRIBE packet made by the constructor whose stored property-length
buffer is not empty. The decoder never stores an empty property-length buffer,
and the constructor does not either for a property list of at most
268 435 455 bytes. -/
theorem num_of_const_buffer_sequence_matches {property : Type}
    (pf : property_functions property) (W : Nat)
    (hpf : ∀ props : List property,
      pf.num_of_const_buffer_sequence props = (pf.const_buffer_sequence props).length) :
    (∀ pkt : basic_publish_packet W,
        pkt.const_buffer_sequence.length = pkt.num_of_const_buffer_sequence) ∧
    (∀ pid params (pkt : basic_unsubscribe_packet W),
        basic_unsubscribe_packet.new W pid params = .ok pkt →
        pkt.const_buffer_sequence.length = pkt.num_of_const_buffer_sequence) ∧
    (∀ buf (pkt : basic_unsubscribe_packet W),
        basic_unsubscribe_packet.from_buffer W buf = .ok pkt →
        pkt.const_buffer_sequence.length = pkt.num_of_const_buffer_sequence) ∧
    (∀ pid params props (pkt : v5.basic_subscribe_packet property W),
        v5.basic_subscribe_packet.new pf W pid params props = .ok pkt →
        (pf.size props ≤ 268435455 → pkt.property_length_buf_ ≠ []) ∧
        (pkt.property_length_buf_ ≠ [] →
          (pkt.const_buffer_sequence pf).length = pkt.num_of_const_buffer_sequence pf)) ∧
    (∀ buf (pkt : v5.basic_subscribe_packet property W),
        v5.basic_subscribe_packet.from_buffer pf W buf = .ok pkt →
        pkt.property_length_buf_ ≠ [] ∧
        (pkt.const_buffer_sequence pf).length = pkt.num_of_const_buffer_sequence pf) ∧
    (v5.pingresp_packet.new.const_buffer_sequence.length
        = v5.pingresp_packet.num_of_const_buffer_sequence) ∧
    (∀ buf (pkt : v5.pingresp_packet), v5.pingresp_packet.from_buffer buf = .ok pkt →
        pkt.const_buffer_sequence.length
          = v5.pingresp_packet.num_of_const_buffer_sequence) := by
  have hunsub : ∀ pkt : basic_unsubscribe_packet W,
      pkt.topic_length_buf_entries_.length = pkt.entries_.length →
      pkt.const_buffer_sequence.length = pkt.num_of_const_buffer_sequence := by
    intro pkt hl
    unfold basic_unsubscribe_packet.const_buffer_sequence
      basic_unsubscribe_packet.num_of_const_buffer_sequence
    rw [List.length_append, pairs_flatten_length, List.length_zip, hl, Nat.min_self]
    simp only [List.length_cons, List.length_nil]
  have hsub : ∀ pkt : v5.basic_subscribe_packet property W,
      pkt.topic_length_buf_entries_.length = pkt.entries_.length →
      pkt.property_length_buf_ ≠ [] →
      (pkt.const_buffer_sequence pf).length = pkt.num_of_const_buffer_sequence pf := by
    intro pkt hl hne
    have hne2 : ¬ pkt.property_length_buf_.length = 0 := fun h0 =>
      hne (List.length_eq_zero.mp h0)
    unfold v5.basic_subscribe_packet.const_buffer_sequence
      v5.basic_subscribe_packet.num_of_const_buffer_sequence
    rw [if_neg hne2, List.length_append, List.length_append, triples_flatten_length,
      List.length_zip, hl, Nat.min_self, hpf]
    simp only [List.length_cons, List.length_nil]
    omega
  refine ⟨?_, ?_, ?_, ?_, ?_, rfl, ?_⟩
  · intro pkt
    unfold basic_publish_packet.const_buffer_sequence
      basic_publish_packet.num_of_const_buffer_sequence
    by_cases h0 : pkt.packet_id = 0
    · simp [h0]
      omega
    · simp [h0]
      omega
  · intro pid params pkt h
    exact hunsub pkt (unsubscribe_new_lengths W pid params pkt h)
  · intro buf pkt h
    exact hunsub pkt (unsubscribe_from_buffer_lengths W buf pkt h)
  · intro pid params props pkt h
    obtain ⟨hl, hb⟩ := subscribe_new_lengths pf W pid params props pkt h
    exact ⟨fun hs => hb ▸ val_to_variable_bytes_ne_nil _ hs, hsub pkt hl⟩
  · intro buf pkt h
    obtain ⟨hl, hne⟩ := subscribe_from_buffer_lengths pf W buf pkt h
    exact ⟨hne, hsub pkt hl hne⟩
  · intro buf pkt h
    unfold v5.pingresp_packet.from_buffer at h
    (repeat' (first | split at h | dsimp only at h)) <;> cases h
    all_goals rfl

/-- Witness of C21: without properties, the SUBSCRIBE packet with packet id 1
and the entry "a" with options 01; its gather list has the seven buffers that
`num_of_const_buffer_sequence()` announces. -/
theorem num_of_const_buffer_sequence_matches_witness :
    (∀ props : List Empty, no_property_functions.num_of_const_buffer_sequence props
        = (no_property_functions.const_buffer_sequence props).length) ∧
    ∃ pkt, v5.basic_subscribe_packet.new no_property_functions 2 1 [⟨[0x61], ⟨0x01⟩⟩] []
        = .ok pkt ∧
      pkt.property_length_buf_ ≠ [] ∧
      (pkt.const_buffer_sequence no_property_functions).length
        = pkt.num_of_const_buffer_sequence no_property_functions ∧
      pkt.num_of_const_buffer_sequence no_property_functions = 7 :=
  ⟨fun _ => rfl, _, rfl,
    ((num_of_const_buffer_sequence_matches no_property_functions 2 (fun _ => rfl)).2.2.2.1
      1 [⟨[0x61], ⟨0x01⟩⟩] [] _ rfl).1 (by decide),
    ((num_of_const_buffer_sequence_matches no_property_functions 2 (fun _ => rfl)).2.2.2.1
      1 [⟨[0x61], ⟨0x01⟩⟩] [] _ rfl).2 (by decide),
    by decide⟩

/-! ## The packet variant -/

/-- C22: `basic_packet_variant` reports what it holds. For every variant,
`type()` is `std::nullopt` exactly when the `system_error` alternative is held,
and `operator bool` is true exactly when `type()` has a value; a
default-constructed variant holds the error alternative, is false, has no type
and an empty `const_buffer_sequence()`; every variant that holds an error has
an empty `const_buffer_sequence()`; and a variant made of a packet has the
control packet type and the `const_buffer_sequence()` of that packet, for each
of the 29 packet alternatives. -/
theorem packet_variant_reports_content {property : Type} (pf : property_functions property)
    (W : Nat) :
    (∀ v : basic_packet_variant property W,
        (v.type = none ↔ ∃ e, v.var_ = .system_error e) ∧
        (v.operator_bool = true ↔ v.type.isSome = true) ∧
        ((∃ e, v.var_ = .system_error e) → v.const_buffer_sequence pf = [])) ∧
    ((basic_packet_variant.new : basic_packet_variant property W).var_
        = .system_error system_error.new ∧
      (basic_packet_variant.new : basic_packet_variant property W).operator_bool = false ∧
      (basic_packet_variant.new : basic_packet_variant property W).type = none ∧
      (basic_packet_variant.new : basic_packet_variant property W).const_buffer_sequence pf
        = []) ∧
    (∀ p, (⟨.v3_1_1_connect_packet p⟩ : basic_packet_variant property W).type = some p.type ∧
        p.type = .connect ∧
        (⟨.v3_1_1_connect_packet p⟩ : basic_packet_variant property W).const_buffer_sequence pf
          = p.const_buffer_sequence) ∧
    (∀ p, (⟨.v3_1_1_connack_packet p⟩ : basic_packet_variant property W).type = some p.type ∧
        p.type = .connack ∧
        (⟨.v3_1_1_connack_packet p⟩ : basic_packet_variant property W).const_buffer_sequence pf
          = p.const_buffer_sequence) ∧
    (∀ p, (⟨.v3_1_1_publish_packet p⟩ : basic_packet_variant property W).type = some p.type ∧
        p.type = .publish ∧
        (⟨.v3_1_1_publish_packet p⟩ : basic_packet_variant property W).const_buffer_sequence pf
          = p.const_buffer_sequence) ∧
    (∀ p, (⟨.v3_1_1_puback_packet p⟩ : basic_packet_variant property W).type = some p.type ∧
        p.type = .puback ∧
        (⟨.v3_1_1_puback_packet p⟩ : basic_packet_variant property W).const_buffer_sequence pf
          = p.const_buffer_sequence) ∧
    (∀ p, (⟨.v3_1_1_pubrec_packet p⟩ : basic_packet_variant property W).type = some p.type ∧
        p.type = .pubrec ∧
        (⟨.v3_1_1_pubrec_packet p⟩ : basic_packet_variant property W).const_buffer_sequence pf
          = p.const_buffer_sequence) ∧
    (∀ p, (⟨.v3_1_1_pubrel_packet p⟩ : basic_packet_variant property W).type = some p.type ∧
        p.type = .pubrel ∧
        (⟨.v3_1_1_pubrel_packet p⟩ : basic_packet_variant property W).const_buffer_sequence pf
          = p.const_buffer_sequence) ∧
    (∀ p, (⟨.v3_1_1_pubcomp_packet p⟩ : basic_packet_variant property W).type = some p.type ∧
        p.type = .pubcomp ∧
        (⟨.v3_1_1_pubcomp_packet p⟩ : basic_packet_variant property W).const_buffer_sequence pf
          = p.const_buffer_sequence) ∧
    (∀ p, (⟨.v3_1_1_subscribe_packet p⟩ : basic_packet_variant property W).type = some p.type ∧
        p.type = .subscribe ∧
        (⟨.v3_1_1_subscribe_packet p⟩ : basic_packet_variant property W).const_buffer_sequence pf
          = p.const_buffer_sequence) ∧
    (∀ p, (⟨.v3_1_1_suback_packet p⟩ : basic_packet_variant property W).type = some p.type ∧
        p.type = .suback ∧
        (⟨.v3_1_1_suback_packet p⟩ : basic_packet_variant property W).const_buffer_sequence pf
          = p.const_buffer_sequence) ∧
    (∀ p, (⟨.v3_1_1_unsubscribe_packet p⟩ : basic_packet_variant property W).type = some p.type ∧
        p.type = .unsubscribe ∧
        (⟨.v3_1_1_unsubscribe_packet p⟩ : basic_packet_variant property W).const_buffer_sequence pf
          = p.const_buffer_sequence) ∧
    (∀ p, (⟨.v3_1_1_unsuback_packet p⟩ : basic_packet_variant property W).type = some p.type ∧
        p.type = .unsuback ∧
        (⟨.v3_1_1_unsuback_packet p⟩ : basic_packet_variant property W).const_buffer_sequence pf
          = p.const_buffer_sequence) ∧
    (∀ p, (⟨.v3_1_1_pingreq_packet p⟩ : basic_packet_variant property W).type = some p.type ∧
        p.type = .pingreq ∧
        (⟨.v3_1_1_pingreq_packet p⟩ : basic_packet_variant property W).const_buffer_sequence pf
          = p.const_buffer_sequence) ∧
    (∀ p, (⟨.v3_1_1_pingresp_packet p⟩ : basic_packet_variant property W).type = some p.type ∧
        p.type = .pingresp ∧
        (⟨.v3_1_1_pingresp_packet p⟩ : basic_packet_variant property W).const_buffer_sequence pf
          = p.const_buffer_sequence) ∧
    (∀ p, (⟨.v3_1_1_disconnect_packet p⟩ : basic_packet_variant property W).type = some p.type ∧
        p.type = .disconnect ∧
        (⟨.v3_1_1_disconnect_packet p⟩ : basic_packet_variant property W).const_buffer_sequence pf
          = p.const_buffer_sequence) ∧
    (∀ p, (⟨.v5_connect_packet p⟩ : basic_packet_variant property W).type = some p.type ∧
        p.type = .connect ∧
        (⟨.v5_connect_packet p⟩ : basic_packet_variant property W).const_buffer_sequence pf
          = p.const_buffer_sequence) ∧
    (∀ p, (⟨.v5_connack_packet p⟩ : basic_packet_variant property W).type = some p.type ∧
        p.type = .connack ∧
        (⟨.v5_connack_packet p⟩ : basic_packet_variant property W).const_buffer_sequence pf
          = p.const_buffer_sequence) ∧
    (∀ p, (⟨.v5_publish_packet p⟩ : basic_packet_variant property W).type = some p.type ∧
        p.type = .publish ∧
        (⟨.v5_publish_packet p⟩ : basic_packet_variant property W).const_buffer_sequence pf
          = p.const_buffer_sequence) ∧
    (∀ p, (⟨.v5_puback_packet p⟩ : basic_packet_variant property W).type = some p.type ∧
        p.type = .puback ∧
        (⟨.v5_puback_packet p⟩ : basic_packet_variant property W).const_buffer_sequence pf
          = p.const_buffer_sequence) ∧
    (∀ p, (⟨.v5_pubrec_packet p⟩ : basic_packet_variant property W).type = some p.type ∧
        p.type = .pubrec ∧
        (⟨.v5_pubrec_packet p⟩ : basic_packet_variant property W).const_buffer_sequence pf
          = p.const_buffer_sequence) ∧
    (∀ p, (⟨.v5_pubrel_packet p⟩ : basic_packet_variant property W).type = some p.type ∧
        p.type = .pubrel ∧
        (⟨.v5_pubrel_packet p⟩ : basic_packet_variant property W).const_buffer_sequence pf
          = p.const_buffer_sequence) ∧
    (∀ p, (⟨.v5_pubcomp_packet p⟩ : basic_packet_variant property W).type = some p.type ∧
        p.type = .pubcomp ∧
        (⟨.v5_pubcomp_packet p⟩ : basic_packet_variant property W).const_buffer_sequence pf
          = p.const_buffer_sequence) ∧
    (∀ p, (⟨.v5_subscribe_packet p⟩ : basic_packet_variant property W).type = some p.type ∧
        p.type = .subscribe ∧
        (⟨.v5_subscribe_packet p⟩ : basic_packet_variant property W).const_buffer_sequence pf
          = p.const_buffer_sequence pf) ∧
    (∀ p, (⟨.v5_suback_packet p⟩ : basic_packet_variant property W).type = some p.type ∧
        p.type = .suback ∧
        (⟨.v5_suback_packet p⟩ : basic_packet_variant property W).const_buffer_sequence pf
          = p.const_buffer_sequence) ∧
    (∀ p, (⟨.v5_unsubscribe_packet p⟩ : basic_packet_variant property W).type = some p.type ∧
        p.type = .unsubscribe ∧
        (⟨.v5_unsubscribe_packet p⟩ : basic_packet_variant property W).const_buffer_sequence pf
          = p.const_buffer_sequence) ∧
    (∀ p, (⟨.v5_unsuback_packet p⟩ : basic_packet_variant property W).type = some p.type ∧
        p.type = .unsuback ∧
        (⟨.v5_unsuback_packet p⟩ : basic_packet_variant property W).const_buffer_sequence pf
          = p.const_buffer_sequence) ∧
    (∀ p, (⟨.v5_pingreq_packet p⟩ : basic_packet_variant property W).type = some p.type ∧
        p.type = .pingreq ∧
        (⟨.v5_pingreq_packet p⟩ : basic_packet_variant property W).const_buffer_sequence pf
          = p.const_buffer_sequence) ∧
    (∀ p, (⟨.v5_pingresp_packet p⟩ : basic_packet_variant property W).type = some p.type ∧
        p.type = .pingresp ∧
        (⟨.v5_pingresp_packet p⟩ : basic_packet_variant property W).const_buffer_sequence pf
          = p.const_buffer_sequence) ∧
    (∀ p, (⟨.v5_disconnect_packet p⟩ : basic_packet_variant property W).type = some p.type ∧
        p.type = .disconnect ∧
        (⟨.v5_disconnect_packet p⟩ : basic_packet_variant property W).const_buffer_sequence pf
          = p.const_buffer_sequence) ∧
    (∀ p, (⟨.v5_auth_packet p⟩ : basic_packet_variant property W).type = some p.type ∧
        p.type = .auth ∧
        (⟨.v5_auth_packet p⟩ : basic_packet_variant property W).const_buffer_sequence pf
          = p.const_buffer_sequence) := by
  refine ⟨?_, ⟨rfl, rfl, rfl, rfl⟩, ?_⟩
  · intro v
    obtain ⟨var⟩ := v
    cases var <;>
      simp [basic_packet_variant.type, basic_packet_variant.operator_bool,
        basic_packet_variant.const_buffer_sequence, variant_t.index]
  · refine ⟨fun _ => ⟨rfl, rfl, rfl⟩, fun _ => ⟨rfl, rfl, rfl⟩, fun _ => ⟨rfl, rfl, rfl⟩, fun _ => ⟨rfl, rfl, rfl⟩, fun _ => ⟨rfl, rfl, rfl⟩, fun _ => ⟨rfl, rfl, rfl⟩, fun _ => ⟨rfl, rfl, rfl⟩, fun _ => ⟨rfl, rfl, rfl⟩, fun _ => ⟨rfl, rfl, rfl⟩, fun _ => ⟨rfl, rfl, rfl⟩, fun _ => ⟨rfl, rfl, rfl⟩, fun _ => ⟨rfl, rfl, rfl⟩, fun _ => ⟨rfl, rfl, rfl⟩, fun _ => ⟨rfl, rfl, rfl⟩, fun _ => ⟨rfl, rfl, rfl⟩, fun _ => ⟨rfl, rfl, rfl⟩, fun _ => ⟨rfl, rfl, rfl⟩, fun _ => ⟨rfl, rfl, rfl⟩, fun _ => ⟨rfl, rfl, rfl⟩, fun _ => ⟨rfl, rfl, rfl⟩, fun _ => ⟨rfl, rfl, rfl⟩, fun _ => ⟨rfl, rfl, rfl⟩, fun _ => ⟨rfl, rfl, rfl⟩, fun _ => ⟨rfl, rfl, rfl⟩, fun _ => ⟨rfl, rfl, rfl⟩, fun _ => ⟨rfl, rfl, rfl⟩, fun _ => ⟨rfl, rfl, rfl⟩, fun _ => ⟨rfl, rfl, rfl⟩, fun _ => ⟨rfl, rfl, rfl⟩⟩

/-! ## The receive operation of the client -/

theorem async_recv_cons {property : Type} {W : Nat} (cl : client property W)
    (e : recv_type property W) (rest : List (recv_type property W))
    (h : cl.recv_queue_ = e :: rest) :
    cl.async_recv = ({ cl with recv_queue_ := rest }, .complete, .complete e.ec e.pv) := by
  simp [client.async_recv, recv_op.step, h]

/-- C26: delivery from the recv queue is first in, first out. On a recv queue
`e :: rest` the recv step of `recv_op` completes with the error code and the
packet of `e` and leaves the queue `rest`, and so does the whole call
`async_recv`; hence `async_recv` called successively as many times as the
queue `es ++ rest` has entries in `es` completes with the entries of `es` in
their order, each once, and leaves the queue `rest`. -/
theorem recv_queue_fifo {property : Type} {W : Nat} (cl : client property W) :
    (∀ e rest, cl.recv_queue_ = e :: rest →
        recv_op.step cl .recv
          = ({ cl with recv_queue_ := rest }, .complete, .complete e.ec e.pv) ∧
        cl.async_recv = ({ cl with recv_queue_ := rest }, .complete, .complete e.ec e.pv)) ∧
    (∀ es rest, cl.recv_queue_ = es ++ rest →
        cl.async_recv_successively es.length
          = ({ cl with recv_queue_ := rest }, es.map fun e => (e.ec, e.pv))) := by
  constructor
  · intro e rest h
    exact ⟨by simp [recv_op.step, h], async_recv_cons cl e rest h⟩
  · intro es
    induction es generalizing cl with
    | nil =>
      intro rest h
      simp only [List.nil_append] at h
      simp [client.async_recv_successively, ← h]
    | cons e es ih =>
      intro rest h
      simp only [List.cons_append] at h
      simp only [List.length_cons, client.async_recv_successively,
        async_recv_cons cl e (es ++ rest) h, List.map_cons]
      rw [ih { cl with recv_queue_ := es ++ rest } rest rfl]

/-- Witness of C26: a recv queue of an error entry and a PINGRESP entry; two
successive calls deliver the two entries in this order and empty the queue. -/
theorem recv_queue_fifo_witness :
    (⟨[.of_error (.of_errc .bad_message), .of_packet ⟨.v5_pingresp_packet v5.pingresp_packet.new⟩],
        false⟩ : client Empty 2).async_recv_successively 2
      = (⟨[], false⟩,
          [(.of_errc .bad_message, basic_packet_variant.new),
           (.no_error, ⟨.v5_pingresp_packet v5.pingresp_packet.new⟩)]) :=
  (recv_queue_fifo (⟨[.of_error (.of_errc .bad_message),
      .of_packet ⟨.v5_pingresp_packet v5.pingresp_packet.new⟩], false⟩ : client Empty 2)).2
    [.of_error (.of_errc .bad_message), .of_packet ⟨.v5_pingresp_packet v5.pingresp_packet.new⟩]
    [] rfl

/-- C27: cancellation of a waiting `async_recv`. On an empty recv queue
`async_recv` clears `recv_queue_inserted_` and waits on the timer. When the
wait then completes, with whatever error code, in a client state in which
`recv_queue_inserted_` is still false, and so in the state the operation left
when it started to wait, the operation completes with
`errc::operation_canceled` and a default-constructed packet variant, which
holds the error alternative, is false and has no type, and the client, its recv
queue included, is unchanged. -/
theorem recv_cancellation {property : Type} {W : Nat} (cl : client property W)
    (ec : error_code) (hempty : cl.recv_queue_ = []) :
    cl.async_recv = ({ cl with recv_queue_inserted_ := false }, .complete, .async_wait) ∧
    recv_op.step_ec cl.async_recv.1 cl.async_recv.2.1 ec
      = (cl.async_recv.1, .complete,
          .complete (.of_errc .operation_canceled) basic_packet_variant.new) ∧
    cl.async_recv.1.recv_queue_ = [] ∧
    (∀ cl2 : client property W, cl2.recv_queue_inserted_ = false →
      recv_op.step_ec cl2 .complete ec
        = (cl2, .complete, .complete (.of_errc .operation_canceled) basic_packet_variant.new)) ∧
    (basic_packet_variant.new : basic_packet_variant property W).operator_bool = false ∧
    (basic_packet_variant.new : basic_packet_variant property W).type = none ∧
    (∃ e, (basic_packet_variant.new : basic_packet_variant property W).var_
      = .system_error e) := by
  have h1 : cl.async_recv
      = ({ cl with recv_queue_inserted_ := false }, .complete, .async_wait) := by
    simp [client.async_recv, recv_op.step, hempty]
  refine ⟨h1, ?_, ?_, ?_, rfl, rfl, ⟨_, rfl⟩⟩
  · rw [h1]
    simp [recv_op.step_ec]
  · rw [h1]
    exact hempty
  · intro cl2 h2
    simp [recv_op.step_ec, h2]

/-- Witness of C27: a client with an empty recv queue whose flag is still set
from an earlier insertion; the wait is cancelled with
`as::error::operation_aborted`. -/
theorem recv_cancellation_witness :
    (⟨[], true⟩ : client Empty 2).recv_queue_ = [] ∧
    recv_op.step_ec (⟨[], true⟩ : client Empty 2).async_recv.1
        (⟨[], true⟩ : client Empty 2).async_recv.2.1 .operation_aborted
      = ((⟨[], true⟩ : client Empty 2).async_recv.1, .complete,
          .complete (.of_errc .operation_canceled) basic_packet_variant.new) ∧
    (⟨[], true⟩ : client Empty 2).async_recv.1.recv_queue_ = [] :=
  ⟨rfl, (recv_cancellation (⟨[], true⟩ : client Empty 2) .operation_aborted rfl).2.1,
    (recv_cancellation (⟨[], true⟩ : client Empty 2) .operation_aborted rfl).2.2.1⟩

/-! ## Waiting for a packet identifier -/

theorem first_free_some (allocated : List Nat) (count : Nat) :
    ∀ (start id : Nat), packet_id_manager.first_free allocated count start = some id →
      start ≤ id ∧ id < start + count ∧ id ∉ allocated ∧
        ∀ j, start ≤ j → j < id → j ∈ allocated := by
  induction count with
  | zero => intro start id h; simp [packet_id_manager.first_free] at h
  | succ n ih =>
    intro start id h
    rw [packet_id_manager.first_free] at h
    split at h
    · rename_i hmem
      obtain ⟨h1, h2, h3, h4⟩ := ih _ _ h
      refine ⟨by omega, by omega, h3, ?_⟩
      intro j hj1 hj2
      by_cases hjs : j = start
      · rw [hjs]
        exact hmem
      · exact h4 j (by omega) hj2
    · rename_i hmem
      simp only [Option.some.injEq] at h
      subst h
      exact ⟨Nat.le_refl _, by omega, hmem, fun j hj1 hj2 => absurd hj2 (by omega)⟩

theorem first_free_none (allocated : List Nat) (count : Nat) :
    ∀ (start : Nat), (∀ j, start ≤ j → j < start + count → j ∈ allocated) →
      packet_id_manager.first_free allocated count start = none := by
  induction count with
  | zero => intro start _; rfl
  | succ n ih =>
    intro start h
    rw [packet_id_manager.first_free, if_pos (h start (Nat.le_refl _) (by omega))]
    exact ih _ (fun j hj1 hj2 => h j (by omega) (by omega))

theorem first_free_of_free (allocated : List Nat) (count start : Nat)
    (h : ∃ j, start ≤ j ∧ j < start + count ∧ j ∉ allocated) :
    ∃ id, packet_id_manager.first_free allocated count start = some id := by
  cases hf : packet_id_manager.first_free allocated count start with
  | some id => exact ⟨id, rfl⟩
  | none =>
    exfalso
    obtain ⟨j, hj1, hj2, hj3⟩ := h
    induction count generalizing start with
    | zero => omega
    | succ n ih =>
      rw [packet_id_manager.first_free] at hf
      split at hf
      · rename_i hmem
        by_cases hjs : j = start
        · exact hj3 (hjs ▸ hmem)
        · exact ih (start + 1) hf (by omega) (by omega)
      · cases hf

/-- The packet-id manager with a free id gives out the smallest free id. -/
theorem acquire_unique_id_of_free {W : Nat} (m : packet_id_manager W)
    (h : ∃ j, 1 ≤ j ∧ j ≤ 2 ^ (8 * W) - 1 ∧ j ∉ m.allocated) :
    ∃ id, m.acquire_unique_id = (some id, ⟨id :: m.allocated⟩) ∧
      1 ≤ id ∧ id ≤ 2 ^ (8 * W) - 1 ∧ id ∉ m.allocated ∧
      ∀ j, 1 ≤ j → j < id → j ∈ m.allocated := by
  obtain ⟨j, hj1, hj2, hj3⟩ := h
  obtain ⟨id, hid⟩ := first_free_of_free m.allocated (2 ^ (8 * W) - 1) 1
    ⟨j, hj1, by omega, hj3⟩
  obtain ⟨h1, h2, h3, h4⟩ := first_free_some _ _ _ _ hid
  refine ⟨id, ?_, h1, by omega, h3, h4⟩
  simp only [packet_id_manager.acquire_unique_id, hid]

/-- The packet-id manager without a free id gives out none and stays as it
is. -/
theorem acquire_unique_id_of_full {W : Nat} (m : packet_id_manager W)
    (h : ∀ j, 1 ≤ j → j ≤ 2 ^ (8 * W) - 1 → j ∈ m.allocated) :
    m.acquire_unique_id = (none, m) := by
  have hn := first_free_none m.allocated (2 ^ (8 * W) - 1) 1
    (fun j hj1 hj2 => h j hj1 (by omega))
  simp only [packet_id_manager.acquire_unique_id, hn]

/-- The packet-id manager gives out the id that is free while every smaller id
is allocated. -/
theorem acquire_unique_id_eq {W : Nat} (m : packet_id_manager W) (id : Nat)
    (h1 : 1 ≤ id) (h2 : id ≤ 2 ^ (8 * W) - 1) (h3 : id ∉ m.allocated)
    (h4 : ∀ j, 1 ≤ j → j < id → j ∈ m.allocated) :
    m.acquire_unique_id = (some id, ⟨id :: m.allocated⟩) := by
  obtain ⟨id2, hacq, g1, _, g3, g4⟩ := acquire_unique_id_of_free m ⟨id, h1, h2, h3⟩
  have hid : id2 = id := by
    by_contra hne
    rcases Nat.lt_or_gt_of_ne hne with h | h
    · exact g3 (h4 id2 g1 h)
    · exact h3 (g4 id h1 h)
  subst hid
  exact hacq

/-- The step of a woken operation while `packet_id_released_` is set and no id
is free: one retry entry is removed, the flag is cleared and the operation is
added to the end of the retry queue. -/
theorem step_aborted_released_full {W : Nat} (ep : basic_endpoint W) (self : Nat)
    (hrel : ep.packet_id_released_ = true)
    (hfull : ∀ j, 1 ≤ j → j ≤ 2 ^ (8 * W) - 1 → j ∈ ep.pid_man_.allocated) :
    acquire_unique_packet_id_wait_until_op.step ep false self .complete .operation_aborted
      = ({ ep with packet_id_released_ := false,
                   retry_queue := ep.retry_queue.tail ++ [self] },
          .complete, .async_add_retry) := by
  have hacq := acquire_unique_id_of_full ep.pid_man_ hfull
  simp [acquire_unique_packet_id_wait_until_op.step, hrel,
    acquire_unique_packet_id_wait_until_op.acq_proc, basic_endpoint.complete_retry_one,
    basic_endpoint.async_add_retry, hacq]

/-- The step of a woken operation while `packet_id_released_` is set and the id
`id` is the smallest free one: one retry entry is removed and the operation
completes with the id. -/
theorem step_aborted_released_free {W : Nat} (ep : basic_endpoint W) (self id : Nat)
    (hrel : ep.packet_id_released_ = true)
    (h1 : 1 ≤ id) (h2 : id ≤ 2 ^ (8 * W) - 1) (h3 : id ∉ ep.pid_man_.allocated)
    (h4 : ∀ j, 1 ≤ j → j < id → j ∈ ep.pid_man_.allocated) :
    acquire_unique_packet_id_wait_until_op.step ep false self .complete .operation_aborted
      = ({ ep with pid_man_ := ⟨id :: ep.pid_man_.allocated⟩,
                   retry_queue := ep.retry_queue.tail },
          .complete, .complete .no_error id) := by
  have hacq := acquire_unique_id_eq ep.pid_man_ id h1 h2 h3 h4
  simp [acquire_unique_packet_id_wait_until_op.step, hrel,
    acquire_unique_packet_id_wait_until_op.acq_proc, basic_endpoint.complete_retry_one,
    hacq]

/-- All ids of a two-byte packet id but the id 5. -/
theorem mem_ids_but_five (j : Nat) :
    j ∈ (List.range' 1 65535).filter (fun j => j != 5) ↔ (1 ≤ j ∧ j ≤ 65535) ∧ j ≠ 5 := by
  simp only [List.mem_filter, List.mem_range'_1, bne_iff_ne, ne_eq]
  omega

/-- C28, counterexample: a two-byte endpoint on which no id is allocated, so
that `acquire_unique_id` would return 1, and the caller 7 waits in the retry
queue. The fresh call of the caller 8 does not complete: it is added to the
retry queue behind 7, and no id is allocated. -/
theorem acquire_wait_queued_despite_free_id :
    (1 ∉ (⟨⟨[]⟩, false, [7]⟩ : basic_endpoint 2).pid_man_.allocated) ∧
    (⟨⟨[]⟩, false, [7]⟩ : basic_endpoint 2).pid_man_.acquire_unique_id = (some 1, ⟨[1]⟩) ∧
    (⟨⟨[]⟩, false, [7]⟩ : basic_endpoint 2).async_acquire_unique_packet_id_wait_until 8
      = (⟨⟨[]⟩, false, [7, 8]⟩, .complete, .async_add_retry) := by
  decide

/-- C28, amended: on a living endpoint whose retry queue is empty and whose
packet-id manager has a free id, a fresh call of
`async_acquire_unique_packet_id_wait_until` completes at once with no error and
the id that `acquire_unique_id` returns, which is the smallest free id and is
allocated by the call; the retry queue stays empty. -/
theorem acquire_wait_immediate {W : Nat} (ep : basic_endpoint W) (self : Nat)
    (hq : ep.retry_queue = [])
    (hfree : ∃ j, 1 ≤ j ∧ j ≤ 2 ^ (8 * W) - 1 ∧ j ∉ ep.pid_man_.allocated) :
    ∃ id, ep.pid_man_.acquire_unique_id = (some id, ⟨id :: ep.pid_man_.allocated⟩) ∧
      (1 ≤ id ∧ id ≤ 2 ^ (8 * W) - 1 ∧ id ∉ ep.pid_man_.allocated ∧
        ∀ j, 1 ≤ j → j < id → j ∈ ep.pid_man_.allocated) ∧
      ep.async_acquire_unique_packet_id_wait_until self
        = ({ ep with pid_man_ := ⟨id :: ep.pid_man_.allocated⟩ }, .complete,
            .complete .no_error id) ∧
      (ep.async_acquire_unique_packet_id_wait_until self).1.retry_queue = [] := by
  obtain ⟨id, hacq, hid⟩ := acquire_unique_id_of_free ep.pid_man_ hfree
  have hrun : ep.async_acquire_unique_packet_id_wait_until self
      = ({ ep with pid_man_ := ⟨id :: ep.pid_man_.allocated⟩ }, .complete,
          .complete .no_error id) := by
    simp [basic_endpoint.async_acquire_unique_packet_id_wait_until,
      acquire_unique_packet_id_wait_until_op.step, basic_endpoint.has_retry, hq,
      acquire_unique_packet_id_wait_until_op.acq_proc, hacq]
  refine ⟨id, hacq, hid, hrun, ?_⟩
  rw [hrun]
  exact hq

/-- Witness of C28: a two-byte endpoint with the ids 1 and 2 allocated and no
waiter; the call completes with the id 3. -/
theorem acquire_wait_immediate_witness :
    (⟨⟨[1, 2]⟩, false, []⟩ : basic_endpoint 2).retry_queue = [] ∧
    ∃ id, (⟨⟨[1, 2]⟩, false, []⟩ : basic_endpoint 2).pid_man_.acquire_unique_id
        = (some id, ⟨id :: [1, 2]⟩) ∧
      (1 ≤ id ∧ id ≤ 2 ^ (8 * 2) - 1 ∧ id ∉ [1, 2] ∧ ∀ j, 1 ≤ j → j < id → j ∈ [1, 2]) ∧
      (⟨⟨[1, 2]⟩, false, []⟩ : basic_endpoint 2).async_acquire_unique_packet_id_wait_until 8
        = (⟨⟨id :: [1, 2]⟩, false, []⟩, .complete, .complete .no_error id) ∧
      ((⟨⟨[1, 2]⟩, false, []⟩ : basic_endpoint 2).async_acquire_unique_packet_id_wait_until
        8).1.retry_queue = [] :=
  ⟨rfl, acquire_wait_immediate (⟨⟨[1, 2]⟩, false, []⟩ : basic_endpoint 2) 8 rfl
    ⟨3, by decide, by decide, by decide⟩⟩

/-- C29, the code at the failing input. The operation is run with
`as::error::operation_aborted` both when its wait is cancelled by the caller
and when a released id wakes it, and it tells the two apart by the flag
`packet_id_released_`, which stays set after a release until an acquisition
fails. On a two-byte endpoint: all ids are allocated and the callers 7 and 8
wait; the id 5 is released, which sets the flag and wakes 7; the operation of 7
removes its entry and completes with the id 5, and the flag is still set. The
caller of 8 now cancels its wait: the operation of 8 does not complete with
`errc::operation_canceled` and 0, it removes its entry, finds no free id, clears
the flag and adds itself to the retry queue again. With a free id (here no id
allocated) the cancelled operation allocates the id 1 and completes with no
error. Only with the flag cleared does the same step complete with
`errc::operation_canceled` and the packet id 0. -/
theorem acquire_wait_cancel_while_released :
    (⟨⟨List.range' 1 65535⟩, false, [7, 8]⟩ : basic_endpoint 2).release_packet_id 5
      = (⟨⟨(List.range' 1 65535).filter (fun j => j != 5)⟩, true, [7, 8]⟩, some 7) ∧
    acquire_unique_packet_id_wait_until_op.step
        (⟨⟨(List.range' 1 65535).filter (fun j => j != 5)⟩, true, [7, 8]⟩ : basic_endpoint 2)
        false 7 .complete .operation_aborted
      = (⟨⟨5 :: (List.range' 1 65535).filter (fun j => j != 5)⟩, true, [8]⟩, .complete,
          .complete .no_error 5) ∧
    acquire_unique_packet_id_wait_until_op.step
        (⟨⟨5 :: (List.range' 1 65535).filter (fun j => j != 5)⟩, true, [8]⟩ :
          basic_endpoint 2)
        false 8 .complete .operation_aborted
      = (⟨⟨5 :: (List.range' 1 65535).filter (fun j => j != 5)⟩, false, [8]⟩, .complete,
          .async_add_retry) ∧
    acquire_unique_packet_id_wait_until_op.step (⟨⟨[]⟩, true, [8]⟩ : basic_endpoint 2)
        false 8 .complete .operation_aborted
      = (⟨⟨[1]⟩, true, []⟩, .complete, .complete .no_error 1) ∧
    acquire_unique_packet_id_wait_until_op.step (⟨⟨[]⟩, false, [8]⟩ : basic_endpoint 2)
        false 8 .complete .operation_aborted
      = (⟨⟨[]⟩, false, [8]⟩, .complete, .complete (.of_errc .operation_canceled) 0) := by
  refine ⟨rfl, ?_, ?_, by decide, by decide⟩
  · exact step_aborted_released_free
      (⟨⟨(List.range' 1 65535).filter (fun j => j != 5)⟩, true, [7, 8]⟩ : basic_endpoint 2)
      7 5 rfl (by decide) (by decide)
      (fun h => ((mem_ids_but_five 5).mp h).2 rfl)
      (fun j hj1 hj2 => (mem_ids_but_five j).mpr ⟨⟨hj1, by omega⟩, by omega⟩)
  · exact step_aborted_released_full
      (⟨⟨5 :: (List.range' 1 65535).filter (fun j => j != 5)⟩, true, [8]⟩ : basic_endpoint 2)
      8 rfl
      (fun j hj1 hj2 => by
        have hj3 : j ≤ 65535 := hj2
        by_cases h5 : j = 5
        · exact h5 ▸ List.mem_cons_self _ _
        · exact List.mem_cons_of_mem _ ((mem_ids_but_five j).mpr ⟨⟨hj1, hj3⟩, h5⟩))

/-- C30: re-queue after a lost race. A suspended operation that is run with
`as::error::operation_aborted` on a living endpoint whose flag
`packet_id_released_` is true removes one entry from the retry queue. If the
packet-id manager then has no free id, `acquire_unique_id` returns none and the
operation does not complete: it sets `packet_id_released_` to false and adds
itself to the end of the retry queue. If an id is free, it completes with no
error and the id that `acquire_unique_id` returns, the smallest free id. -/
theorem acquire_wait_requeue {W : Nat} (ep : basic_endpoint W) (self : Nat)
    (hrel : ep.packet_id_released_ = true) :
    ((∀ j, 1 ≤ j → j ≤ 2 ^ (8 * W) - 1 → j ∈ ep.pid_man_.allocated) →
      ep.pid_man_.acquire_unique_id = (none, ep.pid_man_) ∧
      acquire_unique_packet_id_wait_until_op.step ep false self .complete .operation_aborted
        = ({ ep with packet_id_released_ := false,
                     retry_queue := ep.retry_queue.tail ++ [self] },
            .complete, .async_add_retry)) ∧
    ((∃ j, 1 ≤ j ∧ j ≤ 2 ^ (8 * W) - 1 ∧ j ∉ ep.pid_man_.allocated) →
      ∃ id, ep.pid_man_.acquire_unique_id = (some id, ⟨id :: ep.pid_man_.allocated⟩) ∧
        (1 ≤ id ∧ id ≤ 2 ^ (8 * W) - 1 ∧ id ∉ ep.pid_man_.allocated ∧
          ∀ j, 1 ≤ j → j < id → j ∈ ep.pid_man_.allocated) ∧
        acquire_unique_packet_id_wait_until_op.step ep false self .complete .operation_aborted
          = ({ ep with pid_man_ := ⟨id :: ep.pid_man_.allocated⟩,
                       retry_queue := ep.retry_queue.tail },
              .complete, .complete .no_error id)) := by
  constructor
  · intro hfull
    have hacq := acquire_unique_id_of_full ep.pid_man_ hfull
    refine ⟨hacq, ?_⟩
    simp [acquire_unique_packet_id_wait_until_op.step, hrel,
      acquire_unique_packet_id_wait_until_op.acq_proc, basic_endpoint.complete_retry_one,
      basic_endpoint.async_add_retry, hacq]
  · intro hfree
    obtain ⟨id, hacq, hid⟩ := acquire_unique_id_of_free ep.pid_man_ hfree
    refine ⟨id, hacq, hid, ?_⟩
    simp [acquire_unique_packet_id_wait_until_op.step, hrel,
      acquire_unique_packet_id_wait_until_op.acq_proc, basic_endpoint.complete_retry_one,
      hacq]

/-- Witness of C30: a two-byte endpoint with `packet_id_released_` set and the
callers 8 and 9 in the retry queue. With all of the ids 1 to 65535 allocated,
the woken caller 8 re-queues behind 9 and clears the flag; with the ids 1 and 2
allocated it completes with the id 3. -/
theorem acquire_wait_requeue_witness :
    acquire_unique_packet_id_wait_until_op.step
        (⟨⟨List.range' 1 65535⟩, true, [8, 9]⟩ : basic_endpoint 2)
        false 8 .complete .operation_aborted
      = (⟨⟨List.range' 1 65535⟩, false, [9, 8]⟩, .complete, .async_add_retry) ∧
    ∃ id, (⟨⟨[1, 2]⟩, true, [8, 9]⟩ : basic_endpoint 2).pid_man_.acquire_unique_id
        = (some id, ⟨id :: [1, 2]⟩) ∧
      (1 ≤ id ∧ id ≤ 2 ^ (8 * 2) - 1 ∧ id ∉ [1, 2] ∧ ∀ j, 1 ≤ j → j < id → j ∈ [1, 2]) ∧
      acquire_unique_packet_id_wait_until_op.step
          (⟨⟨[1, 2]⟩, true, [8, 9]⟩ : basic_endpoint 2) false 8 .complete .operation_aborted
        = (⟨⟨id :: [1, 2]⟩, true, [9]⟩, .complete, .complete .no_error id) :=
  ⟨((acquire_wait_requeue (⟨⟨List.range' 1 65535⟩, true, [8, 9]⟩ : basic_endpoint 2) 8 rfl).1
      (fun j h1 h2 =>
        have h3 : j ≤ 65535 := h2
        List.mem_range'_1.mpr ⟨h1, by omega⟩)).2,
    (acquire_wait_requeue (⟨⟨[1, 2]⟩, true, [8, 9]⟩ : basic_endpoint 2) 8 rfl).2
      ⟨3, by decide, by decide, by decide⟩⟩

/-! ## Writing a packet to the stream -/

/-- C23: write on a closed transport. When the turn of a write operation comes,
in state `write` or `bulk_write`, while `lowest_layer().is_open()` is false,
with bulk write enabled or not, the step starts no `async_write`: it marks the
queue as working and dispatches the operation with `errc::connection_reset` and
0 bytes; the handler run with these arguments completes the operation with
`errc::connection_reset` and 0 bytes. -/
theorem write_on_closed_transport (strm : stream) (op : stream_write_packet_op)
    (hclosed : strm.lowest_layer_is_open = false)
    (hstate : op.state = .write ∨ op.state = .bulk_write) :
    stream_write_packet_op.step strm op
      = ({ strm with write_queue_ := strm.write_queue_.start_work },
          { op with state := .complete },
          .dispatch_self_with (.of_errc .connection_reset) 0) ∧
    (∀ cbs, (stream_write_packet_op.step strm op).2.2 ≠ .async_write cbs) ∧
    (stream_write_packet_op.step_ec (stream_write_packet_op.step strm op).1
        (stream_write_packet_op.step strm op).2.1 (.of_errc .connection_reset) 0).2
      = .complete (.of_errc .connection_reset) 0 := by
  have hstep : stream_write_packet_op.step strm op
      = ({ strm with write_queue_ := strm.write_queue_.start_work },
          { op with state := .complete },
          .dispatch_self_with (.of_errc .connection_reset) 0) := by
    rcases hstate with h | h <;> simp [stream_write_packet_op.step, h, hclosed]
  refine ⟨hstep, ?_, ?_⟩
  · intro cbs
    rw [hstep]
    simp
  · rw [hstep]
    simp [stream_write_packet_op.step_ec, error_code.failed]

/-- Witness of C23: a closed stream with bulk write enabled and two buffers
stored; the turn of an operation in state `bulk_write` comes. -/
theorem write_on_closed_transport_witness :
    stream_write_packet_op.step ⟨false, ⟨[], false⟩, [[0xC0], [0x00]], [], true⟩
        ⟨⟨[[0xC0], [0x00]], 2⟩, 2, .bulk_write⟩
      = (⟨false, ⟨[], true⟩, [[0xC0], [0x00]], [], true⟩,
          ⟨⟨[[0xC0], [0x00]], 2⟩, 2, .complete⟩,
          .dispatch_self_with (.of_errc .connection_reset) 0) :=
  (write_on_closed_transport ⟨false, ⟨[], false⟩, [[0xC0], [0x00]], [], true⟩
    ⟨⟨[[0xC0], [0x00]], 2⟩, 2, .bulk_write⟩ rfl (Or.inr rfl)).1

/-- C24: bulk-write coalescing. With bulk write enabled, the `post` step of an
operation submitted while the write queue is not immediately executable appends
the packet's `const_buffer_sequence()` to the end of `storing_cbs_` and makes
the operation a `bulk_write` one; when the turn of a `bulk_write` operation
comes on an open transport with a non-empty `storing_cbs_`, the whole list is
moved into `sending_cbs_`, `storing_cbs_` is left empty and one `async_write`
of the whole list is started. With bulk write disabled, or when the queue is
immediately executable, the `post` step makes the operation a `write` one and
leaves `storing_cbs_` as it is, and when the turn of a `write` operation comes
on an open transport, one `async_write` of the packet's own buffers is started
and `storing_cbs_` is left as it is. The whole submission `async_write_packet`
behaves as its `post` step. -/
theorem bulk_write_coalescing (strm : stream) (op : stream_write_packet_op) :
    (op.state = .post → strm.bulk_write_ = true →
      strm.write_queue_.immediate_executable = false →
      stream_write_packet_op.step strm op
        = ({ strm with
              storing_cbs_ := strm.storing_cbs_ ++ op.packet.const_buffer_sequence,
              write_queue_ := strm.write_queue_.post { op with state := .bulk_write } },
            { op with state := .bulk_write }, .post_self)) ∧
    (op.state = .bulk_write → strm.lowest_layer_is_open = true → strm.storing_cbs_ ≠ [] →
      stream_write_packet_op.step strm op
        = ({ strm with
              write_queue_ := strm.write_queue_.start_work,
              sending_cbs_ := strm.storing_cbs_,
              storing_cbs_ := [] },
            { op with state := .complete }, .async_write strm.storing_cbs_)) ∧
    (op.state = .post →
      strm.bulk_write_ = false ∨ strm.write_queue_.immediate_executable = true →
      stream_write_packet_op.step strm op
        = ({ strm with write_queue_ := strm.write_queue_.post { op with state := .write } },
            { op with state := .write }, .post_self)) ∧
    (op.state = .write → strm.lowest_layer_is_open = true →
      stream_write_packet_op.step strm op
        = ({ strm with write_queue_ := strm.write_queue_.start_work },
            { op with state := .complete },
            .async_write op.packet.const_buffer_sequence)) ∧
    (∀ packet : write_packet,
      strm.async_write_packet packet
        = stream_write_packet_op.step strm ⟨packet, packet.size, .post⟩) := by
  refine ⟨?_, ?_, ?_, ?_, ?_⟩
  · intro hs hb hi
    simp [stream_write_packet_op.step, hs, hb, hi, ioc_queue.post]
  · intro hs ho hne
    simp [stream_write_packet_op.step, hs, ho, hne, ioc_queue.start_work]
  · intro hs hor
    rcases hor with hb | hi
    · simp [stream_write_packet_op.step, hs, hb]
    · simp [stream_write_packet_op.step, hs, hi]
  · intro hs ho
    simp [stream_write_packet_op.step, hs, ho]
  · intro packet
    simp [stream.async_write_packet, stream_write_packet_op.step,
      stream_write_packet_op.new]

/-- Witness of C24: an open stream with bulk write enabled, a write in progress
and the two buffers of a PINGREQ stored; a PINGRESP is submitted, and the turn
of a `bulk_write` operation comes on the stream as the submission has left it,
taken as not working. -/
theorem bulk_write_coalescing_witness :
    stream_write_packet_op.step ⟨true, ⟨[], true⟩, [[0xC0], [0x00]], [], true⟩
        ⟨⟨[[0xD0, 0x00]], 2⟩, 2, .post⟩
      = (⟨true, ⟨[⟨⟨[[0xD0, 0x00]], 2⟩, 2, .bulk_write⟩], true⟩,
            [[0xC0], [0x00], [0xD0, 0x00]], [], true⟩,
          ⟨⟨[[0xD0, 0x00]], 2⟩, 2, .bulk_write⟩, .post_self) ∧
    stream_write_packet_op.step ⟨true, ⟨[], false⟩, [[0xC0], [0x00], [0xD0, 0x00]], [], true⟩
        ⟨⟨[[0xD0, 0x00]], 2⟩, 2, .bulk_write⟩
      = (⟨true, ⟨[], true⟩, [], [[0xC0], [0x00], [0xD0, 0x00]], true⟩,
          ⟨⟨[[0xD0, 0x00]], 2⟩, 2, .complete⟩,
          .async_write [[0xC0], [0x00], [0xD0, 0x00]]) :=
  ⟨(bulk_write_coalescing ⟨true, ⟨[], true⟩, [[0xC0], [0x00]], [], true⟩
      ⟨⟨[[0xD0, 0x00]], 2⟩, 2, .post⟩).1 rfl rfl rfl,
    (bulk_write_coalescing ⟨true, ⟨[], false⟩, [[0xC0], [0x00], [0xD0, 0x00]], [], true⟩
      ⟨⟨[[0xD0, 0x00]], 2⟩, 2, .bulk_write⟩).2.1 rfl rfl (by decide)⟩

/-! ## The write operations of one stream at work -/

theorem gather_append (ps qs : List write_packet) :
    gather (ps ++ qs) = gather ps ++ gather qs := by
  simp [gather]

theorem gather_cons (p : write_packet) (ps : List write_packet) :
    gather (p :: ps) = p.const_buffer_sequence ++ gather ps := by
  simp [gather]

theorem gather_nil : gather [] = [] := rfl

theorem gather_singleton (p : write_packet) : gather [p] = p.const_buffer_sequence := by
  simp [gather]

theorem gather_flatten (ps : List write_packet) : (gather ps).flatten = encodings ps := by
  induction ps with
  | nil => rfl
  | cons p ps ih =>
    have h1 : gather (p :: ps) = p.const_buffer_sequence ++ gather ps := by simp [gather]
    have h2 : encodings (p :: ps) = p.const_buffer_sequence.flatten ++ encodings ps := by
      simp [encodings]
    rw [h1, h2, List.flatten_append, ih]

theorem async_write_packet_write (strm : stream) (p : write_packet)
    (h : (!strm.bulk_write_ || strm.write_queue_.immediate_executable) = true) :
    (strm.async_write_packet p).1
      = { strm with write_queue_ := strm.write_queue_.post ⟨p, p.size, .write⟩ } := by
  simp only [stream.async_write_packet, stream_write_packet_op.step,
    stream_write_packet_op.new, h, if_true]

theorem async_write_packet_bulk (strm : stream) (p : write_packet)
    (h : (!strm.bulk_write_ || strm.write_queue_.immediate_executable) = false) :
    (strm.async_write_packet p).1
      = { strm with
          storing_cbs_ := strm.storing_cbs_ ++ p.const_buffer_sequence
          write_queue_ := strm.write_queue_.post ⟨p, p.size, .bulk_write⟩ } := by
  simp [stream.async_write_packet, stream_write_packet_op.step,
    stream_write_packet_op.new, h, ioc_queue.post]

theorem write_system.invariant_init (b : Bool) : (write_system.init b).invariant where
  is_open := rfl
  working := rfl
  in_progress_ok := by intro op ec n h; cases h
  queue_size := by intro op h; cases h
  completions_ok := by intro c h; cases h
  submissions_eq := rfl
  shape := ⟨[], [], [], rfl, by simp, by simp, by simp, rfl, by simp, by simp, rfl⟩

theorem write_system.invariant_submit (s : write_system) (h : s.invariant) (p : write_packet) :
    (s.exec (.async_write_packet p)).invariant := by
  obtain ⟨F, X, B, hq, hF, hX, hB, hst, hXF, hbulk, hnl⟩ := h.shape
  cases hc : (!s.strm.bulk_write_ || s.strm.write_queue_.immediate_executable) with
  | true =>
    have hs := async_write_packet_write s.strm p hc
    have hBn : B = [] := by
      cases hb : s.strm.bulk_write_ with
      | false => exact (hbulk hb).2
      | true =>
        simp only [hb, Bool.not_true, Bool.false_or, ioc_queue.immediate_executable,
          Bool.and_eq_true, Bool.not_eq_true', List.isEmpty_iff] at hc
        rw [hc.2] at hq
        cases B with
        | nil => rfl
        | cons b bs => simp at hq
    have hFnil : F = [] := by
      cases hb : s.strm.bulk_write_ with
      | false => exact (hbulk hb).1
      | true =>
        simp only [hb, Bool.not_true, Bool.false_or, ioc_queue.immediate_executable,
          Bool.and_eq_true, Bool.not_eq_true', List.isEmpty_iff] at hc
        rw [hc.2] at hq
        cases F with
        | nil => rfl
        | cons b bs => simp at hq
    subst hBn
    subst hFnil
    simp only [List.nil_append, List.append_nil] at hq
    refine
      { is_open := ?_, working := ?_, in_progress_ok := ?_, queue_size := ?_,
        completions_ok := ?_, submissions_eq := ?_, shape := ?_ }
    · simp only [write_system.exec, hs]
      exact h.is_open
    · simp only [write_system.exec, hs, ioc_queue.post]
      exact h.working
    · simp only [write_system.exec]
      exact h.in_progress_ok
    · simp only [write_system.exec, hs, ioc_queue.post]
      intro op hop
      rcases List.mem_append.mp hop with h1 | h1
      · exact h.queue_size op h1
      · simp only [List.mem_singleton] at h1
        subst h1
        rfl
    · simp only [write_system.exec]
      exact h.completions_ok
    · simp only [write_system.exec, hs, ioc_queue.post, write_system.completed_packets,
        write_system.in_progress_packets, List.map_append, List.map_cons, List.map_nil]
      have := h.submissions_eq
      simp only [write_system.completed_packets, write_system.in_progress_packets] at this
      rw [this]
      simp only [List.append_assoc]
    · refine ⟨[], X ++ [⟨p, p.size, .write⟩], [], ?_, by simp, ?_, by simp, ?_, by simp,
        by simp, ?_⟩
      · simp only [write_system.exec, hs, ioc_queue.post, hq, List.nil_append,
          List.append_nil]
      · intro op hop
        rcases List.mem_append.mp hop with h1 | h1
        · exact hX op h1
        · simp only [List.mem_singleton] at h1
          subst h1
          rfl
      · simp only [write_system.exec, hs]
        exact hst
      · simp only [write_system.exec, write_system.completed_packets,
          write_system.in_progress_packets]
        exact hnl
  | false =>
    have hs := async_write_packet_bulk s.strm p hc
    have hb : s.strm.bulk_write_ = true := by
      cases hb : s.strm.bulk_write_ with
      | false => simp [hb] at hc
      | true => rfl
    refine
      { is_open := ?_, working := ?_, in_progress_ok := ?_, queue_size := ?_,
        completions_ok := ?_, submissions_eq := ?_, shape := ?_ }
    · simp only [write_system.exec, hs]
      exact h.is_open
    · simp only [write_system.exec, hs, ioc_queue.post]
      exact h.working
    · simp only [write_system.exec]
      exact h.in_progress_ok
    · simp only [write_system.exec, hs, ioc_queue.post]
      intro op hop
      rcases List.mem_append.mp hop with h1 | h1
      · exact h.queue_size op h1
      · simp only [List.mem_singleton] at h1
        subst h1
        rfl
    · simp only [write_system.exec]
      exact h.completions_ok
    · simp only [write_system.exec, hs, ioc_queue.post, write_system.completed_packets,
        write_system.in_progress_packets, List.map_append, List.map_cons, List.map_nil]
      have := h.submissions_eq
      simp only [write_system.completed_packets, write_system.in_progress_packets] at this
      rw [this]
      simp only [List.append_assoc]
    · refine ⟨F, X, B ++ [⟨p, p.size, .bulk_write⟩], ?_, hF, hX, ?_, ?_, hXF, ?_, ?_⟩
      · simp only [write_system.exec, hs, ioc_queue.post, hq, List.append_assoc]
      · intro op hop
        rcases List.mem_append.mp hop with h1 | h1
        · exact hB op h1
        · simp only [List.mem_singleton] at h1
          subst h1
          rfl
      · simp only [write_system.exec, hs, hst, List.map_append, List.map_cons, List.map_nil,
          gather_append, gather_singleton]
      · simp only [write_system.exec, hs, hb]
        intro hfalse
        cases hfalse
      · simp only [write_system.exec, write_system.completed_packets,
          write_system.in_progress_packets]
        exact hnl

theorem write_system.invariant_handler (s : write_system) (h : s.invariant) :
    (s.exec .invoke_handler).invariant := by
  cases hp : s.in_progress with
  | none =>
    have : s.exec .invoke_handler = s := by simp [write_system.exec, hp]
    rw [this]
    exact h
  | some r =>
    obtain ⟨op, ec, n⟩ := r
    obtain ⟨hst, hec, hsz⟩ := h.in_progress_ok op ec n hp
    obtain ⟨F, X, B, hq, hF, hX, hB, hsto, hXF, hbulk, hnl⟩ := h.shape
    have he : s.exec .invoke_handler
        = { s with
            strm := { s.strm with
                      write_queue_ := s.strm.write_queue_.stop_work, sending_cbs_ := [] }
            in_progress := none
            completions := s.completions ++ [(op.packet, ec, op.size)] } := by
      simp [write_system.exec, hp, stream_write_packet_op.step_ec, hec, hst]
    rw [he]
    refine
      { is_open := h.is_open, working := rfl, in_progress_ok := ?_, queue_size := h.queue_size,
        completions_ok := ?_, submissions_eq := ?_, shape := ?_ }
    · intro op2 ec2 n2 h2
      cases h2
    · intro c hc
      rcases List.mem_append.mp hc with h1 | h1
      · exact h.completions_ok c h1
      · simp only [List.mem_singleton] at h1
        subst h1
        exact ⟨hec, hsz⟩
    · have := h.submissions_eq
      simp only [write_system.completed_packets, write_system.in_progress_packets, hp] at this
      simp only [write_system.completed_packets, write_system.in_progress_packets,
        ioc_queue.stop_work, List.map_append, List.map_cons, List.map_nil, List.append_nil]
      exact this
    · refine ⟨F, X, B, hq, hF, hX, hB, hsto, hXF, hbulk, ?_⟩
      simp only [write_system.completed_packets, write_system.in_progress_packets, hp] at hnl
      simp only [write_system.completed_packets, write_system.in_progress_packets,
        List.map_append, List.map_cons, List.map_nil, List.append_nil]
      exact hnl

theorem write_system.exec_run_queue_write (s : write_system) (op : stream_write_packet_op)
    (rest : List stream_write_packet_op) (hw : s.strm.write_queue_.working_ = false)
    (hq : s.strm.write_queue_.queue_ = op :: rest) (hs : op.state = .write)
    (ho : s.strm.lowest_layer_is_open = true) :
    s.exec .run_queue
      = { s with
          strm := { s.strm with write_queue_ := ⟨rest, true⟩ }
          in_progress := some ({ op with state := .complete }, .no_error,
            (op.packet.const_buffer_sequence.map List.length).sum)
          next_layer := s.next_layer ++ op.packet.const_buffer_sequence } := by
  simp [write_system.exec, hw, hq, stream_write_packet_op.step, hs, ho,
    ioc_queue.start_work]

theorem write_system.exec_run_queue_bulk_empty (s : write_system)
    (op : stream_write_packet_op) (rest : List stream_write_packet_op)
    (hw : s.strm.write_queue_.working_ = false)
    (hq : s.strm.write_queue_.queue_ = op :: rest) (hs : op.state = .bulk_write)
    (ho : s.strm.lowest_layer_is_open = true) (he : s.strm.storing_cbs_ = []) :
    s.exec .run_queue
      = { s with
          strm := { s.strm with write_queue_ := ⟨rest, true⟩ }
          in_progress := some ({ op with state := .complete }, .of_errc .success,
            op.size) } := by
  simp [write_system.exec, hw, hq, stream_write_packet_op.step, hs, ho, he,
    ioc_queue.start_work]

theorem write_system.exec_run_queue_bulk_flush (s : write_system)
    (op : stream_write_packet_op) (rest : List stream_write_packet_op)
    (hw : s.strm.write_queue_.working_ = false)
    (hq : s.strm.write_queue_.queue_ = op :: rest) (hs : op.state = .bulk_write)
    (ho : s.strm.lowest_layer_is_open = true) (he : s.strm.storing_cbs_ ≠ []) :
    s.exec .run_queue
      = { s with
          strm := { s.strm with
                    write_queue_ := ⟨rest, true⟩
                    sending_cbs_ := s.strm.storing_cbs_
                    storing_cbs_ := [] }
          in_progress := some ({ op with state := .complete }, .no_error,
            (s.strm.storing_cbs_.map List.length).sum)
          next_layer := s.next_layer ++ s.strm.storing_cbs_ } := by
  simp [write_system.exec, hw, hq, stream_write_packet_op.step, hs, ho, he,
    ioc_queue.start_work]

/-- The invariant after the turn of the oldest operation of the queue, from the
parts of the state after the turn. -/
theorem write_system.invariant_after_turn (s t : write_system) (h : s.invariant)
    (op : stream_write_packet_op) (rest : List stream_write_packet_op)
    (ec : error_code) (n : Nat)
    (hp : s.in_progress = none)
    (hq : s.strm.write_queue_.queue_ = op :: rest)
    (hec : ec.failed = false)
    (hopen : t.strm.lowest_layer_is_open = true)
    (htq : t.strm.write_queue_ = ⟨rest, true⟩)
    (htp : t.in_progress = some ({ op with state := .complete }, ec, n))
    (htc : t.completions = s.completions)
    (hts : t.submissions = s.submissions)
    (hshape : ∃ F X B : List stream_write_packet_op,
      rest = F ++ X ++ B ∧
      (∀ op ∈ F, op.state = .bulk_write) ∧
      (∀ op ∈ X, op.state = .write) ∧
      (∀ op ∈ B, op.state = .bulk_write) ∧
      t.strm.storing_cbs_ = gather (B.map fun op => op.packet) ∧
      (X ≠ [] → F = []) ∧
      (t.strm.bulk_write_ = false → F = [] ∧ B = []) ∧
      t.next_layer
        = gather (s.completed_packets ++ [op.packet] ++ F.map fun op => op.packet)) :
    t.invariant := by
  have hsz : op.size = op.packet.size := h.queue_size op (by rw [hq]; simp)
  refine
    { is_open := hopen, working := ?_, in_progress_ok := ?_, queue_size := ?_,
      completions_ok := ?_, submissions_eq := ?_, shape := ?_ }
  · rw [htq, htp]
    rfl
  · intro op2 ec2 n2 h2
    rw [htp] at h2
    simp only [Option.some.injEq, Prod.mk.injEq] at h2
    obtain ⟨h3, h4, _⟩ := h2
    subst h3
    subst h4
    exact ⟨rfl, hec, hsz⟩
  · intro op2 h2
    rw [htq] at h2
    exact h.queue_size op2 (by rw [hq]; exact List.mem_cons_of_mem _ h2)
  · rw [htc]
    exact h.completions_ok
  · have := h.submissions_eq
    simp only [write_system.completed_packets, write_system.in_progress_packets, hp, hq,
      List.append_nil, List.map_cons] at this
    simp only [write_system.completed_packets, write_system.in_progress_packets, htp, htq,
      htc, hts, this, List.append_assoc, List.singleton_append]
  · obtain ⟨F, X, B, h1, h2, h3, h4, h5, h6, h7, h8⟩ := hshape
    refine ⟨F, X, B, by rw [htq]; exact h1, h2, h3, h4, h5, h6, h7, ?_⟩
    rw [h8]
    simp only [write_system.completed_packets, write_system.in_progress_packets, htp, htc]

theorem write_system.invariant_run_queue (s : write_system) (h : s.invariant) :
    (s.exec .run_queue).invariant := by
  cases hw : s.strm.write_queue_.working_ with
  | true =>
    have : s.exec .run_queue = s := by simp [write_system.exec, hw]
    rw [this]
    exact h
  | false =>
    have hp : s.in_progress = none := by
      have := h.working
      rw [hw] at this
      cases hp : s.in_progress with
      | none => rfl
      | some r => rw [hp] at this; cases this
    obtain ⟨F, X, B, hq, hF, hX, hB, hsto, hXF, hbulk, hnl⟩ := h.shape
    simp only [write_system.in_progress_packets, hp, List.append_nil] at hnl
    cases F with
    | cons f F2 =>
      have hXnil : X = [] := by
        by_contra hne
        exact List.cons_ne_nil _ _ (hXF hne)
      subst hXnil
      have hbt : s.strm.bulk_write_ = true := by
        cases hb : s.strm.bulk_write_ with
        | true => rfl
        | false => exact absurd (hbulk hb).1 (List.cons_ne_nil _ _)
      simp only [List.append_nil, List.cons_append] at hq
      have hfs : f.state = .bulk_write := hF f (by simp)
      by_cases he : s.strm.storing_cbs_ = []
      · have hexec := write_system.exec_run_queue_bulk_empty s f (F2 ++ B) hw hq hfs
          h.is_open he
        refine write_system.invariant_after_turn s _ h f (F2 ++ B) (.of_errc .success)
          f.size hp hq rfl ?_ ?_ ?_ ?_ ?_ ?_
        · rw [hexec]; exact h.is_open
        · rw [hexec]
        · rw [hexec]
        · rw [hexec]
        · rw [hexec]
        · rw [hexec]
          refine ⟨F2, [], B, by simp, fun op hop => hF op (List.mem_cons_of_mem _ hop),
            by simp, hB, hsto, by simp, ?_, ?_⟩
          · intro hb
            simp only at hb
            rw [hbt] at hb
            cases hb
          · simp only [hnl, gather_cons, gather_append, gather_singleton, gather_nil,
              List.map_cons, List.map_append, List.map_nil, List.append_assoc,
              List.append_nil, List.nil_append]
      · have hexec := write_system.exec_run_queue_bulk_flush s f (F2 ++ B) hw hq hfs
          h.is_open he
        refine write_system.invariant_after_turn s _ h f (F2 ++ B) .no_error
          (s.strm.storing_cbs_.map List.length).sum hp hq rfl ?_ ?_ ?_ ?_ ?_ ?_
        · rw [hexec]; exact h.is_open
        · rw [hexec]
        · rw [hexec]
        · rw [hexec]
        · rw [hexec]
        · rw [hexec]
          refine ⟨F2 ++ B, [], [], by simp, ?_, by simp, by simp, rfl, by simp, ?_, ?_⟩
          · intro op hop
            rcases List.mem_append.mp hop with h1 | h1
            · exact hF op (List.mem_cons_of_mem _ h1)
            · exact hB op h1
          · intro hb
            simp only at hb
            rw [hbt] at hb
            cases hb
          · simp only [hnl, hsto, gather_cons, gather_append, gather_singleton, gather_nil,
              List.map_cons, List.map_append, List.map_nil, List.append_assoc,
              List.append_nil, List.nil_append]
    | nil =>
      simp only [List.nil_append] at hq
      simp only [List.map_nil, List.append_nil] at hnl
      cases X with
      | cons x X2 =>
        simp only [List.cons_append] at hq
        have hxs : x.state = .write := hX x (by simp)
        have hexec := write_system.exec_run_queue_write s x (X2 ++ B) hw hq hxs h.is_open
        refine write_system.invariant_after_turn s _ h x (X2 ++ B) .no_error
          (x.packet.const_buffer_sequence.map List.length).sum hp hq rfl ?_ ?_ ?_ ?_ ?_ ?_
        · rw [hexec]; exact h.is_open
        · rw [hexec]
        · rw [hexec]
        · rw [hexec]
        · rw [hexec]
        · rw [hexec]
          refine ⟨[], X2, B, by simp, by simp, fun op hop => hX op (List.mem_cons_of_mem _ hop),
            hB, hsto, by simp, ?_, ?_⟩
          · intro hb
            exact ⟨rfl, (hbulk hb).2⟩
          · simp only [hnl, gather_cons, gather_append, gather_singleton, gather_nil,
              List.map_cons, List.map_append, List.map_nil, List.append_assoc,
              List.append_nil, List.nil_append]
      | nil =>
        simp only [List.nil_append] at hq
        cases B with
        | nil =>
          have : s.exec .run_queue = s := by simp [write_system.exec, hw, hq]
          rw [this]
          exact h
        | cons b B2 =>
          have hbs : b.state = .bulk_write := hB b (by simp)
          have hbt : s.strm.bulk_write_ = true := by
            cases hb : s.strm.bulk_write_ with
            | true => rfl
            | false => exact absurd (hbulk hb).2 (List.cons_ne_nil _ _)
          have hsto2 : s.strm.storing_cbs_
              = b.packet.const_buffer_sequence ++ gather (B2.map fun op => op.packet) := by
            rw [hsto]
            simp [gather]
          by_cases he : s.strm.storing_cbs_ = []
          · have hexec := write_system.exec_run_queue_bulk_empty s b B2 hw hq hbs
              h.is_open he
            rw [he] at hsto2
            have hparts := List.append_eq_nil.mp hsto2.symm
            refine write_system.invariant_after_turn s _ h b B2 (.of_errc .success)
              b.size hp hq rfl ?_ ?_ ?_ ?_ ?_ ?_
            · rw [hexec]; exact h.is_open
            · rw [hexec]
            · rw [hexec]
            · rw [hexec]
            · rw [hexec]
            · rw [hexec]
              refine ⟨[], [], B2, by simp, by simp, by simp,
                fun op hop => hB op (List.mem_cons_of_mem _ hop), ?_, by simp, ?_, ?_⟩
              · simp only [he, hparts.2]
              · intro hb
                simp only at hb
                rw [hbt] at hb
                cases hb
              · simp only [hnl, hparts.1, gather_cons, gather_append, gather_singleton,
                  gather_nil,
                  List.map_cons, List.map_append, List.map_nil, List.append_assoc,
                  List.append_nil, List.nil_append]
          · have hexec := write_system.exec_run_queue_bulk_flush s b B2 hw hq hbs
              h.is_open he
            refine write_system.invariant_after_turn s _ h b B2 .no_error
              (s.strm.storing_cbs_.map List.length).sum hp hq rfl ?_ ?_ ?_ ?_ ?_ ?_
            · rw [hexec]; exact h.is_open
            · rw [hexec]
            · rw [hexec]
            · rw [hexec]
            · rw [hexec]
            · rw [hexec]
              refine ⟨B2, [], [], by simp, fun op hop => hB op (List.mem_cons_of_mem _ hop),
                by simp, by simp, rfl, by simp, ?_, ?_⟩
              · intro hb
                simp only at hb
                rw [hbt] at hb
                cases hb
              · simp only [hnl, hsto2, gather_cons, gather_append, gather_singleton, gather_nil,
                  List.map_cons, List.map_append, List.map_nil, List.append_assoc,
                  List.append_nil, List.nil_append]

theorem write_system.invariant_exec (s : write_system) (h : s.invariant) (e : write_event) :
    (s.exec e).invariant := by
  cases e with
  | async_write_packet p => exact write_system.invariant_submit s h p
  | run_queue => exact write_system.invariant_run_queue s h
  | invoke_handler => exact write_system.invariant_handler s h

theorem write_system.invariant_run (events : List write_event) :
    ∀ s : write_system, s.invariant → (s.run events).invariant := by
  induction events with
  | nil => intro s h; exact h
  | cons e es ih =>
    intro s h
    exact ih (s.exec e) (write_system.invariant_exec s h e)

theorem write_system.run_append (s : write_system) (es fs : List write_event) :
    s.run (es ++ fs) = (s.run es).run fs := by
  simp [write_system.run, List.foldl_append]

theorem step_ec_queue (strm : stream) (op : stream_write_packet_op) (ec : error_code)
    (n : Nat) :
    (stream_write_packet_op.step_ec strm op ec n).1.write_queue_.queue_
      = strm.write_queue_.queue_ := by
  unfold stream_write_packet_op.step_ec
  split
  · rfl
  · split <;> rfl

/-- The handler leaves the operations in the queue as they are and leaves no
operation in progress. -/
theorem write_system.exec_handler_queue (s : write_system) :
    (s.exec .invoke_handler).strm.write_queue_.queue_ = s.strm.write_queue_.queue_ ∧
    (s.exec .invoke_handler).in_progress = none ∧
    (s.exec .invoke_handler).submissions = s.submissions := by
  cases hp : s.in_progress with
  | none => simp [write_system.exec, hp]
  | some r =>
    obtain ⟨op, ec, n⟩ := r
    have hq := step_ec_queue s.strm op ec n
    cases hr : stream_write_packet_op.step_ec s.strm op ec n with
    | mk strm1 c =>
      rw [hr] at hq
      cases c <;> simp [write_system.exec, hp, hr] <;> exact hq

/-- With no operation in progress, the queue runs its oldest operation, if
there is one. -/
theorem write_system.exec_run_queue_queue (s : write_system) (h : s.invariant)
    (hp : s.in_progress = none) :
    (s.exec .run_queue).strm.write_queue_.queue_ = s.strm.write_queue_.queue_.tail ∧
    (s.exec .run_queue).submissions = s.submissions := by
  have hw : s.strm.write_queue_.working_ = false := by
    rw [h.working, hp]
    rfl
  cases hq : s.strm.write_queue_.queue_ with
  | nil =>
    have : s.exec .run_queue = s := by simp [write_system.exec, hw, hq]
    rw [this, hq]
    exact ⟨rfl, rfl⟩
  | cons op rest =>
    obtain ⟨F, X, B, hshape, hF, hX, hB, _⟩ := h.shape
    have hmem : op ∈ F ++ X ++ B := by
      rw [← hshape, hq]
      simp
    have hst : op.state = .write ∨ op.state = .bulk_write := by
      rcases List.mem_append.mp hmem with h1 | h1
      · rcases List.mem_append.mp h1 with h2 | h2
        · exact Or.inr (hF op h2)
        · exact Or.inl (hX op h2)
      · exact Or.inr (hB op h1)
    rcases hst with hs | hs
    · rw [write_system.exec_run_queue_write s op rest hw hq hs h.is_open]
      exact ⟨rfl, rfl⟩
    · by_cases he : s.strm.storing_cbs_ = []
      · rw [write_system.exec_run_queue_bulk_empty s op rest hw hq hs h.is_open he]
        exact ⟨rfl, rfl⟩
      · rw [write_system.exec_run_queue_bulk_flush s op rest hw hq hs h.is_open he]
        exact ⟨rfl, rfl⟩

/-- Enough turns of the write queue leave nothing to do. -/
theorem write_system.drain_idle (n : Nat) :
    ∀ s : write_system, s.invariant → s.in_progress = none →
      s.strm.write_queue_.queue_.length ≤ n →
      (s.run (write_system.drain n)).idle ∧
        (s.run (write_system.drain n)).submissions = s.submissions := by
  induction n with
  | zero =>
    intro s _ hp hn
    exact ⟨⟨List.length_eq_zero.mp (Nat.le_zero.mp hn), hp⟩, rfl⟩
  | succ n ih =>
    intro s h hp hn
    have h1 := write_system.exec_run_queue_queue s h hp
    have hi1 := write_system.invariant_run_queue s h
    have h2 := write_system.exec_handler_queue (s.exec .run_queue)
    have hi2 := write_system.invariant_handler _ hi1
    have hlen : ((s.exec .run_queue).exec .invoke_handler).strm.write_queue_.queue_.length
        ≤ n := by
      rw [h2.1, h1.1, List.length_tail]
      omega
    have := ih _ hi2 h2.2.1 hlen
    simp only [write_system.drain, write_system.run, List.foldl_cons] at this ⊢
    refine ⟨this.1, ?_⟩
    rw [this.2, h2.2.2, h1.2]

theorem write_system.invariant_after (bulk_write : Bool) (events : List write_event) :
    (write_system.after bulk_write events).invariant :=
  write_system.invariant_run events _ (write_system.invariant_init bulk_write)

/-- What the invariant says of the buffers handed to the next layer and of the
completions. -/
theorem write_system.invariant_order (s : write_system) (h : s.invariant) :
    (∃ k, s.completions.length ≤ k ∧ s.next_layer = gather (s.submissions.take k)) ∧
    s.completed_packets = s.submissions.take s.completions.length ∧
    (s.idle → s.next_layer = gather s.submissions ∧ s.completed_packets = s.submissions) := by
  obtain ⟨F, X, B, hq, _, _, _, _, _, _, hnl⟩ := h.shape
  have hsub := h.submissions_eq
  have hlen : s.completed_packets.length = s.completions.length := by
    simp [write_system.completed_packets]
  refine ⟨⟨(s.completed_packets ++ s.in_progress_packets
      ++ F.map fun op => op.packet).length, ?_, ?_⟩, ?_, ?_⟩
  · simp only [List.length_append, hlen]
    omega
  · rw [hnl, hsub, hq]
    simp only [List.map_append, ← List.append_assoc]
    have htake : ∀ a b c : List write_packet, List.take a.length (a ++ b ++ c) = a := by
      intro a b c
      rw [List.append_assoc, List.take_left]
    rw [htake]
  · rw [hsub, List.append_assoc, ← hlen, List.take_left]
  · intro hidle
    obtain ⟨hqn, hpn⟩ := hidle
    rw [hqn] at hq
    have hFn : F = [] := by
      cases F with
      | nil => rfl
      | cons f fs => simp at hq
    simp only [write_system.in_progress_packets, hpn, hqn, List.map_nil,
      List.append_nil] at hsub
    simp only [write_system.in_progress_packets, hpn, hFn, List.map_nil,
      List.append_nil] at hnl
    rw [hnl, hsub]
    exact ⟨rfl, rfl⟩

theorem write_system.finish_idle (s : write_system) (h : s.invariant) :
    s.finish.invariant ∧ s.finish.idle ∧ s.finish.submissions = s.submissions := by
  have h1 := write_system.exec_handler_queue s
  have hi1 := write_system.invariant_handler s h
  have hd := write_system.drain_idle s.strm.write_queue_.queue_.length
    (s.exec .invoke_handler) hi1 h1.2.1 (by rw [h1.1])
  have hfin : s.finish
      = (s.exec .invoke_handler).run
          (write_system.drain s.strm.write_queue_.queue_.length) := rfl
  rw [hfin]
  exact ⟨write_system.invariant_run _ _ hi1, hd.1, by rw [hd.2, h1.2.2]⟩

/-- C25: write ordering. After every sequence of events on a new stream over
an open transport whose writes succeed, with bulk write on or off: the bytes
handed to the next layer are the encodings of the first `k` submitted packets
in submission order, each once, for a `k` that covers the completed
operations; the completed operations are those of the first submitted packets,
in submission order, each completed without error and with the size of its
packet; when nothing is left to do, the bytes handed to the next layer are the
encodings of all submitted packets in submission order and every operation is
complete; and nothing is left to do once the pending handler has been invoked
and the write queue has worked once for every waiting operation. -/
theorem write_ordering (bulk_write : Bool) (events : List write_event) :
    (∃ k, (write_system.after bulk_write events).completions.length ≤ k ∧
        (write_system.after bulk_write events).next_layer.flatten
          = encodings ((write_system.after bulk_write events).submissions.take k)) ∧
    (write_system.after bulk_write events).completed_packets
      = (write_system.after bulk_write events).submissions.take
          (write_system.after bulk_write events).completions.length ∧
    (∀ c ∈ (write_system.after bulk_write events).completions,
        c.2.1.failed = false ∧ c.2.2 = c.1.size) ∧
    ((write_system.after bulk_write events).idle →
        (write_system.after bulk_write events).next_layer.flatten
          = encodings (write_system.after bulk_write events).submissions ∧
        (write_system.after bulk_write events).completed_packets
          = (write_system.after bulk_write events).submissions) ∧
    ((write_system.after bulk_write events).finish.idle ∧
      (write_system.after bulk_write events).finish.submissions
        = (write_system.after bulk_write events).submissions ∧
      (write_system.after bulk_write events).finish.next_layer.flatten
        = encodings (write_system.after bulk_write events).submissions ∧
      (write_system.after bulk_write events).finish.completed_packets
        = (write_system.after bulk_write events).submissions) := by
  have hinv := write_system.invariant_after bulk_write events
  obtain ⟨⟨k, hk, hnl⟩, hcp, hidle⟩ := write_system.invariant_order _ hinv
  obtain ⟨hfinv, hfidle, hfsub⟩ := write_system.finish_idle _ hinv
  obtain ⟨_, _, hfin⟩ := write_system.invariant_order _ hfinv
  refine ⟨⟨k, hk, by rw [hnl, gather_flatten]⟩, hcp, hinv.completions_ok, ?_, hfidle, hfsub,
    ?_, ?_⟩
  · intro hi
    obtain ⟨h1, h2⟩ := hidle hi
    exact ⟨by rw [h1, gather_flatten], h2⟩
  · rw [(hfin hfidle).1, gather_flatten, hfsub]
  · rw [(hfin hfidle).2, hfsub]

/-- Witness of C25: with bulk write on, a PINGREQ is submitted and its write
starts; a PINGRESP and a DISCONNECT are submitted while it is in progress, and
the queue works three times. The next layer has received the six bytes of the
three packets in submission order, and the three operations are complete. -/
theorem write_ordering_witness :
    (write_system.after true
        [.async_write_packet ⟨[[0xC0], [0x00]], 2⟩, .run_queue,
         .async_write_packet ⟨[[0xD0, 0x00]], 2⟩, .async_write_packet ⟨[[0xE0], [0x00]], 2⟩,
         .invoke_handler, .run_queue, .invoke_handler, .run_queue, .invoke_handler]).idle ∧
    (write_system.after true
        [.async_write_packet ⟨[[0xC0], [0x00]], 2⟩, .run_queue,
         .async_write_packet ⟨[[0xD0, 0x00]], 2⟩, .async_write_packet ⟨[[0xE0], [0x00]], 2⟩,
         .invoke_handler, .run_queue, .invoke_handler, .run_queue,
         .invoke_handler]).next_layer.flatten
      = [0xC0, 0x00, 0xD0, 0x00, 0xE0, 0x00] ∧
    (write_system.after true
        [.async_write_packet ⟨[[0xC0], [0x00]], 2⟩, .run_queue,
         .async_write_packet ⟨[[0xD0, 0x00]], 2⟩, .async_write_packet ⟨[[0xE0], [0x00]], 2⟩,
         .invoke_handler, .run_queue, .invoke_handler, .run_queue,
         .invoke_handler]).completed_packets
      = [⟨[[0xC0], [0x00]], 2⟩, ⟨[[0xD0, 0x00]], 2⟩, ⟨[[0xE0], [0x00]], 2⟩] :=
  ⟨⟨rfl, rfl⟩,
    ((write_ordering true
        [.async_write_packet ⟨[[0xC0], [0x00]], 2⟩, .run_queue,
         .async_write_packet ⟨[[0xD0, 0x00]], 2⟩, .async_write_packet ⟨[[0xE0], [0x00]], 2⟩,
         .invoke_handler, .run_queue, .invoke_handler, .run_queue,
         .invoke_handler]).2.2.2.1 ⟨rfl, rfl⟩).1,
    ((write_ordering true
        [.async_write_packet ⟨[[0xC0], [0x00]], 2⟩, .run_queue,
         .async_write_packet ⟨[[0xD0, 0x00]], 2⟩, .async_write_packet ⟨[[0xE0], [0x00]], 2⟩,
         .invoke_handler, .run_queue, .invoke_handler, .run_queue,
         .invoke_handler]).2.2.2.1 ⟨rfl, rfl⟩).2⟩


/-! ## Claims on the packet-id wait queue and on the entries of SUBSCRIBE and
UNSUBSCRIBE -/

/-- C33, counterexample: a caller that was queued behind a waiter obtains an id
ahead of it. On a two-byte endpoint all ids are allocated and the caller 7
waits. The fresh call of 8 is added behind 7. The id 5 is released, which sets
`packet_id_released_` and wakes 7; before the operation of 7 runs, the
synchronous `acquire_unique_packet_id()` takes the id 5. The operation of 7
removes its entry, finds no free id, clears the flag and adds itself to the end
of the retry queue, behind 8. The id 5 is released again, which wakes 8, now
the oldest waiter, and the operation of 8 completes with the id 5 while 7 still
waits. -/
theorem acquire_wait_overtaking_after_requeue :
    (⟨⟨List.range' 1 65535⟩, false, [7]⟩ :
        basic_endpoint 2).async_acquire_unique_packet_id_wait_until 8
      = (⟨⟨List.range' 1 65535⟩, false, [7, 8]⟩, .complete, .async_add_retry) ∧
    (⟨⟨List.range' 1 65535⟩, false, [7, 8]⟩ : basic_endpoint 2).release_packet_id 5
      = (⟨⟨(List.range' 1 65535).filter (fun j => j != 5)⟩, true, [7, 8]⟩, some 7) ∧
    (⟨⟨(List.range' 1 65535).filter (fun j => j != 5)⟩, true, [7, 8]⟩ :
        basic_endpoint 2).acquire_unique_packet_id
      = (⟨⟨5 :: (List.range' 1 65535).filter (fun j => j != 5)⟩, true, [7, 8]⟩, some 5) ∧
    acquire_unique_packet_id_wait_until_op.step
        (⟨⟨5 :: (List.range' 1 65535).filter (fun j => j != 5)⟩, true, [7, 8]⟩ :
          basic_endpoint 2)
        false 7 .complete .operation_aborted
      = (⟨⟨5 :: (List.range' 1 65535).filter (fun j => j != 5)⟩, false, [8, 7]⟩, .complete,
          .async_add_retry) ∧
    (⟨⟨5 :: (List.range' 1 65535).filter (fun j => j != 5)⟩, false, [8, 7]⟩ :
        basic_endpoint 2).release_packet_id 5
      = (⟨⟨(List.range' 1 65535).filter (fun j => j != 5)⟩, true, [8, 7]⟩, some 8) ∧
    acquire_unique_packet_id_wait_until_op.step
        (⟨⟨(List.range' 1 65535).filter (fun j => j != 5)⟩, true, [8, 7]⟩ : basic_endpoint 2)
        false 8 .complete .operation_aborted
      = (⟨⟨5 :: (List.range' 1 65535).filter (fun j => j != 5)⟩, true, [7]⟩, .complete,
          .complete .no_error 5) := by
  have hfree5 : ∀ j, 1 ≤ j → j < 5 → j ∈ (List.range' 1 65535).filter (fun j => j != 5) :=
    fun j hj1 hj2 => (mem_ids_but_five j).mpr ⟨⟨hj1, by omega⟩, by omega⟩
  have hnot5 : 5 ∉ (List.range' 1 65535).filter (fun j => j != 5) :=
    fun h => ((mem_ids_but_five 5).mp h).2 rfl
  refine ⟨?_, rfl, ?_, ?_, ?_, ?_⟩
  · simp [basic_endpoint.async_acquire_unique_packet_id_wait_until,
      acquire_unique_packet_id_wait_until_op.step, basic_endpoint.has_retry,
      basic_endpoint.async_add_retry]
  · have hacq := acquire_unique_id_eq
      (⟨(List.range' 1 65535).filter (fun j => j != 5)⟩ : packet_id_manager 2) 5
      (by decide) (by decide) hnot5 hfree5
    simp only [basic_endpoint.acquire_unique_packet_id, hacq]
  · exact step_aborted_released_full
      (⟨⟨5 :: (List.range' 1 65535).filter (fun j => j != 5)⟩, true, [7, 8]⟩ :
        basic_endpoint 2)
      7 rfl
      (fun j hj1 hj2 => by
        have hj3 : j ≤ 65535 := hj2
        by_cases h5 : j = 5
        · exact h5 ▸ List.mem_cons_self _ _
        · exact List.mem_cons_of_mem _ ((mem_ids_but_five j).mpr ⟨⟨hj1, hj3⟩, h5⟩))
  · have hfilter : (5 :: (List.range' 1 65535).filter (fun j => j != 5)).filter
        (fun j => j != 5) = (List.range' 1 65535).filter (fun j => j != 5) := by
      simp [List.filter_cons, List.filter_filter]
    simp only [basic_endpoint.release_packet_id, packet_id_manager.release_id, hfilter,
      List.head?]
  · exact step_aborted_released_free
      (⟨⟨(List.range' 1 65535).filter (fun j => j != 5)⟩, true, [8, 7]⟩ : basic_endpoint 2)
      8 5 rfl (by decide) (by decide) hnot5 hfree5

/-- C33, amended: a fresh call of `async_acquire_unique_packet_id_wait_until` on
a living endpoint whose retry queue is not empty does not complete: the caller
is added to the end of the retry queue, behind every caller that is waiting at
that moment, and the packet-id manager is left as it is, so no id is allocated,
whether an id is free or not. -/
theorem acquire_wait_no_overtaking {W : Nat} (ep : basic_endpoint W) (self : Nat)
    (hq : ep.retry_queue ≠ []) :
    ep.async_acquire_unique_packet_id_wait_until self
      = ({ ep with retry_queue := ep.retry_queue ++ [self] }, .complete, .async_add_retry) ∧
    (ep.async_acquire_unique_packet_id_wait_until self).1.pid_man_ = ep.pid_man_ ∧
    (∀ ec pid, (ep.async_acquire_unique_packet_id_wait_until self).2.2 ≠ .complete ec pid) := by
  have hrun : ep.async_acquire_unique_packet_id_wait_until self
      = ({ ep with retry_queue := ep.retry_queue ++ [self] }, .complete,
          .async_add_retry) := by
    simp [basic_endpoint.async_acquire_unique_packet_id_wait_until,
      acquire_unique_packet_id_wait_until_op.step, basic_endpoint.has_retry, hq,
      basic_endpoint.async_add_retry]
  refine ⟨hrun, ?_, ?_⟩
  · rw [hrun]
  · intro ec pid
    rw [hrun]
    simp

/-- Witness of C33: a two-byte endpoint on which no id is allocated and the
caller 7 waits; the fresh call of the caller 8 is queued behind 7. -/
theorem acquire_wait_no_overtaking_witness :
    (⟨⟨[]⟩, false, [7]⟩ : basic_endpoint 2).retry_queue ≠ [] ∧
    (⟨⟨[]⟩, false, [7]⟩ : basic_endpoint 2).async_acquire_unique_packet_id_wait_until 8
      = (⟨⟨[]⟩, false, [7, 8]⟩, .complete, .async_add_retry) :=
  ⟨by decide,
    (acquire_wait_no_overtaking (⟨⟨[]⟩, false, [7]⟩ : basic_endpoint 2) 8 (by decide)).1⟩

/-- C34, the code at the failing input: a frame that ends after the packet
identifier (UNSUBSCRIBE) or after an empty property section (SUBSCRIBE), with
whatever two bytes as the packet identifier, is decoded without an error into a
packet that has no entry. -/
theorem decode_without_entries (a b : Nat) :
    basic_unsubscribe_packet.from_buffer 2 [0xA2, 0x02, a, b]
      = .ok { fixed_header_ := 0xA2, topic_length_buf_entries_ := [], entries_ := [],
              packet_id_ := [a, b], remaining_length_ := 2,
              remaining_length_buf_ := [0x02] } ∧
    v5.basic_subscribe_packet.from_buffer no_property_functions 2 [0x82, 0x03, a, b, 0x00]
      = .ok { fixed_header_ := 0x82, topic_length_buf_entries_ := [], entries_ := [],
              packet_id_ := [a, b], remaining_length_ := 3,
              remaining_length_buf_ := [0x03], property_length_ := 0,
              property_length_buf_ := [0x00], props_ := [] } := by
  constructor <;> rfl

/-- The first loop of the UNSUBSCRIBE constructor on entries one of which has a
topic filter longer than 65535 bytes: `boost::numeric_cast<std::uint16_t>`
throws. -/
theorem unsubscribe_topic_length_bufs_oversize (params : List topic_sharename)
    (h : ∃ e ∈ params, 65535 < e.all_topic.length) :
    basic_unsubscribe_packet.new.topic_length_bufs params = .error .bad_numeric_cast := by
  induction params with
  | nil =>
    obtain ⟨e, he, _⟩ := h
    cases he
  | cons x xs ih =>
    rw [basic_unsubscribe_packet.new.topic_length_bufs]
    by_cases hx : 65535 < x.all_topic.length
    · have : numeric_cast_or_throw 16 x.all_topic.length = .error .bad_numeric_cast := by
        unfold numeric_cast_or_throw
        rw [if_neg (by norm_num; omega)]
      rw [this]
    · have : numeric_cast_or_throw 16 x.all_topic.length = .ok x.all_topic.length := by
        unfold numeric_cast_or_throw
        rw [if_pos (by norm_num; omega)]
      rw [this]
      obtain ⟨e, he, hlen⟩ := h
      rcases List.mem_cons.mp he with h1 | h1
      · subst h1
        exact absurd hlen hx
      · simp only [ih ⟨e, h1, hlen⟩]

/-- The first loop of the SUBSCRIBE constructor on entries one of which has a
topic filter longer than 65535 bytes: `boost::numeric_cast<std::uint16_t>`
throws. -/
theorem subscribe_topic_length_bufs_oversize (params : List topic_subopts)
    (h : ∃ e ∈ params, 65535 < e.all_topic.length) :
    v5.basic_subscribe_packet.new.topic_length_bufs params = .error .bad_numeric_cast := by
  induction params with
  | nil =>
    obtain ⟨e, he, _⟩ := h
    cases he
  | cons x xs ih =>
    rw [v5.basic_subscribe_packet.new.topic_length_bufs]
    by_cases hx : 65535 < x.all_topic.length
    · have : numeric_cast_or_throw 16 x.all_topic.length = .error .bad_numeric_cast := by
        unfold numeric_cast_or_throw
        rw [if_neg (by norm_num; omega)]
      rw [this]
    · have : numeric_cast_or_throw 16 x.all_topic.length = .ok x.all_topic.length := by
        unfold numeric_cast_or_throw
        rw [if_pos (by norm_num; omega)]
      rw [this]
      obtain ⟨e, he, hlen⟩ := h
      rcases List.mem_cons.mp he with h1 | h1
      · subst h1
        exact absurd hlen hx
      · simp only [ih ⟨e, h1, hlen⟩]

/-- Both constructors on entries one of which has a topic filter longer than
65535 bytes: the exception is `boost::bad_numeric_cast` of the first loop,
whatever else the entries, the packet id and the properties are. -/
theorem new_oversize_topic_filter {property : Type} (pf : property_functions property)
    (W pid : Nat) :
    (∀ params : List topic_sharename, (∃ e ∈ params, 65535 < e.all_topic.length) →
      basic_unsubscribe_packet.new W pid params = .error .bad_numeric_cast) ∧
    (∀ (params : List topic_subopts) (props : List property),
      (∃ e ∈ params, 65535 < e.all_topic.length) →
      v5.basic_subscribe_packet.new pf W pid params props = .error .bad_numeric_cast) := by
  constructor
  · intro params h
    simp only [basic_unsubscribe_packet.new, unsubscribe_topic_length_bufs_oversize params h]
  · intro params props h
    simp only [v5.basic_subscribe_packet.new, subscribe_topic_length_bufs_oversize params h]

/-- Both constructors on one entry whose topic filter is `n` times the letter
a, for `n` above 65535. -/
theorem new_oversize_topic_filter_replicate (n : Nat) (hn : 65535 < n) :
    basic_unsubscribe_packet.new 2 1 [⟨List.replicate n 0x61⟩]
      = .error .bad_numeric_cast ∧
    v5.basic_subscribe_packet.new no_property_functions 2 1
        [⟨List.replicate n 0x61, ⟨0x01⟩⟩] []
      = .error .bad_numeric_cast := by
  constructor
  · apply (new_oversize_topic_filter no_property_functions 2 1).1
    refine ⟨_, List.mem_singleton.mpr rfl, ?_⟩
    rw [List.length_replicate]
    exact hn
  · apply (new_oversize_topic_filter no_property_functions 2 1).2
    refine ⟨_, List.mem_singleton.mpr rfl, ?_⟩
    rw [List.length_replicate]
    exact hn

/-- C39, the code at the failing input: an UNSUBSCRIBE and a SUBSCRIBE with one
entry whose topic filter is 65536 times the letter a. Both constructors throw
`boost::bad_numeric_cast`, which is not the `bad_message` error of the explicit
size check. -/
theorem oversize_topic_filter_bad_numeric_cast :
    basic_unsubscribe_packet.new 2 1 [⟨List.replicate 65536 0x61⟩]
      = .error .bad_numeric_cast ∧
    v5.basic_subscribe_packet.new no_property_functions 2 1
        [⟨List.replicate 65536 0x61, ⟨0x01⟩⟩] []
      = .error .bad_numeric_cast ∧
    packet_exception.bad_numeric_cast
      ≠ make_error .bad_message "v3_1_1::unsubscribe_packet length of topic is invalid" ∧
    packet_exception.bad_numeric_cast
      ≠ make_error .bad_message "v5::subscribe_packet length of topic is invalid" :=
  ⟨(new_oversize_topic_filter_replicate 65536 (by norm_num)).1,
    (new_oversize_topic_filter_replicate 65536 (by norm_num)).2,
    by simp [make_error], by simp [make_error]⟩


/-! ## The validation of subscribe options -/

set_option maxRecDepth 100000 in
/-- The three inline checks of the source on an options value pass exactly when
the specification accepts its byte. -/
theorem subopts_checks_iff_accepted (d : Nat) :
    (¬ (d % 256 &&& 0b11000000 ≠ 0) ∧ sub.opts.get_qos ⟨d⟩ ≠ .reserved ∧
        sub.opts.get_retain_handling ⟨d⟩ ≠ .reserved)
      ↔ subscribe_options_accepted (d % 256) = true := by
  have hb : ∀ o < 256,
      (¬ (o % 256 &&& 0b11000000 ≠ 0) ∧ sub.opts.get_qos ⟨o⟩ ≠ .reserved ∧
          sub.opts.get_retain_handling ⟨o⟩ ≠ .reserved)
        ↔ subscribe_options_accepted o = true := by
    decide
  have h1 : sub.opts.get_qos ⟨d⟩ = sub.opts.get_qos ⟨d % 256⟩ := by
    simp only [sub.opts.get_qos]
    congr 1
    omega
  have h2 : sub.opts.get_retain_handling ⟨d⟩ = sub.opts.get_retain_handling ⟨d % 256⟩ := by
    simp only [sub.opts.get_retain_handling]
    congr 1
    omega
  have h3 := hb (d % 256) (Nat.mod_lt _ (by norm_num))
  rw [Nat.mod_mod] at h3
  rw [h1, h2]
  exact h3

theorem qos_ne_reserved (q : qos)
    (h : q = .at_most_once ∨ q = .at_least_once ∨ q = .exactly_once) : q ≠ .reserved := by
  rcases h with h | h | h <;> rw [h] <;> decide

theorem retain_handling_ne_reserved (r : sub.retain_handling)
    (h : r = .send ∨ r = .send_only_new_subscription ∨ r = .not_send) : r ≠ .reserved := by
  rcases h with h | h | h <;> rw [h] <;> decide

/-- Entries that pass the second loop of the SUBSCRIBE constructor pass the
three checks of their options. -/
theorem subscribe_check_entries_ok_inv (params : List topic_subopts) :
    ∀ (acc r : Nat), v5.basic_subscribe_packet.new.check_entries params acc = .ok r →
      ∀ e ∈ params, ¬ (e.opts.data_ % 256 &&& 0b11000000 ≠ 0) ∧
        e.opts.get_qos ≠ .reserved ∧ e.opts.get_retain_handling ≠ .reserved := by
  induction params with
  | nil => intro acc r _ e he; cases he
  | cons x xs ih =>
    intro acc r h
    rw [v5.basic_subscribe_packet.new.check_entries] at h
    (repeat' (first | split at h | dsimp only at h)) <;> first
      | cases h
      | (intro e he
         rcases List.mem_cons.mp he with h1 | h1
         · subst h1
           (refine ⟨by assumption, qos_ne_reserved _ ?_, retain_handling_ne_reserved _ ?_⟩
           <;> first
             | exact Or.inl (by assumption)
             | exact Or.inr (Or.inl (by assumption))
             | exact Or.inr (Or.inr (by assumption)))
         · exact ih _ _ h e h1)

/-- Entries that the loop of the SUBSCRIBE decoder adds pass the three checks
of their options. -/
theorem subscribe_entries_loop_ok_inv (n : Nat) :
    ∀ (buf : List Nat) (tl : List (List Nat)) (acc : List topic_subopts)
      (tl2 : List (List Nat)) (acc2 : List topic_subopts),
      v5.basic_subscribe_packet.from_buffer.entries_loop n buf tl acc = .ok (tl2, acc2) →
      (∀ e ∈ acc, ¬ (e.opts.data_ % 256 &&& 0b11000000 ≠ 0) ∧
        e.opts.get_qos ≠ .reserved ∧ e.opts.get_retain_handling ≠ .reserved) →
      ∀ e ∈ acc2, ¬ (e.opts.data_ % 256 &&& 0b11000000 ≠ 0) ∧
        e.opts.get_qos ≠ .reserved ∧ e.opts.get_retain_handling ≠ .reserved := by
  induction n with
  | zero =>
    intro buf tl acc tl2 acc2 h hacc
    cases buf <;>
      simp only [v5.basic_subscribe_packet.from_buffer.entries_loop, Except.ok.injEq,
        Prod.mk.injEq] at h <;>
      rw [← h.2] <;> exact hacc
  | succ n ih =>
    intro buf tl acc tl2 acc2 h hacc
    cases buf with
    | nil =>
      simp only [v5.basic_subscribe_packet.from_buffer.entries_loop, Except.ok.injEq,
        Prod.mk.injEq] at h
      rw [← h.2]
      exact hacc
    | cons b bs =>
      rw [v5.basic_subscribe_packet.from_buffer.entries_loop] at h
      (repeat' (first | split at h | dsimp only at h)) <;> first
        | cases h
        | (refine ih _ _ _ _ _ h ?_
           intro e he
           rcases List.mem_append.mp he with h1 | h1
           · exact hacc e h1
           · simp only [List.mem_singleton] at h1
             subst h1
             (refine ⟨by assumption, qos_ne_reserved _ ?_, retain_handling_ne_reserved _ ?_⟩
             <;> first
               | exact Or.inl (by assumption)
               | exact Or.inr (Or.inl (by assumption))
               | exact Or.inr (Or.inr (by assumption))))

theorem subscribe_new_ok_inv {property : Type} (pf : property_functions property)
    (W pid : Nat) (params : List topic_subopts) (props : List property)
    (pkt : v5.basic_subscribe_packet property W)
    (h : v5.basic_subscribe_packet.new pf W pid params props = .ok pkt) :
    pkt.entries_ = params ∧
      ∃ acc r, v5.basic_subscribe_packet.new.check_entries params acc = .ok r := by
  unfold v5.basic_subscribe_packet.new at h
  (repeat' (first | split at h | dsimp only at h)) <;> cases h
  exact ⟨rfl, _, _, by assumption⟩

theorem subscribe_from_buffer_ok_inv {property : Type} (pf : property_functions property)
    (W : Nat) (buf : List Nat) (pkt : v5.basic_subscribe_packet property W)
    (h : v5.basic_subscribe_packet.from_buffer pf W buf = .ok pkt) :
    ∃ n body tl, v5.basic_subscribe_packet.from_buffer.entries_loop n body [] []
      = .ok (tl, pkt.entries_) := by
  unfold v5.basic_subscribe_packet.from_buffer at h
  (repeat' (first | split at h | dsimp only at h)) <;> cases h
  exact ⟨_, _, _, by assumption⟩

/-- The SUBSCRIBE decoder on a frame with an empty property section and one
entry succeeds exactly when the three checks of the options pass. -/
theorem subscribe_from_buffer_single {property : Type} (pf : property_functions property)
    (W : Nat) (pidb t : List Nat) (o : Nat)
    (hmake : pf.make_properties_subscribe [] = .ok [])
    (hW : W ≤ 4) (hpid : pidb.length = W)
    (hu : utf8string_check t = true) (hl : t.length ≤ 65535) :
    (∃ pkt, v5.basic_subscribe_packet.from_buffer pf W
        (0x82 :: (val_to_variable_bytes
            (pidb ++ (0x00 :: (endian_store 2 t.length ++ (t ++ [o])))).length
          ++ (pidb ++ (0x00 :: (endian_store 2 t.length ++ (t ++ [o])))))) = .ok pkt)
      ↔ (¬ (o % 256 &&& 0b11000000 ≠ 0) ∧ sub.opts.get_qos ⟨o⟩ ≠ .reserved ∧
          sub.opts.get_retain_handling ⟨o⟩ ≠ .reserved) := by
  have hlen : (endian_store 2 t.length ++ (t ++ [o])).length = (t.length + 2) + 1 := by
    simp only [List.length_append, endian_store_length, List.length_cons, List.length_nil]
    omega
  have hR : (pidb ++ (0x00 :: (endian_store 2 t.length ++ (t ++ [o])))).length
      ≤ 268435455 := by
    simp only [List.length_append, List.length_cons, hlen, hpid]
    omega
  have hfb := subscribe_from_buffer_entries pf W pidb
    (endian_store 2 t.length ++ (t ++ [o])) hmake hpid hR
  have hloop := subscribe_entries_loop_topic (t.length + 2) t o [] [] [] hu hl
  rw [hfb, hlen, hloop]
  by_cases hres : o % 256 &&& 0b11000000 ≠ 0
  · rw [if_pos hres]
    simp [hres]
  · rw [if_neg hres]
    cases hq : sub.opts.get_qos ⟨o⟩ <;> cases hr : sub.opts.get_retain_handling ⟨o⟩ <;>
      simp [hres, v5.basic_subscribe_packet.from_buffer.entries_loop]

/-- C35: the validation of subscribe options is the same predicate on both
paths, and it is the predicate of the specification. For an entry with a valid
topic filter and the options byte `o`, the constructor accepts the entry
exactly when `o` has the bits 7 and 6 clear, QoS bits other than 3 and
retain-handling bits other than 0x30, and the decoder accepts the frame with
this entry exactly then; every entry of every packet that the constructor or
the decoder makes satisfies this predicate. -/
theorem subscribe_options_same_predicate {property : Type}
    (pf : property_functions property) (W pid : Nat) (pidb t : List Nat) (o : Nat)
    (hsize : pf.size [] = 0) (hmake : pf.make_properties_subscribe [] = .ok [])
    (hW : W ≤ 4) (hpid : pidb.length = W)
    (hu : utf8string_check t = true) (hl : t.length ≤ 65535) (ho : o < 256) :
    ((∃ pkt, v5.basic_subscribe_packet.new pf W pid [⟨t, ⟨o⟩⟩] [] = .ok pkt)
      ↔ subscribe_options_accepted o = true) ∧
    ((∃ pkt, v5.basic_subscribe_packet.from_buffer pf W
        (0x82 :: (val_to_variable_bytes
            (pidb ++ (0x00 :: (endian_store 2 t.length ++ (t ++ [o])))).length
          ++ (pidb ++ (0x00 :: (endian_store 2 t.length ++ (t ++ [o])))))) = .ok pkt)
      ↔ subscribe_options_accepted o = true) ∧
    (∀ params props (pkt : v5.basic_subscribe_packet property W),
      v5.basic_subscribe_packet.new pf W pid params props = .ok pkt →
      ∀ e ∈ pkt.entries, subscribe_options_accepted (e.opts.data_ % 256) = true) ∧
    (∀ buf (pkt : v5.basic_subscribe_packet property W),
      v5.basic_subscribe_packet.from_buffer pf W buf = .ok pkt →
      ∀ e ∈ pkt.entries, subscribe_options_accepted (e.opts.data_ % 256) = true) := by
  have hmod : o % 256 = o := Nat.mod_eq_of_lt ho
  have hacc := subopts_checks_iff_accepted o
  rw [show subscribe_options_accepted (o % 256) = subscribe_options_accepted o from by
    rw [hmod]] at hacc
  have hall : ∀ params props (pkt : v5.basic_subscribe_packet property W),
      v5.basic_subscribe_packet.new pf W pid params props = .ok pkt →
      ∀ e ∈ pkt.entries, subscribe_options_accepted (e.opts.data_ % 256) = true := by
    intro params props pkt h e he
    obtain ⟨hent, acc, r, hchk⟩ := subscribe_new_ok_inv pf W pid params props pkt h
    have hmem : e ∈ params := by
      rw [← hent]
      exact he
    exact (subopts_checks_iff_accepted e.opts.data_).mp
      (subscribe_check_entries_ok_inv params acc r hchk e hmem)
  refine ⟨⟨?_, ?_⟩, ?_, hall, ?_⟩
  · rintro ⟨pkt, h⟩
    obtain ⟨hent, _⟩ := subscribe_new_ok_inv pf W pid _ _ pkt h
    have := hall _ _ pkt h ⟨t, ⟨o⟩⟩ (by
      show (⟨t, ⟨o⟩⟩ : topic_subopts) ∈ pkt.entries_
      rw [hent]
      exact List.mem_singleton.mpr rfl)
    simp only [hmod] at this
    exact this
  · intro h
    have hbits : o &&& 0xC0 = 0 ∧ o &&& 0x03 ≠ 3 ∧ o &&& 0x30 ≠ 0x30 := by
      simpa [subscribe_options_accepted, and_assoc] using h
    exact ⟨_, subscribe_new_eq pf W pid [⟨t, ⟨o⟩⟩] hsize
      (by
        intro e he
        rw [List.mem_singleton.mp he]
        exact ⟨hu, hl, ho, hbits⟩)
      (by
        simp only [List.map_cons, List.map_nil, List.sum_cons, List.sum_nil]
        omega)⟩
  · rw [subscribe_from_buffer_single pf W pidb t o hmake hW hpid hu hl]
    exact hacc
  · intro buf pkt h e he
    obtain ⟨n, body, tl, hloop⟩ := subscribe_from_buffer_ok_inv pf W buf pkt h
    exact (subopts_checks_iff_accepted e.opts.data_).mp
      (subscribe_entries_loop_ok_inv n body [] [] tl pkt.entries_ hloop
        (by intro x hx; cases hx) e he)

/-- Witness of C35: no property, a two-byte packet id 1, the topic filter "a"
and the options byte 2E, which is accepted; the constructor makes a packet and
the decoder decodes the frame. -/
theorem subscribe_options_same_predicate_witness :
    subscribe_options_accepted 0x2E = true ∧
    (∃ pkt, v5.basic_subscribe_packet.new no_property_functions 2 1 [⟨[0x61], ⟨0x2E⟩⟩] []
      = .ok pkt) ∧
    (∃ pkt, v5.basic_subscribe_packet.from_buffer no_property_functions 2
        (0x82 :: (val_to_variable_bytes
            ([0x00, 0x01]
              ++ (0x00 :: (endian_store 2 [0x61].length ++ ([0x61] ++ [0x2E])))).length
          ++ ([0x00, 0x01]
            ++ (0x00 :: (endian_store 2 [0x61].length ++ ([0x61] ++ [0x2E])))))) = .ok pkt) :=
  ⟨by decide,
    (subscribe_options_same_predicate no_property_functions 2 1 [0x00, 0x01] [0x61] 0x2E
      rfl rfl (by decide) rfl (by decide) (by decide) (by decide)).1.mpr (by decide),
    (subscribe_options_same_predicate no_property_functions 2 1 [0x00, 0x01] [0x61] 0x2E
      rfl rfl (by decide) rfl (by decide) (by decide) (by decide)).2.1.mpr (by decide)⟩


/-! ## Failures of the asynchronous operations -/

/-- C36, the code at the failing input: with bulk write on, a PINGREQ is
submitted and its write starts; a PINGRESP and a DISCONNECT are submitted while
it is in progress and are stored; the PINGREQ completes and the turn of the
PINGRESP starts one scatter write of the stored buffers of both packets. This
write fails with an error code. The operation of the PINGRESP completes with
that error, and then the operation of the DISCONNECT, whose bytes no other write
carried, completes with `errc::success` and the size of its packet. -/
theorem bulk_write_failure_not_reported :
    ((write_system.after true
        [.async_write_packet ⟨[[0xC0], [0x00]], 2⟩, .run_queue,
         .async_write_packet ⟨[[0xD0, 0x00]], 2⟩, .async_write_packet ⟨[[0xE0], [0x00]], 2⟩,
         .invoke_handler, .run_queue]).strm.sending_cbs_ = [[0xD0, 0x00], [0xE0], [0x00]]) ∧
    ((write_system.after true
        [.async_write_packet ⟨[[0xC0], [0x00]], 2⟩, .run_queue,
         .async_write_packet ⟨[[0xD0, 0x00]], 2⟩, .async_write_packet ⟨[[0xE0], [0x00]], 2⟩,
         .invoke_handler, .run_queue]).next_layer
      = [[0xC0], [0x00], [0xD0, 0x00], [0xE0], [0x00]]) ∧
    ((((write_system.after true
        [.async_write_packet ⟨[[0xC0], [0x00]], 2⟩, .run_queue,
         .async_write_packet ⟨[[0xD0, 0x00]], 2⟩, .async_write_packet ⟨[[0xE0], [0x00]], 2⟩,
         .invoke_handler, .run_queue]).fail_write (.other 32) 0).run
        [.invoke_handler, .run_queue, .invoke_handler]).completions
      = [(⟨[[0xC0], [0x00]], 2⟩, .no_error, 2),
         (⟨[[0xD0, 0x00]], 2⟩, .other 32, 0),
         (⟨[[0xE0], [0x00]], 2⟩, .of_errc .success, 2)]) ∧
    ((((write_system.after true
        [.async_write_packet ⟨[[0xC0], [0x00]], 2⟩, .run_queue,
         .async_write_packet ⟨[[0xD0, 0x00]], 2⟩, .async_write_packet ⟨[[0xE0], [0x00]], 2⟩,
         .invoke_handler, .run_queue]).fail_write (.other 32) 0).run
        [.invoke_handler, .run_queue, .invoke_handler]).next_layer
      = [[0xC0], [0x00], [0xD0, 0x00], [0xE0], [0x00]]) ∧
    (error_code.other 32).failed = true ∧ (error_code.of_errc .success).failed = false := by
  decide

/-- C37, counterexample: two overlapping calls of `async_recv` on an empty recv
queue, an insertion, and the handlers of the two cancelled waits. The second
call cancels the wait of the first, the insertion cancels the wait of the
second. The first handler takes the inserted entry; the second handler finds
`recv_queue_inserted_` set and takes `front()` of the empty queue. -/
theorem recv_front_of_empty_queue :
    ((recv_system.init : recv_system Empty 2).run
        [.async_recv, .async_recv, .insert (.of_error (.of_errc .bad_message)),
         .wake, .wake]).effects
      = [.async_wait, .async_wait,
         .complete (.of_errc .bad_message) basic_packet_variant.new,
         .front_of_empty_queue] ∧
    ((recv_system.init : recv_system Empty 2).run
        [.async_recv, .async_recv, .insert (.of_error (.of_errc .bad_message)),
         .wake]).cl = ⟨[], true⟩ ∧
    (recv_system.init : recv_system Empty 2).one_at_a_time
        [.async_recv, .async_recv, .insert (.of_error (.of_errc .bad_message)),
         .wake, .wake] = false :=
  ⟨rfl, rfl, rfl⟩

theorem recv_invariant_init {property : Type} {W : Nat} :
    (recv_system.init : recv_system property W).invariant := by
  refine ⟨by simp [recv_system.init], ?_, ?_⟩
  · intro h
    simp [recv_system.init] at h
  · intro eff h
    simp [recv_system.init] at h

theorem recv_invariant_exec {property : Type} {W : Nat} (s : recv_system property W)
    (ev : recv_event property W) (h : s.invariant)
    (hev : ev = .async_recv → s.waiting + s.cancelled = 0) :
    (s.exec ev).invariant := by
  obtain ⟨h1, h2, h3⟩ := h
  cases ev with
  | async_recv =>
    have h0 := hev rfl
    have hw : s.waiting = 0 := by omega
    have hc : s.cancelled = 0 := by omega
    cases hq : s.cl.recv_queue_ with
    | nil =>
      have hexec : s.exec .async_recv
          = { cl := { s.cl with recv_queue_inserted_ := false }, waiting := 1,
              cancelled := s.cancelled + s.waiting,
              effects := s.effects ++ [.async_wait] } := by
        simp [recv_system.exec, client.async_recv, recv_op.step, hq]
      rw [hexec]
      refine ⟨by simp [hw, hc], ?_, ?_⟩
      · intro _ hflag
        simp at hflag
      · intro eff heff
        simp only [List.mem_append, List.mem_singleton] at heff
        rcases heff with heff | heff
        · exact h3 eff heff
        · exact Or.inl heff
    | cons front rest =>
      have hexec : s.exec .async_recv
          = { s with cl := { s.cl with recv_queue_ := rest },
                     effects := s.effects ++ [.complete front.ec front.pv] } := by
        simp [recv_system.exec, client.async_recv, recv_op.step, hq]
      rw [hexec]
      refine ⟨h1, ?_, ?_⟩
      · intro hone
        simp only [hw, hc] at hone
        omega
      · intro eff heff
        simp only [List.mem_append, List.mem_singleton] at heff
        rcases heff with heff | heff
        · exact h3 eff heff
        · exact Or.inr ⟨_, _, heff⟩
  | insert e =>
    refine ⟨?_, ?_, h3⟩
    · simp only [recv_system.exec, recv_system.insert]
      omega
    · intro _ _
      simp [recv_system.exec, recv_system.insert]
  | cancel =>
    refine ⟨?_, ?_, h3⟩
    · simp only [recv_system.exec]
      omega
    · intro hone hflag
      simp only [recv_system.exec] at hone hflag ⊢
      exact h2 (by omega) hflag
  | wake =>
    cases hcn : s.cancelled with
    | zero =>
      have hexec : s.exec .wake = s := by
        simp [recv_system.exec, hcn]
      rw [hexec]
      exact ⟨h1, h2, h3⟩
    | succ n =>
      have hn : n = 0 := by omega
      have hw : s.waiting = 0 := by omega
      subst hn
      cases hflag : s.cl.recv_queue_inserted_ with
      | false =>
        have hexec : s.exec .wake
            = { s with cancelled := 0,
                       effects := s.effects ++
                         [.complete (.of_errc .operation_canceled) basic_packet_variant.new] } := by
          simp [recv_system.exec, hcn, recv_op.step_ec, hflag]
        rw [hexec]
        refine ⟨by simp [hw], ?_, ?_⟩
        · intro hone
          simp only [hw] at hone
          omega
        · intro eff heff
          simp only [List.mem_append, List.mem_singleton] at heff
          rcases heff with heff | heff
          · exact h3 eff heff
          · exact Or.inr ⟨_, _, heff⟩
      | true =>
        cases hq : s.cl.recv_queue_ with
        | nil => exact absurd hq (h2 (by omega) hflag)
        | cons front rest =>
          have hexec : s.exec .wake
              = { s with cl := { s.cl with recv_queue_ := rest }, cancelled := 0,
                         effects := s.effects ++ [.complete front.ec front.pv] } := by
            simp [recv_system.exec, hcn, recv_op.step_ec, hflag, hq]
          rw [hexec]
          refine ⟨by simp [hw], ?_, ?_⟩
          · intro hone
            simp only [hw] at hone
            omega
          · intro eff heff
            simp only [List.mem_append, List.mem_singleton] at heff
            rcases heff with heff | heff
            · exact h3 eff heff
            · exact Or.inr ⟨_, _, heff⟩

theorem recv_invariant_run {property : Type} {W : Nat}
    (events : List (recv_event property W)) :
    ∀ (s : recv_system property W), s.invariant → s.one_at_a_time events = true →
      (s.run events).invariant := by
  induction events with
  | nil => intro s h _; exact h
  | cons ev events ih =>
    intro s h hone
    have hstep : (s.exec ev).invariant ∧ (s.exec ev).one_at_a_time events = true := by
      cases ev with
      | async_recv =>
        simp only [recv_system.one_at_a_time, Bool.and_eq_true, beq_iff_eq] at hone
        exact ⟨recv_invariant_exec s _ h (fun _ => hone.1), hone.2⟩
      | insert e =>
        exact ⟨recv_invariant_exec s _ h (fun hc => by cases hc), hone⟩
      | cancel =>
        exact ⟨recv_invariant_exec s _ h (fun hc => by cases hc), hone⟩
      | wake =>
        exact ⟨recv_invariant_exec s _ h (fun hc => by cases hc), hone⟩
    exact ih (s.exec ev) hstep.1 hstep.2

/-- C37, amended: `async_recv` never pops an empty queue while its calls do not
overlap. For every sequence of calls of `async_recv`, insertions into the recv
queue (push, set `recv_queue_inserted_`, cancel the notify timer),
cancellations of the pending wait and runs of the handler of a cancelled wait,
on a client that starts with an empty queue and in which `async_recv` is called
only while no earlier call is outstanding: at most one operation is
outstanding, an outstanding operation that finds `recv_queue_inserted_` set
finds the queue non-empty, and every step of an operation either waits or
completes; none takes the front of an empty queue, in the recv step or in the
handler, and none fails an assertion. -/
theorem recv_never_pops_empty_queue {property : Type} {W : Nat}
    (events : List (recv_event property W))
    (h : (recv_system.init : recv_system property W).one_at_a_time events = true) :
    ((recv_system.init : recv_system property W).run events).invariant ∧
    ∀ eff ∈ ((recv_system.init : recv_system property W).run events).effects,
      eff ≠ .front_of_empty_queue ∧ eff ≠ .assert_failed := by
  have hinv := recv_invariant_run events recv_system.init
    recv_invariant_init h
  refine ⟨hinv, ?_⟩
  intro eff heff
  rcases hinv.2.2 eff heff with h1 | ⟨ec, pv, h1⟩ <;> subst h1 <;>
    exact ⟨fun h => (by cases h), fun h => (by cases h)⟩

/-- Witness of C37: a call that waits, an insertion and the handler that takes
the entry; a call that waits, its cancellation, an insertion before the handler
runs, and the handler that takes the entry; an insertion without a waiter and
a call that takes the entry at once. -/
theorem recv_never_pops_empty_queue_witness :
    (recv_system.init : recv_system Empty 2).one_at_a_time
        [.async_recv, .insert (.of_error (.of_errc .bad_message)), .wake,
         .async_recv, .cancel, .insert (.of_error (.of_errc .connection_reset)), .wake,
         .insert (.of_error (.of_errc .bad_message)), .async_recv] = true ∧
    ∀ eff ∈ ((recv_system.init : recv_system Empty 2).run
        [.async_recv, .insert (.of_error (.of_errc .bad_message)), .wake,
         .async_recv, .cancel, .insert (.of_error (.of_errc .connection_reset)), .wake,
         .insert (.of_error (.of_errc .bad_message)), .async_recv]).effects,
      eff ≠ .front_of_empty_queue ∧ eff ≠ .assert_failed :=
  ⟨rfl, (recv_never_pops_empty_queue
    [.async_recv, .insert (.of_error (.of_errc .bad_message)), .wake,
     .async_recv, .cancel, .insert (.of_error (.of_errc .connection_reset)), .wake,
     .insert (.of_error (.of_errc .bad_message)), .async_recv] rfl).2⟩

/-- C38: the assertions of the two state machines hold. A write operation is
entered without arguments when `async_compose` starts it, when the executor
runs the dispatched operation and when the write queue runs the posted
operation, and with an error code and a number of bytes when its write or its
dispatch with arguments completes; a receive operation is entered without
arguments when `async_compose` starts it and when the executor runs the
dispatched operation, and with an error code when its wait completes. Whatever
the stream or the client is at each entry: the write operation is entered
without arguments in the states `dispatch`, `post` and then `write` or
`bulk_write`, after which it is in state `complete` and waits for its handler,
and the handler, with whatever error code and number of bytes, completes the
operation; the receive operation is entered without arguments in the states
`dispatch` and `recv`, after which it is in state `complete`, and its handler
never fails the assertion. No step of the two chains is `assert_failed`. -/
theorem state_machine_assertions {property : Type} {W : Nat} (packet : write_packet)
    (strm0 strm1 strm2 strm3 : stream) (cl0 cl1 cl2 : client property W)
    (ec : error_code) (n : Nat) :
    ((stream_write_packet_op.new packet).state = .dispatch ∧
      (stream_write_packet_op.step strm0 (stream_write_packet_op.new packet)).2.2
        = .dispatch_self ∧
      (stream_write_packet_op.step strm0 (stream_write_packet_op.new packet)).2.1.state
        = .post) ∧
    (∀ op : stream_write_packet_op, op.state = .post →
      (stream_write_packet_op.step strm1 op).2.2 = .post_self ∧
      ((stream_write_packet_op.step strm1 op).2.1.state = .write ∨
        (stream_write_packet_op.step strm1 op).2.1.state = .bulk_write)) ∧
    (∀ op : stream_write_packet_op, op.state = .write ∨ op.state = .bulk_write →
      (stream_write_packet_op.step strm2 op).2.1.state = .complete ∧
      ((∃ cbs, (stream_write_packet_op.step strm2 op).2.2 = .async_write cbs) ∨
        (∃ ec1 n1, (stream_write_packet_op.step strm2 op).2.2
          = .dispatch_self_with ec1 n1))) ∧
    (∀ op : stream_write_packet_op, op.state = .complete →
      ∃ ec1 n1, (stream_write_packet_op.step_ec strm3 op ec n).2 = .complete ec1 n1) ∧
    (recv_op.step cl0 .dispatch = (cl0, .recv, .dispatch_self)) ∧
    ((recv_op.step cl1 .recv).2.1 = .complete ∧
      ((recv_op.step cl1 .recv).2.2 = .async_wait ∨
        ∃ ec1 pv, (recv_op.step cl1 .recv).2.2 = .complete ec1 pv)) ∧
    ((∃ ec1 pv, (recv_op.step_ec cl2 .complete ec).2.2 = .complete ec1 pv) ∨
      (recv_op.step_ec cl2 .complete ec).2.2 = .front_of_empty_queue) := by
  refine ⟨⟨rfl, rfl, rfl⟩, ?_, ?_, ?_, rfl, ?_, ?_⟩
  · intro op hs
    simp only [stream_write_packet_op.step, hs]
    split <;> simp
  · intro op hs
    rcases hs with hs | hs
    · simp only [stream_write_packet_op.step, hs]
      split <;> simp
    · simp only [stream_write_packet_op.step, hs]
      split
      · split <;> simp
      · simp
  · intro op hs
    simp only [stream_write_packet_op.step_ec, hs]
    split <;> simp
  · cases hq : cl1.recv_queue_ with
    | nil => simp [recv_op.step, hq]
    | cons e rest => simp [recv_op.step, hq]
  · cases hi : cl2.recv_queue_inserted_ with
    | false => simp [recv_op.step_ec, hi]
    | true =>
      cases hq : cl2.recv_queue_ with
      | nil => simp [recv_op.step_ec, hi, hq]
      | cons e rest => simp [recv_op.step_ec, hi, hq]

/-- Witness of C38: the operation of a PINGREQ on an open stream with bulk write
off and an idle write queue, in its states `post`, `write` and `complete`. -/
theorem state_machine_assertions_witness :
    ((stream_write_packet_op.step ⟨true, ⟨[], false⟩, [], [], false⟩
        ⟨⟨[[0xC0, 0x00]], 2⟩, 2, .post⟩).2.2 = .post_self ∧
      ((stream_write_packet_op.step ⟨true, ⟨[], false⟩, [], [], false⟩
          ⟨⟨[[0xC0, 0x00]], 2⟩, 2, .post⟩).2.1.state = .write ∨
        (stream_write_packet_op.step ⟨true, ⟨[], false⟩, [], [], false⟩
          ⟨⟨[[0xC0, 0x00]], 2⟩, 2, .post⟩).2.1.state = .bulk_write)) ∧
    ((stream_write_packet_op.step ⟨true, ⟨[], false⟩, [], [], false⟩
        ⟨⟨[[0xC0, 0x00]], 2⟩, 2, .write⟩).2.1.state = .complete ∧
      ((∃ cbs, (stream_write_packet_op.step ⟨true, ⟨[], false⟩, [], [], false⟩
          ⟨⟨[[0xC0, 0x00]], 2⟩, 2, .write⟩).2.2 = .async_write cbs) ∨
        (∃ ec1 n1, (stream_write_packet_op.step ⟨true, ⟨[], false⟩, [], [], false⟩
          ⟨⟨[[0xC0, 0x00]], 2⟩, 2, .write⟩).2.2 = .dispatch_self_with ec1 n1))) ∧
    (∃ ec1 n1, (stream_write_packet_op.step_ec ⟨true, ⟨[], true⟩, [], [], false⟩
        ⟨⟨[[0xC0, 0x00]], 2⟩, 2, .complete⟩ .no_error 2).2 = .complete ec1 n1) :=
  ⟨(state_machine_assertions ⟨[[0xC0, 0x00]], 2⟩ ⟨true, ⟨[], false⟩, [], [], false⟩
      ⟨true, ⟨[], false⟩, [], [], false⟩ ⟨true, ⟨[], false⟩, [], [], false⟩
      ⟨true, ⟨[], true⟩, [], [], false⟩ (⟨[], false⟩ : client Empty 2) ⟨[], false⟩ ⟨[], false⟩
      .no_error 2).2.1 ⟨⟨[[0xC0, 0x00]], 2⟩, 2, .post⟩ rfl,
    (state_machine_assertions ⟨[[0xC0, 0x00]], 2⟩ ⟨true, ⟨[], false⟩, [], [], false⟩
      ⟨true, ⟨[], false⟩, [], [], false⟩ ⟨true, ⟨[], false⟩, [], [], false⟩
      ⟨true, ⟨[], true⟩, [], [], false⟩ (⟨[], false⟩ : client Empty 2) ⟨[], false⟩ ⟨[], false⟩
      .no_error 2).2.2.1 ⟨⟨[[0xC0, 0x00]], 2⟩, 2, .write⟩ (Or.inl rfl),
    (state_machine_assertions ⟨[[0xC0, 0x00]], 2⟩ ⟨true, ⟨[], false⟩, [], [], false⟩
      ⟨true, ⟨[], false⟩, [], [], false⟩ ⟨true, ⟨[], false⟩, [], [], false⟩
      ⟨true, ⟨[], true⟩, [], [], false⟩ (⟨[], false⟩ : client Empty 2) ⟨[], false⟩ ⟨[], false⟩
      .no_error 2).2.2.2.1 ⟨⟨[[0xC0, 0x00]], 2⟩, 2, .complete⟩ rfl⟩


/-! ## v3.1.1 CONNECT -/

set_option maxRecDepth 100000 in
/-- The packet of the unit test `v311_connect`: clean session, keep alive
0x1234, client id "cid1", the will of topic "topic1" and message "payload1"
with retain and QoS 1, user name "user1" and password "pass1". -/
theorem connect_test_packet :
    ∃ pkt, connect_packet.new true 0x1234 [0x63, 0x69, 0x64, 0x31]
        (some ⟨[0x74, 0x6f, 0x70, 0x69, 0x63, 0x31],
          [0x70, 0x61, 0x79, 0x6c, 0x6f, 0x61, 0x64, 0x31],
          pub.opts.of false .at_least_once true⟩)
        (some [0x75, 0x73, 0x65, 0x72, 0x31]) (some [0x70, 0x61, 0x73, 0x73, 0x31])
        = .ok pkt ∧
      pkt.const_buffer_sequence.flatten =
        [0x10, 0x30, 0x00, 0x04, 0x4D, 0x51, 0x54, 0x54, 0x04, 0xee, 0x12, 0x34,
         0x00, 0x04, 0x63, 0x69, 0x64, 0x31,
         0x00, 0x06, 0x74, 0x6f, 0x70, 0x69, 0x63, 0x31,
         0x00, 0x08, 0x70, 0x61, 0x79, 0x6c, 0x6f, 0x61, 0x64, 0x31,
         0x00, 0x05, 0x75, 0x73, 0x65, 0x72, 0x31,
         0x00, 0x05, 0x70, 0x61, 0x73, 0x73, 0x31] ∧
      pkt.const_buffer_sequence.flatten.length = 50 ∧
      pkt.size = 50 ∧
      pkt.remaining_length_ = 0x30 ∧
      pkt.connect_flags_ = 0xEE ∧
      pkt.const_buffer_sequence.length = pkt.num_of_const_buffer_sequence ∧
      connect_packet.from_buffer pkt.const_buffer_sequence.flatten = .ok pkt := by
  refine ⟨_, rfl, ?_, ?_, ?_, ?_, ?_, ?_, ?_⟩ <;> decide

theorem connect_new_field (c : Bool) (what : String) (s : List Nat)
    (hl : s.length ≤ 65535) (hu : c = true → utf8string_check s = true) :
    connect_packet.new.field c what s = .ok (endian_store 2 s.length) := by
  have h1 : numeric_cast_or_throw 16 s.length = .ok s.length := by
    unfold numeric_cast_or_throw
    rw [if_pos (by norm_num; omega)]
  cases c with
  | false => simp [connect_packet.new.field, h1, endian_static_vector]
  | true => simp [connect_packet.new.field, h1, endian_static_vector, hu rfl]

theorem connect_new_optional_field (c : Bool) (what : String) (o : Option (List Nat))
    (h : ∀ s, o = some s → s.length ≤ 65535 ∧ (c = true → utf8string_check s = true)) :
    connect_packet.new.optional_field c what o
      = .ok ((o.map fun s => endian_store 2 s.length).getD [], o.getD []) := by
  cases o with
  | none => rfl
  | some s =>
    obtain ⟨hl, hu⟩ := h s rfl
    simp [connect_packet.new.optional_field, connect_new_field c what s hl hu]

theorem connect_from_buffer_field (c : Bool) (what : String) (s rest : List Nat)
    (hl : s.length ≤ 65535) (hu : c = true → utf8string_check s = true) :
    connect_packet.from_buffer.field c what (endian_store 2 s.length ++ (s ++ rest))
      = .ok (endian_store 2 s.length, s, rest) := by
  obtain ⟨h1, h2⟩ := insert_advance_topic_length s.length (s ++ rest) hl
  cases c with
  | false => simp [connect_packet.from_buffer.field, h1, h2]
  | true => simp [connect_packet.from_buffer.field, h1, h2, hu rfl]

theorem connect_from_buffer_optional_field (c : Bool) (what : String)
    (o : Option (List Nat)) (rest : List Nat)
    (h : ∀ s, o = some s → s.length ≤ 65535 ∧ (c = true → utf8string_check s = true)) :
    connect_packet.from_buffer.optional_field o.isSome c what
        ((o.map fun s => endian_store 2 s.length).getD [] ++ (o.getD [] ++ rest))
      = .ok ((o.map fun s => endian_store 2 s.length).getD [], o.getD [], rest) := by
  cases o with
  | none => rfl
  | some s =>
    obtain ⟨hl, hu⟩ := h s rfl
    simp only [connect_packet.from_buffer.optional_field, Option.isSome_some, if_true,
      Option.map_some', Option.getD_some]
    exact connect_from_buffer_field c what s rest hl hu

/-- The bits of the connect flags that the constructor computes. -/
theorem connect_flags_facts (cs : Bool) (w : Option will) (un pw : Option (List Nat))
    (hq : ∀ x, w = some x → x.get_qos ≠ .reserved) :
    connect_packet.new.connect_flags cs w un pw % 2 = 0 ∧
    connect_flags.is_clean_session (connect_packet.new.connect_flags cs w un pw) = cs ∧
    connect_flags.has_will_flag (connect_packet.new.connect_flags cs w un pw) = w.isSome ∧
    connect_flags.has_user_name_flag (connect_packet.new.connect_flags cs w un pw)
      = un.isSome ∧
    connect_flags.has_password_flag (connect_packet.new.connect_flags cs w un pw)
      = pw.isSome ∧
    connect_flags.will_qos (connect_packet.new.connect_flags cs w un pw)
      = (w.map will.get_qos).getD .at_most_once ∧
    connect_flags.will_retain (connect_packet.new.connect_flags cs w un pw)
      = (w.map will.get_retain).getD false := by
  cases w with
  | none =>
    cases cs <;> cases un <;> cases pw <;>
      simp only [connect_packet.new.connect_flags, Option.isSome_some, Option.isSome_none,
        Option.map_none', Option.getD_none, if_true, if_false, Bool.false_eq_true] <;>
      decide
  | some x =>
    have hx := hq x rfl
    cases hqx : x.get_qos with
    | reserved => exact absurd hqx hx
    | at_most_once =>
      cases hr : x.get_retain <;> cases cs <;> cases un <;> cases pw <;>
        simp only [connect_packet.new.connect_flags, hqx, hr, Option.isSome_some,
          Option.isSome_none, Option.map_some', Option.getD_some, if_true, if_false,
          Bool.false_eq_true] <;>
        decide
    | at_least_once =>
      cases hr : x.get_retain <;> cases cs <;> cases un <;> cases pw <;>
        simp only [connect_packet.new.connect_flags, hqx, hr, Option.isSome_some,
          Option.isSome_none, Option.map_some', Option.getD_some, if_true, if_false,
          Bool.false_eq_true] <;>
        decide
    | exactly_once =>
      cases hr : x.get_retain <;> cases cs <;> cases un <;> cases pw <;>
        simp only [connect_packet.new.connect_flags, hqx, hr, Option.isSome_some,
          Option.isSome_none, Option.map_some', Option.getD_some, if_true, if_false,
          Bool.false_eq_true] <;>
        decide

theorem length_prefixed_opt_eq (o : Option (List Nat)) :
    length_prefixed_opt o = (o.map fun s => endian_store 2 s.length).getD [] ++ o.getD [] := by
  cases o <;> rfl

theorem length_prefixed_opt_length (o : Option (List Nat))
    (h : ∀ s, o = some s → s.length ≤ 65535) :
    ((o.map fun s => endian_store 2 s.length).getD []).length + (o.getD []).length
      ≤ 65537 := by
  cases o with
  | none => simp
  | some s =>
    have := h s rfl
    simp only [Option.map_some', Option.getD_some, endian_store_length]
    omega

/-- The CONNECT decoder on a wire form whose flags agree with the optional
strings: each optional string is given by its length buffer and its bytes, on
which the decoder step of the string succeeds. -/
theorem connect_from_buffer_wire (flags : Nat) (kab cid : List Nat)
    (wtl wtv wml wmv unl unv pwl pwv : List Nat)
    (hkab : kab.length = 2)
    (hcid : utf8string_check cid = true)
    (hbit0 : flags % 2 = 0)
    (hqos : (connect_flags.has_will_flag flags
      && (connect_flags.will_qos flags == .reserved)) = false)
    (hcomb : (!connect_flags.has_will_flag flags
      && (connect_flags.will_retain flags
        || connect_flags.will_qos flags != .at_most_once)) = false)
    (hwt : ∀ rest, connect_packet.from_buffer.optional_field
      (connect_flags.has_will_flag flags) true "will topic" (wtl ++ (wtv ++ rest))
        = .ok (wtl, wtv, rest))
    (hwm : ∀ rest, connect_packet.from_buffer.optional_field
      (connect_flags.has_will_flag flags) false "will message" (wml ++ (wmv ++ rest))
        = .ok (wml, wmv, rest))
    (hun : ∀ rest, connect_packet.from_buffer.optional_field
      (connect_flags.has_user_name_flag flags) true "user_name" (unl ++ (unv ++ rest))
        = .ok (unl, unv, rest))
    (hpw : ∀ rest, connect_packet.from_buffer.optional_field
      (connect_flags.has_password_flag flags) false "password" (pwl ++ (pwv ++ rest))
        = .ok (pwl, pwv, rest))
    (R : Nat) (hRb : R ≤ 268435455)
    (hR : R = 2 + 4 + 1 + 1 + 2 + (2 + cid.length) + (wtl.length + wtv.length)
      + (wml.length + wmv.length) + (unl.length + unv.length)
      + (pwl.length + pwv.length)) :
    connect_packet.from_buffer
        (0x10 :: (val_to_variable_bytes R ++
          (connect_packet.protocol_name_and_level ++ (flags :: (kab ++ (endian_store 2
            cid.length ++ (cid ++ (wtl ++ (wtv ++ (wml ++ (wmv ++ (unl ++ (unv ++ (pwl
            ++ (pwv))))))))))))))) =
      .ok { fixed_header_ := 0x10
            connect_flags_ := flags
            remaining_length_ := R
            remaining_length_buf_ := val_to_variable_bytes R
            protocol_name_and_level_ := connect_packet.protocol_name_and_level
            client_id_ := cid
            client_id_length_buf_ := endian_store 2 cid.length
            will_topic_ := wtv
            will_topic_length_buf_ := wtl
            will_message_ := wmv
            will_message_length_buf_ := wml
            user_name_ := unv
            user_name_length_buf_ := unl
            password_ := pwv
            password_length_buf_ := pwl
            keep_alive_buf_ := kab } := by
  have hcidl : cid.length ≤ 65535 := by
    simp only [utf8string_check, Bool.and_eq_true, decide_eq_true_eq] at hcid
    exact hcid.1
  have hbody :
      (connect_packet.protocol_name_and_level ++ (flags :: (kab ++ (endian_store 2
        cid.length ++ (cid ++ (wtl ++ (wtv ++ (wml ++ (wmv ++ (unl ++ (unv ++ (pwl ++
        (pwv))))))))))))).length = R := by
    rw [hR]
    simp only [List.length_append, List.length_cons, List.length_nil, hkab,
      endian_store_length, connect_packet.protocol_name_and_level]
    omega
  have hrl := insert_advance_variable_length_roundtrip R
    (connect_packet.protocol_name_and_level ++ (flags :: (kab ++ (endian_store 2 cid.length
      ++ (cid ++ (wtl ++ (wtv ++ (wml ++ (wmv ++ (unl ++ (unv ++ (pwl ++ (pwv)))))))))))))
      hRb
  have hhdr : get_control_packet_type_with_check 0x10 = some .connect := by decide
  have hpw2 := hpw []
  rw [List.append_nil] at hpw2
  unfold connect_packet.from_buffer
  simp only [hhdr, ne_eq, not_true_eq_false, if_false, hrl, hbody,
    insert_advance_append 7 connect_packet.protocol_name_and_level _ rfl,
    hbit0, hqos, hcomb, insert_advance_append 2 kab _ hkab, Bool.false_eq_true,
    connect_from_buffer_field true "client_id" cid _ hcidl (fun _ => hcid),
    hwt, hwm, hun, hpw2]
  simp

theorem optional_buffers_flatten (o : Option (List Nat)) :
    (if o.isSome = true then
        [(o.map fun s => endian_store 2 s.length).getD [], o.getD []]
      else []).flatten = length_prefixed_opt o := by
  cases o <;> simp [length_prefixed_opt, length_prefixed]

theorem will_buffers_flatten (w : Option will) :
    (if w.isSome = true then
        [((w.map will.topic).map fun s => endian_store 2 s.length).getD [],
          (w.map will.topic).getD [],
          ((w.map will.message).map fun s => endian_store 2 s.length).getD [],
          (w.map will.message).getD []]
      else []).flatten
      = length_prefixed_opt (w.map will.topic) ++ length_prefixed_opt (w.map will.message) := by
  cases w <;> simp [length_prefixed_opt, length_prefixed]

theorem utf8string_check_length (s : List Nat) (h : utf8string_check s = true) :
    s.length ≤ 65535 := by
  simp only [utf8string_check, Bool.and_eq_true, decide_eq_true_eq] at h
  exact h.1

/-- The constructor of CONNECT on valid fields: the packet it makes. -/
theorem connect_new_eq (cs : Bool) (ka : Nat) (cid : List Nat) (w : Option will)
    (un pw : Option (List Nat))
    (hcid : utf8string_check cid = true)
    (hw : ∀ x, w = some x → utf8string_check x.topic = true ∧ x.message.length ≤ 65535)
    (hun : ∀ s, un = some s → utf8string_check s = true)
    (hpw : ∀ s, pw = some s → s.length ≤ 65535) :
    connect_packet.new cs ka cid w un pw =
      .ok { fixed_header_ := 0x10
            connect_flags_ := connect_packet.new.connect_flags cs w un pw
            remaining_length_ :=
              2 + 4 + 1 + 1 + 2 + (2 + cid.length)
                + ((((w.map will.topic).map fun s => endian_store 2 s.length).getD []).length
                    + ((w.map will.topic).getD []).length)
                + ((((w.map will.message).map fun s => endian_store 2 s.length).getD []).length
                    + ((w.map will.message).getD []).length)
                + (((un.map fun s => endian_store 2 s.length).getD []).length
                    + (un.getD []).length)
                + (((pw.map fun s => endian_store 2 s.length).getD []).length
                    + (pw.getD []).length)
            remaining_length_buf_ := val_to_variable_bytes
              (2 + 4 + 1 + 1 + 2 + (2 + cid.length)
                + ((((w.map will.topic).map fun s => endian_store 2 s.length).getD []).length
                    + ((w.map will.topic).getD []).length)
                + ((((w.map will.message).map fun s => endian_store 2 s.length).getD []).length
                    + ((w.map will.message).getD []).length)
                + (((un.map fun s => endian_store 2 s.length).getD []).length
                    + (un.getD []).length)
                + (((pw.map fun s => endian_store 2 s.length).getD []).length
                    + (pw.getD []).length))
            protocol_name_and_level_ := connect_packet.protocol_name_and_level
            client_id_ := cid
            client_id_length_buf_ := endian_store 2 cid.length
            will_topic_ := (w.map will.topic).getD []
            will_topic_length_buf_ :=
              ((w.map will.topic).map fun s => endian_store 2 s.length).getD []
            will_message_ := (w.map will.message).getD []
            will_message_length_buf_ :=
              ((w.map will.message).map fun s => endian_store 2 s.length).getD []
            user_name_ := un.getD []
            user_name_length_buf_ := (un.map fun s => endian_store 2 s.length).getD []
            password_ := pw.getD []
            password_length_buf_ := (pw.map fun s => endian_store 2 s.length).getD []
            keep_alive_buf_ := endian_store 2 ka } := by
  have h1 := connect_new_field true "client_id" cid (utf8string_check_length cid hcid)
    (fun _ => hcid)
  have h2 := connect_new_optional_field true "user_name" un
    (fun s hs => ⟨utf8string_check_length s (hun s hs), fun _ => hun s hs⟩)
  have h3 := connect_new_optional_field false "password" pw
    (fun s hs => ⟨hpw s hs, fun h => absurd h (by decide)⟩)
  have h4 := connect_new_optional_field true "will topic" (w.map will.topic)
    (by
      intro s hs
      cases w with
      | none => cases hs
      | some x =>
        simp only [Option.map_some', Option.some.injEq] at hs
        subst hs
        exact ⟨utf8string_check_length _ (hw x rfl).1, fun _ => (hw x rfl).1⟩)
  have h5 := connect_new_optional_field false "will message" (w.map will.message)
    (by
      intro s hs
      cases w with
      | none => cases hs
      | some x =>
        simp only [Option.map_some', Option.some.injEq] at hs
        subst hs
        exact ⟨(hw x rfl).2, fun h => absurd h (by decide)⟩)
  have hfh : make_fixed_header .connect 0b0000 = 0x10 := by decide
  simp only [connect_packet.new, h1, h2, h3, h4, h5, hfh, endian_static_vector]

/-- C31: v3.1.1 CONNECT encodes and decodes as the unit test asserts. For a
packet built from clean session, keep alive, client id, optional will,
optional user name and optional password, all valid: the encoding is 0x10, the
remaining length, 00 04 'M' 'Q' 'T' 'T', the protocol level 04, the connect
flags, the keep alive big-endian, then the length-prefixed client id, will
topic, will message, user name and password; the gather list has
`num_of_const_buffer_sequence()` buffers and `size()` bytes; the members give
back the fields; and decoding the bytes gives the packet itself, so the decoded
packet has the same fields and re-encodes to the same bytes. -/
theorem connect_round_trip (cs : Bool) (ka : Nat) (cid : List Nat) (w : Option will)
    (un pw : Option (List Nat))
    (hka : ka < 65536)
    (hcid : utf8string_check cid = true)
    (hw : ∀ x, w = some x → utf8string_check x.topic = true ∧ x.message.length ≤ 65535 ∧
      x.get_qos ≠ .reserved ∧ x.pubopts = pub.opts.of false x.get_qos x.get_retain)
    (hun : ∀ s, un = some s → utf8string_check s = true)
    (hpw : ∀ s, pw = some s → s.length ≤ 65535) :
    ∃ pkt, connect_packet.new cs ka cid w un pw = .ok pkt ∧
      pkt.const_buffer_sequence.flatten
        = 0x10 :: (val_to_variable_bytes pkt.remaining_length_ ++
            ([0x00, 0x04, 0x4D, 0x51, 0x54, 0x54, 0x04] ++ (pkt.connect_flags_ ::
              (endian_store 2 ka ++ (length_prefixed cid ++ (length_prefixed_opt
              (w.map will.topic) ++ (length_prefixed_opt (w.map will.message) ++
              (length_prefixed_opt un ++ (length_prefixed_opt pw))))))))) ∧
      pkt.remaining_length_
        = 10 + (length_prefixed cid).length + (length_prefixed_opt (w.map will.topic)).length
          + (length_prefixed_opt (w.map will.message)).length
          + (length_prefixed_opt un).length + (length_prefixed_opt pw).length ∧
      pkt.const_buffer_sequence.length = pkt.num_of_const_buffer_sequence ∧
      pkt.const_buffer_sequence.flatten.length = pkt.size ∧
      pkt.clean_session = cs ∧ pkt.keep_alive = ka ∧ pkt.client_id = cid ∧
      pkt.get_will = w ∧ pkt.user_name = un ∧ pkt.password = pw ∧
      connect_packet.from_buffer pkt.const_buffer_sequence.flatten = .ok pkt := by
  have hnew := connect_new_eq cs ka cid w un pw hcid
    (fun x hx => ⟨(hw x hx).1, (hw x hx).2.1⟩) hun hpw
  obtain ⟨hb0, hcs, hwf, huf, hpf, hwq, hwr⟩ :=
    connect_flags_facts cs w un pw (fun x hx => (hw x hx).2.2.1)
  have hwtl := length_prefixed_opt_length (w.map will.topic) (by
    intro s hs
    cases w with
    | none => cases hs
    | some x =>
      simp only [Option.map_some', Option.some.injEq] at hs
      subst hs
      exact utf8string_check_length _ (hw x rfl).1)
  have hwml := length_prefixed_opt_length (w.map will.message) (by
    intro s hs
    cases w with
    | none => cases hs
    | some x =>
      simp only [Option.map_some', Option.some.injEq] at hs
      subst hs
      exact (hw x rfl).2.1)
  have hunl := length_prefixed_opt_length un
    (fun s hs => utf8string_check_length s (hun s hs))
  have hpwl := length_prefixed_opt_length pw hpw
  have hcidl := utf8string_check_length cid hcid
  refine ⟨_, hnew, ?_⟩
  have hcanon : ∀ pkt : connect_packet, connect_packet.new cs ka cid w un pw = .ok pkt →
      pkt.const_buffer_sequence.flatten
        = 0x10 :: (val_to_variable_bytes pkt.remaining_length_ ++
            (connect_packet.protocol_name_and_level ++
              (connect_packet.new.connect_flags cs w un pw :: (endian_store 2 ka ++
              (endian_store 2 cid.length ++ (cid ++ (((w.map will.topic).map fun s
              => endian_store 2 s.length).getD [] ++ ((w.map will.topic).getD [] ++
              (((w.map will.message).map fun s => endian_store 2 s.length).getD []
              ++ ((w.map will.message).getD [] ++ ((un.map fun s => endian_store 2
              s.length).getD [] ++ (un.getD [] ++ ((pw.map fun s => endian_store 2
              s.length).getD [] ++ (pw.getD [])))))))))))))) := by
    intro pkt hpkt
    rw [hnew] at hpkt
    simp only [Except.ok.injEq] at hpkt
    subst hpkt
    simp only [connect_packet.const_buffer_sequence, hwf, huf, hpf, List.flatten_append,
      will_buffers_flatten, optional_buffers_flatten, length_prefixed_opt_eq,
      List.flatten_cons, List.flatten_nil, List.append_assoc, List.cons_append,
      List.nil_append, List.append_nil]
  have hwire := hcanon _ hnew
  refine ⟨?_, ?_, ?_, ?_, ?_, ?_, rfl, ?_, ?_, ?_, ?_⟩
  · rw [hwire]
    simp only [length_prefixed_opt_eq, length_prefixed, connect_packet.protocol_name_and_level,
      List.append_assoc, List.cons_append, List.nil_append]
  · simp only [length_prefixed_opt_eq, length_prefixed, List.length_append,
      endian_store_length]
  · simp only [connect_packet.const_buffer_sequence,
      connect_packet.num_of_const_buffer_sequence, hwf, huf, hpf]
    cases w <;> cases un <;> cases pw <;> rfl
  · rw [hwire]
    simp only [connect_packet.size, List.length_cons, List.length_append, endian_store_length,
      connect_packet.protocol_name_and_level, List.length_nil]
    omega
  · exact hcs
  · simp only [connect_packet.keep_alive, endian_load_store]
    exact Nat.mod_eq_of_lt (by norm_num; exact hka)
  · simp only [connect_packet.get_will, hwf, hwq, hwr]
    cases w with
    | none => rfl
    | some x =>
      simp only [Option.isSome_some, if_true, Option.map_some', Option.getD_some]
      have hx := (hw x rfl).2.2.2
      obtain ⟨t, m, o⟩ := x
      exact congrArg (fun o2 => some (will.mk t m o2)) hx.symm
  · simp only [connect_packet.user_name, huf]
    cases un <;> rfl
  · simp only [connect_packet.password, hpf]
    cases pw <;> rfl
  · rw [hwire]
    have hqos : (connect_flags.has_will_flag (connect_packet.new.connect_flags cs w un pw)
        && (connect_flags.will_qos (connect_packet.new.connect_flags cs w un pw)
          == .reserved)) = false := by
      rw [hwf, hwq]
      cases w with
      | none => rfl
      | some x =>
        have hx := (hw x rfl).2.2.1
        simp only [Option.isSome_some, Option.map_some', Option.getD_some, Bool.true_and]
        cases hq : x.get_qos <;> first | rfl | exact absurd hq hx
    have hcomb : (!connect_flags.has_will_flag (connect_packet.new.connect_flags cs w un pw)
        && (connect_flags.will_retain (connect_packet.new.connect_flags cs w un pw)
          || connect_flags.will_qos (connect_packet.new.connect_flags cs w un pw)
            != .at_most_once)) = false := by
      rw [hwf, hwq, hwr]
      cases w <;> rfl
    have hmapt : w.isSome = (w.map will.topic).isSome := by cases w <;> rfl
    have hmapm : w.isSome = (w.map will.message).isSome := by cases w <;> rfl
    exact connect_from_buffer_wire (connect_packet.new.connect_flags cs w un pw)
      (endian_store 2 ka) cid _ _ _ _ _ _ _ _ (endian_store_length 2 ka) hcid hb0 hqos hcomb
      (fun rest => by
        rw [hwf, hmapt]
        exact connect_from_buffer_optional_field true "will topic" (w.map will.topic) rest
          (by
            intro s hs
            cases w with
            | none => cases hs
            | some x =>
              simp only [Option.map_some', Option.some.injEq] at hs
              subst hs
              exact ⟨utf8string_check_length _ (hw x rfl).1, fun _ => (hw x rfl).1⟩))
      (fun rest => by
        rw [hwf, hmapm]
        exact connect_from_buffer_optional_field false "will message" (w.map will.message)
          rest
          (by
            intro s hs
            cases w with
            | none => cases hs
            | some x =>
              simp only [Option.map_some', Option.some.injEq] at hs
              subst hs
              exact ⟨(hw x rfl).2.1, fun h => absurd h (by decide)⟩))
      (fun rest => by
        rw [huf]
        exact connect_from_buffer_optional_field true "user_name" un rest
          (fun s hs => ⟨utf8string_check_length s (hun s hs), fun _ => hun s hs⟩))
      (fun rest => by
        rw [hpf]
        exact connect_from_buffer_optional_field false "password" pw rest
          (fun s hs => ⟨hpw s hs, fun h => absurd h (by decide)⟩))
      _ (by dsimp only; omega) rfl

set_option maxRecDepth 100000 in
/-- C31 at the packet of the unit test: clean session, keep alive 0x1234,
client id "cid1", the will of topic "topic1" and message "payload1" with retain
and QoS 1, user name "user1" and password "pass1". -/
theorem connect_round_trip_witness :
    (0x1234 < 65536 ∧ utf8string_check [0x63, 0x69, 0x64, 0x31] = true) ∧
    ∃ pkt, connect_packet.new true 0x1234 [0x63, 0x69, 0x64, 0x31]
        (some ⟨[0x74, 0x6f, 0x70, 0x69, 0x63, 0x31],
          [0x70, 0x61, 0x79, 0x6c, 0x6f, 0x61, 0x64, 0x31],
          pub.opts.of false .at_least_once true⟩)
        (some [0x75, 0x73, 0x65, 0x72, 0x31]) (some [0x70, 0x61, 0x73, 0x73, 0x31])
        = .ok pkt ∧
      pkt.const_buffer_sequence.flatten
        = 0x10 :: (val_to_variable_bytes pkt.remaining_length_ ++
            ([0x00, 0x04, 0x4D, 0x51, 0x54, 0x54, 0x04] ++ (pkt.connect_flags_ ::
              (endian_store 2 0x1234 ++ (length_prefixed [0x63, 0x69, 0x64, 0x31] ++
              (length_prefixed_opt (some [0x74, 0x6f, 0x70, 0x69, 0x63, 0x31]) ++
              (length_prefixed_opt (some [0x70, 0x61, 0x79, 0x6c, 0x6f, 0x61, 0x64, 0x31]) ++
              (length_prefixed_opt (some [0x75, 0x73, 0x65, 0x72, 0x31]) ++
              (length_prefixed_opt (some [0x70, 0x61, 0x73, 0x73, 0x31])))))))))) ∧
      pkt.remaining_length_ = 0x30 ∧
      pkt.const_buffer_sequence.length = pkt.num_of_const_buffer_sequence ∧
      pkt.const_buffer_sequence.flatten.length = pkt.size ∧
      pkt.clean_session = true ∧ pkt.keep_alive = 0x1234 ∧
      pkt.client_id = [0x63, 0x69, 0x64, 0x31] ∧
      pkt.get_will = some ⟨[0x74, 0x6f, 0x70, 0x69, 0x63, 0x31],
          [0x70, 0x61, 0x79, 0x6c, 0x6f, 0x61, 0x64, 0x31],
          pub.opts.of false .at_least_once true⟩ ∧
      pkt.user_name = some [0x75, 0x73, 0x65, 0x72, 0x31] ∧
      pkt.password = some [0x70, 0x61, 0x73, 0x73, 0x31] ∧
      connect_packet.from_buffer pkt.const_buffer_sequence.flatten = .ok pkt :=
  ⟨⟨by decide, by decide⟩,
    connect_round_trip true 0x1234 [0x63, 0x69, 0x64, 0x31]
      (some ⟨[0x74, 0x6f, 0x70, 0x69, 0x63, 0x31],
        [0x70, 0x61, 0x79, 0x6c, 0x6f, 0x61, 0x64, 0x31],
        pub.opts.of false .at_least_once true⟩)
      (some [0x75, 0x73, 0x65, 0x72, 0x31]) (some [0x70, 0x61, 0x73, 0x73, 0x31])
      (by decide) (by decide)
      (fun x hx => by cases hx; decide)
      (fun s hs => by cases hs; decide)
      (fun s hs => by cases hs; decide)⟩

/-! ## v5 PUBREL -/

theorem pubrel_fixed_header : make_fixed_header .pubrel 0b0010 = 0x62 := by decide

theorem pubrel_new_none {property : Type} (pf : pubrel_property_functions property)
    (W id : Nat) (props : List property) (hW : W < 4294967296) :
    v5.basic_pubrel_packet.new pf W id none props = .ok
      { fixed_header_ := 0x62, remaining_length_ := W,
        remaining_length_buf_ := val_to_variable_bytes W,
        packet_id_ := endian_store W id, reason_code_ := none,
        property_length_ := pf.size props, property_length_buf_ := [], props_ := props } := by
  have h : W < 2 ^ 32 := by norm_num; exact hW
  simp only [v5.basic_pubrel_packet.new, pubrel_fixed_header, Option.isNone_none, if_true,
    numeric_cast_or_throw, h]

theorem pubrel_new_some_nil {property : Type} (pf : pubrel_property_functions property)
    (W id : Nat) (rc : v5.pubrel_reason_code) (hW : W + 1 < 4294967296) :
    v5.basic_pubrel_packet.new pf W id (some rc) [] = .ok
      { fixed_header_ := 0x62, remaining_length_ := W + 1,
        remaining_length_buf_ := val_to_variable_bytes (W + 1),
        packet_id_ := endian_store W id, reason_code_ := some rc,
        property_length_ := pf.size [], property_length_buf_ := [], props_ := [] } := by
  have h : W + 1 < 2 ^ 32 := by norm_num; exact hW
  simp only [v5.basic_pubrel_packet.new, pubrel_fixed_header, Option.isNone_some,
    Bool.false_eq_true, if_false, List.isEmpty_nil, if_true, numeric_cast_or_throw, h]

/-- The shape of every PUBREL the constructor makes with a reason code: what
follows the packet id on the wire and how much it adds to the remaining length
do not depend on the width of the packet id. -/
theorem pubrel_new_some_shape {property : Type} (pf : pubrel_property_functions property)
    (rc : v5.pubrel_reason_code) (props : List property) :
    ∃ (k : Nat) (tail : List Nat), ∀ (W id : Nat) (p : v5.basic_pubrel_packet property W),
      v5.basic_pubrel_packet.new pf W id (some rc) props = .ok p →
        p.remaining_length_ = W + k ∧
        p.remaining_length_buf_ = val_to_variable_bytes (W + k) ∧
        p.packet_id_ = endian_store W id ∧
        (p.const_buffer_sequence pf).flatten
          = 0x62 :: (p.remaining_length_buf_ ++ (endian_store W id ++ tail)) := by
  by_cases hp : props.isEmpty = true
  · refine ⟨1, [rc.toNat], ?_⟩
    intro W id p h
    unfold v5.basic_pubrel_packet.new at h
    simp only [Option.isNone_some, Bool.false_eq_true, if_false, hp, if_true,
      pubrel_fixed_header] at h
    (repeat' (first | split at h | dsimp only at h)) <;> cases h
    rename_i rl hrl
    have hrl2 : rl = W + 1 := by
      unfold numeric_cast_or_throw at hrl
      split at hrl <;> cases hrl
      rfl
    subst hrl2
    refine ⟨rfl, rfl, rfl, ?_⟩
    simp [v5.basic_pubrel_packet.const_buffer_sequence]
  · refine ⟨1 + ((val_to_variable_bytes (pf.size props)).length + pf.size props),
      rc.toNat :: (if (val_to_variable_bytes (pf.size props)).length ≠ 0 then
        val_to_variable_bytes (pf.size props) ++ (pf.const_buffer_sequence props).flatten
        else []), ?_⟩
    intro W id p h
    unfold v5.basic_pubrel_packet.new at h
    simp only [Option.isNone_some, Bool.false_eq_true, if_false, hp,
      pubrel_fixed_header] at h
    (repeat' (first | split at h | dsimp only at h)) <;> cases h
    rename_i _ pl hpl _ _ _ rl hrl
    have hpl2 : pl = pf.size props := by
      unfold numeric_cast_or_throw at hpl
      split at hpl <;> cases hpl
      rfl
    subst hpl2
    have hrl2 : rl = W + 1 + ((val_to_variable_bytes (pf.size props)).length + pf.size props) := by
      unfold numeric_cast_or_throw at hrl
      split at hrl <;> cases hrl
      rfl
    subst hrl2
    refine ⟨by dsimp only; omega, by dsimp only; congr 1; omega, rfl, ?_⟩
    by_cases hl : (val_to_variable_bytes (pf.size props)).length = 0
    · simp [v5.basic_pubrel_packet.const_buffer_sequence, hl]
    · simp [v5.basic_pubrel_packet.const_buffer_sequence, hl]

theorem pubrel_from_buffer_packet_id {property : Type}
    (pf : pubrel_property_functions property) (W R : Nat) (pid : List Nat)
    (hpid : pid.length = W) (hR : R = W) (hRb : R ≤ 0xfffffff) :
    v5.basic_pubrel_packet.from_buffer pf W (0x62 :: (val_to_variable_bytes R ++ (pid ++ [])))
      = .ok { fixed_header_ := 0x62, remaining_length_ := R,
              remaining_length_buf_ := val_to_variable_bytes R, packet_id_ := pid,
              reason_code_ := none, property_length_ := 0,
              property_length_buf_ := [], props_ := [] } := by
  have hfh : get_control_packet_type_with_check 0x62 = some .pubrel := by decide
  have hlen : R = (pid ++ ([] : List Nat)).length := by simp [hpid, hR]
  simp only [v5.basic_pubrel_packet.from_buffer, hfh, ne_eq, not_true_eq_false, if_false,
    insert_advance_variable_length_roundtrip R _ hRb, ← hlen,
    copy_advance_append W pid [] hpid]

theorem pubrel_from_buffer_reason_code {property : Type}
    (pf : pubrel_property_functions property) (W R : Nat) (pid : List Nat)
    (hpid : pid.length = W) (hR : R = W + 1) (hRb : R ≤ 0xfffffff) :
    v5.basic_pubrel_packet.from_buffer pf W
        (0x62 :: (val_to_variable_bytes R ++ (pid ++ [0x00])))
      = .ok { fixed_header_ := 0x62, remaining_length_ := R,
              remaining_length_buf_ := val_to_variable_bytes R, packet_id_ := pid,
              reason_code_ := some .success, property_length_ := 0,
              property_length_buf_ := [], props_ := [] } := by
  have hfh : get_control_packet_type_with_check 0x62 = some .pubrel := by decide
  have hlen : R = (pid ++ [0x00]).length := by simp [hpid, hR]
  simp only [v5.basic_pubrel_packet.from_buffer, hfh, ne_eq, not_true_eq_false, if_false,
    insert_advance_variable_length_roundtrip R _ hRb, ← hlen,
    copy_advance_append W pid [0x00] hpid, if_true, List.isEmpty_nil]

theorem pubrel_from_buffer_property_length {property : Type}
    (pf : pubrel_property_functions property) (W R : Nat) (pid : List Nat)
    (hmk : pf.make_properties_pubrel [] = .ok [])
    (hpid : pid.length = W) (hR : R = W + 2) (hRb : R ≤ 0xfffffff) :
    v5.basic_pubrel_packet.from_buffer pf W
        (0x62 :: (val_to_variable_bytes R ++ (pid ++ [0x00, 0x00])))
      = .ok { fixed_header_ := 0x62, remaining_length_ := R,
              remaining_length_buf_ := val_to_variable_bytes R, packet_id_ := pid,
              reason_code_ := some .success, property_length_ := 0,
              property_length_buf_ := [0x00], props_ := [] } := by
  have hfh : get_control_packet_type_with_check 0x62 = some .pubrel := by decide
  have hlen : R = (pid ++ [0x00, 0x00]).length := by simp [hpid, hR]
  simp only [v5.basic_pubrel_packet.from_buffer, hfh, ne_eq, not_true_eq_false, if_false,
    insert_advance_variable_length_roundtrip R _ hRb, ← hlen,
    copy_advance_append W pid [0x00, 0x00] hpid, if_true, List.isEmpty_cons,
    Bool.false_eq_true, variable_bytes_to_val_zero, List.length_nil, hmk]
  rfl

theorem pubrel_packet_id_load (W id : Nat) (h : id < 256 ^ W) :
    endian_load (endian_store W id) = id := by
  rw [endian_load_store, Nat.mod_eq_of_lt h]

set_option maxRecDepth 100000 in
/-- The packets of the unit tests `v5_pubrel_pid_only`, `v5_pubrel_pid_rc` and
`v5_pubrel_prop_len_last`, with the packet id 0x1234: the bytes the two
constructors give, and the three wire forms decoded and encoded again. -/
theorem pubrel_test_packets :
    (∃ p, v5.basic_pubrel_packet.new_packet_id no_pubrel_property_functions 2 0x1234 = .ok p ∧
      (p.const_buffer_sequence no_pubrel_property_functions).flatten
        = [0x62, 0x02, 0x12, 0x34] ∧
      (p.const_buffer_sequence no_pubrel_property_functions).length
        = p.num_of_const_buffer_sequence no_pubrel_property_functions) ∧
    (∃ p, v5.basic_pubrel_packet.new_reason_code no_pubrel_property_functions 2 0x1234
        .success = .ok p ∧
      (p.const_buffer_sequence no_pubrel_property_functions).flatten
        = [0x62, 0x03, 0x12, 0x34, 0x00] ∧
      (p.const_buffer_sequence no_pubrel_property_functions).length
        = p.num_of_const_buffer_sequence no_pubrel_property_functions) ∧
    (∀ wire ∈ [[0x62, 0x02, 0x12, 0x34], [0x62, 0x03, 0x12, 0x34, 0x00],
        [0x62, 0x04, 0x12, 0x34, 0x00, 0x00]],
      ∃ q, v5.basic_pubrel_packet.from_buffer no_pubrel_property_functions 2 wire = .ok q ∧
        q.packet_id = 0x1234 ∧ q.code = .success ∧ q.props = [] ∧
        (q.const_buffer_sequence no_pubrel_property_functions).flatten = wire ∧
        (q.const_buffer_sequence no_pubrel_property_functions).length
          = q.num_of_const_buffer_sequence no_pubrel_property_functions) ∧
    (∃ p, v5.basic_pubrel_packet.new_reason_code no_pubrel_property_functions 4 0x12345678
        .packet_identifier_not_found = .ok p ∧
      (p.const_buffer_sequence no_pubrel_property_functions).flatten
        = [0x62, 0x05, 0x12, 0x34, 0x56, 0x78, 0x92] ∧
      p.packet_id = 0x12345678) := by
  refine ⟨⟨_, rfl, by decide, by decide⟩, ⟨_, rfl, by decide, by decide⟩, ?_,
    ⟨_, rfl, by decide, by decide⟩⟩
  intro wire hw
  simp only [List.mem_cons, List.mem_singleton, List.not_mem_nil, or_false] at hw
  rcases hw with h | h | h <;> subst h <;>
    exact ⟨_, rfl, by decide, by decide, by decide, by decide, by decide⟩

/-- C32: the optional-field forms of v5 PUBREL. A packet built from a packet id
alone encodes as 62 02 and the id, without reason code and property length;
one built with the reason code success and no property encodes as 62 03, the
id and 00. Each of the three wire forms 62 02 id, 62 03 id 00 and
62 04 id 00 00 decodes to a packet with that packet id, `code()` success and
empty `props()`, and the decoded packet encodes to exactly the bytes it was
decoded from. With a 4-byte packet id the id takes four big-endian bytes and
the remaining length is larger by 2: 62 04 id and 62 05 id 00 for the two
constructors, and for every reason code and property list the bytes after the
packet id are the same as with a 2-byte id. -/
theorem pubrel_optional_forms {property : Type} (pf : pubrel_property_functions property)
    (id id4 : Nat) (hid : id < 65536) (hid4 : id4 < 4294967296)
    (hmk : pf.make_properties_pubrel [] = .ok [])
    (hcbs : pf.const_buffer_sequence [] = []) :
    (∃ p, v5.basic_pubrel_packet.new_packet_id pf 2 id = .ok p ∧
      (p.const_buffer_sequence pf).flatten = [0x62, 0x02] ++ endian_store 2 id ∧
      p.packet_id = id ∧ p.code = .success ∧ p.props = []) ∧
    (∃ p, v5.basic_pubrel_packet.new_reason_code pf 2 id .success = .ok p ∧
      (p.const_buffer_sequence pf).flatten = [0x62, 0x03] ++ endian_store 2 id ++ [0x00] ∧
      p.packet_id = id ∧ p.code = .success ∧ p.props = []) ∧
    (∀ wire ∈ [[0x62, 0x02] ++ endian_store 2 id,
        [0x62, 0x03] ++ endian_store 2 id ++ [0x00],
        [0x62, 0x04] ++ endian_store 2 id ++ [0x00, 0x00]],
      ∃ q, v5.basic_pubrel_packet.from_buffer pf 2 wire = .ok q ∧
        q.packet_id = id ∧ q.code = .success ∧ q.props = [] ∧
        (q.const_buffer_sequence pf).flatten = wire) ∧
    endian_store 4 id4
      = [id4 / 16777216 % 256, id4 / 65536 % 256, id4 / 256 % 256, id4 % 256] ∧
    (∃ p, v5.basic_pubrel_packet.new_packet_id pf 4 id4 = .ok p ∧
      (p.const_buffer_sequence pf).flatten = [0x62, 0x04] ++ endian_store 4 id4 ∧
      p.packet_id = id4 ∧ p.code = .success ∧ p.props = []) ∧
    (∃ p, v5.basic_pubrel_packet.new_reason_code pf 4 id4 .success = .ok p ∧
      (p.const_buffer_sequence pf).flatten = [0x62, 0x05] ++ endian_store 4 id4 ++ [0x00] ∧
      p.packet_id = id4 ∧ p.code = .success ∧ p.props = []) ∧
    (∀ (rc : v5.pubrel_reason_code) (props : List property)
        (p2 : v5.basic_pubrel_packet property 2) (p4 : v5.basic_pubrel_packet property 4),
      v5.basic_pubrel_packet.new_props pf 2 id rc props = .ok p2 →
      v5.basic_pubrel_packet.new_props pf 4 id4 rc props = .ok p4 →
        p4.remaining_length_ = p2.remaining_length_ + 2 ∧
        p4.packet_id = id4 ∧
        ∃ tail, (p2.const_buffer_sequence pf).flatten
            = 0x62 :: (val_to_variable_bytes p2.remaining_length_ ++
                (endian_store 2 id ++ tail)) ∧
          (p4.const_buffer_sequence pf).flatten
            = 0x62 :: (val_to_variable_bytes p4.remaining_length_ ++
                (endian_store 4 id4 ++ tail))) := by
  have hv2 : val_to_variable_bytes 2 = [2] := by decide
  have hv3 : val_to_variable_bytes 3 = [3] := by decide
  have hv4 : val_to_variable_bytes 4 = [4] := by decide
  have hv5 : val_to_variable_bytes 5 = [5] := by decide
  have hl2 : endian_load (endian_store 2 id) = id :=
    pubrel_packet_id_load 2 id (by norm_num; exact hid)
  have hl4 : endian_load (endian_store 4 id4) = id4 :=
    pubrel_packet_id_load 4 id4 (by norm_num; exact hid4)
  refine ⟨?_, ?_, ?_, ?_, ?_, ?_, ?_⟩
  · refine ⟨_, pubrel_new_none pf 2 id [] (by norm_num), ?_, hl2, rfl, rfl⟩
    simp [v5.basic_pubrel_packet.const_buffer_sequence, hv2]
  · refine ⟨_, pubrel_new_some_nil pf 2 id .success (by norm_num), ?_, hl2, rfl, rfl⟩
    simp [v5.basic_pubrel_packet.const_buffer_sequence, hv3,
      v5.pubrel_reason_code.toNat]
  · intro wire hw
    simp only [List.mem_cons, List.mem_singleton, List.not_mem_nil, or_false] at hw
    rcases hw with h | h | h
    · subst h
      rw [show [0x62, 0x02] ++ endian_store 2 id
        = 0x62 :: (val_to_variable_bytes 2 ++ (endian_store 2 id ++ [])) from by
          rw [hv2]; simp]
      refine ⟨_, pubrel_from_buffer_packet_id pf 2 2 (endian_store 2 id)
        (endian_store_length 2 id) rfl (by norm_num), hl2, rfl, rfl, ?_⟩
      simp [v5.basic_pubrel_packet.const_buffer_sequence, hv2]
    · subst h
      rw [show [0x62, 0x03] ++ endian_store 2 id ++ [0x00]
        = 0x62 :: (val_to_variable_bytes 3 ++ (endian_store 2 id ++ [0x00])) from by
          rw [hv3]; simp]
      refine ⟨_, pubrel_from_buffer_reason_code pf 2 3 (endian_store 2 id)
        (endian_store_length 2 id) rfl (by norm_num), hl2, rfl, rfl, ?_⟩
      simp [v5.basic_pubrel_packet.const_buffer_sequence, hv3,
        v5.pubrel_reason_code.toNat]
    · subst h
      rw [show [0x62, 0x04] ++ endian_store 2 id ++ [0x00, 0x00]
        = 0x62 :: (val_to_variable_bytes 4 ++ (endian_store 2 id ++ [0x00, 0x00])) from by
          rw [hv4]; simp]
      refine ⟨_, pubrel_from_buffer_property_length pf 2 4 (endian_store 2 id) hmk
        (endian_store_length 2 id) rfl (by norm_num), hl2, rfl, rfl, ?_⟩
      simp [v5.basic_pubrel_packet.const_buffer_sequence, hv4,
        v5.pubrel_reason_code.toNat, hcbs]
  · simp [endian_store]
  · refine ⟨_, pubrel_new_none pf 4 id4 [] (by norm_num), ?_, hl4, rfl, rfl⟩
    simp [v5.basic_pubrel_packet.const_buffer_sequence, hv4]
  · refine ⟨_, pubrel_new_some_nil pf 4 id4 .success (by norm_num), ?_, hl4, rfl, rfl⟩
    simp [v5.basic_pubrel_packet.const_buffer_sequence, hv5,
      v5.pubrel_reason_code.toNat]
  · intro rc props p2 p4 h2 h4
    obtain ⟨k, tail, hshape⟩ := pubrel_new_some_shape pf rc props
    obtain ⟨a2, b2, c2, d2⟩ := hshape 2 id p2 h2
    obtain ⟨a4, b4, c4, d4⟩ := hshape 4 id4 p4 h4
    refine ⟨by omega, ?_, tail, ?_, ?_⟩
    · show endian_load p4.packet_id_ = id4
      rw [c4]; exact hl4
    · rw [d2, b2, a2]
    · rw [d4, b4, a4]

/-- C32 at the packet ids of the unit tests, 0x1234 and 0x12345678, without
property types. -/
theorem pubrel_optional_forms_witness :
    (0x1234 < 65536 ∧ 0x12345678 < 4294967296 ∧
      no_pubrel_property_functions.make_properties_pubrel [] = .ok [] ∧
      no_pubrel_property_functions.const_buffer_sequence [] = []) ∧
    (∃ p, v5.basic_pubrel_packet.new_packet_id no_pubrel_property_functions 2 0x1234 = .ok p ∧
      (p.const_buffer_sequence no_pubrel_property_functions).flatten
        = [0x62, 0x02] ++ endian_store 2 0x1234 ∧
      p.packet_id = 0x1234 ∧ p.code = .success ∧ p.props = []) ∧
    (∀ wire ∈ [[0x62, 0x02] ++ endian_store 2 0x1234,
        [0x62, 0x03] ++ endian_store 2 0x1234 ++ [0x00],
        [0x62, 0x04] ++ endian_store 2 0x1234 ++ [0x00, 0x00]],
      ∃ q, v5.basic_pubrel_packet.from_buffer no_pubrel_property_functions 2 wire = .ok q ∧
        q.packet_id = 0x1234 ∧ q.code = .success ∧ q.props = [] ∧
        (q.const_buffer_sequence no_pubrel_property_functions).flatten = wire) :=
  ⟨⟨by decide, by decide, rfl, rfl⟩,
    (pubrel_optional_forms no_pubrel_property_functions 0x1234 0x12345678
      (by decide) (by decide) rfl rfl).1,
    (pubrel_optional_forms no_pubrel_property_functions 0x1234 0x12345678
      (by decide) (by decide) rfl rfl).2.2.1⟩

end async_mqtt
